import Mathlib

/-!
# Orbiter MSH compiler: the mesh container, the text loader, the sphere patch and the exporter

A shallow embedding of `src/src/Mesh.h`, `src/src/Mesh.cpp` and of `main` in
`src/src/main.cpp`: the argument loop, the synthesis of the output file name, the
conversion and the output.

Conventions of the embedding

* A buffer pointer together with its element count (`Vtx`/`nVtx`, `Idx`/`nIdx`,
  `Grp`/`nGrp`, `Mtrl`/`nMtrl`) is one list; the count is the length of the list.
  Null buffer pointers are not represented. `nTex` is kept as a separate field next
  to `TexFiles`, because the code assigns the two independently.
* `DWORD` and `WORD` values are natural numbers below `2^32` and `2^16`; `int`
  values are integers; a numeral read by `sscanf` is reduced to the width of its
  target, and `int` arithmetic is reduced with `toInt32` (two's complement).
* Single-precision values are elements of a type parameter `F`; the operations
  on them are the fields of `FloatOps`.
* The derived per-group arrays `GrpCnt`, `GrpRad`, `GrpVis` hold floating-point
  bounding data only and are not part of the state; `GrpSetup` is.
* Character arrays (`cbuf`, `tex_file::File`) are the C strings they hold.
* The input stream is the sequence of results of `getline (cbuf, 256)`.
* A run that leaves defined behaviour (an access outside a buffer, a second
  release of a buffer, the use of a released buffer or of an unset variable) or that
  ends in an uncaught allocation failure (a negative element count of `new[]`) is
  the result `none`.
* A buffer obtained from `new[]` without `ZeroMemory` (`CreateSpherePatch`) is a list
  of cells that hold no value until they are written; the double-precision
  computation of a patch vertex is a field of `PatchOps`.
* The output file is the list of its bytes. A 32-bit value is written least significant
  byte first, the memory image of a `float` is a field of `ExportOps`, and the first
  bit-field of `cmsh_header` is the least significant bit of its word. The result `none`
  of the exporter also stands for a run that ends without an output file.
-/

namespace MshCompiler

/-! ## Data model (`Mesh.h`) -/

/-- Vertex with position, normal and texture coordinate (`NTVERTEX`). -/
structure NTVERTEX (F : Type) where
  x : F
  y : F
  z : F
  nx : F
  ny : F
  nz : F
  tu : F
  tv : F
deriving DecidableEq, Repr

/-- The value `(DWORD)(-1)`: the "default" material/texture flag. -/
def SPEC_DEFAULT : Nat := 4294967295

/-- The value `(DWORD)(-2)`: the "inherit" material/texture flag. -/
def SPEC_INHERIT : Nat := 4294967294

/-- Mesh group descriptor (`GroupSpec`). -/
structure GroupSpec (F : Type) where
  Vtx : List (NTVERTEX F)
  Idx : List Nat
  MtrlIdx : Nat
  TexIdx : Nat
  UsrFlag : Nat
  zBias : Nat
  Flags : Nat
deriving DecidableEq, Repr

/-- Colour value with four components (`D3DCOLORVALUE`). -/
structure ColorValue (F : Type) where
  r : F
  g : F
  b : F
  a : F
deriving DecidableEq, Repr

/-- Material record (`D3DMATERIAL7`). -/
structure Material (F : Type) where
  diffuse : ColorValue F
  ambient : ColorValue F
  specular : ColorValue F
  emissive : ColorValue F
  power : F
deriving DecidableEq, Repr

/-- State of a `Mesh` object. -/
structure Mesh (F : Type) where
  Grp : List (GroupSpec F)
  Mtrl : List (Material F)
  nTex : Nat
  TexFiles : List (List Char)
  Labels : List (List Char)
  MatNames : List (List Char)
  GrpSetup : Bool
  bModulateMatAlpha : Bool
  Flags : Nat
deriving DecidableEq, Repr

/-- Number of groups (`nGroup`). -/
def Mesh.nGroup {F : Type} (m : Mesh F) : Nat := m.Grp.length

/-- Number of materials (`nMaterial`). -/
def Mesh.nMaterial {F : Type} (m : Mesh F) : Nat := m.Mtrl.length

/-- Number of textures (`nTexture`). -/
def Mesh.nTexture {F : Type} (m : Mesh F) : Nat := m.nTex

/-- The state after the constructor `Mesh::Mesh ()`. -/
def Mesh.new (F : Type) : Mesh F :=
  { Grp := [], Mtrl := [], nTex := 0, TexFiles := [], Labels := [], MatNames := [],
    GrpSetup := false, bModulateMatAlpha := false, Flags := 0 }

/-! ## Container operations (`Mesh.cpp`) -/

/-- The validity check of one material/texture index done by `Setup` and `AddGroup`:
`if (idx != SPEC_INHERIT && idx >= n) idx = SPEC_DEFAULT`. -/
def checkIdx (idx n : Nat) : Nat :=
  if idx != SPEC_INHERIT && decide (idx ≥ n) then SPEC_DEFAULT else idx

/-- One pass of the loop body of `Mesh::Setup` over a group. -/
def setupRefs {F : Type} (nMtrl nTex : Nat) (g : GroupSpec F) : GroupSpec F :=
  let g1 := { g with MtrlIdx := checkIdx g.MtrlIdx nMtrl }
  { g1 with TexIdx := checkIdx g1.TexIdx nTex }

/-- `Mesh::Setup`. -/
def Mesh.Setup {F : Type} (m : Mesh F) : Mesh F :=
  { m with GrpSetup := true, Grp := m.Grp.map (setupRefs m.Mtrl.length m.nTex) }

/-- `Mesh::AddGroup`: returns the new state and the index of the new group. The header
declares the defaults `mtrl_idx = SPEC_INHERIT`, `tex_idx = SPEC_INHERIT`, `zbias = 0`,
`flag = 0`, `deepcopy = false`; callers that omit an argument pass these values. With
`deepcopy` the group holds a copy of the two buffers, without it the buffers themselves:
the same lists in both cases. -/
def Mesh.AddGroup {F : Type} (m : Mesh F) (vtx : List (NTVERTEX F)) (idx : List Nat)
    (mtrl_idx tex_idx zbias flag : Nat) (deepcopy : Bool) : Mesh F × Nat :=
  let vtx1 := if deepcopy then vtx else vtx
  let idx1 := if deepcopy then idx else idx
  let g : GroupSpec F :=
    { Vtx := vtx1, Idx := idx1, MtrlIdx := mtrl_idx, TexIdx := tex_idx,
      zBias := zbias, Flags := 0, UsrFlag := flag }
  let g1 := if m.GrpSetup then setupRefs m.Mtrl.length m.nTex g else g
  ({ m with Grp := m.Grp ++ [g1] }, m.Grp.length)

/-- The copy loop `for (i = 0, j = 0; i < n; i++) if (i != skip) tmp[j++] = a[i]`,
started at index `i`. -/
def copySkip {α : Type} (skip : Nat) : Nat → List α → List α
  | _, [] => []
  | i, a :: as => if i != skip then a :: copySkip skip (i + 1) as else copySkip skip (i + 1) as

/-- `Mesh::DeleteGroup`: returns the new state and the result flag. -/
def Mesh.DeleteGroup {F : Type} (m : Mesh F) (grp : Nat) : Mesh F × Bool :=
  if grp < m.Grp.length then
    if m.Grp.length == 1 then ({ m with Grp := [] }, true)
    else ({ m with Grp := copySkip grp 0 m.Grp }, true)
  else (m, false)

/-- `Mesh::AddMaterial`: returns the new state and the list index of the material. -/
def Mesh.AddMaterial {F : Type} (m : Mesh F) (mtrl : Material F) : Mesh F × Nat :=
  ({ m with Mtrl := m.Mtrl ++ [mtrl] }, m.Mtrl.length)

/-- The adjustment of one group's material index in `Mesh::DeleteMaterial`. In the
decrementing branch the index is larger than `matidx`, so `- 1` does not wrap. -/
def adjustMtrl {F : Type} (matidx : Nat) (g : GroupSpec F) : GroupSpec F :=
  if g.MtrlIdx ≥ matidx then
    if g.MtrlIdx == matidx then { g with MtrlIdx := 0 }
    else { g with MtrlIdx := g.MtrlIdx - 1 }
  else g

/-- `Mesh::DeleteMaterial`: returns the new state and the result flag. -/
def Mesh.DeleteMaterial {F : Type} (m : Mesh F) (matidx : Nat) : Mesh F × Bool :=
  if matidx ≥ m.Mtrl.length then (m, false)
  else
    let grp := m.Grp.map (adjustMtrl matidx)
    let mtrl := if m.Mtrl.length > 1 then copySkip matidx 0 m.Mtrl else []
    ({ m with Grp := grp, Mtrl := mtrl }, true)

/-- `Mesh::Clear`. The texture count `nTex` is not assigned by it. -/
def Mesh.Clear {F : Type} (m : Mesh F) : Mesh F :=
  { m with Grp := [], Mtrl := [], GrpSetup := false }

/-! ## Floating-point operations -/

/-- The single-precision operations the code uses. `scan` is the `%f` conversion of
`sscanf` applied to input without leading white space: the converted value and the
unread rest, or `none` on a matching failure. `two`, `tenth` and `eps` are the
literals `2.0f`, `0.1f` and `1e-8f`. -/
structure FloatOps (F : Type) where
  zero : F
  add : F → F → F
  sub : F → F → F
  mul : F → F → F
  div : F → F → F
  sqrt : F → F
  acos : F → F
  gt : F → F → Bool
  ge : F → F → Bool
  two : F
  tenth : F
  eps : F
  scan : List Char → Option (F × List Char)

/-- Vector of three components (`D3DVECTOR`). -/
structure D3DVECTOR (F : Type) where
  x : F
  y : F
  z : F
deriving DecidableEq, Repr

/-- Modelled from the spec: `D3DMath_CrossProduct` is declared in `d3dmath.h`, which is
not among the sources; "the cross product of two edge vectors". -/
def D3DMath_CrossProduct {F : Type} (ops : FloatOps F) (a b : D3DVECTOR F) : D3DVECTOR F :=
  { x := ops.sub (ops.mul a.y b.z) (ops.mul a.z b.y),
    y := ops.sub (ops.mul a.z b.x) (ops.mul a.x b.z),
    z := ops.sub (ops.mul a.x b.y) (ops.mul a.y b.x) }

/-- Modelled from the spec: `D3DMath_Length` is declared in `d3dmath.h`, which is not
among the sources; the length of a vector. -/
def D3DMath_Length {F : Type} (ops : FloatOps F) (v : D3DVECTOR F) : F :=
  ops.sqrt (ops.add (ops.add (ops.mul v.x v.x) (ops.mul v.y v.y)) (ops.mul v.z v.z))

/-! ## Normal synthesis (`Mesh::CalcNormals`) -/

/-- The value of `calcNml[i]` decided by the first loop of `CalcNormals`. -/
def flagVertex {F : Type} (ops : FloatOps F) (missingonly : Bool) (v : NTVERTEX F) : Bool :=
  if missingonly then
    !(ops.gt (ops.add (ops.add (ops.mul v.nx v.nx) (ops.mul v.ny v.ny)) (ops.mul v.nz v.nz))
        ops.tenth)
  else true

/-- The assignment `vtx[i].nx = vtx[i].ny = vtx[i].nz = 0.0f`. -/
def clearNormal {F : Type} (ops : FloatOps F) (v : NTVERTEX F) : NTVERTEX F :=
  { v with nx := ops.zero, ny := ops.zero, nz := ops.zero }

/-- The update `vtx[i].nx += nm.x * a, vtx[i].ny += nm.y * a, vtx[i].nz += nm.z * a`. -/
def accumNormal {F : Type} (ops : FloatOps F) (vtx : List (NTVERTEX F)) (i : Nat)
    (nm : D3DVECTOR F) (a : F) : List (NTVERTEX F) :=
  match vtx[i]? with
  | some v =>
    vtx.set i { v with nx := ops.add v.nx (ops.mul nm.x a),
                       ny := ops.add v.ny (ops.mul nm.y a),
                       nz := ops.add v.nz (ops.mul nm.z a) }
  | none => vtx

/-- The interior angle `acos((p*p + q*q - r*r) / (2.0f * p * q))`. -/
def cornerAngle {F : Type} (ops : FloatOps F) (p q r : F) : F :=
  ops.acos (ops.div (ops.sub (ops.add (ops.mul p p) (ops.mul q q)) (ops.mul r r))
    (ops.mul (ops.mul ops.two p) q))

/-- The body of the triangle loop of `CalcNormals` for the triangle `(i0, i1, i2)`.
`none` when one of the three indices lies outside the vertex buffer. -/
def triNormal {F : Type} (ops : FloatOps F) (calcNml : List Bool) (vtx : List (NTVERTEX F))
    (i0 i1 i2 : Nat) : Option (List (NTVERTEX F)) := do
  let c0 ← calcNml[i0]?
  let c1 ← calcNml[i1]?
  let c2 ← calcNml[i2]?
  let p0 ← vtx[i0]?
  let p1 ← vtx[i1]?
  let p2 ← vtx[i2]?
  if !c0 && !c1 && !c2 then some vtx
  else
    let V01 : D3DVECTOR F := ⟨ops.sub p1.x p0.x, ops.sub p1.y p0.y, ops.sub p1.z p0.z⟩
    let V02 : D3DVECTOR F := ⟨ops.sub p2.x p0.x, ops.sub p2.y p0.y, ops.sub p2.z p0.z⟩
    let V12 : D3DVECTOR F := ⟨ops.sub p2.x p1.x, ops.sub p2.y p1.y, ops.sub p2.z p1.z⟩
    let nm := D3DMath_CrossProduct ops V01 V02
    let len := D3DMath_Length ops nm
    if ops.ge len ops.eps then
      let nm1 : D3DVECTOR F := ⟨ops.div nm.x len, ops.div nm.y len, ops.div nm.z len⟩
      let d01 := D3DMath_Length ops V01
      let d02 := D3DMath_Length ops V02
      let d12 := D3DMath_Length ops V12
      let vtx1 := if c0 then accumNormal ops vtx i0 nm1 (cornerAngle ops d01 d02 d12) else vtx
      let vtx2 := if c1 then accumNormal ops vtx1 i1 nm1 (cornerAngle ops d01 d12 d02) else vtx1
      let vtx3 := if c2 then accumNormal ops vtx2 i2 nm1 (cornerAngle ops d02 d12 d01) else vtx2
      some vtx3
    else some vtx

/-- The triangle loop of `CalcNormals`: `nIdx/3` triangles, three indices each. -/
def triLoop {F : Type} (ops : FloatOps F) (calcNml : List Bool) :
    List Nat → List (NTVERTEX F) → Option (List (NTVERTEX F))
  | i0 :: i1 :: i2 :: rest, vtx =>
    (triNormal ops calcNml vtx i0 i1 i2).bind (triLoop ops calcNml rest)
  | _, vtx => some vtx

/-- The final loop body of `CalcNormals`: division of a flagged normal by its length. -/
def normaliseVertex {F : Type} (ops : FloatOps F) (c : Bool) (v : NTVERTEX F) : NTVERTEX F :=
  if c then
    let len := D3DMath_Length ops ⟨v.nx, v.ny, v.nz⟩
    { v with nx := ops.div v.nx len, ny := ops.div v.ny len, nz := ops.div v.nz len }
  else v

/-- `Mesh::CalcNormals` on the buffers of one group. -/
def calcNormalsGroup {F : Type} (ops : FloatOps F) (g : GroupSpec F) (missingonly : Bool) :
    Option (GroupSpec F) :=
  let calcNml := g.Vtx.map (flagVertex ops missingonly)
  let vtx0 := g.Vtx.map (fun v => if flagVertex ops missingonly v then clearNormal ops v else v)
  (triLoop ops calcNml g.Idx vtx0).map
    (fun vtx1 => { g with Vtx := List.zipWith (normaliseVertex ops) calcNml vtx1 })

/-- `Mesh::CalcNormals (grp, missingonly)`. `none` when `grp` is not a group of the mesh
(the code does not check it) or an index of the group lies outside its vertex buffer. -/
def Mesh.CalcNormals {F : Type} (ops : FloatOps F) (m : Mesh F) (grp : Nat)
    (missingonly : Bool) : Option (Mesh F) :=
  match m.Grp[grp]? with
  | none => none
  | some g =>
    (calcNormalsGroup ops g missingonly).map (fun g1 => { m with Grp := m.Grp.set grp g1 })

/-! ## Text scanning (`sscanf`, `strcmp`, `_strnicmp`) -/

/-- Reduction of an integer to a 32-bit `int`. -/
def toInt32 (v : Int) : Int := (v + 2147483648) % 4294967296 - 2147483648

/-- Reduction of an integer to a `DWORD`. -/
def toDword (v : Int) : Nat := (v % 4294967296).toNat

/-- Reduction of an integer to a `WORD`. -/
def toWord (v : Int) : Nat := (v % 65536).toNat

/-- The white-space characters of `isspace`: blank and the codes 9 to 13. -/
def isSpace (c : Char) : Bool :=
  c.toNat == 32 || (decide (9 ≤ c.toNat) && decide (c.toNat ≤ 13))

/-- Skips leading white space, as every conversion of `sscanf` used here does first. -/
def skipSpace : List Char → List Char
  | [] => []
  | c :: cs => if isSpace c then skipSpace cs else c :: cs

/-- Lower-case form of an ASCII letter, as `_strnicmp` compares. -/
def lowerAscii (c : Char) : Char :=
  if 65 ≤ c.toNat ∧ c.toNat ≤ 90 then Char.ofNat (c.toNat + 32) else c

/-- The test `_strnicmp (cbuf, kw, n) == 0`. -/
def strnicmpEq (cbuf : List Char) (kw : String) (n : Nat) : Bool :=
  (cbuf.take n).map lowerAscii == (kw.toList.take n).map lowerAscii

/-- The test `strncmp (cbuf, kw, n) == 0`. -/
def strncmpEq (cbuf : List Char) (kw : String) (n : Nat) : Bool :=
  cbuf.take n == kw.toList.take n

/-- Value of a decimal digit. -/
def digitVal (c : Char) : Option Nat :=
  if 48 ≤ c.toNat ∧ c.toNat ≤ 57 then some (c.toNat - 48) else none

/-- Value of a hexadecimal digit. -/
def hexVal (c : Char) : Option Nat :=
  if 48 ≤ c.toNat ∧ c.toNat ≤ 57 then some (c.toNat - 48)
  else if 97 ≤ c.toNat ∧ c.toNat ≤ 102 then some (c.toNat - 87)
  else if 65 ≤ c.toNat ∧ c.toNat ≤ 70 then some (c.toNat - 55)
  else none

/-- Reads the digits at the head of the input in the given base. -/
def scanDigits (val : Char → Option Nat) (base : Nat) : List Char → Nat → Nat × List Char
  | [], acc => (acc, [])
  | c :: cs, acc =>
    match val c with
    | some d => scanDigits val base cs (acc * base + d)
    | none => (acc, c :: cs)

/-- Splits an optional sign off the input: `true` for a minus sign. -/
def scanSign : List Char → Bool × List Char
  | [] => (false, [])
  | c :: cs => if c == '-' then (true, cs) else if c == '+' then (false, cs) else (false, c :: cs)

/-- One decimal integer conversion (`%d`, `%hd`, `%hu`): white space, an optional sign,
at least one digit. The value is the integer the numeral denotes; the caller reduces
it to the width of the target. -/
def scanDec (s : List Char) : Option (Int × List Char) :=
  let p := scanSign (skipSpace s)
  match p.2 with
  | [] => none
  | c :: cs =>
    if (digitVal c).isSome then
      let r := scanDigits digitVal 10 (c :: cs) 0
      some (if p.1 then - (r.1 : Int) else (r.1 : Int), r.2)
    else none

/-- The values converted by a format of `n` decimal conversions: conversion stops at
the first failure, so the length of the result is the number of assignments. -/
def scanDecs : Nat → List Char → List Int
  | 0, _ => []
  | n + 1, s =>
    match scanDec s with
    | some (v, r) => v :: scanDecs n r
    | none => []

/-- One `%lx` conversion: white space, an optional sign, an optional `0x` or `0X` in
front of a hexadecimal digit, at least one hexadecimal digit. -/
def scanHex (s : List Char) : Option (Int × List Char) :=
  let p := scanSign (skipSpace s)
  let body : List Char :=
    match p.2 with
    | c0 :: c1 :: c2 :: cs =>
      if c0 == '0' && (c1 == 'x' || c1 == 'X') && (hexVal c2).isSome then c2 :: cs
      else c0 :: c1 :: c2 :: cs
    | l => l
  match body with
  | [] => none
  | c :: cs =>
    if (hexVal c).isSome then
      let r := scanDigits hexVal 16 (c :: cs) 0
      some (if p.1 then - (r.1 : Int) else (r.1 : Int), r.2)
    else none

/-- One `%Ns` conversion of width `w`: white space, then at most `w` characters up to
the next white space; fails on an empty token. -/
def scanStr (w : Nat) (s : List Char) : Option (List Char × List Char) :=
  let s1 := skipSpace s
  let tok := (s1.takeWhile (fun c => !isSpace c)).take w
  if tok.isEmpty then none else some (tok, s1.drop tok.length)

/-- The values converted by a format of `n` conversions `%f`. -/
def scanFloats {F : Type} (ops : FloatOps F) : Nat → List Char → List F
  | 0, _ => []
  | n + 1, s =>
    match ops.scan (skipSpace s) with
    | some (v, r) => v :: scanFloats ops n r
    | none => []

/-- Stores converted values through a list of targets, one value per target in order;
targets beyond the last converted value keep their content. -/
def assignFields {α F : Type} (targets : List (α → F → α)) (a : α) (vals : List F) : α :=
  (targets.zip vals).foldl (fun acc p => p.1 acc p.2) a

/-- The targets `&v.x, &v.y, &v.z, &v.nx, &v.ny, &v.nz, &v.tu, &v.tv`. -/
def vertexTargets8 {F : Type} : List (NTVERTEX F → F → NTVERTEX F) :=
  [fun v a => { v with x := a }, fun v a => { v with y := a }, fun v a => { v with z := a },
   fun v a => { v with nx := a }, fun v a => { v with ny := a }, fun v a => { v with nz := a },
   fun v a => { v with tu := a }, fun v a => { v with tv := a }]

/-- The targets `&v.x, &v.y, &v.z, &v.tu, &v.tv`. -/
def vertexTargets5 {F : Type} : List (NTVERTEX F → F → NTVERTEX F) :=
  [fun v a => { v with x := a }, fun v a => { v with y := a }, fun v a => { v with z := a },
   fun v a => { v with tu := a }, fun v a => { v with tv := a }]

/-- The targets `&c.r, &c.g, &c.b, &c.a` of a colour line. -/
def colorTargets {F : Type} : List (ColorValue F → F → ColorValue F) :=
  [fun c a => { c with r := a }, fun c a => { c with g := a }, fun c a => { c with b := a },
   fun c a => { c with a := a }]

/-- A zero-filled vertex (`ZeroMemory`). -/
def zeroVertex {F : Type} (ops : FloatOps F) : NTVERTEX F :=
  ⟨ops.zero, ops.zero, ops.zero, ops.zero, ops.zero, ops.zero, ops.zero, ops.zero⟩

/-- A zero-filled colour. -/
def zeroColor {F : Type} (ops : FloatOps F) : ColorValue F :=
  ⟨ops.zero, ops.zero, ops.zero, ops.zero⟩

/-! ## The input stream (`istream::getline (cbuf, 256)`) -/

/-- State of the input stream as the loader sees it: the lines the coming successful
calls of `getline (cbuf, 256)` deliver, and the content `getline` leaves in `cbuf` at
the first failing call. After a failing call every call fails and leaves `cbuf` empty. -/
structure IStream where
  lines : List (List Char)
  residue : List Char
deriving DecidableEq, Repr

/-- The stream after a failed call. -/
def IStream.failed : IStream := ⟨[], []⟩

/-- One call `is.getline (cbuf, 256)`: the success flag, the content of `cbuf`, and
the stream afterwards. -/
def IStream.getline (s : IStream) : Bool × List Char × IStream :=
  match s.lines with
  | l :: ls => (true, l, { s with lines := ls })
  | [] => (false, s.residue, IStream.failed)

/-- The content of a buffer read as a C string: the characters in front of the first
null character. -/
def cstr : List Char → List Char
  | [] => []
  | c :: cs => if c.toNat == 0 then [] else c :: cstr cs

/-- Splits the character sequence of a file into the stream state. `cur` holds the
characters stored in the buffer by the running call. A call ends with success at a
newline, or at the end of the input when it has stored a character; it fails when a
256th character in front of the newline arrives, or at once at the end of the input. -/
def IStream.scanFrom (cur : List Char) : List Char → IStream
  | [] => if cur.isEmpty then IStream.failed else ⟨[cstr cur], []⟩
  | c :: cs =>
    if c == '\n' then
      let r := IStream.scanFrom [] cs
      { r with lines := cstr cur :: r.lines }
    else if cur.length ≥ 255 then ⟨[], cstr cur⟩
    else IStream.scanFrom (cur ++ [c]) cs

/-- The stream over the characters of a file. -/
def IStream.ofChars (text : List Char) : IStream := IStream.scanFrom [] text

/-- The stream over a text. -/
def IStream.ofString (text : String) : IStream := IStream.ofChars text.toList

/-! ## The loader (`operator>>`): one group block -/

/-- The variables of one pass of the group loop that the directive lines assign. -/
structure BlockVars where
  mtrl_idx : Int
  tex_idx : Int
  zbias : Nat
  flag : Nat
  uflag : Nat
  bnormal : Bool
  calcnml : Bool
  flipidx : Bool
deriving DecidableEq, Repr

/-- The defaults set at the head of each pass; `SPEC_INHERIT` stored in an `int` is `-2`. -/
def BlockVars.init (staticmesh : Bool) : BlockVars :=
  { mtrl_idx := -2, tex_idx := -2, zbias := 0, flag := if staticmesh then 4 else 0,
    uflag := 0, bnormal := true, calcnml := false, flipidx := false }

/-- What one pass of the directive loop leaves behind: the directive variables, the
value of `nvtx`, the value of `nidx` (`none` while it was never assigned), the two
buffers (`none` when they are not allocated or were released), the `term` flag,
the label array and the stream. -/
structure BlockResult (F : Type) where
  vars : BlockVars
  nvtx : Int
  nidx : Option Int
  bufs : Option (List (NTVERTEX F) × List Nat)
  term : Bool
  labels : List (List Char)
  stream : IStream

/-- The vertex loop after `GEOM`: `n` lines are read into the zero-filled buffer. The
first component is `none` when `getline` failed (`delete []vtx; nvtx = 0`); the
second is `calcnml`. -/
def readVertices {F : Type} (ops : FloatOps F) (bnormal : Bool) (res : List Char) :
    Nat → Bool → List (List Char) → Option (List (NTVERTEX F)) × Bool × IStream
  | 0, c, ls => (some [], c, ⟨ls, res⟩)
  | _ + 1, c, [] => (none, c, IStream.failed)
  | n + 1, c, l :: ls =>
    let vals := scanFloats ops (if bnormal then 8 else 5) l
    let v := assignFields (if bnormal then vertexTargets8 else vertexTargets5) (zeroVertex ops) vals
    let r := readVertices ops bnormal res n (c || (bnormal && decide (vals.length < 6))) ls
    (r.1.map (fun vs => v :: vs), r.2.1, r.2.2)

/-- Stores converted values at `idx + j`, `idx + j + 1`, ...; `none` when a store falls
outside the buffer. -/
def writeIdx : List Nat → Nat → List Nat → Option (List Nat)
  | idx, _, [] => some idx
  | idx, j, v :: vs => if j < idx.length then writeIdx (idx.set j v) (j + 1) vs else none

/-- The triangle loop after the vertex lines: `n` lines are read with `%hd%hd%hd` into
the index buffer from position `j` on. The first component of the result is `none`
when `getline` failed (the buffers are released); the whole result is `none` when a
store falls outside the buffer. -/
def readTriangles (res : List Char) :
    Nat → Nat → List Nat → List (List Char) → Option (Option (List Nat) × IStream)
  | 0, _, idx, ls => some (some idx, ⟨ls, res⟩)
  | _ + 1, _, _, [] => some (none, IStream.failed)
  | n + 1, j, idx, l :: ls =>
    match writeIdx idx j ((scanDecs 3 l).map toWord) with
    | none => none
    | some idx1 => readTriangles res n (j + 3) idx1 ls

/-- The exchange of `idx[p]` and `idx[q]`. -/
def swapAt (idx : List Nat) (p q : Nat) : Option (List Nat) :=
  match idx[p]?, idx[q]? with
  | some a, some b => some ((idx.set p b).set q a)
  | _, _ => none

/-- The loop `for (i = 0; i < ntri; i++)` that exchanges `idx[i*3+1]` and `idx[i*3+2]`,
with `n` passes left from `i` on. -/
def flipLoop : Nat → Nat → List Nat → Option (List Nat)
  | 0, _, idx => some idx
  | n + 1, i, idx => (swapAt idx (i * 3 + 1) (i * 3 + 2)).bind (flipLoop n (i + 1))

/-- The `GEOM` branch of the directive loop; `arg` is the line behind the keyword and
`nidx0` the value `nidx` holds on entry. `none` for a negative element count of
`new NTVERTEX[nvtx]` or `new WORD[nidx]`, for a store outside the index buffer, for a
second `delete []vtx` (the vertex loop and the triangle loop both release it when
`getline` fails) and for the `FLIP` loop on a released index buffer. -/
def readGeom {F : Type} (ops : FloatOps F) (v : BlockVars) (lab : List (List Char))
    (nidx0 : Option Int) (arg : List Char) (res : List Char) (ls : List (List Char)) :
    Option (BlockResult F) :=
  match scanDecs 2 arg with
  | [a, b] =>
    let nvtx := toInt32 a
    let ntri := toInt32 b
    let nidx := toInt32 (ntri * 3)
    if nvtx < 0 then none
    else
      let rv := readVertices ops v.bnormal res nvtx.toNat v.calcnml ls
      let v1 := { v with calcnml := rv.2.1 }
      if nidx < 0 then none
      else
        match readTriangles rv.2.2.residue ntri.toNat 0 (List.replicate nidx.toNat 0)
            rv.2.2.lines with
        | none => none
        | some (none, s2) =>
          if rv.1.isNone then none
          else if v.flipidx then none
          else some { vars := v1, nvtx := 0, nidx := some 0, bufs := none, term := false,
                      labels := lab, stream := s2 }
        | some (some idx, s2) =>
          match (if v.flipidx then flipLoop ntri.toNat 0 idx else some idx) with
          | none => none
          | some idx1 =>
            match rv.1 with
            | none => some { vars := v1, nvtx := 0, nidx := some nidx, bufs := none,
                             term := false, labels := lab, stream := s2 }
            | some vtx => some { vars := v1, nvtx := nvtx, nidx := some nidx,
                                 bufs := some (vtx, idx1), term := false, labels := lab,
                                 stream := s2 }
  | [a] => some { vars := v, nvtx := toInt32 a, nidx := nidx0, bufs := none, term := false,
                  labels := lab, stream := ⟨ls, res⟩ }
  | _ => some { vars := v, nvtx := 0, nidx := nidx0, bufs := none, term := false,
                labels := lab, stream := ⟨ls, res⟩ }

/-- The directive loop of pass `g` of the group loop, over the lines still to come.
`LABEL` stores into `mesh.Labels[g].File`; `none` when `g` is not an entry of the label
array (in a load the array has `ngrp` entries and `g < ngrp`). -/
def readBlock {F : Type} (ops : FloatOps F) (g : Nat) (nidx0 : Option Int) (res : List Char) :
    BlockVars → List (List Char) → List (List Char) → Option (BlockResult F)
  | v, lab, [] =>
    some { vars := v, nvtx := 0, nidx := nidx0, bufs := none, term := true, labels := lab,
           stream := IStream.failed }
  | v, lab, l :: ls =>
    if strnicmpEq l "MATERIAL" 8 then
      let m := match scanDecs 1 (l.drop 8) with
        | [n] => toInt32 n
        | _ => v.mtrl_idx
      readBlock ops g nidx0 res { v with mtrl_idx := toInt32 (m - 1) } lab ls
    else if strnicmpEq l "TEXTURE" 7 then
      let t := match scanDecs 1 (l.drop 7) with
        | [n] => toInt32 n
        | _ => v.tex_idx
      readBlock ops g nidx0 res { v with tex_idx := toInt32 (t - 1) } lab ls
    else if strnicmpEq l "ZBIAS" 5 then
      let z := match scanDecs 1 (l.drop 5) with
        | [n] => toWord n
        | _ => v.zbias
      readBlock ops g nidx0 res { v with zbias := z } lab ls
    else if strnicmpEq l "TEXWRAP" 7 then
      let uvstr := match scanStr 9 (l.drop 7) with
        | some (t, _) => t
        | none => []
      let f1 := if uvstr[0]? == some 'U' || uvstr[1]? == some 'U' then v.flag ||| 1 else v.flag
      let f2 := if uvstr[0]? == some 'V' || uvstr[1]? == some 'V' then f1 ||| 2 else f1
      readBlock ops g nidx0 res { v with flag := f2 } lab ls
    else if strnicmpEq l "NONORMAL" 8 then
      readBlock ops g nidx0 res { v with bnormal := false, calcnml := true } lab ls
    else if strnicmpEq l "FLAG" 4 then
      let u := match scanHex (l.drop 4) with
        | some (n, _) => toDword n
        | none => v.uflag
      readBlock ops g nidx0 res { v with uflag := u } lab ls
    else if strnicmpEq l "FLIP" 4 then
      readBlock ops g nidx0 res { v with flipidx := true } lab ls
    else if strnicmpEq l "LABEL" 5 then
      match scanStr 255 (l.drop 5) with
      | some (t, _) =>
        if g < lab.length then readBlock ops g nidx0 res v (lab.set g t) ls else none
      | none => readBlock ops g nidx0 res v lab ls
    else if strnicmpEq l "STATIC" 6 then
      readBlock ops g nidx0 res { v with flag := v.flag ||| 4 } lab ls
    else if strnicmpEq l "DYNAMIC" 7 then
      readBlock ops g nidx0 res { v with flag := v.flag ^^^ 4 } lab ls
    else if strnicmpEq l "GEOM" 4 then
      readGeom ops v lab nidx0 (l.drop 4) res ls
    else readBlock ops g nidx0 res v lab ls

/-- The branches of the directive loop in front of the `GEOM` test, as the effect of one
line on the directive variables and on the label array of pass `g`. The store of a
`LABEL` line is taken to lie inside the label array (`readBlock` is `none` otherwise). -/
def directiveStep (g : Nat) (s : BlockVars × List (List Char)) (l : List Char) :
    BlockVars × List (List Char) :=
  if strnicmpEq l "MATERIAL" 8 then
    let m := match scanDecs 1 (l.drop 8) with
      | [n] => toInt32 n
      | _ => s.1.mtrl_idx
    ({ s.1 with mtrl_idx := toInt32 (m - 1) }, s.2)
  else if strnicmpEq l "TEXTURE" 7 then
    let t := match scanDecs 1 (l.drop 7) with
      | [n] => toInt32 n
      | _ => s.1.tex_idx
    ({ s.1 with tex_idx := toInt32 (t - 1) }, s.2)
  else if strnicmpEq l "ZBIAS" 5 then
    let z := match scanDecs 1 (l.drop 5) with
      | [n] => toWord n
      | _ => s.1.zbias
    ({ s.1 with zbias := z }, s.2)
  else if strnicmpEq l "TEXWRAP" 7 then
    let uvstr := match scanStr 9 (l.drop 7) with
      | some (t, _) => t
      | none => []
    let f1 := if uvstr[0]? == some 'U' || uvstr[1]? == some 'U' then s.1.flag ||| 1 else s.1.flag
    let f2 := if uvstr[0]? == some 'V' || uvstr[1]? == some 'V' then f1 ||| 2 else f1
    ({ s.1 with flag := f2 }, s.2)
  else if strnicmpEq l "NONORMAL" 8 then
    ({ s.1 with bnormal := false, calcnml := true }, s.2)
  else if strnicmpEq l "FLAG" 4 then
    let u := match scanHex (l.drop 4) with
      | some (n, _) => toDword n
      | none => s.1.uflag
    ({ s.1 with uflag := u }, s.2)
  else if strnicmpEq l "FLIP" 4 then
    ({ s.1 with flipidx := true }, s.2)
  else if strnicmpEq l "LABEL" 5 then
    match scanStr 255 (l.drop 5) with
    | some (t, _) => (s.1, s.2.set g t)
    | none => s
  else if strnicmpEq l "STATIC" 6 then
    ({ s.1 with flag := s.1.flag ||| 4 }, s.2)
  else if strnicmpEq l "DYNAMIC" 7 then
    ({ s.1 with flag := s.1.flag ^^^ 4 }, s.2)
  else s

/-- The directive variables and the label array behind the directive lines `dirs` of
pass `g`, from the defaults of the pass on. -/
def directiveVars (staticmesh : Bool) (g : Nat) (lab : List (List Char))
    (dirs : List (List Char)) : BlockVars × List (List Char) :=
  dirs.foldl (directiveStep g) (BlockVars.init staticmesh, lab)

/-! ## The loader: the group loop -/

/-- What the group loop carries from pass to pass: the mesh, the variable `nidx`
(declared outside the loop and not reset by it), the stream and the `term` flag. -/
structure LoopState (F : Type) where
  mesh : Mesh F
  nidx : Option Int
  stream : IStream
  term : Bool

/-- The test `nvtx && nidx` behind the directive loop and the buffers it guards:
`some none` when the test fails, `some (some (vtx, idx))` when it succeeds; `none` when
`nidx` is read before it was ever assigned, or when the test succeeds although `vtx`
and `idx` are not allocated in this pass. -/
def groupBuffers {F : Type} (r : BlockResult F) :
    Option (Option (List (NTVERTEX F) × List Nat)) :=
  if r.nvtx ≠ 0 then
    match r.nidx with
    | none => none
    | some k =>
      if k ≠ 0 then
        match r.bufs with
        | none => none
        | some b => some (some b)
      else some none
  else some none

/-- The block `{ mesh.AddGroup (vtx, nvtx, idx, nidx, mtrl_idx, tex_idx, zbias);
mesh.Grp[g].Flags = flag; mesh.Grp[g].UsrFlag = uflag;
if (calcnml) mesh.CalcNormals (g, true); if (flag & 0x04) mesh.MakeGroupVertexBuffer (g); }`.
The group is addressed through the pass counter `g`, not through the index `AddGroup`
returns; `none` when `Grp[g]` is not a group of the mesh. `MakeGroupVertexBuffer`
returns `false` without an effect. -/
def addParsedGroup {F : Type} (ops : FloatOps F) (m : Mesh F) (g : Nat) (vars : BlockVars)
    (vtx : List (NTVERTEX F)) (idx : List Nat) : Option (Mesh F) :=
  let m1 := (m.AddGroup vtx idx (toDword vars.mtrl_idx) (toDword vars.tex_idx) vars.zbias 0
    false).1
  match m1.Grp[g]? with
  | none => none
  | some grp =>
    let grp1 : GroupSpec F := { grp with Flags := vars.flag % 65536, UsrFlag := vars.uflag }
    let m2 : Mesh F := { m1 with Grp := m1.Grp.set g grp1 }
    if vars.calcnml then m2.CalcNormals ops g true else some m2

/-- Pass `g` of the group loop: the directive loop (which writes the label into
`mesh.Labels[g]`), then the guarded block that adds the group. -/
def groupStep {F : Type} (ops : FloatOps F) (staticmesh : Bool) (g : Nat) (st : LoopState F) :
    Option (LoopState F) :=
  match readBlock ops g st.nidx st.stream.residue (BlockVars.init staticmesh) st.mesh.Labels
      st.stream.lines with
  | none => none
  | some r =>
    let m0 : Mesh F := { st.mesh with Labels := r.labels }
    match groupBuffers r with
    | none => none
    | some none => some { mesh := m0, nidx := r.nidx, stream := r.stream, term := r.term }
    | some (some b) =>
      (addParsedGroup ops m0 g r.vars b.1 b.2).map
        (fun m => { mesh := m, nidx := r.nidx, stream := r.stream, term := r.term })

/-- The loop `for (g = 0, term = false; g < ngrp && !term; g++)` with `n` passes left
from pass `g` on. -/
def groupLoop {F : Type} (ops : FloatOps F) (staticmesh : Bool) :
    Nat → Nat → LoopState F → Option (LoopState F)
  | 0, _, st => some st
  | n + 1, g, st =>
    if st.term then some st
    else (groupStep ops staticmesh g st).bind (groupLoop ops staticmesh n (g + 1))

/-- The loop in front of the groups: lines are read until a `GROUPS` line; a
`STATICMESH` line on the way sets `staticmesh`. `none` stands for `return is`
(the input ended, or the count behind `GROUPS` did not convert). -/
def findGroups : Bool → List (List Char) → Option (Int × Bool × List (List Char))
  | _, [] => none
  | staticmesh, l :: ls =>
    if strnicmpEq l "GROUPS" 6 then
      match scanDecs 1 (l.drop 6) with
      | [n] => some (toInt32 n, staticmesh, ls)
      | _ => none
    else if strnicmpEq l "STATICMESH" 10 then findGroups true ls
    else findGroups staticmesh ls

/-! ## The loader: material and texture lists -/

/-- The first loop of the material list: `n` lines, each copied into `MatNames[i]`.
The result of `getline` is not tested. -/
def readMatNames : Nat → IStream → List (List Char) × IStream
  | 0, s => ([], s)
  | n + 1, s =>
    let r := s.getline
    let rest := readMatNames n r.2.2
    (r.2.1 :: rest.1, rest.2)

/-- One pass of the second loop of the material list: a header line whose content has
no effect, then the diffuse, ambient, specular (with power) and emissive lines. -/
def readMaterial {F : Type} (ops : FloatOps F) (s : IStream) : Material F × IStream :=
  let r0 := s.getline
  let r1 := r0.2.2.getline
  let r2 := r1.2.2.getline
  let r3 := r2.2.2.getline
  let r4 := r3.2.2.getline
  let spec := scanFloats ops 5 r3.2.1
  ({ diffuse := assignFields colorTargets (zeroColor ops) (scanFloats ops 4 r1.2.1),
     ambient := assignFields colorTargets (zeroColor ops) (scanFloats ops 4 r2.2.1),
     specular := assignFields colorTargets (zeroColor ops) spec,
     emissive := assignFields colorTargets (zeroColor ops) (scanFloats ops 4 r4.2.1),
     power := match spec with
       | [_, _, _, _, p] => p
       | _ => ops.zero },
   r4.2.2)

/-- The second loop of the material list: `n` materials are read and added. -/
def readMaterials {F : Type} (ops : FloatOps F) : Nat → Mesh F → IStream → Mesh F × IStream
  | 0, m, s => (m, s)
  | n + 1, m, s =>
    let r := readMaterial ops s
    readMaterials ops n (m.AddMaterial r.1).1 r.2

/-- The material list: one line is read; when it starts with `MATERIALS` (compared
with `strncmp`) and a count follows, the names and the materials are read. `none` for
a negative count (`new Str256[nmtrl]`). -/
def readMaterialList {F : Type} (ops : FloatOps F) (m : Mesh F) (s : IStream) :
    Option (Mesh F × IStream) :=
  let r := s.getline
  if r.1 && strncmpEq r.2.1 "MATERIALS" 9 then
    match scanDecs 1 (r.2.1.drop 9) with
    | [n] =>
      if toInt32 n < 0 then none
      else
        let rn := readMatNames (toInt32 n).toNat r.2.2
        some (readMaterials ops (toInt32 n).toNat { m with MatNames := rn.1 } rn.2)
    | _ => some (m, r.2.2)
  else some (m, r.2.2)

/-- The loop of the texture list: per line `sscanf (cbuf, "%255s%255s", texname, flagstr)`,
then `texname` is copied into `TexFiles[i]`. `texname` keeps its content when the line
holds no token; `none` when it is read before it was ever assigned. -/
def readTextures : Nat → Option (List Char) → IStream → Option (List (List Char) × IStream)
  | 0, _, s => some ([], s)
  | n + 1, texname, s =>
    let r := s.getline
    let texname1 := match scanStr 255 r.2.1 with
      | some (t, _) => some t
      | none => texname
    match texname1 with
    | none => none
    | some t => (readTextures n texname1 r.2.2).map (fun p => (t :: p.1, p.2))

/-- The texture list: one line is read; when it starts with `TEXTURES` (compared with
`strncmp`) and a count follows, `nTex` is set and the file names are read. `none` for
a negative count (`new tex_file[ntex]`). -/
def readTextureList {F : Type} (m : Mesh F) (s : IStream) : Option (Mesh F × IStream) :=
  let r := s.getline
  if r.1 && strncmpEq r.2.1 "TEXTURES" 8 then
    match scanDecs 1 (r.2.1.drop 8) with
    | [n] =>
      if toInt32 n < 0 then none
      else
        (readTextures (toInt32 n).toNat none r.2.2).map
          (fun p => ({ m with nTex := toDword (toInt32 n), TexFiles := p.1 }, p.2))
    | _ => some (m, r.2.2)
  else some (m, r.2.2)

/-! ## The loader: `operator>>` -/

/-- The part of `operator>>` behind the group loop: the material list, the texture list
and `mesh.Setup ()`. -/
def finishLoad {F : Type} (ops : FloatOps F) (mesh : Mesh F) (s : IStream) : Option (Mesh F) :=
  (readMaterialList ops mesh s).bind
    (fun r => (readTextureList r.1 r.2).map (fun q => q.1.Setup))

/-- The load from the head of pass `g` of the group loop on, with `n` passes left: the
rest of the group loop, then the end of the load. -/
def resumeLoad {F : Type} (ops : FloatOps F) (staticmesh : Bool) (n g : Nat)
    (st : LoopState F) : Option (Mesh F) :=
  (groupLoop ops staticmesh n g st).bind (fun e => finishLoad ops e.mesh e.stream)

/-- `istream &operator>> (istream &is, Mesh &mesh)`: the mesh after the load. `none`
when the run leaves defined behaviour or ends in an uncaught allocation failure; this
includes a group count for which the byte count `256 * ngrp` passed to `ZeroMemory`
leaves the `int` range. -/
def load {F : Type} (ops : FloatOps F) (s : IStream) (mesh : Mesh F) : Option (Mesh F) :=
  match s.lines with
  | [] => some mesh.Clear
  | l :: ls =>
    if l != "MSHX1".toList then some mesh.Clear
    else
      match findGroups false ls with
      | none => some mesh.Clear
      | some hdr =>
        if hdr.1 < 0 ∨ 2147483647 < 256 * hdr.1 then none
        else
          resumeLoad ops hdr.2.1 hdr.1.toNat 0
            { mesh := { mesh.Clear with Labels := List.replicate hdr.1.toNat [] },
              nidx := none, stream := ⟨hdr.2.2, s.residue⟩, term := false }

/-- Operations on integers for the worked examples. `scan` reads a numeral made of an
optional sign and digits, on which `%f` converts the same characters to the same
value. The arithmetic fields are exact on integers where the operation is; they are
not reached by the examples, in which every vertex line supplies its normal. -/
def exampleOps : FloatOps Int :=
  { zero := 0, add := fun a b => a + b, sub := fun a b => a - b, mul := fun a b => a * b,
    div := fun a b => a / b, sqrt := fun a => (Int.toNat a).sqrt, acos := fun _ => 0,
    gt := fun a b => decide (a > b), ge := fun a b => decide (a ≥ b),
    two := 2, tenth := 0, eps := 0,
    scan := fun s => scanDec s }

/-! ## The sphere patch (`CreateSpherePatch`) -/

/-- The floating-point content of `CreateSpherePatch`. `vertex nlng nlat ilat res i j nseg`
is the vertex the body of the node loop computes for ring `i` and position `j` of a ring
with `nseg` segments: position and normal from the sine and cosine of latitude and
longitude, and the texture coordinates (the double-precision arithmetic, the constants
`Pi05` and `Pi2` and the conversion `D3DVAL` come from headers that are not among the
sources). `neg` is the negation applied to the normal for `outside = false`. -/
structure PatchOps (F : Type) where
  vertex : Int → Int → Int → Int → Nat → Nat → Int → NTVERTEX F
  neg : F → F

/-- The body of the node loop: the vertex stored at `Vtx[n]`. -/
def patchVertex {F : Type} (ops : PatchOps F) (nlng nlat ilat res : Int) (outside : Bool)
    (i j : Nat) (nseg : Int) : NTVERTEX F :=
  let v := ops.vertex nlng nlat ilat res i j nseg
  if outside then v else { v with nx := ops.neg v.nx, ny := ops.neg v.ny, nz := ops.neg v.nz }

/-- Stores into a buffer obtained from `new[]`, whose cells hold no value (`none`) until
they are written: the values go to the cells `n`, `n + 1`, ...; `none` when a store falls
outside the buffer. -/
def writeCells {α : Type} : List (Option α) → Nat → List α → Option (List (Option α))
  | buf, _, [] => some buf
  | buf, n, v :: vs => if n < buf.length then writeCells (buf.set n (some v)) (n + 1) vs else none

/-- The content of a buffer all of whose cells were written; `none` when a cell was
never written (its content is indeterminate). -/
def allSet {α : Type} : List (Option α) → Option (List α)
  | [] => some []
  | none :: _ => none
  | some a :: l => (allSet l).map (fun r => a :: r)

/-- The loop `for (j = 0; j <= nseg; j++)` of the node generation with `cnt` passes left
from `j` on; `n` is the write position. -/
def patchRing {F : Type} (mk : Nat → NTVERTEX F) :
    Nat → Nat → Nat → List (Option (NTVERTEX F)) → Option (List (Option (NTVERTEX F)) × Nat)
  | 0, _, n, buf => some (buf, n)
  | cnt + 1, j, n, buf =>
    (writeCells buf n [mk j]).bind (fun b => patchRing mk cnt (j + 1) (n + 1) b)

/-- The loop `for (i = n = 0; i <= res; i++)` of the node generation with `cnt` passes
left from `i` on. -/
def patchNodes {F : Type} (ops : PatchOps F) (nlng nlat ilat res bseg : Int)
    (reduce outside : Bool) :
    Nat → Nat → Nat → List (Option (NTVERTEX F)) → Option (List (Option (NTVERTEX F)) × Nat)
  | 0, _, n, buf => some (buf, n)
  | cnt + 1, i, n, buf =>
    let nseg := if reduce then toInt32 (bseg - (i : Int)) else bseg
    (patchRing (fun j => patchVertex ops nlng nlat ilat res outside i j nseg)
        (nseg + 1).toNat 0 n buf).bind
      (fun r => patchNodes ops nlng nlat ilat res bseg reduce outside cnt (i + 1) r.2 r.1)

/-- The loop `for (j = 0; j < nseg; j++)` of the face generation with `cnt` passes left
from `j` on: one triangle, then `if (reduce && j == nseg-1) break;`, then a second
triangle. The sums are stored as `WORD`. -/
def patchFaceRow (reduce : Bool) (nseg nofs0 nofs1 : Int) :
    Nat → Nat → Nat → List (Option Nat) → Option (List (Option Nat) × Nat)
  | 0, _, n, buf => some (buf, n)
  | cnt + 1, j, n, buf =>
    (writeCells buf n [toWord (nofs0 + j), toWord (nofs1 + j), toWord (nofs0 + j + 1)]).bind
      (fun b1 =>
        if reduce && decide ((j : Int) = nseg - 1) then some (b1, n + 3)
        else
          (writeCells b1 (n + 3)
              [toWord (nofs0 + j + 1), toWord (nofs1 + j), toWord (nofs1 + j + 1)]).bind
            (fun b2 => patchFaceRow reduce nseg nofs0 nofs1 cnt (j + 1) (n + 6) b2))

/-- The loop `for (i = n = nofs0 = 0; i < res; i++)` of the face generation with `cnt`
passes left from `i` on. -/
def patchFaces (bseg : Int) (reduce : Bool) :
    Nat → Nat → Int → Nat → List (Option Nat) → Option (List (Option Nat) × Nat)
  | 0, _, _, n, buf => some (buf, n)
  | cnt + 1, i, nofs0, n, buf =>
    let nseg := if reduce then toInt32 (bseg - (i : Int)) else bseg
    let nofs1 := toInt32 (nofs0 + nseg + 1)
    (patchFaceRow reduce nseg nofs0 nofs1 nseg.toNat 0 n buf).bind
      (fun r => patchFaces bseg reduce cnt (i + 1) nofs1 r.2 r.1)

/-- The loop `for (i = 0; i < nIdx/3; i += 3)` that exchanges `Idx[i+1]` and `Idx[i+2]`,
with `cnt` passes left from `i` on. `none` for an access outside the buffer or the read
of a cell that was never written. -/
def patchWinding : Nat → Nat → List (Option Nat) → Option (List (Option Nat))
  | 0, _, buf => some buf
  | cnt + 1, i, buf =>
    match buf[i + 1]?, buf[i + 2]? with
    | some (some a), some (some b) =>
      patchWinding cnt (i + 3) ((buf.set (i + 1) (some b)).set (i + 2) (some a))
    | _, _ => none

/-- `CreateSpherePatch (mesh, nlng, nlat, ilat, res, bseg, reduce, outside)`; the header
declares the defaults `bseg = -1`, `reduce = true`, `outside = true`. `int` arithmetic
is reduced with `toInt32`, the division by 2 truncates. `none` for a negative element
count of `new NTVERTEX[nVtx]` or `new WORD[nIdx]`, for a store outside a buffer, for a
loop whose counter cannot pass its bound (`res` or `nseg` equal to the largest `int`),
and when a cell of a buffer handed to `AddGroup` was never written. -/
def CreateSpherePatch {F : Type} (ops : PatchOps F) (mesh : Mesh F)
    (nlng nlat ilat res bseg : Int) (reduce outside : Bool) : Option (Mesh F) :=
  let bseg1 :=
    if bseg < 0 ∨ ilat = toInt32 (nlat - 1) then toInt32 (toInt32 (nlat - ilat) * res) else bseg
  let nVtx0 := toInt32 (toInt32 (bseg1 + 1) * toInt32 (res + 1))
  let nVtx :=
    if reduce then toInt32 (nVtx0 - Int.tdiv (toInt32 (toInt32 (res + 1) * res)) 2) else nVtx0
  let nIdx :=
    toInt32 ((if reduce then toInt32 (res * toInt32 (toInt32 (2 * bseg1) - res))
              else toInt32 (toInt32 (2 * res) * bseg1)) * 3)
  if nVtx < 0 ∨ res = 2147483647 ∨ bseg1 = 2147483647 then none
  else
    (patchNodes ops nlng nlat ilat res bseg1 reduce outside (res + 1).toNat 0 0
        (List.replicate nVtx.toNat none)).bind
      (fun vr =>
        if nIdx < 0 then none
        else
          (patchFaces bseg1 reduce res.toNat 0 0 0 (List.replicate nIdx.toNat none)).bind
            (fun ir =>
              (if outside then some ir.1
               else patchWinding ((nIdx.toNat / 3 + 2) / 3) 0 ir.1).bind
                (fun ibuf =>
                  (allSet vr.1).bind
                    (fun vtx =>
                      (allSet ibuf).map
                        (fun idx =>
                          (mesh.Clear.AddGroup vtx idx SPEC_INHERIT SPEC_INHERIT 0 0
                            false).1.Setup)))))

/-- Operations on integers for the worked examples of the sphere patch: a vertex
records its ring, its position in the ring and the segment count of the ring. -/
def examplePatchOps : PatchOps Int :=
  { vertex := fun _ _ _ _ i j nseg => ⟨i, j, nseg, i, j, nseg, 0, 0⟩,
    neg := fun a => -a }

/-! ## Container operations: blocks and whole meshes (`Mesh.cpp`) -/

/-- `Mesh::AddGroupBlock (grp, vtx, nvtx, idx, nidx)`: returns the new state and the
result flag. The offset is `WORD vofs = (WORD)g->nVtx`, and each appended index is the
sum `idx[j] + vofs` stored into a `WORD`. -/
def Mesh.AddGroupBlock {F : Type} (m : Mesh F) (grp : Nat) (vtx : List (NTVERTEX F))
    (idx : List Nat) : Mesh F × Bool :=
  if grp ≥ m.Grp.length then (m, false)
  else
    match m.Grp[grp]? with
    | none => (m, false)
    | some g =>
      let vofs := toWord g.Vtx.length
      let v := g.Vtx ++ vtx
      let i := g.Idx ++ idx.map (fun (x : Nat) => toWord ((x : Int) + (vofs : Int)))
      ({ m with Grp := m.Grp.set grp { g with Vtx := v, Idx := i } }, true)

/-- `Mesh::AddMesh (mesh)` called on an object other than `mesh`: the new state of the
object and the state of `mesh` after the call. Each pass copies the two buffers of a
group of `mesh` and hands the copies to `AddGroup` with the defaulted arguments. -/
def Mesh.AddMesh {F : Type} (m other : Mesh F) : Mesh F × Mesh F :=
  (other.Grp.foldl
    (fun acc gs => (acc.AddGroup gs.Vtx gs.Idx SPEC_INHERIT SPEC_INHERIT 0 0 false).1) m,
   other)

/-! ## The exporter (`main.cpp`) -/

/-- The four bytes of a 32-bit value in memory, least significant byte first (the output
format is little-endian). -/
def le32 (v : Int) : List Nat :=
  [toDword v % 256, toDword v / 256 % 256, toDword v / 65536 % 256, toDword v / 16777216 % 256]

/-- The memory image of a `float`: four bytes. -/
structure ExportOps (F : Type) where
  floatBytes : F → List Nat
  size : ∀ f, (floatBytes f).length = 4

/-- The bytes of a C string with its terminator: what `write (s, strlen (s) + 1)` writes. -/
def cstrBytes (s : List Char) : List Nat := s.map (fun c => c.toNat % 256) ++ [0]

/-- What `write (p, count)` writes from an array whose memory image is `image`: the first
`count` bytes. `none` for a negative count and for a count beyond the array. -/
def writeBytes (image : List Nat) (count : Int) : Option (List Nat) :=
  if count < 0 ∨ (image.length : Int) < count then none else some (image.take count.toNat)

/-- Element of the position and normal arrays (`vtx3`). -/
structure vtx3 (F : Type) where
  x : F
  y : F
  z : F
deriving DecidableEq, Repr

/-- Element of the texture coordinate array (`vtx2`). -/
structure vtx2 (F : Type) where
  x : F
  y : F
deriving DecidableEq, Repr

/-- State of an `ExMeshGroup` object whose arrays were allocated. -/
structure ExMeshGroup (F : Type) where
  Label : List Char
  MaterialIndex : Int
  TextureIndex : Int
  Flags : Nat
  UserFlags : Nat
  ZBias : Nat
  VertexCount : Int
  IndexCount : Int
  Positions : List (vtx3 F)
  Normals : List (vtx3 F)
  UVCoords : List (vtx2 F)
  Indices : List Int
deriving DecidableEq, Repr

/-- The constructor `ExMeshGroup (parent, label)` for a group `parent`; `label` is `none`
for the null pointer. `none` when the label does not fit into `Label[256]` with its
terminator, and when a count is negative as an `int`: the allocation fails and the
validation of the converted mesh ends the program before any output. -/
def ExMeshGroup.new {F : Type} (parent : GroupSpec F) (label : Option (List Char)) :
    Option (ExMeshGroup F) :=
  let lab := match label with
    | some l => l
    | none => []
  if 255 < lab.length then none
  else
    let vc := toInt32 parent.Vtx.length
    let ic := toInt32 parent.Idx.length
    if vc < 0 ∨ ic < 0 then none
    else
      some
        { Label := lab,
          MaterialIndex := toInt32 parent.MtrlIdx,
          TextureIndex := toInt32 parent.TexIdx,
          Flags := toDword parent.Flags,
          UserFlags := toDword parent.UsrFlag,
          ZBias := toDword parent.zBias,
          VertexCount := vc,
          IndexCount := ic,
          Positions := (parent.Vtx.take vc.toNat).map (fun v => ⟨v.x, v.y, v.z⟩),
          Normals := (parent.Vtx.take vc.toNat).map (fun v => ⟨v.nx, v.ny, v.nz⟩),
          UVCoords := (parent.Vtx.take vc.toNat).map (fun v => ⟨v.tu, v.tv⟩),
          Indices := (parent.Idx.take ic.toNat).map (fun i => ((i % 65536 : Nat) : Int)) }

/-- State of an `ExMaterial` object. -/
structure ExMaterial (F : Type) where
  Name : List Char
  Diffuse : List F
  Ambient : List F
  Specular : List F
  Emissive : List F
  Power : F
deriving DecidableEq, Repr

/-- The constructor `ExMaterial (material, name)`; `name` is `none` for the null pointer.
`none` when the name does not fit into `Name[256]` with its terminator. -/
def ExMaterial.new {F : Type} (material : Material F) (name : Option (List Char)) :
    Option (ExMaterial F) :=
  let nm := match name with
    | some l => l
    | none => []
  if 255 < nm.length then none
  else
    some
      { Name := nm,
        Diffuse := [material.diffuse.r, material.diffuse.g, material.diffuse.b,
                    material.diffuse.a],
        Ambient := [material.ambient.r, material.ambient.g, material.ambient.b],
        Specular := [material.specular.r, material.specular.g, material.specular.b],
        Emissive := [material.emissive.r, material.emissive.g, material.emissive.b],
        Power := material.power }

/-- State of an `ExTexture` object. -/
structure ExTexture where
  Name : List Char
deriving DecidableEq, Repr

/-- The constructor `ExTexture (name)`. `none` when the name does not fit into
`Name[256]` with its terminator. -/
def ExTexture.new (name : List Char) : Option ExTexture :=
  if 255 < name.length then none else some { Name := name }

/-- State of an `ExMesh` object that passed `Validate`. -/
structure ExMesh (F : Type) where
  GroupCount : Int
  MaterialCount : Int
  TextureCount : Int
  GroupList : List (ExMeshGroup F)
  MaterialList : List (ExMaterial F)
  TextureList : List ExTexture
deriving DecidableEq, Repr

/-- The loop `for (i = 0; i < GroupCount; i++)` of the constructor of `ExMesh`, with
`cnt` passes left from `i` on: the label is `Labels[i].File`, or the null pointer when
that string is empty. `none` when `Labels[i]` or group `i` does not exist. -/
def exGroups {F : Type} (mesh : Mesh F) : Nat → Nat → Option (List (ExMeshGroup F))
  | 0, _ => some []
  | cnt + 1, i =>
    match mesh.Labels[i]?, mesh.Grp[i]? with
    | some label, some g =>
      (ExMeshGroup.new g (if label = [] then none else some label)).bind
        (fun e => (exGroups mesh cnt (i + 1)).map (fun es => e :: es))
    | _, _ => none

/-- The loop `for (i = 0; i < MaterialCount; i++)` of the constructor of `ExMesh`, with
`cnt` passes left from `i` on. `none` when `MatNames[i]` or material `i` does not
exist. -/
def exMaterials {F : Type} (mesh : Mesh F) : Nat → Nat → Option (List (ExMaterial F))
  | 0, _ => some []
  | cnt + 1, i =>
    match mesh.MatNames[i]?, mesh.Mtrl[i]? with
    | some name, some mat =>
      (ExMaterial.new mat (if name = [] then none else some name)).bind
        (fun e => (exMaterials mesh cnt (i + 1)).map (fun es => e :: es))
    | _, _ => none

/-- The loop `for (i = 0; i < TextureCount; i++)` of the constructor of `ExMesh`, with
`cnt` passes left from `i` on. `none` when `TexFiles[i]` does not exist. -/
def exTextures {F : Type} (mesh : Mesh F) : Nat → Nat → Option (List ExTexture)
  | 0, _ => some []
  | cnt + 1, i =>
    match mesh.TexFiles[i]? with
    | some name =>
      (ExTexture.new name).bind
        (fun e => (exTextures mesh cnt (i + 1)).map (fun es => e :: es))
    | none => none

/-- The constructor `ExMesh (mesh)` followed by `Validate`. `none` when a count is
negative as an `int` (the allocation of the list fails and the validation ends the
program), when a loop reads an entry that does not exist, and when an object of the
lists has no state. -/
def ExMesh.new {F : Type} (mesh : Mesh F) : Option (ExMesh F) :=
  let gc := toInt32 mesh.nGroup
  let mc := toInt32 mesh.nMaterial
  let tc := toInt32 mesh.nTexture
  if gc < 0 ∨ mc < 0 ∨ tc < 0 then none
  else
    (exGroups mesh gc.toNat 0).bind (fun gl =>
      (exMaterials mesh mc.toNat 0).bind (fun ml =>
        (exTextures mesh tc.toNat 0).map (fun tl =>
          { GroupCount := gc, MaterialCount := mc, TextureCount := tc,
            GroupList := gl, MaterialList := ml, TextureList := tl })))

/-- The 24 bytes of `cmsh_header`: the tag, the three counts, and the word that holds
the bit-fields `VertexComponents` (bit 0) and `MaterialNames` (bit 1). -/
def headerBytes (groupCount materialCount textureCount : Int)
    (straightConvert noMatNames : Bool) : List Nat :=
  "_CMSHX1_".toList.map (fun c => c.toNat % 256) ++ le32 groupCount ++ le32 materialCount
    ++ le32 textureCount
    ++ le32 ((if straightConvert then 0 else 1) + (if noMatNames then 0 else 2))

/-- The memory image of a `vtx3`. -/
def vtx3Bytes {F : Type} (eo : ExportOps F) (p : vtx3 F) : List Nat :=
  eo.floatBytes p.x ++ eo.floatBytes p.y ++ eo.floatBytes p.z

/-- The memory image of a `vtx2`. -/
def vtx2Bytes {F : Type} (eo : ExportOps F) (p : vtx2 F) : List Nat :=
  eo.floatBytes p.x ++ eo.floatBytes p.y

/-- The loop `for (v = 0; v < VertexCount; v++)` of the flattened layout, with `cnt`
passes left from `v` on: 12, 12 and 8 bytes of the three arrays per vertex. `none` when
an array has no element `v`. -/
def writeVertices {F : Type} (eo : ExportOps F) (g : ExMeshGroup F) :
    Nat → Nat → Option (List Nat)
  | 0, _ => some []
  | cnt + 1, v =>
    match g.Positions[v]?, g.Normals[v]?, g.UVCoords[v]? with
    | some p, some n, some t =>
      (writeVertices eo g cnt (v + 1)).map
        (fun rest => vtx3Bytes eo p ++ vtx3Bytes eo n ++ vtx2Bytes eo t ++ rest)
    | _, _, _ => none

/-- The bytes written for one group: the label length and the label, seven 32-bit
fields, the vertex data in the layout chosen by `straightConvert`, and the indices.
`posBytes`, `texBytes` and `iBytes` are `int` products. -/
def writeGroup {F : Type} (eo : ExportOps F) (straightConvert : Bool) (g : ExMeshGroup F) :
    Option (List Nat) :=
  let length := toInt32 ((g.Label.length : Int) + 1)
  let head :=
    le32 length ++ (if length ≠ 0 then cstrBytes g.Label else []) ++
    le32 g.MaterialIndex ++ le32 g.TextureIndex ++ le32 g.Flags ++ le32 g.UserFlags ++
    le32 g.ZBias ++ le32 g.VertexCount ++ le32 g.IndexCount
  let vdata :=
    if straightConvert then writeVertices eo g g.VertexCount.toNat 0
    else
      let posBytes := toInt32 (12 * g.VertexCount)
      let texBytes := toInt32 (8 * g.VertexCount)
      (writeBytes (g.Positions.flatMap (vtx3Bytes eo)) posBytes).bind (fun b1 =>
        (writeBytes (g.Normals.flatMap (vtx3Bytes eo)) posBytes).bind (fun b2 =>
          (writeBytes (g.UVCoords.flatMap (vtx2Bytes eo)) texBytes).map (fun b3 =>
            b1 ++ b2 ++ b3)))
  let iBytes := toInt32 (4 * g.IndexCount)
  vdata.bind (fun vb =>
    (writeBytes (g.Indices.flatMap le32) iBytes).map (fun ib => head ++ vb ++ ib))

/-- The loop over `GroupList` of the output. -/
def writeGroups {F : Type} (eo : ExportOps F) (straightConvert : Bool) :
    List (ExMeshGroup F) → Option (List Nat)
  | [] => some []
  | g :: gs =>
    (writeGroup eo straightConvert g).bind
      (fun b => (writeGroups eo straightConvert gs).map (fun rest => b ++ rest))

/-- The bytes written for one material: with `names` (the bit-field `MaterialNames` of
the header) the length of the name and the name, then 16, 12, 12, 12 and 4 bytes of the
fixed fields. -/
def writeMaterial {F : Type} (eo : ExportOps F) (names : Bool) (m : ExMaterial F) :
    List Nat :=
  (if names then le32 (toInt32 ((m.Name.length : Int) + 1)) ++ cstrBytes m.Name else []) ++
    m.Diffuse.flatMap eo.floatBytes ++ m.Ambient.flatMap eo.floatBytes ++
    m.Specular.flatMap eo.floatBytes ++ m.Emissive.flatMap eo.floatBytes ++
    eo.floatBytes m.Power

/-- The bytes written for one texture: the length of the name and the name. -/
def writeTexture (t : ExTexture) : List Nat :=
  le32 (toInt32 ((t.Name.length : Int) + 1)) ++ cstrBytes t.Name

/-- The conversion and output part of `main` on a loaded mesh: the bytes of the output
file. `none` when the program writes no file (the converted mesh has no state or no
group list) or a `write` call has no defined effect. -/
def exportMesh {F : Type} (eo : ExportOps F) (straightConvert noMatNames : Bool)
    (mesh : Mesh F) : Option (List Nat) :=
  (ExMesh.new mesh).bind (fun ex =>
    if ex.GroupCount = 0 then none
    else
      (writeGroups eo straightConvert ex.GroupList).map (fun gb =>
        headerBytes ex.GroupCount ex.MaterialCount ex.TextureCount straightConvert noMatNames
          ++ gb
          ++ ex.MaterialList.flatMap (writeMaterial eo (!noMatNames))
          ++ ex.TextureList.flatMap writeTexture))

/-- The program on the text of an input file: load into a new mesh, then conversion
and output. -/
def convertFile {F : Type} (ops : FloatOps F) (eo : ExportOps F) (straightConvert noMatNames : Bool)
    (text : String) : Option (List Nat) :=
  (load ops (IStream.ofString text) (Mesh.new F)).bind (exportMesh eo straightConvert noMatNames)

/-- Memory images for the integer operations of the worked examples: a value is
written as a 32-bit integer. -/
def exampleExportOps : ExportOps Int :=
  { floatBytes := le32, size := fun _ => rfl }

/-! ## The command line (`main.cpp`) -/

/-- The variables the argument loop of `main` assigns; a file name is `none` while its
pointer is null. -/
structure Args where
  inputFile : Option (List Char)
  outputFile : Option (List Char)
  straightConvert : Bool
  inputNext : Bool
  outputNext : Bool
  noMatNames : Bool
deriving DecidableEq, Repr

/-- The variables in front of the argument loop. -/
def Args.init : Args :=
  { inputFile := none, outputFile := none, straightConvert := false, inputNext := false,
    outputNext := false, noMatNames := false }

/-- One pass of the loop `for (int i = 1; i < argCount; i++)` on the argument `arg`. -/
def argStep (a : Args) (arg : List Char) : Args :=
  if !a.inputNext && !a.outputNext then
    if arg = "-s".toList then { a with straightConvert := true }
    else if arg = "-i".toList then { a with inputNext := true }
    else if arg = "-o".toList then { a with outputNext := true }
    else if arg = "-m".toList then { a with noMatNames := true }
    else if a.inputFile = none then { a with inputFile := some arg }
    else if a.outputFile = none then { a with outputFile := some arg }
    else a
  else if a.inputNext then { a with inputNext := false, inputFile := some arg }
  else if a.outputNext then { a with outputNext := false, outputFile := some arg }
  else a

/-- The argument loop on `argList[1]`, ..., `argList[argCount-1]`. -/
def parseArgs (argList : List (List Char)) : Args := argList.foldl argStep Args.init

/-- The loop `for (int i = 0; i < length; i++) if (inputFile[i] == '.') { index = i; break; }`
from position `i` on: the value of `index`, `none` for `-1`. -/
def findDot : Nat → List Char → Option Nat
  | _, [] => none
  | i, c :: cs => if c = '.' then some i else findDot (i + 1) cs

/-- The stores `buf[pos] = c0`, `buf[pos+1] = c1`, ... into a character buffer; `none`
when a store falls outside the buffer. -/
def storeChars : List Char → Nat → List Char → Option (List Char)
  | buf, _, [] => some buf
  | buf, pos, c :: cs =>
    if pos < buf.length then storeChars (buf.set pos c) (pos + 1) cs else none

/-- The synthesis of the output file name from `inputFile` when no output file was
named. The lengths are those of command-line arguments, for which the `int` arithmetic
is that of the integers. The source of the copy loop is the input name with its
terminator; the cells of the new buffer that the copy loop does not reach are written
by the stores that follow it. The result is the C string in the buffer; `none` when a
load or a store falls outside its array. -/
def synthOutput (inputFile : List Char) : Option (List Char) :=
  let length : Int := inputFile.length
  let src := inputFile ++ [Char.ofNat 0]
  match findDot 0 inputFile with
  | none =>
    let outLength := length + 6
    let buf := inputFile ++ List.replicate (outLength.toNat - inputFile.length) (Char.ofNat 0)
    (storeChars buf inputFile.length ['.', 'c', 'm', 's', 'h', Char.ofNat 0]).map cstr
  | some index =>
    let extLength := length - index - 1
    let outLength := length - extLength + 4
    let lenNoExt := length - extLength + 1
    let finalLength := outLength + 1
    if (src.length : Int) < lenNoExt ∨ finalLength < lenNoExt then none
    else
      let buf := src.take lenNoExt.toNat
        ++ List.replicate (finalLength.toNat - lenNoExt.toNat) (Char.ofNat 0)
      (storeChars buf (outLength - 4).toNat ['c', 'm', 's', 'h', Char.ofNat 0]).map cstr

/-- The name of the output file `main` opens for the arguments `argList[1]`, ...:
`none` when no input file is named (the usage text is printed) and when the synthesis
has no result. -/
def outputName (argList : List (List Char)) : Option (List Char) :=
  match (parseArgs argList).inputFile with
  | none => none
  | some inputFile =>
    match (parseArgs argList).outputFile with
    | some outputFile => some outputFile
    | none => synthOutput inputFile

/-! ## Worked examples -/

/-- A mesh with three materials and three groups that use material 0, 1 and 2. -/
def exampleMesh3 : Mesh Int :=
  let c : ColorValue Int := ⟨1, 1, 1, 1⟩
  let mt : Material Int := ⟨c, c, c, c, 0⟩
  let g (k : Nat) : GroupSpec Int :=
    { Vtx := [], Idx := [], MtrlIdx := k, TexIdx := SPEC_INHERIT, UsrFlag := 0, zBias := 0,
      Flags := 0 }
  { Mesh.new Int with Grp := [g 0, g 1, g 2], Mtrl := [mt, mt, mt] }

/-- A mesh with one material and one group whose material reference is `ref`. -/
def exampleMesh1 (ref : Nat) : Mesh Int :=
  let c : ColorValue Int := ⟨1, 1, 1, 1⟩
  { Mesh.new Int with
    Grp := [{ Vtx := [], Idx := [], MtrlIdx := ref, TexIdx := SPEC_INHERIT, UsrFlag := 0,
              zBias := 0, Flags := 0 }],
    Mtrl := [⟨c, c, c, c, 0⟩] }

/-- A file with one group of three vertices and one triangle. -/
def exampleTriangle : String :=
  "MSHX1\nGROUPS 1\nLABEL tri\nGEOM 3 1\n0 0 0 0 0 1 0 0\n1 0 0 0 0 1 1 0\n0 1 0 0 0 1 0 1\n0 1 2\n"

/-- The state of the group loop at the head of pass 0 of the load of `exampleTriangle`
into a new mesh. -/
def exampleTriangleState : LoopState Int :=
  { mesh := { (Mesh.new Int).Clear with Labels := [[]] }, nidx := none,
    stream := ⟨(IStream.ofString exampleTriangle).lines.drop 2, []⟩, term := false }

/-- A file whose only triangle line carries 300 blanks behind its three integers. -/
def exampleLongLine : List Char :=
  "MSHX1\nGROUPS 1\nGEOM 1 1\n0 0 0 0 0 1 0 0\n0 0 0".toList ++ List.replicate 300 ' ' ++ ['\n']

/-- A file whose only group has one vertex and the triangle `0 1 2`. -/
def exampleBadIndex : String := "MSHX1\nGROUPS 1\nGEOM 1 1\n0 0 0 0 0 1 0 0\n0 1 2\n"

/-- An earlier load: no group, no material, one texture. -/
def exampleOneTexture : String := "MSHX1\nGROUPS 0\n\nTEXTURES 1\ntex.dds\n"

/-- A file with one group whose block holds `FLIP`. -/
def exampleFlipped : String :=
  "MSHX1\nGROUPS 1\nFLIP\nGEOM 3 1\n0 0 0 0 0 1 0 0\n1 0 0 0 0 1 1 0\n0 1 0 0 0 1 0 1\n0 1 2\n"

/-- The state of the group loop at the head of pass 0 of the load of `exampleFlipped`
into a new mesh. -/
def exampleFlippedState : LoopState Int :=
  { mesh := { (Mesh.new Int).Clear with Labels := [[]] }, nidx := none,
    stream := ⟨(IStream.ofString exampleFlipped).lines.drop 2, []⟩, term := false }

/-- A file with one group whose block names material 1 and no texture, followed by a
material list with one material and a texture list with two textures. -/
def exampleReferences : String :=
  "MSHX1\nGROUPS 1\nMATERIAL 1\nGEOM 3 1\n0 0 0 0 0 1 0 0\n1 0 0 0 0 1 1 0\n0 1 0 0 0 1 0 1\n0 1 2\nMATERIALS 1\nm1\nMATERIAL m1\n1 1 1 1\n1 1 1 1\n1 1 1 1 5\n0 0 0 1\nTEXTURES 2\na.dds\nb.dds\n"

/-- The mesh loaded from `exampleReferences`. -/
def exampleReferencesMesh : Mesh Int :=
  { Grp := [{ Vtx := [⟨0, 0, 0, 0, 0, 1, 0, 0⟩, ⟨1, 0, 0, 0, 0, 1, 1, 0⟩, ⟨0, 1, 0, 0, 0, 1, 0, 1⟩],
              Idx := [0, 1, 2], MtrlIdx := 0, TexIdx := SPEC_INHERIT, UsrFlag := 0,
              zBias := 0, Flags := 0 }],
    Mtrl := [⟨⟨1, 1, 1, 1⟩, ⟨1, 1, 1, 1⟩, ⟨1, 1, 1, 1⟩, ⟨0, 0, 0, 1⟩, 5⟩], nTex := 2,
    TexFiles := ["a.dds".toList, "b.dds".toList], Labels := [[]], MatNames := ["m1".toList],
    GrpSetup := true, bModulateMatAlpha := false, Flags := 0 }

/-- A file with one group, no material list, and a texture list with two entries right
behind the group. -/
def exampleTexturesOnly : String :=
  "MSHX1\nGROUPS 1\nGEOM 3 1\n0 0 0 0 0 1 0 0\n1 0 0 0 0 1 1 0\n0 1 0 0 0 1 0 1\n0 1 2\nTEXTURES 2\na.dds\nb.dds\n"

/-- The file `exampleTexturesOnly` with the line `MATERIALS 0` in front of the texture
list. -/
def exampleEmptyMaterials : String :=
  "MSHX1\nGROUPS 1\nGEOM 3 1\n0 0 0 0 0 1 0 0\n1 0 0 0 0 1 1 0\n0 1 0 0 0 1 0 1\n0 1 2\nMATERIALS 0\nTEXTURES 2\na.dds\nb.dds\n"

/-- A file whose texture list holds the entries `0` and `b.dds`. -/
def exampleTextureZero : String := "MSHX1\nGROUPS 0\nMATERIALS 0\nTEXTURES 2\n0\nb.dds\n"

/-- A file that declares two groups: the first block has the counts `0 0`, the second
block holds `FLAG 5`, `STATIC` and a complete triangle. -/
def exampleSkippedBlock : String :=
  "MSHX1\nGROUPS 2\nGEOM 0 0\nFLAG 5\nSTATIC\nGEOM 3 1\n0 0 0 0 0 1 0 0\n1 0 0 0 0 1 1 0\n0 1 0 0 0 1 0 1\n0 1 2\n"

/-- The file `exampleSkippedBlock` without its first block. -/
def exampleFlaggedBlock : String :=
  "MSHX1\nGROUPS 1\nFLAG 5\nSTATIC\nGEOM 3 1\n0 0 0 0 0 1 0 0\n1 0 0 0 0 1 1 0\n0 1 0 0 0 1 0 1\n0 1 2\n"

/-- The state of the group loop at the head of pass 0 of the load of
`exampleSkippedBlock` into a new mesh. -/
def exampleSkippedState : LoopState Int :=
  { mesh := { (Mesh.new Int).Clear with Labels := [[], []] }, nidx := none,
    stream := ⟨(IStream.ofString exampleSkippedBlock).lines.drop 2, []⟩, term := false }

/-- A file with `STATICMESH` in front of `GROUPS 3`: the first block holds one `DYNAMIC`
line, the second two, the third none. -/
def exampleStaticMesh : String :=
  "MSHX1\nSTATICMESH\nGROUPS 3\nDYNAMIC\nGEOM 1 1\n0 0 0 0 0 1 0 0\n0 0 0\nDYNAMIC\nDYNAMIC\nGEOM 1 1\n0 0 0 0 0 1 0 0\n0 0 0\nGEOM 1 1\n0 0 0 0 0 1 0 0\n0 0 0\n"

/-- A file without `STATICMESH`: the first block holds `DYNAMIC`, the second `STATIC`,
the third no directive. -/
def exampleDynamicMesh : String :=
  "MSHX1\nGROUPS 3\nDYNAMIC\nGEOM 1 1\n0 0 0 0 0 1 0 0\n0 0 0\nSTATIC\nGEOM 1 1\n0 0 0 0 0 1 0 0\n0 0 0\nGEOM 1 1\n0 0 0 0 0 1 0 0\n0 0 0\n"

/-- A file with one group of four vertices and two triangles whose block holds `FLIP`. -/
def exampleFlipTwo : String :=
  "MSHX1\nGROUPS 1\nFLIP\nGEOM 4 2\n0 0 0 0 0 1 0 0\n1 0 0 0 0 1 1 0\n0 1 0 0 0 1 0 1\n1 1 0 0 0 1 1 1\n0 1 2\n2 1 3\n"

/-- The state of the group loop at the head of pass 0 of the load of `exampleFlipTwo`
into a new mesh. -/
def exampleFlipTwoState : LoopState Int :=
  { mesh := { (Mesh.new Int).Clear with Labels := [[]] }, nidx := none,
    stream := ⟨(IStream.ofString exampleFlipTwo).lines.drop 2, []⟩, term := false }

/-- A file whose only block `GEOM 1 1` has its vertex line and its triangle line; the
triangle line carries a comment of 300 characters behind its three integers. -/
def exampleLongComment : List Char :=
  "MSHX1\nGROUPS 1\nGEOM 1 1\n0 0 0 0 0 1 0 0\n0 0 0 ;".toList ++ List.replicate 300 'x' ++ ['\n']

/-- A file with three declared groups: a complete block, a block with the counts `3 0`
and its three vertex lines, and the end of the input. -/
def exampleZeroCount : String :=
  "MSHX1\nGROUPS 3\nGEOM 3 1\n0 0 0 0 0 1 0 0\n1 0 0 0 0 1 1 0\n0 1 0 0 0 1 0 1\n0 1 2\nGEOM 3 0\n0 0 0 0 0 1 0 0\n1 0 0 0 0 1 1 0\n0 1 0 0 0 1 0 1\n"

/-- A file whose only block declares two triangles and ends behind the first triangle
line. -/
def exampleTruncated : String :=
  "MSHX1\nGROUPS 1\nGEOM 3 2\n0 0 0 0 0 1 0 0\n1 0 0 0 0 1 1 0\n0 1 0 0 0 1 0 1\n0 1 2\n"

/-- Operations on integers for the worked example of the normal synthesis. On integers
the test `a > 0.1f` holds exactly when `a > 0` and the test `len >= 1e-8f` exactly when
`len >= 1`, so `tenth` is 0 and `eps` is 1; every interior angle is replaced by 1 (the
weight of the only triangle at a vertex cancels in the final division). -/
def exampleNormalOps : FloatOps Int :=
  { exampleOps with tenth := 0, eps := 1, acos := fun _ => 1 }

/-- A mesh with one triangle with legs of length 1 in the plane `z = 0`: the first vertex
carries the normal `(1/10, 1/10, 1/10)` of squared length `3/100`, the second one the
normal `(1, 1, 1)` of squared length 3, the third one the normal `(0, 0, 0)`. -/
def exampleNormalsMesh : Mesh ℚ :=
  { Mesh.new ℚ with
    Grp := [{ Vtx := [⟨0, 0, 0, 1 / 10, 1 / 10, 1 / 10, 0, 0⟩, ⟨1, 0, 0, 1, 1, 1, 1, 0⟩,
                      ⟨0, 1, 0, 0, 0, 0, 0, 1⟩],
              Idx := [0, 1, 2], MtrlIdx := SPEC_INHERIT, TexIdx := SPEC_INHERIT, UsrFlag := 0,
              zBias := 0, Flags := 0 }] }

/-- A mesh with one group of two vertices and no index, for the block examples. -/
def exampleBlockMesh : Mesh Int :=
  { Mesh.new Int with
    Grp := [⟨[⟨0, 0, 0, 0, 0, 1, 0, 0⟩, ⟨1, 0, 0, 0, 0, 1, 0, 0⟩], [], 0, 0, 0, 0, 0⟩] }

/-- A block of three vertices. -/
def exampleBlockVtx : List (NTVERTEX Int) :=
  [⟨5, 0, 0, 0, 0, 1, 0, 0⟩, ⟨6, 0, 0, 0, 0, 1, 0, 0⟩, ⟨7, 0, 0, 0, 0, 1, 0, 0⟩]

/-- Exact operations on rational numbers: the arithmetic is that of the field, division
by zero gives zero, the square root is exact on the squares of rational numbers, every
interior angle is replaced by 1, and the literals are `2`, `1/10` and `1/100000000`. -/
def exampleRatOps : FloatOps ℚ :=
  { zero := 0, add := fun a b => a + b, sub := fun a b => a - b, mul := fun a b => a * b,
    div := fun a b => a / b,
    sqrt := fun a => (Nat.sqrt a.num.toNat : ℚ) / (Nat.sqrt a.den : ℚ),
    acos := fun _ => 1,
    gt := fun a b => decide (a > b), ge := fun a b => decide (a ≥ b),
    two := 2, tenth := 1 / 10, eps := 1 / 100000000,
    scan := fun s => (scanDec s).map (fun r => ((r.1 : ℚ), r.2)) }

/-- A group of one vertex without a normal and no triangle. -/
def exampleLoneVertex : GroupSpec ℚ :=
  ⟨[⟨7, 7, 7, 0, 0, 0, 0, 0⟩], [], 0, 0, 0, 0, 0⟩

/-- A group of one vertex without a normal whose only triangle is degenerate: it refers
to the vertex three times. -/
def exampleDegenerate : GroupSpec ℚ :=
  ⟨[⟨7, 7, 7, 0, 0, 0, 0, 0⟩], [0, 0, 0], 0, 0, 0, 0, 0⟩

/-- A right triangle with the legs 4 and 3 in the plane `z = 0`, without normals: the
cross product of its edges is `(0, 0, 12)`. -/
def exampleRightTriangle : GroupSpec ℚ :=
  ⟨[⟨0, 0, 0, 0, 0, 0, 0, 0⟩, ⟨4, 0, 0, 0, 0, 0, 1, 0⟩, ⟨0, 3, 0, 0, 0, 0, 0, 1⟩],
    [0, 1, 2], 0, 0, 0, 0, 0⟩

/-- A right triangle with two legs of length `1/100000` in the plane `z = 0`, without
normals: the cross product of its edges is `(0, 0, 1/10000000000)`. -/
def exampleTinyTriangle : GroupSpec ℚ :=
  ⟨[⟨0, 0, 0, 0, 0, 0, 0, 0⟩, ⟨1 / 100000, 0, 0, 0, 0, 0, 1, 0⟩,
    ⟨0, 1 / 100000, 0, 0, 0, 0, 0, 1⟩], [0, 1, 2], 0, 0, 0, 0, 0⟩

/-- The file `exampleReferences` with the keywords `GROUPS`, `MATERIAL` and `GEOM` of its
group part in lower case. -/
def exampleLowerDirectives : String :=
  "MSHX1\ngroups 1\nmaterial 1\ngeom 3 1\n0 0 0 0 0 1 0 0\n1 0 0 0 0 1 1 0\n0 1 0 0 0 1 0 1\n0 1 2\nMATERIALS 1\nm1\nMATERIAL m1\n1 1 1 1\n1 1 1 1\n1 1 1 1 5\n0 0 0 1\nTEXTURES 2\na.dds\nb.dds\n"

/-- The file `exampleReferences` with the block header `MATERIALS` in lower case. -/
def exampleLowerMaterials : String :=
  "MSHX1\nGROUPS 1\nMATERIAL 1\nGEOM 3 1\n0 0 0 0 0 1 0 0\n1 0 0 0 0 1 1 0\n0 1 0 0 0 1 0 1\n0 1 2\nmaterials 1\nm1\nMATERIAL m1\n1 1 1 1\n1 1 1 1\n1 1 1 1 5\n0 0 0 1\nTEXTURES 2\na.dds\nb.dds\n"

/-- The file `exampleReferences` with the block header `TEXTURES` in lower case. -/
def exampleLowerTextures : String :=
  "MSHX1\nGROUPS 1\nMATERIAL 1\nGEOM 3 1\n0 0 0 0 0 1 0 0\n1 0 0 0 0 1 1 0\n0 1 0 0 0 1 0 1\n0 1 2\nMATERIALS 1\nm1\nMATERIAL m1\n1 1 1 1\n1 1 1 1\n1 1 1 1 5\n0 0 0 1\ntextures 2\na.dds\nb.dds\n"

/-- A file with one group block without `NONORMAL`: the first vertex line holds the
five fields `x y z tu tv` with the texture coordinates `(3, 4)`, the second one five
fields with the texture coordinates `(0, 0)`, the third one all eight fields with the
normal `(0, 0, 5)`. -/
def exampleShortNormal : String :=
  "MSHX1\nGROUPS 1\nGEOM 3 1\n0 0 0 3 4\n1 0 0 0 0\n0 1 0 0 0 5 0 1\n0 1 2\n"

/-- A file with one group of one triangle whose three vertex lines hold eight fields,
without materials and textures. -/
def exampleTriangleFile : String :=
  "MSHX1\nGROUPS 1\nGEOM 3 1\n0 0 0 0 0 1 0 0\n1 0 0 0 0 1 1 0\n0 1 0 0 0 1 0 1\n0 1 2\n"

/-- A mesh with one group that names material 3 and texture 2 and carries the z-bias 5,
the flags 4 and the user flag 9; it has been set up with four materials and three
textures. -/
def exampleStyledMesh : Mesh Int :=
  { Mesh.new Int with
    Grp := [⟨[⟨0, 0, 0, 0, 0, 1, 0, 0⟩, ⟨1, 0, 0, 0, 0, 1, 1, 0⟩, ⟨0, 1, 0, 0, 0, 1, 0, 1⟩],
             [0, 1, 2], 3, 2, 9, 5, 4⟩],
    Mtrl := List.replicate 4 ⟨⟨1, 1, 1, 1⟩, ⟨1, 1, 1, 1⟩, ⟨1, 1, 1, 1⟩, ⟨0, 0, 0, 1⟩, 5⟩,
    nTex := 3, TexFiles := ["a.dds".toList, "b.dds".toList, "c.dds".toList],
    GrpSetup := true }

/-- A file that declares two groups: the first block holds `LABEL first` and the counts
`0 0`, the second block holds `LABEL second` and a complete triangle. -/
def exampleSkippedLabel : String :=
  "MSHX1\nGROUPS 2\nLABEL first\nGEOM 0 0\nLABEL second\nGEOM 3 1\n0 0 0 0 0 1 0 0\n1 0 0 0 0 1 1 0\n0 1 0 0 0 1 0 1\n0 1 2\n"

/-- The state of the group loop at the head of pass 0 of the load of
`exampleSkippedLabel` into a new mesh. -/
def exampleSkippedLabelState : LoopState Int :=
  { mesh := { (Mesh.new Int).Clear with Labels := [[], []] }, nidx := none,
    stream := ⟨(IStream.ofString exampleSkippedLabel).lines.drop 2, []⟩, term := false }

/-- The file `exampleSkippedLabel` with a complete triangle in its first block. -/
def exampleTwoLabels : String :=
  "MSHX1\nGROUPS 2\nLABEL first\nGEOM 3 1\n0 0 0 0 0 1 0 0\n1 0 0 0 0 1 1 0\n0 1 0 0 0 1 0 1\n0 1 2\nLABEL second\nGEOM 3 1\n0 0 0 0 0 1 0 0\n1 0 0 0 0 1 1 0\n0 1 0 0 0 1 0 1\n0 1 2\n"

/-- A mesh whose only group is a triangle and whose label array holds `first` and
`second`: the group and the labels the second pass of the load of
`exampleSkippedLabel` works on. -/
def exampleShiftedLabels : Mesh Int :=
  { Mesh.new Int with
    Grp := [⟨[⟨0, 0, 0, 0, 0, 1, 0, 0⟩, ⟨1, 0, 0, 0, 0, 1, 1, 0⟩, ⟨0, 1, 0, 0, 0, 1, 0, 1⟩],
             [0, 1, 2], SPEC_INHERIT, SPEC_INHERIT, 0, 0, 0⟩],
    Labels := ["first".toList, "second".toList] }

/-- The exact operations `exampleRatOps` with an arbitrary function `dv` as the division:
the value of a quotient by zero is left open. -/
def exampleDivOps (dv : ℚ → ℚ → ℚ) : FloatOps ℚ :=
  { exampleRatOps with div := dv }

/-! ## Vocabulary of the statements -/

/-- The references the sentinel invariant admits: a flag or an index below the count. -/
def validRef (idx n : Nat) : Prop := idx = SPEC_DEFAULT ∨ idx = SPEC_INHERIT ∨ idx < n

/-- The index list of a list of triangles: three indices per triangle, in order. -/
def triIndices : List (Nat × Nat × Nat) → List Nat
  | [] => []
  | p :: ps => p.1 :: p.2.1 :: p.2.2 :: triIndices ps

/-- A triangle with its second and third index exchanged. -/
def flipTri (p : Nat × Nat × Nat) : Nat × Nat × Nat := (p.1, p.2.2, p.2.1)

/-- The line is a `GEOM` line with the counts `v` and `t`: the keyword test succeeds
and `sscanf (cbuf+4, "%d%d", &nvtx, &ntri)` converts the two numerals. -/
def IsGeomLine (l : List Char) (v t : Nat) : Prop :=
  strnicmpEq l "GEOM" 4 = true ∧ scanDecs 2 (l.drop 4) = [(v : Int), (t : Int)]

/-- The line holds the three integers of the triangle `p`:
`sscanf (cbuf, "%hd%hd%hd", ...)` converts three numerals with these values. -/
def IsTriangleLine (l : List Char) (p : Nat × Nat × Nat) : Prop :=
  scanDecs 3 l = [(p.1 : Int), (p.2.1 : Int), (p.2.2 : Int)]

/-- The line is a directive line in front of the `GEOM` line: the keyword test for
`GEOM` fails on it. -/
def IsDirective (l : List Char) : Prop := strnicmpEq l "GEOM" 4 = false

/-- The line is no `FLIP` line: the keyword test for `FLIP` fails on it. -/
def NotFlip (l : List Char) : Prop := strnicmpEq l "FLIP" 4 = false

/-- The shadow bit `0x04` of a flag word. -/
def shadowBit (flag : Nat) : Bool := flag.testBit 2

/-- The vertices the loop `for (j = 0; j <= nseg; j++)` stores, in order, with `cnt`
passes left from `j` on. -/
def ringNodes {F : Type} (mk : Nat → NTVERTEX F) : Nat → Nat → List (NTVERTEX F)
  | 0, _ => []
  | cnt + 1, j => mk j :: ringNodes mk cnt (j + 1)

/-- The vertices the node generation stores, in order, with `cnt` passes of the outer
loop left from `i` on. -/
def nodeList {F : Type} (ops : PatchOps F) (nlng nlat ilat res bseg : Int)
    (reduce outside : Bool) : Nat → Nat → List (NTVERTEX F)
  | 0, _ => []
  | cnt + 1, i =>
    ringNodes (fun j => patchVertex ops nlng nlat ilat res outside i j
        (if reduce then toInt32 (bseg - (i : Int)) else bseg))
      ((if reduce then toInt32 (bseg - (i : Int)) else bseg) + 1).toNat 0
    ++ nodeList ops nlng nlat ilat res bseg reduce outside cnt (i + 1)

/-- The indices the loop `for (j = 0; j < nseg; j++)` of the face generation stores, in
order, with `cnt` passes left from `j` on. -/
def faceRowList (reduce : Bool) (nseg nofs0 nofs1 : Int) : Nat → Nat → List Nat
  | 0, _ => []
  | cnt + 1, j =>
    [toWord (nofs0 + j), toWord (nofs1 + j), toWord (nofs0 + j + 1)] ++
      (if reduce && decide ((j : Int) = nseg - 1) then []
       else [toWord (nofs0 + j + 1), toWord (nofs1 + j), toWord (nofs1 + j + 1)] ++
         faceRowList reduce nseg nofs0 nofs1 cnt (j + 1))

/-- The indices the face generation stores, in order, with `cnt` passes of the outer
loop left from `i` on. -/
def faceList (bseg : Int) (reduce : Bool) : Nat → Nat → Int → List Nat
  | 0, _, _ => []
  | cnt + 1, i, nofs0 =>
    faceRowList reduce (if reduce then toInt32 (bseg - (i : Int)) else bseg) nofs0
        (toInt32 (nofs0 + (if reduce then toInt32 (bseg - (i : Int)) else bseg) + 1))
        (if reduce then toInt32 (bseg - (i : Int)) else bseg).toNat 0
    ++ faceList bseg reduce cnt (i + 1)
        (toInt32 (nofs0 + (if reduce then toInt32 (bseg - (i : Int)) else bseg) + 1))

/-- The frame of the normal synthesis between a vertex list `orig` and a later vertex
list `cur`: the lists have the same length, each vertex keeps its position and its
texture coordinates, and a vertex whose flag in `flags` is clear is unchanged. -/
def VertexFrame {F : Type} (flags : List Bool) (orig cur : List (NTVERTEX F)) : Prop :=
  cur.length = orig.length ∧
  ∀ (k : Nat) (v v1 : NTVERTEX F), orig[k]? = some v → cur[k]? = some v1 →
    v1.x = v.x ∧ v1.y = v.y ∧ v1.z = v.z ∧ v1.tu = v.tu ∧ v1.tv = v.tv ∧
    (flags[k]? = some false → v1 = v)

/-- The test `nx*nx + ny*ny + nz*nz > 0.1f` on the normal of a vertex. -/
def hasNormal {F : Type} (ops : FloatOps F) (v : NTVERTEX F) : Bool :=
  ops.gt (ops.add (ops.add (ops.mul v.nx v.nx) (ops.mul v.ny v.ny)) (ops.mul v.nz v.nz))
    ops.tenth

/-- Exact arithmetic: the operations of `ops` are those of the ordered field `F` (with the
guarded division of the field, `a / 0 = 0`), the comparisons are those of the order, the
square root is exact on squares, and the literal `0.1f` is not negative. -/
structure ExactOps {F : Type} [LinearOrderedField F] (ops : FloatOps F) : Prop where
  zero : ops.zero = 0
  add : ∀ a b, ops.add a b = a + b
  sub : ∀ a b, ops.sub a b = a - b
  mul : ∀ a b, ops.mul a b = a * b
  div : ∀ a b, ops.div a b = a / b
  gt : ∀ a b, ops.gt a b = decide (b < a)
  ge : ∀ a b, ops.ge a b = decide (b ≤ a)
  sqrt : ∀ a, 0 ≤ a → ops.sqrt (a * a) = a
  tenth : 0 ≤ ops.tenth

/-- The cross product `cross (V1 - V0, V2 - V0)` of the triangle `(v0, v1, v2)` in the
arithmetic of the field. -/
def faceCross {F : Type} [Field F] (v0 v1 v2 : NTVERTEX F) : D3DVECTOR F :=
  ⟨(v1.y - v0.y) * (v2.z - v0.z) - (v1.z - v0.z) * (v2.y - v0.y),
   (v1.z - v0.z) * (v2.x - v0.x) - (v1.x - v0.x) * (v2.z - v0.z),
   (v1.x - v0.x) * (v2.y - v0.y) - (v1.y - v0.y) * (v2.x - v0.x)⟩

/-- The three interior-angle weights the triangle loop of `CalcNormals` computes for the
triangle `(v0, v1, v2)`, at `v0`, `v1` and `v2`. -/
def cornerWeights {F : Type} (ops : FloatOps F) (v0 v1 v2 : NTVERTEX F) : F × F × F :=
  let V01 : D3DVECTOR F := ⟨ops.sub v1.x v0.x, ops.sub v1.y v0.y, ops.sub v1.z v0.z⟩
  let V02 : D3DVECTOR F := ⟨ops.sub v2.x v0.x, ops.sub v2.y v0.y, ops.sub v2.z v0.z⟩
  let V12 : D3DVECTOR F := ⟨ops.sub v2.x v1.x, ops.sub v2.y v1.y, ops.sub v2.z v1.z⟩
  let d01 := D3DMath_Length ops V01
  let d02 := D3DMath_Length ops V02
  let d12 := D3DMath_Length ops V12
  (cornerAngle ops d01 d02 d12, cornerAngle ops d01 d12 d02, cornerAngle ops d02 d12 d01)

/-- The vertex `v` with the normal `n`. -/
def withNormal {F : Type} (v : NTVERTEX F) (n : D3DVECTOR F) : NTVERTEX F :=
  { v with nx := n.x, ny := n.y, nz := n.z }

/-- The triangles of segment `j` of a ring pair with `nseg` segments whose rings start at
the vertices `nofs0` and `nofs1`, three indices each, by the amended rule: two
triangles, and only the first of them for the last segment of the pair. Indices are
stored as 16-bit words. -/
def reducedSegment (nseg nofs0 nofs1 j : Nat) : List Nat :=
  [(nofs0 + j) % 65536, (nofs1 + j) % 65536, (nofs0 + j + 1) % 65536] ++
    (if j + 1 = nseg then []
     else [(nofs0 + j + 1) % 65536, (nofs1 + j) % 65536, (nofs1 + j + 1) % 65536])

/-- The 12 position bytes of a vertex in the output. -/
def positionBytes {F : Type} (eo : ExportOps F) (v : NTVERTEX F) : List Nat :=
  eo.floatBytes v.x ++ eo.floatBytes v.y ++ eo.floatBytes v.z

/-- The 12 normal bytes of a vertex in the output. -/
def normalBytes {F : Type} (eo : ExportOps F) (v : NTVERTEX F) : List Nat :=
  eo.floatBytes v.nx ++ eo.floatBytes v.ny ++ eo.floatBytes v.nz

/-- The 8 texture coordinate bytes of a vertex in the output. -/
def texcoordBytes {F : Type} (eo : ExportOps F) (v : NTVERTEX F) : List Nat :=
  eo.floatBytes v.tu ++ eo.floatBytes v.tv

/-- The vertex data of the output format for the vertices `vs`: with `flatten` one
record position|normal|texcoord per vertex, otherwise all positions, then all normals,
then all texture coordinates. -/
def vertexData {F : Type} (eo : ExportOps F) (flatten : Bool) (vs : List (NTVERTEX F)) :
    List Nat :=
  if flatten then
    vs.flatMap (fun v => positionBytes eo v ++ normalBytes eo v ++ texcoordBytes eo v)
  else
    vs.flatMap (positionBytes eo) ++ vs.flatMap (normalBytes eo)
      ++ vs.flatMap (texcoordBytes eo)

/-- The group record of the output format for the group `g` with the label `label`: the
length of the label with its terminator, the label, the material index, the texture
index, the flags, the user flags, the z-bias, the vertex count and the index count as
32-bit words, the vertex data, and one 32-bit word per index. -/
def groupRecord {F : Type} (eo : ExportOps F) (flatten : Bool) (g : GroupSpec F)
    (label : List Char) : List Nat :=
  le32 ((label.length : Int) + 1) ++ cstrBytes label ++ le32 g.MtrlIdx ++ le32 g.TexIdx
    ++ le32 g.Flags ++ le32 g.UsrFlag ++ le32 g.zBias ++ le32 g.Vtx.length
    ++ le32 g.Idx.length ++ vertexData eo flatten g.Vtx
    ++ g.Idx.flatMap (fun i => le32 ((i % 65536 : Nat) : Int))

/-- The 56 bytes of the fixed fields of a material in the output format: diffuse RGBA,
ambient RGB, specular RGB, emissive RGB, power. -/
def materialFields {F : Type} (eo : ExportOps F) (mat : Material F) : List Nat :=
  eo.floatBytes mat.diffuse.r ++ eo.floatBytes mat.diffuse.g ++ eo.floatBytes mat.diffuse.b
    ++ eo.floatBytes mat.diffuse.a
    ++ eo.floatBytes mat.ambient.r ++ eo.floatBytes mat.ambient.g ++ eo.floatBytes mat.ambient.b
    ++ eo.floatBytes mat.specular.r ++ eo.floatBytes mat.specular.g
    ++ eo.floatBytes mat.specular.b
    ++ eo.floatBytes mat.emissive.r ++ eo.floatBytes mat.emissive.g
    ++ eo.floatBytes mat.emissive.b
    ++ eo.floatBytes mat.power

/-- The material record of the output format: with `names` the 32-bit length of the name
with its terminator and the terminated name, then the fixed fields. -/
def materialRecord {F : Type} (eo : ExportOps F) (names : Bool) (mat : Material F)
    (name : List Char) : List Nat :=
  (if names then le32 ((name.length : Int) + 1) ++ cstrBytes name else [])
    ++ materialFields eo mat

/-- The index of the last `.` of a path from position `i` on, `none` when there is none. -/
def lastDot : Nat → List Char → Option Nat
  | _, [] => none
  | i, c :: cs =>
    match lastDot (i + 1) cs with
    | some k => some k
    | none => if c = '.' then some i else none

/-- The output path by the words of the claim: `.cmsh` appended to a path without a
`.`, otherwise the part after the last `.` replaced by `cmsh`. -/
def claimedOutput (inputFile : List Char) : List Char :=
  match lastDot 0 inputFile with
  | none => inputFile ++ ".cmsh".toList
  | some k => inputFile.take (k + 1) ++ "cmsh".toList

/-- The segment count of ring `i` of a patch with `b` base segments: `bseg - i` in
reduced mode, `bseg` otherwise. -/
def ringSegments (reduce : Bool) (b i : Nat) : Nat := if reduce then b - i else b

/-- The index of the first vertex of ring `i` of a patch with `b` base segments: ring
`r` has `ringSegments reduce b r + 1` vertices. -/
def ringOffset (reduce : Bool) (b : Nat) : Nat → Nat
  | 0 => 0
  | i + 1 => ringOffset reduce b i + ringSegments reduce b i + 1

/-- The vertex count by the formula that sizes the vertex buffer:
`(bseg+1)*(res+1)`, in reduced mode less `((res+1)*res)/2`. -/
def patchVertexCount (reduce : Bool) (b res : Nat) : Nat :=
  if reduce then (b + 1) * (res + 1) - (res + 1) * res / 2 else (b + 1) * (res + 1)

/-- The triangle `t` joins ring `i` with ring `i + 1` only: each of its three indices is
a vertex of ring `i` or of ring `i + 1`, and both rings hold one of them. -/
def JoinsRings (reduce : Bool) (b i : Nat) (t : Nat × Nat × Nat) : Prop :=
  (∀ x ∈ [t.1, t.2.1, t.2.2],
      ringOffset reduce b i ≤ x ∧ x < ringOffset reduce b (i + 2))
  ∧ (∃ x ∈ [t.1, t.2.1, t.2.2], x < ringOffset reduce b (i + 1))
  ∧ (∃ x ∈ [t.1, t.2.1, t.2.2], ringOffset reduce b (i + 1) ≤ x)

/-- The number of triangles of the ring pair `i`: two per segment, in reduced mode one
less. -/
def ringTriangles (reduce : Bool) (b i : Nat) : Nat :=
  if reduce then 2 * ringSegments reduce b i - 1 else 2 * ringSegments reduce b i

/-- The number of triangles of the `cnt` ring pairs from `i` on. -/
def patchTriangles (reduce : Bool) (b : Nat) : Nat → Nat → Nat
  | 0, _ => 0
  | cnt + 1, i => ringTriangles reduce b i + patchTriangles reduce b cnt (i + 1)

/-- The vector `acc + nm * a`, component by component. -/
def addWeighted {F : Type} (ops : FloatOps F) (acc nm : D3DVECTOR F) (a : F) : D3DVECTOR F :=
  ⟨ops.add acc.x (ops.mul nm.x a), ops.add acc.y (ops.mul nm.y a),
   ops.add acc.z (ops.mul nm.z a)⟩

/-- The face normal of the triangle with the corners `p0`, `p1`, `p2`: the cross product
of the edge vectors from `p0` to `p1` and from `p0` to `p2`, not normalised. -/
def faceNormal {F : Type} (ops : FloatOps F) (p0 p1 p2 : NTVERTEX F) : D3DVECTOR F :=
  D3DMath_CrossProduct ops ⟨ops.sub p1.x p0.x, ops.sub p1.y p0.y, ops.sub p1.z p0.z⟩
    ⟨ops.sub p2.x p0.x, ops.sub p2.y p0.y, ops.sub p2.z p0.z⟩

/-- What the triangle with the corners `p0`, `p1`, `p2` at the indices `i0`, `i1`, `i2`
contributes to the vector `acc` accumulated for vertex `k`: nothing when the length of its
face normal is below the threshold; otherwise, for each corner that is vertex `k`, the
face normal of unit length weighted by the interior angle at that corner. -/
def cornerContribution {F : Type} (ops : FloatOps F) (k : Nat) (acc : D3DVECTOR F)
    (i0 i1 i2 : Nat) (p0 p1 p2 : NTVERTEX F) : D3DVECTOR F :=
  let nm := faceNormal ops p0 p1 p2
  let len := D3DMath_Length ops nm
  if ops.ge len ops.eps then
    let unit : D3DVECTOR F := ⟨ops.div nm.x len, ops.div nm.y len, ops.div nm.z len⟩
    let w := cornerWeights ops p0 p1 p2
    let a0 := if i0 = k then addWeighted ops acc unit w.1 else acc
    let a1 := if i1 = k then addWeighted ops a0 unit w.2.1 else a0
    if i2 = k then addWeighted ops a1 unit w.2.2 else a1
  else acc

/-- The contribution of the triangle `(i0, i1, i2)` of the vertex list `vtx` to the vector
accumulated for vertex `k`. -/
def triContribution {F : Type} (ops : FloatOps F) (vtx : List (NTVERTEX F)) (k : Nat)
    (acc : D3DVECTOR F) (i0 i1 i2 : Nat) : D3DVECTOR F :=
  match vtx[i0]? with
  | none => acc
  | some p0 =>
    match vtx[i1]? with
    | none => acc
    | some p1 =>
      match vtx[i2]? with
      | none => acc
      | some p2 => cornerContribution ops k acc i0 i1 i2 p0 p1 p2

/-- The vector accumulated for vertex `k` over the triangles of the index list, in their
order, from `acc` on. -/
def accumulatedNormal {F : Type} (ops : FloatOps F) (vtx : List (NTVERTEX F)) (k : Nat) :
    List Nat → D3DVECTOR F → D3DVECTOR F
  | i0 :: i1 :: i2 :: rest, acc =>
    accumulatedNormal ops vtx k rest (triContribution ops vtx k acc i0 i1 i2)
  | _, acc => acc

/-- The recomputed normal of vertex `k` of a group with the vertices `vtx` and the index
list `idx`: the angle-weighted sum of the unit face normals of the triangles that have
`k` as a corner, started at zero, divided by its length. -/
def synthesisedNormal {F : Type} (ops : FloatOps F) (vtx : List (NTVERTEX F)) (idx : List Nat)
    (k : Nat) : D3DVECTOR F :=
  let n := accumulatedNormal ops vtx k idx ⟨ops.zero, ops.zero, ops.zero⟩
  let len := D3DMath_Length ops n
  ⟨ops.div n.x len, ops.div n.y len, ops.div n.z len⟩

/-- The vertex buffer during the triangle loop of `CalcNormals`: it has the length of the
original buffer `orig`, a flagged vertex is the original vertex with the vector `accs k`
as its normal, and every other vertex is the original vertex. -/
def NormalState {F : Type} (flags : List Bool) (orig cur : List (NTVERTEX F))
    (accs : Nat → D3DVECTOR F) : Prop :=
  cur.length = orig.length ∧
  ∀ (k : Nat) (v : NTVERTEX F), orig[k]? = some v →
    cur[k]? = some (if flags[k]? = some true then withNormal v (accs k) else v)

/-! ## Helper lemmas -/

theorem copySkip_eq_eraseIdx {α : Type} (skip : Nat) (l : List α) :
    ∀ i, i ≤ skip → copySkip skip i l = l.eraseIdx (skip - i) := by
  induction l with
  | nil => intro i _; simp [copySkip]
  | cons a as ih =>
    intro i hi
    by_cases h : i = skip
    · subst h; simp [copySkip]
      clear ih hi
      -- nothing is skipped from here on
      have key : ∀ (bs : List α) (j : Nat), i < j → copySkip i j bs = bs := by
        intro bs
        induction bs with
        | nil => intro j _; simp [copySkip]
        | cons b bs ihb =>
          intro j hj
          have : j ≠ i := by omega
          simp [copySkip, this, ihb (j + 1) (by omega)]
      exact key as (i + 1) (by omega)
    · have hlt : i < skip := by omega
      have e : skip - i = (skip - (i + 1)) + 1 := by omega
      simp [copySkip, h, ih (i + 1) (by omega)]
      rw [e, List.eraseIdx_cons_succ]

theorem checkIdx_cases (idx n : Nat) :
    (idx = SPEC_INHERIT → checkIdx idx n = SPEC_INHERIT) ∧
    (idx < n → checkIdx idx n = idx) ∧
    (idx ≠ SPEC_INHERIT → ¬ idx < n → checkIdx idx n = SPEC_DEFAULT) := by
  unfold checkIdx
  refine ⟨?_, ?_, ?_⟩
  · intro h; simp [h]
  · intro h
    have : ¬ n ≤ idx := by omega
    simp [this]
  · intro h1 h2
    have : n ≤ idx := by omega
    simp [h1, this]

theorem toInt32_of_range (v : Int) (h0 : -2147483648 ≤ v) (h1 : v < 2147483648) :
    toInt32 v = v := by
  unfold toInt32
  omega

theorem map_take_head {α β : Type} [DecidableEq β] (f : α → β) (l k : List α) (n : Nat)
    (h : ((l.take (n + 1)).map f == (k.take (n + 1)).map f) = true) :
    l.head?.map f = k.head?.map f := by
  have e := eq_of_beq h
  cases l with
  | nil =>
    cases k with
    | nil => rfl
    | cons c cs => simp at e
  | cons a as =>
    cases k with
    | nil => simp at e
    | cons c cs =>
      simp only [List.take_succ_cons, List.map_cons, List.cons.injEq] at e
      simp [e.1]

theorem strnicmpEq_head (l : List Char) (kw : String) (n : Nat)
    (h : strnicmpEq l kw (n + 1) = true) :
    l.head?.map lowerAscii = kw.toList.head?.map lowerAscii :=
  map_take_head lowerAscii l kw.toList n h

/-- A line on which the keyword test for `GEOM` succeeds fails the keyword tests in
front of it in the directive loop. -/
theorem geom_line_other_keywords (l : List Char) (h : strnicmpEq l "GEOM" 4 = true) :
    strnicmpEq l "MATERIAL" 8 = false ∧ strnicmpEq l "TEXTURE" 7 = false ∧
    strnicmpEq l "ZBIAS" 5 = false ∧ strnicmpEq l "TEXWRAP" 7 = false ∧
    strnicmpEq l "NONORMAL" 8 = false ∧ strnicmpEq l "FLAG" 4 = false ∧
    strnicmpEq l "FLIP" 4 = false ∧ strnicmpEq l "LABEL" 5 = false ∧
    strnicmpEq l "STATIC" 6 = false ∧ strnicmpEq l "DYNAMIC" 7 = false := by
  have hg := strnicmpEq_head l "GEOM" 3 h
  have key : ∀ (kw : String) (n : Nat),
      kw.toList.head?.map lowerAscii ≠ "GEOM".toList.head?.map lowerAscii →
      strnicmpEq l kw (n + 1) = false := by
    intro kw n hne
    cases hb : strnicmpEq l kw (n + 1) with
    | false => rfl
    | true =>
      exfalso
      apply hne
      rw [← strnicmpEq_head l kw n hb, hg]
  refine ⟨key _ 7 (by decide), key _ 6 (by decide), key _ 4 (by decide), key _ 6 (by decide),
    key _ 7 (by decide), key _ 3 (by decide), key _ 3 (by decide), key _ 4 (by decide),
    key _ 5 (by decide), key _ 6 (by decide)⟩

/-- Directive lines in front of the `GEOM` line are consumed by the directive loop one
by one; they leave the length of the label array as it was, and `flipidx` too when no
`FLIP` line is among them. -/
theorem readBlock_directives {F : Type} (ops : FloatOps F) (g : Nat) (nidx0 : Option Int)
    (res : List Char) (dirs : List (List Char)) (hd : ∀ l ∈ dirs, IsDirective l) :
    ∀ (v : BlockVars) (lab : List (List Char)), g < lab.length →
      ∃ (v1 : BlockVars) (lab1 : List (List Char)),
        ((∀ l ∈ dirs, NotFlip l) → v1.flipidx = v.flipidx) ∧ lab1.length = lab.length ∧
        ∀ tail, readBlock ops g nidx0 res v lab (dirs ++ tail)
          = readBlock ops g nidx0 res v1 lab1 tail := by
  induction dirs with
  | nil => intro v lab _; exact ⟨v, lab, fun _ => rfl, rfl, fun _ => rfl⟩
  | cons l ls ih =>
    intro v lab hg
    have hl := hd l (List.mem_cons_self _ _)
    have ih1 := ih (fun x hx => hd x (List.mem_cons_of_mem _ hx))
    have step : ∃ (v0 : BlockVars) (lab0 : List (List Char)),
        (NotFlip l → v0.flipidx = v.flipidx) ∧ lab0.length = lab.length ∧
        ∀ tail, readBlock ops g nidx0 res v lab (l :: (ls ++ tail))
          = readBlock ops g nidx0 res v0 lab0 (ls ++ tail) := by
      by_cases h1 : strnicmpEq l "MATERIAL" 8 = true
      · refine ⟨?_, ?_, ?_, ?_, fun tail => ?_⟩
        pick_goal 5
        · first
          | (rw [readBlock, if_pos h1]; done)
          | (rw [readBlock, if_pos h1]; exact rfl)
        · intro _; rfl
        · rfl
      by_cases h2 : strnicmpEq l "TEXTURE" 7 = true
      · refine ⟨?_, ?_, ?_, ?_, fun tail => ?_⟩
        pick_goal 5
        · first
          | (rw [readBlock, if_neg h1, if_pos h2]; done)
          | (rw [readBlock, if_neg h1, if_pos h2]; exact rfl)
        · intro _; rfl
        · rfl
      by_cases h3 : strnicmpEq l "ZBIAS" 5 = true
      · refine ⟨?_, ?_, ?_, ?_, fun tail => ?_⟩
        pick_goal 5
        · first
          | (rw [readBlock, if_neg h1, if_neg h2, if_pos h3]; done)
          | (rw [readBlock, if_neg h1, if_neg h2, if_pos h3]; exact rfl)
        · intro _; rfl
        · rfl
      by_cases h4 : strnicmpEq l "TEXWRAP" 7 = true
      · refine ⟨?_, ?_, ?_, ?_, fun tail => ?_⟩
        pick_goal 5
        · first
          | (rw [readBlock, if_neg h1, if_neg h2, if_neg h3, if_pos h4]; done)
          | (rw [readBlock, if_neg h1, if_neg h2, if_neg h3, if_pos h4]; exact rfl)
        · intro _; rfl
        · rfl
      by_cases h5 : strnicmpEq l "NONORMAL" 8 = true
      · refine ⟨?_, ?_, ?_, ?_, fun tail => ?_⟩
        pick_goal 5
        · first
          | (rw [readBlock, if_neg h1, if_neg h2, if_neg h3, if_neg h4, if_pos h5]; done)
          | (rw [readBlock, if_neg h1, if_neg h2, if_neg h3, if_neg h4, if_pos h5]; exact rfl)
        · intro _; rfl
        · rfl
      by_cases h6 : strnicmpEq l "FLAG" 4 = true
      · refine ⟨?_, ?_, ?_, ?_, fun tail => ?_⟩
        pick_goal 5
        · first
          | (rw [readBlock, if_neg h1, if_neg h2, if_neg h3, if_neg h4, if_neg h5, if_pos h6]; done)
          | (rw [readBlock, if_neg h1, if_neg h2, if_neg h3, if_neg h4, if_neg h5, if_pos h6]; exact rfl)
        · intro _; rfl
        · rfl
      by_cases h7 : strnicmpEq l "FLIP" 4 = true
      · refine ⟨?_, ?_, ?_, ?_, fun tail => ?_⟩
        pick_goal 5
        · first
          | (rw [readBlock, if_neg h1, if_neg h2, if_neg h3, if_neg h4, if_neg h5, if_neg h6, if_pos h7]; done)
          | (rw [readBlock, if_neg h1, if_neg h2, if_neg h3, if_neg h4, if_neg h5, if_neg h6, if_pos h7]; exact rfl)
        · intro hn; unfold NotFlip at hn; rw [hn] at h7; cases h7
        · rfl
      by_cases h8 : strnicmpEq l "LABEL" 5 = true
      · cases hsc : scanStr 255 (List.drop 5 l) with
        | none =>
          refine ⟨v, lab, fun _ => rfl, rfl, fun tail => ?_⟩
          rw [readBlock, if_neg h1, if_neg h2, if_neg h3, if_neg h4, if_neg h5, if_neg h6,
            if_neg h7, if_pos h8, hsc]
        | some p =>
          refine ⟨v, lab.set g p.1, fun _ => rfl, by simp, fun tail => ?_⟩
          rw [readBlock, if_neg h1, if_neg h2, if_neg h3, if_neg h4, if_neg h5, if_neg h6,
            if_neg h7, if_pos h8, hsc]
          simp only [hg, if_true]
      by_cases h9 : strnicmpEq l "STATIC" 6 = true
      · refine ⟨?_, ?_, ?_, ?_, fun tail => ?_⟩
        pick_goal 5
        · first
          | (rw [readBlock, if_neg h1, if_neg h2, if_neg h3, if_neg h4, if_neg h5, if_neg h6, if_neg h7, if_neg h8, if_pos h9]; done)
          | (rw [readBlock, if_neg h1, if_neg h2, if_neg h3, if_neg h4, if_neg h5, if_neg h6, if_neg h7, if_neg h8, if_pos h9]; exact rfl)
        · intro _; rfl
        · rfl
      by_cases h10 : strnicmpEq l "DYNAMIC" 7 = true
      · refine ⟨?_, ?_, ?_, ?_, fun tail => ?_⟩
        pick_goal 5
        · first
          | (rw [readBlock, if_neg h1, if_neg h2, if_neg h3, if_neg h4, if_neg h5, if_neg h6, if_neg h7, if_neg h8, if_neg h9, if_pos h10]; done)
          | (rw [readBlock, if_neg h1, if_neg h2, if_neg h3, if_neg h4, if_neg h5, if_neg h6, if_neg h7, if_neg h8, if_neg h9, if_pos h10]; exact rfl)
        · intro _; rfl
        · rfl
      have h11 : ¬ strnicmpEq l "GEOM" 4 = true := by unfold IsDirective at hl; simp [hl]
      refine ⟨?_, ?_, ?_, ?_, fun tail => ?_⟩
      pick_goal 5
      · first
          | (rw [readBlock, if_neg h1, if_neg h2, if_neg h3, if_neg h4, if_neg h5, if_neg h6, if_neg h7, if_neg h8, if_neg h9, if_neg h10, if_neg h11]; done)
          | (rw [readBlock, if_neg h1, if_neg h2, if_neg h3, if_neg h4, if_neg h5, if_neg h6, if_neg h7, if_neg h8, if_neg h9, if_neg h10, if_neg h11]; exact rfl)
      · intro _; rfl
      · rfl
    obtain ⟨v0, lab0, hf0, hl0, hs0⟩ := step
    obtain ⟨v1, lab1, hf1, hl1, hs1⟩ := ih1 v0 lab0 (hl0 ▸ hg)
    exact ⟨v1, lab1, fun hn => (hf1 (fun x hx => hn x (List.mem_cons_of_mem _ hx))).trans
        (hf0 (hn l (List.mem_cons_self _ _))), hl1.trans hl0, fun tail => by
      rw [List.cons_append, hs0 tail, hs1 tail]⟩

theorem toWord_of_lt (a : Nat) (h : a < 65536) : toWord (a : Int) = a := by
  unfold toWord
  omega

theorem triIndices_length (tris : List (Nat × Nat × Nat)) :
    (triIndices tris).length = 3 * tris.length := by
  induction tris with
  | nil => rfl
  | cons p ps ih => simp only [triIndices, List.length_cons, ih]; omega

theorem triIndices_bound (tris : List (Nat × Nat × Nat)) (v : Nat)
    (h : ∀ p ∈ tris, p.1 < v ∧ p.2.1 < v ∧ p.2.2 < v) :
    ∀ i ∈ triIndices tris, i < v := by
  induction tris with
  | nil => intro i hi; simp [triIndices] at hi
  | cons p ps ih =>
    intro i hi
    have hp := h p (List.mem_cons_self _ _)
    simp only [triIndices, List.mem_cons] at hi
    rcases hi with rfl | rfl | rfl | hi
    · exact hp.1
    · exact hp.2.1
    · exact hp.2.2
    · exact ih (fun q hq => h q (List.mem_cons_of_mem _ hq)) i hi

theorem readVertices_complete {F : Type} (ops : FloatOps F) (bnormal : Bool) (res : List Char)
    (rest : List (List Char)) :
    ∀ (vlines : List (List Char)) (c : Bool),
      ∃ (vs : List (NTVERTEX F)) (c1 : Bool),
        readVertices ops bnormal res vlines.length c (vlines ++ rest) = (some vs, c1, ⟨rest, res⟩) ∧
        vs.length = vlines.length := by
  intro vlines
  induction vlines with
  | nil => intro c; exact ⟨[], c, rfl, rfl⟩
  | cons l ls ih =>
    intro c
    obtain ⟨vs, c1, h1, h2⟩ :=
      ih (c || (bnormal && decide ((scanFloats ops (if bnormal then 8 else 5) l).length < 6)))
    refine ⟨assignFields (if bnormal then vertexTargets8 else vertexTargets5) (zeroVertex ops)
        (scanFloats ops (if bnormal then 8 else 5) l) :: vs, c1, ?_, by simp [h2]⟩
    show readVertices ops bnormal res (ls.length + 1) c (l :: (ls ++ rest)) = _
    rw [readVertices]
    simp only [h1, Option.map_some']

theorem set_append_length {α : Type} (done : List α) (z v : α) (tl : List α) :
    (done ++ z :: tl).set done.length v = done ++ v :: tl := by
  induction done with
  | nil => rfl
  | cons d ds ih => simp [List.set, ih]

theorem writeIdx_append (vals : List Nat) :
    ∀ (done zs post : List Nat), zs.length = vals.length →
      writeIdx (done ++ zs ++ post) done.length vals = some (done ++ vals ++ post) := by
  induction vals with
  | nil =>
    intro done zs post h
    have : zs = [] := List.length_eq_zero.mp h
    subst this
    simp [writeIdx]
  | cons v vs ih =>
    intro done zs post h
    cases zs with
    | nil => simp at h
    | cons z zs1 =>
      have hlen : done.length < (done ++ z :: zs1 ++ post).length := by
        simp only [List.length_append, List.length_cons]; omega
      rw [writeIdx, if_pos hlen]
      have e1 : (done ++ z :: zs1 ++ post).set done.length v = (done ++ [v]) ++ zs1 ++ post := by
        have e0 : done ++ z :: zs1 ++ post = done ++ z :: (zs1 ++ post) := by simp
        rw [e0, set_append_length]
        simp
      have e2 : done.length + 1 = (done ++ [v]).length := by simp
      rw [e1, e2, ih (done ++ [v]) zs1 post (by simpa using h)]
      simp only [List.append_assoc, List.singleton_append]

theorem readTriangles_complete (res : List Char) (rest : List (List Char))
    (tlines : List (List Char)) (tris : List (Nat × Nat × Nat))
    (h : List.Forall₂ IsTriangleLine tlines tris)
    (hw : ∀ p ∈ tris, p.1 < 65536 ∧ p.2.1 < 65536 ∧ p.2.2 < 65536) :
    ∀ (done : List Nat),
      readTriangles res tlines.length done.length
          (done ++ List.replicate (3 * tlines.length) 0) (tlines ++ rest)
        = some (some (done ++ triIndices tris), ⟨rest, res⟩) := by
  induction h with
  | nil => intro done; simp [readTriangles, triIndices]
  | @cons l p ls ps hlp _ ih =>
    intro done
    have hp := hw p (List.mem_cons_self _ _)
    have hvals : (scanDecs 3 l).map toWord = [p.1, p.2.1, p.2.2] := by
      rw [hlp]
      simp [toWord_of_lt _ hp.1, toWord_of_lt _ hp.2.1, toWord_of_lt _ hp.2.2]
    have hbuf : done ++ List.replicate (3 * (l :: ls).length) 0
        = done ++ [0, 0, 0] ++ List.replicate (3 * ls.length) 0 := by
      have : 3 * (l :: ls).length = 3 + 3 * ls.length := by simp; omega
      rw [this, List.replicate_add]
      simp [List.replicate]
    show readTriangles res (ls.length + 1) done.length
        (done ++ List.replicate (3 * (l :: ls).length) 0) (l :: (ls ++ rest)) = _
    rw [readTriangles, hvals, hbuf, writeIdx_append [p.1, p.2.1, p.2.2] done [0, 0, 0] _ rfl]
    have e : done.length + 3 = (done ++ [p.1, p.2.1, p.2.2]).length := by simp
    show readTriangles res ls.length (done.length + 3)
        (done ++ [p.1, p.2.1, p.2.2] ++ List.replicate (3 * ls.length) 0) (ls ++ rest) = _
    rw [e, ih (fun q hq => hw q (List.mem_cons_of_mem _ hq)) (done ++ [p.1, p.2.1, p.2.2])]
    simp [triIndices]

theorem swapAt_triangle (pre : List Nat) (a b c : Nat) (tl : List Nat) :
    swapAt (pre ++ a :: b :: c :: tl) (pre.length + 1) (pre.length + 2)
      = some (pre ++ a :: c :: b :: tl) := by
  have g1 : (pre ++ a :: b :: c :: tl)[pre.length + 1]? = some b := by
    rw [List.getElem?_append_right (by omega)]
    simp
  have g2 : (pre ++ a :: b :: c :: tl)[pre.length + 2]? = some c := by
    rw [List.getElem?_append_right (by omega)]
    simp
  unfold swapAt
  rw [g1, g2]
  simp only [Option.some.injEq]
  have s1 : (pre ++ a :: b :: c :: tl).set (pre.length + 1) c = pre ++ a :: c :: c :: tl := by
    have e1 : pre ++ a :: b :: c :: tl = (pre ++ [a]) ++ b :: (c :: tl) := by simp
    have e2 : pre.length + 1 = (pre ++ [a]).length := by simp
    rw [e1, e2, set_append_length]
    simp
  have s2 : (pre ++ a :: c :: c :: tl).set (pre.length + 2) b = pre ++ a :: c :: b :: tl := by
    have e1 : pre ++ a :: c :: c :: tl = (pre ++ [a, c]) ++ c :: tl := by simp
    have e2 : pre.length + 2 = (pre ++ [a, c]).length := by simp
    rw [e1, e2, set_append_length]
    simp
  rw [s1, s2]

theorem flipLoop_triangles (tris : List (Nat × Nat × Nat)) :
    ∀ (i : Nat) (pre : List Nat), pre.length = i * 3 →
      flipLoop tris.length i (pre ++ triIndices tris)
        = some (pre ++ triIndices (tris.map flipTri)) := by
  induction tris with
  | nil => intro i pre _; simp [flipLoop, triIndices]
  | cons p ps ih =>
    intro i pre hpre
    simp only [List.length_cons, flipLoop, triIndices, List.map_cons, flipTri]
    rw [← hpre, swapAt_triangle]
    simp only [Option.bind]
    have e : pre ++ p.1 :: p.2.2 :: p.2.1 :: triIndices ps
        = (pre ++ [p.1, p.2.2, p.2.1]) ++ triIndices ps := by simp
    rw [e, ih (i + 1) (pre ++ [p.1, p.2.2, p.2.1]) (by simp; omega)]
    simp [flipTri]

theorem flipTri_bound (tris : List (Nat × Nat × Nat)) (v : Nat)
    (h : ∀ p ∈ tris, p.1 < v ∧ p.2.1 < v ∧ p.2.2 < v) :
    ∀ p ∈ tris.map flipTri, p.1 < v ∧ p.2.1 < v ∧ p.2.2 < v := by
  intro p hp
  obtain ⟨q, hq, rfl⟩ := List.mem_map.mp hp
  have := h q hq
  exact ⟨this.1, this.2.2, this.2.1⟩

/-- The `GEOM` branch on a complete block: `v` vertex lines and `t` triangle lines
follow, the counts stay in range, and each triangle line holds three 16-bit values. -/
theorem readGeom_complete {F : Type} (ops : FloatOps F) (bv : BlockVars)
    (lab : List (List Char)) (nidx0 : Option Int) (arg res : List Char) (v t : Nat)
    (vlines tlines rest : List (List Char)) (tris : List (Nat × Nat × Nat))
    (harg : scanDecs 2 arg = [(v : Int), (t : Int)])
    (hv : v < 2147483648) (ht : 3 * t < 2147483648)
    (hvl : vlines.length = v) (htl : tlines.length = t)
    (htris : List.Forall₂ IsTriangleLine tlines tris)
    (hw : ∀ p ∈ tris, p.1 < 65536 ∧ p.2.1 < 65536 ∧ p.2.2 < 65536) :
    ∃ (vs : List (NTVERTEX F)) (c1 : Bool), vs.length = v ∧
      readGeom ops bv lab nidx0 arg res (vlines ++ tlines ++ rest)
        = some { vars := { bv with calcnml := c1 }, nvtx := (v : Int),
                 nidx := some ((3 * t : Nat) : Int),
                 bufs := some (vs, if bv.flipidx then triIndices (tris.map flipTri)
                                   else triIndices tris),
                 term := false, labels := lab, stream := ⟨rest, res⟩ } := by
  obtain ⟨vs, c1, hrv, hlen⟩ :=
    readVertices_complete ops bv.bnormal res (tlines ++ rest) vlines bv.calcnml
  refine ⟨vs, c1, hlen.trans hvl, ?_⟩
  have e1 : toInt32 (v : Int) = (v : Int) := toInt32_of_range _ (by omega) (by omega)
  have e2 : toInt32 (t : Int) = (t : Int) := toInt32_of_range _ (by omega) (by omega)
  have e3 : toInt32 ((t : Int) * 3) = ((3 * t : Nat) : Int) := by
    rw [toInt32_of_range _ (by omega) (by omega)]; push_cast; ring
  have hrt := readTriangles_complete res rest tlines tris htris hw []
  simp only [List.length_nil, List.nil_append] at hrt
  rw [htl] at hrt
  rw [hvl] at hrv
  have hfl := flipLoop_triangles tris 0 [] rfl
  simp only [List.nil_append] at hfl
  rw [← htris.length_eq, htl] at hfl
  unfold readGeom
  rw [harg]
  simp only [e1, e2, e3, Int.toNat_ofNat, List.append_assoc, hrv, hrt]
  have n1 : ¬ ((v : Int) < 0) := by omega
  have n2 : ¬ (((3 * t : Nat) : Int) < 0) := by omega
  simp only [n1, n2, if_false]
  cases hf : bv.flipidx with
  | false => simp
  | true => simp [hfl]

theorem accumNormal_length {F : Type} (ops : FloatOps F) (vtx : List (NTVERTEX F)) (i : Nat)
    (nm : D3DVECTOR F) (a : F) : (accumNormal ops vtx i nm a).length = vtx.length := by
  unfold accumNormal
  cases vtx[i]? with
  | none => rfl
  | some v => simp

theorem triNormal_defined {F : Type} (ops : FloatOps F) (calcNml : List Bool)
    (vtx : List (NTVERTEX F)) (i0 i1 i2 : Nat) (hc : calcNml.length = vtx.length)
    (h0 : i0 < vtx.length) (h1 : i1 < vtx.length) (h2 : i2 < vtx.length) :
    ∃ vtx1, triNormal ops calcNml vtx i0 i1 i2 = some vtx1 ∧ vtx1.length = vtx.length := by
  unfold triNormal
  rw [List.getElem?_eq_getElem (hc ▸ h0), List.getElem?_eq_getElem (hc ▸ h1),
    List.getElem?_eq_getElem (hc ▸ h2), List.getElem?_eq_getElem h0,
    List.getElem?_eq_getElem h1, List.getElem?_eq_getElem h2]
  simp only [Option.bind_eq_bind, Option.some_bind]
  split
  · exact ⟨vtx, rfl, rfl⟩
  · split
    · refine ⟨_, rfl, ?_⟩
      split <;> split <;> split <;> simp [accumNormal_length]
    · exact ⟨vtx, rfl, rfl⟩

theorem triLoop_defined {F : Type} (ops : FloatOps F) (calcNml : List Bool) :
    ∀ (idx : List Nat) (vtx : List (NTVERTEX F)), calcNml.length = vtx.length →
      (∀ i ∈ idx, i < vtx.length) →
      ∃ vtx1, triLoop ops calcNml idx vtx = some vtx1 ∧ vtx1.length = vtx.length
  | [], vtx, _, _ => ⟨vtx, rfl, rfl⟩
  | [_], vtx, _, _ => ⟨vtx, rfl, rfl⟩
  | [_, _], vtx, _, _ => ⟨vtx, rfl, rfl⟩
  | i0 :: i1 :: i2 :: rest, vtx, hc, hi => by
    obtain ⟨vtx1, e1, l1⟩ := triNormal_defined ops calcNml vtx i0 i1 i2 hc
      (hi i0 (by simp)) (hi i1 (by simp)) (hi i2 (by simp))
    obtain ⟨vtx2, e2, l2⟩ := triLoop_defined ops calcNml rest vtx1 (hc.trans l1.symm)
      (fun i h => l1 ▸ hi i (by simp [h]))
    exact ⟨vtx2, by rw [triLoop, e1]; exact e2, l2.trans l1⟩

theorem calcNormalsGroup_defined {F : Type} (ops : FloatOps F) (g : GroupSpec F) (mo : Bool)
    (hi : ∀ i ∈ g.Idx, i < g.Vtx.length) :
    ∃ g1, calcNormalsGroup ops g mo = some g1 ∧ g1.Idx = g.Idx ∧
      g1.Vtx.length = g.Vtx.length := by
  unfold calcNormalsGroup
  obtain ⟨vtx1, e1, l1⟩ := triLoop_defined ops (g.Vtx.map (flagVertex ops mo)) g.Idx
    (g.Vtx.map (fun v => if flagVertex ops mo v then clearNormal ops v else v))
    (by simp) (by simpa using hi)
  refine ⟨{ g with Vtx := List.zipWith (normaliseVertex ops) (g.Vtx.map (flagVertex ops mo)) vtx1 },
    by simp only [e1, Option.map_some'], rfl, ?_⟩
  simp at l1
  simp [l1]

theorem readBlock_geom {F : Type} (ops : FloatOps F) (g : Nat) (nidx0 : Option Int)
    (res : List Char) (bv : BlockVars) (lab : List (List Char)) (l : List Char)
    (ls : List (List Char)) (h : strnicmpEq l "GEOM" 4 = true) :
    readBlock ops g nidx0 res bv lab (l :: ls) = readGeom ops bv lab nidx0 (l.drop 4) res ls := by
  obtain ⟨h1, h2, h3, h4, h5, h6, h7, h8, h9, h10⟩ := geom_line_other_keywords l h
  rw [readBlock]
  simp only [h1, h2, h3, h4, h5, h6, h7, h8, h9, h10, h, if_true, if_false, Bool.false_eq_true]

/-- The guarded block on a group whose indices lie inside its vertex buffer, entered
when the pass counter equals the number of groups of the mesh: the group is added
with the given buffers at index `g`. -/
theorem addParsedGroup_complete {F : Type} (ops : FloatOps F) (m : Mesh F) (vars : BlockVars)
    (vtx : List (NTVERTEX F)) (idx : List Nat) (hidx : ∀ i ∈ idx, i < vtx.length) :
    ∃ (m1 : Mesh F) (grp : GroupSpec F),
      addParsedGroup ops m m.Grp.length vars vtx idx = some m1 ∧
      m1.Grp.length = m.Grp.length + 1 ∧ m1.Grp[m.Grp.length]? = some grp ∧
      grp.Vtx.length = vtx.length ∧ grp.Idx = idx := by
  unfold addParsedGroup
  simp only [Mesh.AddGroup, Bool.false_eq_true, if_false]
  have hg0 : ∃ g0 : GroupSpec F, g0.Vtx = vtx ∧ g0.Idx = idx ∧
      (if m.GrpSetup = true then
          setupRefs m.Mtrl.length m.nTex
            { Vtx := vtx, Idx := idx, MtrlIdx := toDword vars.mtrl_idx,
              TexIdx := toDword vars.tex_idx, UsrFlag := 0, zBias := vars.zbias, Flags := 0 }
        else
          { Vtx := vtx, Idx := idx, MtrlIdx := toDword vars.mtrl_idx,
            TexIdx := toDword vars.tex_idx, UsrFlag := 0, zBias := vars.zbias, Flags := 0 }) = g0 := by
    cases m.GrpSetup with
    | false => exact ⟨_, rfl, rfl, rfl⟩
    | true => exact ⟨_, rfl, rfl, rfl⟩
  obtain ⟨g0, hg0V, hg0I, hg0e⟩ := hg0
  rw [hg0e]
  have hget : ∀ x : GroupSpec F, (m.Grp ++ [x])[m.Grp.length]? = some x := by
    intro x
    rw [List.getElem?_append_right (Nat.le_refl _)]
    simp
  rw [hget]
  simp only []
  rw [set_append_length m.Grp g0 _ []]
  cases hc : vars.calcnml with
  | false =>
    simp only [Bool.false_eq_true, if_false]
    refine ⟨_, ⟨g0.Vtx, g0.Idx, g0.MtrlIdx, g0.TexIdx, vars.uflag, g0.zBias, vars.flag % 65536⟩,
      rfl, ?_, ?_, ?_, ?_⟩
    · simp
    · exact hget _
    · show g0.Vtx.length = vtx.length
      rw [hg0V]
    · exact hg0I
  | true =>
    simp only [if_true, Mesh.CalcNormals]
    rw [hget]
    simp only []
    obtain ⟨g1, hcn, hcI, hcV⟩ := calcNormalsGroup_defined ops
      { Vtx := g0.Vtx, Idx := g0.Idx, MtrlIdx := g0.MtrlIdx, TexIdx := g0.TexIdx,
        UsrFlag := vars.uflag, zBias := g0.zBias, Flags := vars.flag % 65536 } true
      (by
        show ∀ i ∈ g0.Idx, i < g0.Vtx.length
        rw [hg0V, hg0I]; exact hidx)
    rw [hcn]
    simp only [Option.map_some', set_append_length m.Grp _ g1 []]
    refine ⟨_, g1, rfl, ?_, ?_, ?_, ?_⟩
    · simp
    · exact hget g1
    · rw [hcV]
      show g0.Vtx.length = vtx.length
      rw [hg0V]
    · rw [hcI]; exact hg0I

/-- One pass of the group loop over a complete block, entered when the pass counter
equals the number of groups of the mesh. -/
theorem groupStep_complete {F : Type} (ops : FloatOps F) (sm : Bool) (st : LoopState F)
    (dirs : List (List Char)) (geom : List Char) (v t : Nat)
    (vlines tlines rest : List (List Char)) (tris : List (Nat × Nat × Nat))
    (hlab : st.mesh.Grp.length < st.mesh.Labels.length)
    (hlines : st.stream.lines = dirs ++ geom :: (vlines ++ tlines ++ rest))
    (hdirs : ∀ l ∈ dirs, IsDirective l) (hgeom : IsGeomLine geom v t)
    (hv : 0 < v) (hv16 : v ≤ 65536) (ht : 0 < t) (ht31 : 3 * t < 2147483648)
    (hvl : vlines.length = v) (htl : tlines.length = t)
    (htris : List.Forall₂ IsTriangleLine tlines tris)
    (hrange : ∀ p ∈ tris, p.1 < v ∧ p.2.1 < v ∧ p.2.2 < v) :
    ∃ (st1 : LoopState F) (grp : GroupSpec F) (flip : Bool),
      groupStep ops sm st.mesh.Grp.length st = some st1 ∧
      st1.mesh.Grp.length = st.mesh.Grp.length + 1 ∧
      st1.mesh.Grp[st.mesh.Grp.length]? = some grp ∧
      grp.Vtx.length = v ∧
      grp.Idx = (if flip then triIndices (tris.map flipTri) else triIndices tris) ∧
      ((∀ l ∈ dirs, NotFlip l) → flip = false) ∧
      st1.term = false ∧ st1.stream = ⟨rest, st.stream.residue⟩ := by
  obtain ⟨bv, lab1, hflip, _, hrb⟩ := readBlock_directives ops st.mesh.Grp.length st.nidx
    st.stream.residue dirs hdirs (BlockVars.init sm) st.mesh.Labels hlab
  have hw : ∀ p ∈ tris, p.1 < 65536 ∧ p.2.1 < 65536 ∧ p.2.2 < 65536 := by
    intro p hp
    have := hrange p hp
    omega
  obtain ⟨vs, c1, hvs, hrg⟩ := readGeom_complete ops bv lab1 st.nidx (geom.drop 4)
    st.stream.residue v t vlines tlines rest tris hgeom.2 (by omega) ht31 hvl htl htris hw
  have hidx : ∀ i ∈ (if bv.flipidx then triIndices (tris.map flipTri) else triIndices tris),
      i < vs.length := by
    rw [hvs]
    cases bv.flipidx with
    | false => exact triIndices_bound tris v hrange
    | true => exact triIndices_bound _ v (flipTri_bound tris v hrange)
  have hv0 : ¬ ((v : Int) = 0) := by omega
  have ht0 : ¬ (((3 * t : Nat) : Int) = 0) := by omega
  obtain ⟨m1, grp, hadd, hlen, hget, hV, hI⟩ := addParsedGroup_complete ops
    { st.mesh with Labels := lab1 } { bv with calcnml := c1 } vs _ hidx
  have hadd1 : addParsedGroup ops { st.mesh with Labels := lab1 } st.mesh.Grp.length
      { bv with calcnml := c1 } vs
      (if bv.flipidx then triIndices (tris.map flipTri) else triIndices tris) = some m1 := hadd
  unfold groupStep
  rw [hlines, hrb, readBlock_geom ops _ _ _ _ _ _ _ hgeom.1, hrg]
  simp only [groupBuffers, ne_eq, hv0, not_false_eq_true, if_true, ht0, hadd1, Option.map_some']
  exact ⟨_, grp, bv.flipidx, rfl, hlen, hget, hV.trans hvs, hI, fun hn => hflip hn, rfl, rfl⟩

theorem calcNormals_frame {F : Type} (ops : FloatOps F) (m m1 : Mesh F) (g : Nat) (mo : Bool)
    (h : m.CalcNormals ops g mo = some m1) (i : Nat) (hi : i ≠ g) :
    m1.Grp[i]? = m.Grp[i]? := by
  unfold Mesh.CalcNormals at h
  cases hg : m.Grp[g]? with
  | none => simp [hg] at h
  | some grp =>
    simp only [hg] at h
    cases hc : calcNormalsGroup ops grp mo with
    | none => simp [hc] at h
    | some g1 =>
      simp only [hc, Option.map_some', Option.some.injEq] at h
      rw [← h]
      exact List.getElem?_set_ne (Ne.symm hi)

theorem addParsedGroup_frame {F : Type} (ops : FloatOps F) (m m1 : Mesh F) (g : Nat)
    (vars : BlockVars) (vtx : List (NTVERTEX F)) (idx : List Nat)
    (h : addParsedGroup ops m g vars vtx idx = some m1) (i : Nat) (x : GroupSpec F)
    (hi : i ≠ g) (hx : m.Grp[i]? = some x) : m1.Grp[i]? = some x := by
  have hlt : i < m.Grp.length := (List.getElem?_eq_some.mp hx).1
  unfold addParsedGroup at h
  generalize hma : (m.AddGroup vtx idx (toDword vars.mtrl_idx) (toDword vars.tex_idx)
    vars.zbias 0 false).1 = ma at h
  have hmag : ma.Grp[i]? = some x := by
    rw [← hma]
    simp only [Mesh.AddGroup]
    rw [List.getElem?_append_left hlt]
    exact hx
  cases h5 : ma.Grp[g]? with
  | none => simp [h5] at h
  | some grp =>
    simp only [h5] at h
    cases h6 : vars.calcnml with
    | false =>
      simp only [h6, Bool.false_eq_true, if_false, Option.some.injEq] at h
      rw [← h]
      show (ma.Grp.set g _)[i]? = some x
      rw [List.getElem?_set_ne (Ne.symm hi)]
      exact hmag
    | true =>
      simp only [h6, if_true] at h
      rw [calcNormals_frame ops _ m1 g true h i hi]
      show (ma.Grp.set g _)[i]? = some x
      rw [List.getElem?_set_ne (Ne.symm hi)]
      exact hmag

/-- A pass of the group loop changes no group other than the one the pass counter
addresses. -/
theorem groupStep_frame {F : Type} (ops : FloatOps F) (sm : Bool) (g : Nat)
    (st st1 : LoopState F) (h : groupStep ops sm g st = some st1) (i : Nat) (x : GroupSpec F)
    (hi : i ≠ g) (hx : st.mesh.Grp[i]? = some x) : st1.mesh.Grp[i]? = some x := by
  unfold groupStep at h
  cases hr : readBlock ops g st.nidx st.stream.residue (BlockVars.init sm) st.mesh.Labels
      st.stream.lines with
  | none => simp [hr] at h
  | some r =>
    simp only [hr] at h
    cases hb : groupBuffers r with
    | none => simp [hb] at h
    | some ob =>
      cases ob with
      | none =>
        simp only [hb, Option.some.injEq] at h
        rw [← h]; exact hx
      | some b =>
        simp only [hb] at h
        cases ha : addParsedGroup ops { st.mesh with Labels := r.labels } g r.vars b.1 b.2 with
        | none => simp [ha] at h
        | some m1 =>
          simp only [ha, Option.map_some', Option.some.injEq] at h
          rw [← h]
          exact addParsedGroup_frame ops _ m1 g r.vars b.1 b.2 ha i x hi hx

/-- The passes of the group loop from pass `g` on change no group below `g`. -/
theorem groupLoop_frame {F : Type} (ops : FloatOps F) (sm : Bool) :
    ∀ (n g : Nat) (st stEnd : LoopState F), groupLoop ops sm n g st = some stEnd →
      ∀ (i : Nat) (x : GroupSpec F), i < g → st.mesh.Grp[i]? = some x →
        stEnd.mesh.Grp[i]? = some x := by
  intro n
  induction n with
  | zero =>
    intro g st stEnd h i x _ hx
    simp only [groupLoop, Option.some.injEq] at h
    rw [← h]; exact hx
  | succ n ih =>
    intro g st stEnd h i x hi hx
    rw [groupLoop] at h
    by_cases ht : st.term = true
    · simp only [ht, if_true, Option.some.injEq] at h
      rw [← h]; exact hx
    · simp only [ht, if_false] at h
      cases hs : groupStep ops sm g st with
      | none => simp [hs] at h
      | some st1 =>
        simp only [hs, Option.bind] at h
        exact ih (g + 1) st1 stEnd h i x (by omega)
          (groupStep_frame ops sm g st st1 hs i x (by omega) hx)

theorem readMaterials_groups {F : Type} (ops : FloatOps F) :
    ∀ (n : Nat) (m : Mesh F) (s : IStream), (readMaterials ops n m s).1.Grp = m.Grp := by
  intro n
  induction n with
  | zero => intro m s; rfl
  | succ n ih =>
    intro m s
    rw [readMaterials, ih]
    rfl

theorem readMaterialList_groups {F : Type} (ops : FloatOps F) (m : Mesh F) (s : IStream)
    (r : Mesh F × IStream) (h : readMaterialList ops m s = some r) : r.1.Grp = m.Grp := by
  unfold readMaterialList at h
  by_cases h1 : (s.getline.1 && strncmpEq s.getline.2.1 "MATERIALS" 9) = true
  · rw [if_pos h1] at h
    split at h
    · split at h
      · cases h
      · simp only [Option.some.injEq] at h
        rw [← h, readMaterials_groups]
    · simp only [Option.some.injEq] at h
      rw [← h]
  · rw [if_neg h1] at h
    simp only [Option.some.injEq] at h
    rw [← h]

theorem readTextureList_groups {F : Type} (m : Mesh F) (s : IStream)
    (r : Mesh F × IStream) (h : readTextureList m s = some r) : r.1.Grp = m.Grp := by
  unfold readTextureList at h
  by_cases h1 : (s.getline.1 && strncmpEq s.getline.2.1 "TEXTURES" 8) = true
  · rw [if_pos h1] at h
    split at h
    · split at h
      · cases h
      · rename_i n _ _
        cases hr : readTextures (toInt32 n).toNat none s.getline.2.2 with
        | none => simp [hr] at h
        | some p =>
          simp only [hr, Option.map_some', Option.some.injEq] at h
          rw [← h]
    · simp only [Option.some.injEq] at h
      rw [← h]
  · rw [if_neg h1] at h
    simp only [Option.some.injEq] at h
    rw [← h]

/-- The end of the load keeps the vertex list and the index list of every group. -/
theorem finishLoad_frame {F : Type} (ops : FloatOps F) (mesh m : Mesh F) (s : IStream)
    (h : finishLoad ops mesh s = some m) (i : Nat) (x : GroupSpec F)
    (hx : mesh.Grp[i]? = some x) :
    ∃ y, m.Grp[i]? = some y ∧ y.Vtx = x.Vtx ∧ y.Idx = x.Idx := by
  unfold finishLoad at h
  cases h1 : readMaterialList ops mesh s with
  | none => simp [h1] at h
  | some r =>
    cases h2 : readTextureList r.1 r.2 with
    | none => simp [h1, h2] at h
    | some q =>
      simp [h1, h2] at h
      have e : q.1.Grp = mesh.Grp :=
        (readTextureList_groups r.1 r.2 q h2).trans (readMaterialList_groups ops mesh s r h1)
      refine ⟨setupRefs q.1.Mtrl.length q.1.nTex x, ?_, rfl, rfl⟩
      rw [← h]
      simp [Mesh.Setup, e, hx]

theorem triIndices_get (tris : List (Nat × Nat × Nat)) :
    ∀ (i : Nat) (p : Nat × Nat × Nat), tris[i]? = some p →
      (triIndices tris)[3 * i]? = some p.1 ∧ (triIndices tris)[3 * i + 1]? = some p.2.1 ∧
      (triIndices tris)[3 * i + 2]? = some p.2.2 := by
  induction tris with
  | nil => intro i p h; simp at h
  | cons q qs ih =>
    intro i p h
    cases i with
    | zero =>
      simp only [List.getElem?_cons_zero, Option.some.injEq] at h
      subst h
      simp [triIndices]
    | succ j =>
      simp only [List.getElem?_cons_succ] at h
      obtain ⟨a, b, c⟩ := ih j p h
      have e1 : 3 * (j + 1) = (3 * j) + 1 + 1 + 1 := by omega
      have e2 : 3 * (j + 1) + 1 = (3 * j + 1) + 1 + 1 + 1 := by omega
      have e3 : 3 * (j + 1) + 2 = (3 * j + 2) + 1 + 1 + 1 := by omega
      refine ⟨?_, ?_, ?_⟩
      · rw [e1]; simp only [triIndices, List.getElem?_cons_succ]; exact a
      · rw [e2]; simp only [triIndices, List.getElem?_cons_succ]; exact b
      · rw [e3]; simp only [triIndices, List.getElem?_cons_succ]; exact c

/-- A group that pass `g` of the group loop leaves at index `g` keeps its vertex list
and its index list in every mesh the rest of the load produces. -/
theorem resumeLoad_keeps_group {F : Type} (ops : FloatOps F) (sm : Bool) (g : Nat)
    (st st1 : LoopState F) (grp : GroupSpec F) (hterm : st.term = false)
    (hstep : groupStep ops sm g st = some st1) (hgrp : st1.mesh.Grp[g]? = some grp)
    (n : Nat) (m : Mesh F) (h : resumeLoad ops sm (n + 1) g st = some m) :
    ∃ y, m.Grp[g]? = some y ∧ y.Vtx = grp.Vtx ∧ y.Idx = grp.Idx := by
  unfold resumeLoad at h
  rw [groupLoop] at h
  simp only [hterm, Bool.false_eq_true, if_false, hstep, Option.some_bind] at h
  cases hl : groupLoop ops sm n (g + 1) st1 with
  | none => simp [hl] at h
  | some e =>
    simp only [hl, Option.some_bind] at h
    exact finishLoad_frame ops e.mesh m e.stream h g grp
      (groupLoop_frame ops sm n (g + 1) st1 e hl g grp (by omega) hgrp)

theorem groupLoop_term {F : Type} (ops : FloatOps F) (sm : Bool) (n g : Nat) (st : LoopState F)
    (h : st.term = true) : groupLoop ops sm n g st = some st := by
  cases n with
  | zero => rfl
  | succ n => rw [groupLoop]; simp [h]

/-- The first `k` passes of the group loop, followed by the remaining passes, are the
loop as a whole. -/
theorem groupLoop_split {F : Type} (ops : FloatOps F) (sm : Bool) (n : Nat) :
    ∀ (k g : Nat) (st : LoopState F),
      groupLoop ops sm (k + n) g st
        = (groupLoop ops sm k g st).bind (groupLoop ops sm n (g + k)) := by
  intro k
  induction k with
  | zero => intro g st; simp [groupLoop]
  | succ k ih =>
    intro g st
    have e : k + 1 + n = (k + n) + 1 := by omega
    rw [e, groupLoop, groupLoop]
    by_cases ht : st.term = true
    · rw [if_pos ht, if_pos ht, Option.some_bind]
      exact (groupLoop_term ops sm n _ st ht).symm
    · rw [if_neg ht, if_neg ht]
      cases hs : groupStep ops sm g st with
      | none => rfl
      | some st1 =>
        simp only [Option.some_bind]
        rw [ih (g + 1) st1]
        have e2 : g + 1 + k = g + (k + 1) := by omega
        rw [e2]

/-- A load whose first `k` passes of the group loop lead to the state `st` continues
as the load resumed from `st` at pass `k`. -/
theorem resumeLoad_split {F : Type} (ops : FloatOps F) (sm : Bool) (k n : Nat)
    (st0 st : LoopState F) (hk : groupLoop ops sm k 0 st0 = some st) :
    resumeLoad ops sm (k + n) 0 st0 = resumeLoad ops sm n k st := by
  unfold resumeLoad
  rw [groupLoop_split ops sm n k 0 st0, hk]
  simp

/-- The branch of the directive loop a line takes, with the effect of the branch. -/
theorem directiveStep_cases (g : Nat) (s : BlockVars × List (List Char)) (l : List Char) :
    (strnicmpEq l "MATERIAL" 8 = true ∧ ∃ mi : Int, directiveStep g s l
        = ({ s.1 with mtrl_idx := mi }, s.2)) ∨
    (strnicmpEq l "MATERIAL" 8 = false ∧ strnicmpEq l "TEXTURE" 7 = true ∧
      ∃ ti : Int, directiveStep g s l = ({ s.1 with tex_idx := ti }, s.2)) ∨
    (strnicmpEq l "MATERIAL" 8 = false ∧ strnicmpEq l "TEXTURE" 7 = false ∧
      strnicmpEq l "ZBIAS" 5 = true ∧
      ∃ z : Nat, directiveStep g s l = ({ s.1 with zbias := z }, s.2)) ∨
    (strnicmpEq l "MATERIAL" 8 = false ∧ strnicmpEq l "TEXTURE" 7 = false ∧
      strnicmpEq l "TEXWRAP" 7 = true ∧
      ∃ a b : Bool, directiveStep g s l
        = ({ s.1 with flag := if b then (if a then s.1.flag ||| 1 else s.1.flag) ||| 2
                              else (if a then s.1.flag ||| 1 else s.1.flag) }, s.2)) ∨
    (strnicmpEq l "MATERIAL" 8 = false ∧ strnicmpEq l "TEXTURE" 7 = false ∧
      strnicmpEq l "NONORMAL" 8 = true ∧
      directiveStep g s l = ({ s.1 with bnormal := false, calcnml := true }, s.2)) ∨
    (strnicmpEq l "MATERIAL" 8 = false ∧ strnicmpEq l "TEXTURE" 7 = false ∧
      strnicmpEq l "FLAG" 4 = true ∧
      directiveStep g s l
        = ({ s.1 with uflag := match scanHex (l.drop 4) with
                                | some (n, _) => toDword n
                                | none => s.1.uflag }, s.2)) ∨
    (strnicmpEq l "MATERIAL" 8 = false ∧ strnicmpEq l "TEXTURE" 7 = false ∧
      strnicmpEq l "FLAG" 4 = false ∧ strnicmpEq l "FLIP" 4 = true ∧
      directiveStep g s l = ({ s.1 with flipidx := true }, s.2)) ∨
    (strnicmpEq l "MATERIAL" 8 = false ∧ strnicmpEq l "TEXTURE" 7 = false ∧
      strnicmpEq l "FLAG" 4 = false ∧ strnicmpEq l "FLIP" 4 = false ∧
      strnicmpEq l "LABEL" 5 = true ∧
      ∃ lab1 : List (List Char), lab1.length = s.2.length ∧ directiveStep g s l = (s.1, lab1)) ∨
    (strnicmpEq l "MATERIAL" 8 = false ∧ strnicmpEq l "TEXTURE" 7 = false ∧
      strnicmpEq l "TEXWRAP" 7 = false ∧
      strnicmpEq l "FLAG" 4 = false ∧ strnicmpEq l "FLIP" 4 = false ∧
      strnicmpEq l "STATIC" 6 = true ∧
      directiveStep g s l = ({ s.1 with flag := s.1.flag ||| 4 }, s.2)) ∨
    (strnicmpEq l "MATERIAL" 8 = false ∧ strnicmpEq l "TEXTURE" 7 = false ∧
      strnicmpEq l "TEXWRAP" 7 = false ∧
      strnicmpEq l "FLAG" 4 = false ∧ strnicmpEq l "FLIP" 4 = false ∧
      strnicmpEq l "STATIC" 6 = false ∧ strnicmpEq l "DYNAMIC" 7 = true ∧
      directiveStep g s l = ({ s.1 with flag := s.1.flag ^^^ 4 }, s.2)) ∨
    (strnicmpEq l "MATERIAL" 8 = false ∧ strnicmpEq l "TEXTURE" 7 = false ∧
      strnicmpEq l "TEXWRAP" 7 = false ∧
      strnicmpEq l "FLAG" 4 = false ∧ strnicmpEq l "FLIP" 4 = false ∧
      strnicmpEq l "STATIC" 6 = false ∧ strnicmpEq l "DYNAMIC" 7 = false ∧
      directiveStep g s l = s) := by
  unfold directiveStep
  cases h1 : strnicmpEq l "MATERIAL" 8 with
  | true => exact Or.inl ⟨rfl, _, by simp only [if_true]; rfl⟩
  | false =>
  cases h2 : strnicmpEq l "TEXTURE" 7 with
  | true =>
    exact Or.inr (Or.inl ⟨rfl, rfl, _,
      by simp only [Bool.false_eq_true, if_false, if_true]; rfl⟩)
  | false =>
  cases h3 : strnicmpEq l "ZBIAS" 5 with
  | true =>
    exact Or.inr (Or.inr (Or.inl ⟨rfl, rfl, rfl, _,
      by simp only [Bool.false_eq_true, if_false, if_true]; rfl⟩))
  | false =>
  cases h4 : strnicmpEq l "TEXWRAP" 7 with
  | true =>
    exact Or.inr (Or.inr (Or.inr (Or.inl ⟨rfl, rfl, rfl, _, _,
      by simp only [Bool.false_eq_true, if_false, if_true]; rfl⟩)))
  | false =>
  cases h5 : strnicmpEq l "NONORMAL" 8 with
  | true =>
    exact Or.inr (Or.inr (Or.inr (Or.inr (Or.inl ⟨rfl, rfl, rfl,
      by simp only [Bool.false_eq_true, if_false, if_true]⟩))))
  | false =>
  cases h6 : strnicmpEq l "FLAG" 4 with
  | true =>
    exact Or.inr (Or.inr (Or.inr (Or.inr (Or.inr (Or.inl ⟨rfl, rfl, rfl,
      by simp only [Bool.false_eq_true, if_false, if_true]⟩)))))
  | false =>
  cases h7 : strnicmpEq l "FLIP" 4 with
  | true =>
    exact Or.inr (Or.inr (Or.inr (Or.inr (Or.inr (Or.inr (Or.inl ⟨rfl, rfl, rfl, rfl,
      by simp only [Bool.false_eq_true, if_false, if_true]⟩))))))
  | false =>
  cases h8 : strnicmpEq l "LABEL" 5 with
  | true =>
    refine Or.inr (Or.inr (Or.inr (Or.inr (Or.inr (Or.inr (Or.inr (Or.inl
      ⟨rfl, rfl, rfl, rfl, rfl, ?_⟩)))))))
    simp only [Bool.false_eq_true, if_false, if_true]
    cases scanStr 255 (List.drop 5 l) with
    | none => exact ⟨s.2, rfl, rfl⟩
    | some p => exact ⟨s.2.set g p.1, by simp, rfl⟩
  | false =>
  cases h9 : strnicmpEq l "STATIC" 6 with
  | true =>
    exact Or.inr (Or.inr (Or.inr (Or.inr (Or.inr (Or.inr (Or.inr (Or.inr (Or.inl
      ⟨rfl, rfl, rfl, rfl, rfl, rfl,
        by simp only [Bool.false_eq_true, if_false, if_true]⟩))))))))
  | false =>
  cases h10 : strnicmpEq l "DYNAMIC" 7 with
  | true =>
    exact Or.inr (Or.inr (Or.inr (Or.inr (Or.inr (Or.inr (Or.inr (Or.inr (Or.inr (Or.inl
      ⟨rfl, rfl, rfl, rfl, rfl, rfl, rfl,
        by simp only [Bool.false_eq_true, if_false, if_true]⟩)))))))))
  | false =>
    exact Or.inr (Or.inr (Or.inr (Or.inr (Or.inr (Or.inr (Or.inr (Or.inr (Or.inr (Or.inr
      ⟨rfl, rfl, rfl, rfl, rfl, rfl, rfl,
        by simp only [Bool.false_eq_true, if_false]⟩)))))))))

theorem directiveStep_labels (g : Nat) (s : BlockVars × List (List Char)) (l : List Char) :
    (directiveStep g s l).2.length = s.2.length := by
  rcases directiveStep_cases g s l with ⟨_, _, e⟩ | ⟨_, _, _, e⟩ | ⟨_, _, _, _, e⟩ |
    ⟨_, _, _, _, _, e⟩ | ⟨_, _, _, e⟩ | ⟨_, _, _, e⟩ | ⟨_, _, _, _, e⟩ |
    ⟨_, _, _, _, _, lab1, hl, e⟩ | ⟨_, _, _, _, _, _, e⟩ | ⟨_, _, _, _, _, _, _, e⟩ |
    ⟨_, _, _, _, _, _, _, e⟩
  all_goals rw [e]
  exact hl

theorem readBlock_step {F : Type} (ops : FloatOps F) (g : Nat) (nidx0 : Option Int)
    (res : List Char) (v : BlockVars) (lab : List (List Char)) (l : List Char)
    (ls : List (List Char)) (hl : IsDirective l) (hg : g < lab.length) :
    readBlock ops g nidx0 res v lab (l :: ls)
      = readBlock ops g nidx0 res (directiveStep g (v, lab) l).1
          (directiveStep g (v, lab) l).2 ls := by
  have h11 : ¬ strnicmpEq l "GEOM" 4 = true := by unfold IsDirective at hl; simp [hl]
  rw [readBlock]
  unfold directiveStep
  by_cases h1 : strnicmpEq l "MATERIAL" 8 = true
  · simp only [if_pos h1]
  simp only [if_neg h1]
  by_cases h2 : strnicmpEq l "TEXTURE" 7 = true
  · simp only [if_pos h2]
  simp only [if_neg h2]
  by_cases h3 : strnicmpEq l "ZBIAS" 5 = true
  · simp only [if_pos h3]
  simp only [if_neg h3]
  by_cases h4 : strnicmpEq l "TEXWRAP" 7 = true
  · simp only [if_pos h4]
  simp only [if_neg h4]
  by_cases h5 : strnicmpEq l "NONORMAL" 8 = true
  · simp only [if_pos h5]
  simp only [if_neg h5]
  by_cases h6 : strnicmpEq l "FLAG" 4 = true
  · simp only [if_pos h6]
  simp only [if_neg h6]
  by_cases h7 : strnicmpEq l "FLIP" 4 = true
  · simp only [if_pos h7]
  simp only [if_neg h7]
  by_cases h8 : strnicmpEq l "LABEL" 5 = true
  · simp only [if_pos h8]
    cases hsc : scanStr 255 (List.drop 5 l) with
    | none => rfl
    | some p => simp only [if_pos hg]
  simp only [if_neg h8]
  by_cases h9 : strnicmpEq l "STATIC" 6 = true
  · simp only [if_pos h9]
  simp only [if_neg h9]
  by_cases h10 : strnicmpEq l "DYNAMIC" 7 = true
  · simp only [if_pos h10]
  simp only [if_neg h10, if_neg h11]

theorem foldl_directiveStep_labels (g : Nat) (dirs : List (List Char)) :
    ∀ s : BlockVars × List (List Char),
      (dirs.foldl (directiveStep g) s).2.length = s.2.length := by
  induction dirs with
  | nil => intro s; rfl
  | cons l ls ih => intro s; rw [List.foldl_cons, ih, directiveStep_labels]

/-- Directive lines in front of the `GEOM` line are consumed by the directive loop one
by one, each with the effect `directiveStep` describes. -/
theorem readBlock_foldl {F : Type} (ops : FloatOps F) (g : Nat) (nidx0 : Option Int)
    (res : List Char) (dirs : List (List Char)) (hd : ∀ l ∈ dirs, IsDirective l) :
    ∀ (v : BlockVars) (lab : List (List Char)), g < lab.length →
      ∀ tail, readBlock ops g nidx0 res v lab (dirs ++ tail)
        = readBlock ops g nidx0 res (dirs.foldl (directiveStep g) (v, lab)).1
            (dirs.foldl (directiveStep g) (v, lab)).2 tail := by
  induction dirs with
  | nil => intro v lab _ tail; rfl
  | cons l ls ih =>
    intro v lab hg tail
    rw [List.cons_append, readBlock_step ops g nidx0 res v lab l (ls ++ tail)
      (hd l (List.mem_cons_self _ _)) hg, List.foldl_cons]
    exact ih (fun x hx => hd x (List.mem_cons_of_mem _ hx)) _ _
      (by rw [directiveStep_labels]; exact hg) tail

theorem calcNormalsGroup_fields {F : Type} (ops : FloatOps F) (g g1 : GroupSpec F) (mo : Bool)
    (h : calcNormalsGroup ops g mo = some g1) :
    g1.Idx = g.Idx ∧ g1.MtrlIdx = g.MtrlIdx ∧ g1.TexIdx = g.TexIdx ∧ g1.UsrFlag = g.UsrFlag ∧
      g1.zBias = g.zBias ∧ g1.Flags = g.Flags := by
  unfold calcNormalsGroup at h
  cases ht : triLoop ops (g.Vtx.map (flagVertex ops mo)) g.Idx
      (g.Vtx.map (fun v => if flagVertex ops mo v then clearNormal ops v else v)) with
  | none => simp [ht] at h
  | some vtx1 =>
    simp only [ht, Option.map_some', Option.some.injEq] at h
    rw [← h]
    exact ⟨rfl, rfl, rfl, rfl, rfl, rfl⟩

/-- A line on which one keyword test succeeds fails every keyword test whose keyword
starts with another letter. -/
theorem strnicmpEq_other_head (l : List Char) (kw1 kw2 : String) (n1 n2 : Nat)
    (h : strnicmpEq l kw1 (n1 + 1) = true)
    (hne : kw2.toList.head?.map lowerAscii ≠ kw1.toList.head?.map lowerAscii) :
    strnicmpEq l kw2 (n2 + 1) = false := by
  cases hb : strnicmpEq l kw2 (n2 + 1) with
  | false => rfl
  | true =>
    exfalso
    apply hne
    rw [← strnicmpEq_head l kw2 n2 hb, strnicmpEq_head l kw1 n1 h]

theorem flip_line_not_flag (l : List Char) (h : strnicmpEq l "FLIP" 4 = true) :
    strnicmpEq l "FLAG" 4 = false := by
  cases hb : strnicmpEq l "FLAG" 4 with
  | false => rfl
  | true =>
    exfalso
    unfold strnicmpEq at h hb
    have e := (eq_of_beq h).symm.trans (eq_of_beq hb)
    revert e
    decide

theorem directiveStep_flipidx (g : Nat) (s : BlockVars × List (List Char)) (l : List Char) :
    (directiveStep g s l).1.flipidx = (s.1.flipidx || strnicmpEq l "FLIP" 4) := by
  rcases directiveStep_cases g s l with ⟨h, _, e⟩ | ⟨_, h, _, e⟩ | ⟨_, _, h, _, e⟩ |
    ⟨_, _, h, _, _, e⟩ | ⟨_, _, h, e⟩ | ⟨_, _, h, e⟩ | ⟨_, _, _, h, e⟩ |
    ⟨_, _, _, h, _, lab1, hl, e⟩ | ⟨_, _, _, _, h, _, e⟩ | ⟨_, _, _, _, h, _, _, e⟩ |
    ⟨_, _, _, _, h, _, _, e⟩
  · rw [e, strnicmpEq_other_head l "MATERIAL" "FLIP" 7 3 h (by decide)]; simp
  · rw [e, strnicmpEq_other_head l "TEXTURE" "FLIP" 6 3 h (by decide)]; simp
  · rw [e, strnicmpEq_other_head l "ZBIAS" "FLIP" 4 3 h (by decide)]; simp
  · rw [e, strnicmpEq_other_head l "TEXWRAP" "FLIP" 6 3 h (by decide)]; simp
  · rw [e, strnicmpEq_other_head l "NONORMAL" "FLIP" 7 3 h (by decide)]; simp
  · have hf : strnicmpEq l "FLIP" 4 = false := by
      cases hb : strnicmpEq l "FLIP" 4 with
      | false => rfl
      | true => rw [flip_line_not_flag l hb] at h; cases h
    rw [e, hf]; simp
  · rw [e, h]; simp
  · rw [e, h]; simp
  · rw [e, h]; simp
  · rw [e, h]; simp
  · rw [e, h]; simp

theorem foldl_flipidx (g : Nat) (dirs : List (List Char)) :
    ∀ s : BlockVars × List (List Char),
      (dirs.foldl (directiveStep g) s).1.flipidx
        = (s.1.flipidx || dirs.any (fun l => strnicmpEq l "FLIP" 4)) := by
  induction dirs with
  | nil => intro s; simp
  | cons l ls ih =>
    intro s
    rw [List.foldl_cons, ih, directiveStep_flipidx, List.any_cons, Bool.or_assoc]

/-- The loop in front of the groups over lines without a `GROUPS` line, then a `GROUPS`
line with a count: `staticmesh` is set when one of the lines is a `STATICMESH` line. -/
theorem findGroups_scan (pre : List (List Char)) (grp : List Char) (rest : List (List Char))
    (n : Int) (hpre : ∀ l ∈ pre, strnicmpEq l "GROUPS" 6 = false)
    (hg : strnicmpEq grp "GROUPS" 6 = true) (hn : scanDecs 1 (grp.drop 6) = [n]) :
    ∀ sm : Bool, findGroups sm (pre ++ grp :: rest)
      = some (toInt32 n, sm || pre.any (fun l => strnicmpEq l "STATICMESH" 10), rest) := by
  induction pre with
  | nil =>
    intro sm
    simp only [List.nil_append, findGroups, hg, if_true, hn, List.any_nil, Bool.or_false]
  | cons l ls ih =>
    intro sm
    have h1 := hpre l (List.mem_cons_self _ _)
    have ih1 := ih (fun x hx => hpre x (List.mem_cons_of_mem _ hx))
    rw [List.cons_append, findGroups]
    simp only [h1, Bool.false_eq_true, if_false, List.any_cons]
    cases h2 : strnicmpEq l "STATICMESH" 10 with
    | true => simp only [if_true, ih1 true, Bool.true_or, Bool.or_true]
    | false => simp only [Bool.false_eq_true, if_false, ih1 sm, Bool.false_or]

theorem readBlock_static_line {F : Type} (ops : FloatOps F) (g : Nat) (nidx0 : Option Int)
    (res : List Char) (v : BlockVars) (lab : List (List Char)) (l : List Char)
    (ls : List (List Char)) (h : strnicmpEq l "STATIC" 6 = true) :
    readBlock ops g nidx0 res v lab (l :: ls)
      = readBlock ops g nidx0 res { v with flag := v.flag ||| 4 } lab ls := by
  rw [readBlock]
  simp only [strnicmpEq_other_head l "STATIC" "MATERIAL" 5 7 h (by decide),
    strnicmpEq_other_head l "STATIC" "TEXTURE" 5 6 h (by decide),
    strnicmpEq_other_head l "STATIC" "ZBIAS" 5 4 h (by decide),
    strnicmpEq_other_head l "STATIC" "TEXWRAP" 5 6 h (by decide),
    strnicmpEq_other_head l "STATIC" "NONORMAL" 5 7 h (by decide),
    strnicmpEq_other_head l "STATIC" "FLAG" 5 3 h (by decide),
    strnicmpEq_other_head l "STATIC" "FLIP" 5 3 h (by decide),
    strnicmpEq_other_head l "STATIC" "LABEL" 5 4 h (by decide),
    h, Bool.false_eq_true, if_false, if_true]

theorem readBlock_dynamic_line {F : Type} (ops : FloatOps F) (g : Nat) (nidx0 : Option Int)
    (res : List Char) (v : BlockVars) (lab : List (List Char)) (l : List Char)
    (ls : List (List Char)) (h : strnicmpEq l "DYNAMIC" 7 = true) :
    readBlock ops g nidx0 res v lab (l :: ls)
      = readBlock ops g nidx0 res { v with flag := v.flag ^^^ 4 } lab ls := by
  rw [readBlock]
  simp only [strnicmpEq_other_head l "DYNAMIC" "MATERIAL" 6 7 h (by decide),
    strnicmpEq_other_head l "DYNAMIC" "TEXTURE" 6 6 h (by decide),
    strnicmpEq_other_head l "DYNAMIC" "ZBIAS" 6 4 h (by decide),
    strnicmpEq_other_head l "DYNAMIC" "TEXWRAP" 6 6 h (by decide),
    strnicmpEq_other_head l "DYNAMIC" "NONORMAL" 6 7 h (by decide),
    strnicmpEq_other_head l "DYNAMIC" "FLAG" 6 3 h (by decide),
    strnicmpEq_other_head l "DYNAMIC" "FLIP" 6 3 h (by decide),
    strnicmpEq_other_head l "DYNAMIC" "LABEL" 6 4 h (by decide),
    strnicmpEq_other_head l "DYNAMIC" "STATIC" 6 5 h (by decide),
    h, Bool.false_eq_true, if_false, if_true]

theorem shadowBit_or (f : Nat) : shadowBit (f ||| 4) = true := by
  unfold shadowBit
  rw [Nat.testBit_or]
  have : Nat.testBit 4 2 = true := by decide
  simp [this]

theorem shadowBit_xor (f : Nat) : shadowBit (f ^^^ 4) = !shadowBit f := by
  unfold shadowBit
  rw [Nat.testBit_xor]
  have : Nat.testBit 4 2 = true := by decide
  simp [this]

theorem xor_four_twice (f : Nat) : (f ^^^ 4) ^^^ 4 = f := by
  rw [Nat.xor_assoc, Nat.xor_self, Nat.xor_zero]

/-- One pass of the group loop over a complete block, entered when the pass counter
equals the number of groups of the mesh: the index list of the new group is the list
of the triangle lines, with the second and third index of each triangle exchanged
when `flipidx` is set behind the directive lines. -/
theorem groupStep_complete_flip {F : Type} (ops : FloatOps F) (sm : Bool) (st : LoopState F)
    (dirs : List (List Char)) (geom : List Char) (v t : Nat)
    (vlines tlines rest : List (List Char)) (tris : List (Nat × Nat × Nat))
    (hlab : st.mesh.Grp.length < st.mesh.Labels.length)
    (hlines : st.stream.lines = dirs ++ geom :: (vlines ++ tlines ++ rest))
    (hdirs : ∀ l ∈ dirs, IsDirective l) (hgeom : IsGeomLine geom v t)
    (hv : 0 < v) (hv16 : v ≤ 65536) (ht : 0 < t) (ht31 : 3 * t < 2147483648)
    (hvl : vlines.length = v) (htl : tlines.length = t)
    (htris : List.Forall₂ IsTriangleLine tlines tris)
    (hrange : ∀ p ∈ tris, p.1 < v ∧ p.2.1 < v ∧ p.2.2 < v) :
    ∃ (st1 : LoopState F) (grp : GroupSpec F),
      groupStep ops sm st.mesh.Grp.length st = some st1 ∧
      st1.mesh.Grp[st.mesh.Grp.length]? = some grp ∧
      grp.Idx = (if dirs.any (fun l => strnicmpEq l "FLIP" 4)
        then triIndices (tris.map flipTri) else triIndices tris) := by
  have hfl : (dirs.foldl (directiveStep st.mesh.Grp.length)
      (BlockVars.init sm, st.mesh.Labels)).1.flipidx
      = dirs.any (fun l => strnicmpEq l "FLIP" 4) := by
    rw [foldl_flipidx]
    rfl
  generalize hbv : (dirs.foldl (directiveStep st.mesh.Grp.length)
      (BlockVars.init sm, st.mesh.Labels)).1 = bv at hfl
  generalize hlab1 : (dirs.foldl (directiveStep st.mesh.Grp.length)
      (BlockVars.init sm, st.mesh.Labels)).2 = lab1
  have hrb := readBlock_foldl ops st.mesh.Grp.length st.nidx st.stream.residue dirs hdirs
    (BlockVars.init sm) st.mesh.Labels hlab (geom :: (vlines ++ tlines ++ rest))
  rw [hbv, hlab1] at hrb
  have hw : ∀ p ∈ tris, p.1 < 65536 ∧ p.2.1 < 65536 ∧ p.2.2 < 65536 := by
    intro p hp
    have := hrange p hp
    omega
  obtain ⟨vs, c1, hvs, hrg⟩ := readGeom_complete ops bv lab1 st.nidx (geom.drop 4)
    st.stream.residue v t vlines tlines rest tris hgeom.2 (by omega) ht31 hvl htl htris hw
  have hidx : ∀ i ∈ (if bv.flipidx then triIndices (tris.map flipTri) else triIndices tris),
      i < vs.length := by
    rw [hvs]
    cases bv.flipidx with
    | false => exact triIndices_bound tris v hrange
    | true => exact triIndices_bound _ v (flipTri_bound tris v hrange)
  have hv0 : ¬ ((v : Int) = 0) := by omega
  have ht0 : ¬ (((3 * t : Nat) : Int) = 0) := by omega
  obtain ⟨m1, grp, hadd, _, hget, _, hI⟩ := addParsedGroup_complete ops
    { st.mesh with Labels := lab1 } { bv with calcnml := c1 } vs _ hidx
  have hadd1 : addParsedGroup ops { st.mesh with Labels := lab1 } st.mesh.Grp.length
      { bv with calcnml := c1 } vs
      (if bv.flipidx then triIndices (tris.map flipTri) else triIndices tris) = some m1 := hadd
  unfold groupStep
  rw [hlines, hrb, readBlock_geom ops _ _ _ _ _ _ _ hgeom.1, hrg]
  simp only [groupBuffers, ne_eq, hv0, not_false_eq_true, if_true, ht0, hadd1, Option.map_some']
  refine ⟨_, grp, rfl, hget, ?_⟩
  rw [hI, hfl]

theorem scanDecs_length (n : Nat) : ∀ s : List Char, (scanDecs n s).length ≤ n := by
  induction n with
  | zero => intro s; simp [scanDecs]
  | succ n ih =>
    intro s
    rw [scanDecs]
    cases scanDec s with
    | none => simp
    | some p =>
      simp only [List.length_cons]
      have := ih p.2
      omega

/-- Stores that stay inside the buffer succeed and keep its length. -/
theorem writeIdx_inbounds (vals : List Nat) :
    ∀ (idx : List Nat) (j : Nat), j + vals.length ≤ idx.length →
      ∃ idx1, writeIdx idx j vals = some idx1 ∧ idx1.length = idx.length := by
  induction vals with
  | nil => intro idx j _; exact ⟨idx, rfl, rfl⟩
  | cons v vs ih =>
    intro idx j h
    simp only [List.length_cons] at h
    have hj : j < idx.length := by omega
    obtain ⟨idx1, e, l⟩ := ih (idx.set j v) (j + 1) (by simp; omega)
    refine ⟨idx1, ?_, by simpa using l⟩
    rw [writeIdx, if_pos hj, e]

/-- The triangle loop over lines of any content that are all present. -/
theorem readTriangles_lines (res : List Char) (rest : List (List Char)) :
    ∀ (tlines : List (List Char)) (j : Nat) (idx : List Nat),
      j + 3 * tlines.length ≤ idx.length →
      ∃ idx1, readTriangles res tlines.length j idx (tlines ++ rest)
          = some (some idx1, ⟨rest, res⟩) ∧ idx1.length = idx.length := by
  intro tlines
  induction tlines with
  | nil => intro j idx _; exact ⟨idx, rfl, rfl⟩
  | cons l ls ih =>
    intro j idx h
    simp only [List.length_cons] at h
    have hl : ((scanDecs 3 l).map toWord).length ≤ 3 := by
      rw [List.length_map]; exact scanDecs_length 3 l
    obtain ⟨idx1, e1, l1⟩ := writeIdx_inbounds ((scanDecs 3 l).map toWord) idx j (by omega)
    obtain ⟨idx2, e2, l2⟩ := ih (j + 3) idx1 (by omega)
    refine ⟨idx2, ?_, l2.trans l1⟩
    show readTriangles res (ls.length + 1) j idx (l :: (ls ++ rest)) = _
    rw [readTriangles, e1]
    exact e2

/-- The triangle loop when the input ends within the triangle lines. -/
theorem readTriangles_truncated (res : List Char) :
    ∀ (tl : List (List Char)) (n j : Nat) (idx : List Nat), tl.length < n →
      j + 3 * n ≤ idx.length →
      readTriangles res n j idx tl = some (none, IStream.failed) := by
  intro tl
  induction tl with
  | nil =>
    intro n j idx h _
    cases n with
    | zero => simp at h
    | succ n => rfl
  | cons l ls ih =>
    intro n j idx h hb
    cases n with
    | zero => simp at h
    | succ n =>
      simp only [List.length_cons] at h
      have hl : ((scanDecs 3 l).map toWord).length ≤ 3 := by
        rw [List.length_map]; exact scanDecs_length 3 l
      obtain ⟨idx1, e1, l1⟩ := writeIdx_inbounds ((scanDecs 3 l).map toWord) idx j (by omega)
      rw [readTriangles, e1]
      exact ih n (j + 3) idx1 (by omega) (by omega)

theorem flipLoop_defined :
    ∀ (n i : Nat) (idx : List Nat), i * 3 + 3 * n ≤ idx.length →
      ∃ idx1, flipLoop n i idx = some idx1 ∧ idx1.length = idx.length := by
  intro n
  induction n with
  | zero => intro i idx _; exact ⟨idx, rfl, rfl⟩
  | succ n ih =>
    intro i idx h
    have h1 : i * 3 + 1 < idx.length := by omega
    have h2 : i * 3 + 2 < idx.length := by omega
    have hs : swapAt idx (i * 3 + 1) (i * 3 + 2)
        = some ((idx.set (i * 3 + 1) idx[i * 3 + 2]).set (i * 3 + 2) idx[i * 3 + 1]) := by
      unfold swapAt
      rw [List.getElem?_eq_getElem h1, List.getElem?_eq_getElem h2]
    obtain ⟨idx1, e, l⟩ := ih (i + 1)
      ((idx.set (i * 3 + 1) idx[i * 3 + 2]).set (i * 3 + 2) idx[i * 3 + 1]) (by simp; omega)
    refine ⟨idx1, ?_, by simpa using l⟩
    rw [flipLoop, hs]
    exact e

/-- The `GEOM` branch when the declared vertex and triangle lines are all present,
whatever they hold: the counts are those of the `GEOM` line and both buffers are kept. -/
theorem readGeom_lines {F : Type} (ops : FloatOps F) (bv : BlockVars)
    (lab : List (List Char)) (nidx0 : Option Int) (arg res : List Char) (v t : Nat)
    (vlines tlines rest : List (List Char))
    (harg : scanDecs 2 arg = [(v : Int), (t : Int)])
    (hv : v < 2147483648) (ht : 3 * t < 2147483648)
    (hvl : vlines.length = v) (htl : tlines.length = t) :
    ∃ (vs : List (NTVERTEX F)) (idx : List Nat) (c1 : Bool),
      readGeom ops bv lab nidx0 arg res (vlines ++ tlines ++ rest)
        = some { vars := { bv with calcnml := c1 }, nvtx := (v : Int),
                 nidx := some ((3 * t : Nat) : Int), bufs := some (vs, idx),
                 term := false, labels := lab, stream := ⟨rest, res⟩ } := by
  obtain ⟨vs, c1, hrv, _⟩ :=
    readVertices_complete ops bv.bnormal res (tlines ++ rest) vlines bv.calcnml
  have e1 : toInt32 (v : Int) = (v : Int) := toInt32_of_range _ (by omega) (by omega)
  have e2 : toInt32 (t : Int) = (t : Int) := toInt32_of_range _ (by omega) (by omega)
  have e3 : toInt32 ((t : Int) * 3) = ((3 * t : Nat) : Int) := by
    rw [toInt32_of_range _ (by omega) (by omega)]; push_cast; ring
  obtain ⟨idx1, hrt, hl1⟩ := readTriangles_lines res rest tlines 0 (List.replicate (3 * t) 0)
    (by simp [htl])
  rw [htl] at hrt
  rw [hvl] at hrv
  obtain ⟨idx2, hfl, _⟩ := flipLoop_defined t 0 idx1 (by rw [hl1]; simp)
  refine ⟨vs, if bv.flipidx then idx2 else idx1, c1, ?_⟩
  unfold readGeom
  rw [harg]
  simp only [e1, e2, e3, Int.toNat_ofNat, List.append_assoc, hrv, hrt]
  have n1 : ¬ ((v : Int) < 0) := by omega
  have n2 : ¬ (((3 * t : Nat) : Int) < 0) := by omega
  simp only [n1, n2, if_false]
  cases hf : bv.flipidx with
  | false => simp
  | true => simp [hfl]

/-- The `GEOM` branch when the vertex lines are present and the input ends within the
triangle lines, without `FLIP`: both buffers are released and both counts set to 0. -/
theorem readGeom_truncated {F : Type} (ops : FloatOps F) (bv : BlockVars)
    (lab : List (List Char)) (nidx0 : Option Int) (arg res : List Char) (v t : Nat)
    (vlines tl : List (List Char))
    (harg : scanDecs 2 arg = [(v : Int), (t : Int)])
    (hv : v < 2147483648) (ht : 3 * t < 2147483648)
    (hvl : vlines.length = v) (htl : tl.length < t) (hflip : bv.flipidx = false) :
    ∃ c1 : Bool,
      (readGeom ops bv lab nidx0 arg res (vlines ++ tl) : Option (BlockResult F))
        = some { vars := { bv with calcnml := c1 }, nvtx := 0, nidx := some 0, bufs := none,
                 term := false, labels := lab, stream := IStream.failed } := by
  obtain ⟨vs, c1, hrv, _⟩ :=
    readVertices_complete ops bv.bnormal res tl vlines bv.calcnml
  have e1 : toInt32 (v : Int) = (v : Int) := toInt32_of_range _ (by omega) (by omega)
  have e2 : toInt32 (t : Int) = (t : Int) := toInt32_of_range _ (by omega) (by omega)
  have e3 : toInt32 ((t : Int) * 3) = ((3 * t : Nat) : Int) := by
    rw [toInt32_of_range _ (by omega) (by omega)]; push_cast; ring
  have hrt := readTriangles_truncated res tl t 0 (List.replicate (3 * t) 0) htl (by simp)
  rw [hvl] at hrv
  refine ⟨c1, ?_⟩
  unfold readGeom
  rw [harg]
  simp only [e1, e2, e3, Int.toNat_ofNat, hrv, hrt]
  have n1 : ¬ ((v : Int) < 0) := by omega
  have n2 : ¬ (((3 * t : Nat) : Int) < 0) := by omega
  simp only [n1, n2, if_false, hflip]
  simp

/-- One pass of the group loop over a block whose `GEOM` line declares a zero vertex
count or a zero triangle count, with the declared lines present: no group is added. -/
theorem groupStep_zero_count {F : Type} (ops : FloatOps F) (sm : Bool) (g : Nat)
    (st : LoopState F) (dirs : List (List Char)) (geom : List Char) (v t : Nat)
    (vlines tlines rest : List (List Char))
    (hlab : g < st.mesh.Labels.length)
    (hlines : st.stream.lines = dirs ++ geom :: (vlines ++ tlines ++ rest))
    (hdirs : ∀ l ∈ dirs, IsDirective l) (hgeom : IsGeomLine geom v t)
    (hzero : v = 0 ∨ t = 0) (hv : v < 2147483648) (ht : 3 * t < 2147483648)
    (hvl : vlines.length = v) (htl : tlines.length = t) :
    ∃ st1 : LoopState F, groupStep ops sm g st = some st1 ∧ st1.mesh.Grp = st.mesh.Grp ∧
      st1.term = false ∧ st1.stream = ⟨rest, st.stream.residue⟩ := by
  obtain ⟨vs, idx, c1, hrg⟩ := readGeom_lines ops
    (dirs.foldl (directiveStep g) (BlockVars.init sm, st.mesh.Labels)).1
    (dirs.foldl (directiveStep g) (BlockVars.init sm, st.mesh.Labels)).2 st.nidx (geom.drop 4)
    st.stream.residue v t vlines tlines rest hgeom.2 hv ht hvl htl
  unfold groupStep
  rw [hlines, readBlock_foldl ops g st.nidx st.stream.residue dirs hdirs _ _ hlab,
    readBlock_geom ops _ _ _ _ _ _ _ hgeom.1, hrg]
  rcases hzero with h0 | h0
  · subst h0
    simp [groupBuffers]
  · subst h0
    by_cases hv0 : (v : Int) = 0
    · simp [groupBuffers, hv0]
    · simp [groupBuffers, hv0]

/-- One pass of the group loop over a block on whose `GEOM` line no count converts: no
group is added and the next pass goes on behind the `GEOM` line. -/
theorem groupStep_no_count {F : Type} (ops : FloatOps F) (sm : Bool) (g : Nat)
    (st : LoopState F) (dirs : List (List Char)) (geom : List Char) (rest : List (List Char))
    (hlab : g < st.mesh.Labels.length)
    (hlines : st.stream.lines = dirs ++ geom :: rest)
    (hdirs : ∀ l ∈ dirs, IsDirective l) (hgeom : strnicmpEq geom "GEOM" 4 = true)
    (hnone : scanDecs 2 (geom.drop 4) = []) :
    ∃ st1 : LoopState F, groupStep ops sm g st = some st1 ∧ st1.mesh.Grp = st.mesh.Grp ∧
      st1.term = false ∧ st1.stream = ⟨rest, st.stream.residue⟩ := by
  unfold groupStep
  rw [hlines, readBlock_foldl ops g st.nidx st.stream.residue dirs hdirs _ _ hlab,
    readBlock_geom ops _ _ _ _ _ _ _ hgeom]
  unfold readGeom
  rw [hnone]
  simp [groupBuffers]

/-- One pass of the group loop when the input ends in front of a `GEOM` line: no group
is added and the loop is left. -/
theorem groupStep_no_geom {F : Type} (ops : FloatOps F) (sm : Bool) (g : Nat)
    (st : LoopState F) (dirs : List (List Char))
    (hlab : g < st.mesh.Labels.length) (hlines : st.stream.lines = dirs)
    (hdirs : ∀ l ∈ dirs, IsDirective l) :
    ∃ st1 : LoopState F, groupStep ops sm g st = some st1 ∧ st1.mesh.Grp = st.mesh.Grp ∧
      st1.term = true := by
  have h := readBlock_foldl ops g st.nidx st.stream.residue dirs hdirs
    (BlockVars.init sm) st.mesh.Labels hlab []
  rw [List.append_nil] at h
  unfold groupStep
  rw [hlines, h, readBlock]
  simp [groupBuffers]

/-- One pass of the group loop when the input ends within the triangle lines of the
block, without `FLIP`: no group is added. -/
theorem groupStep_truncated {F : Type} (ops : FloatOps F) (sm : Bool) (g : Nat)
    (st : LoopState F) (dirs : List (List Char)) (geom : List Char) (v t : Nat)
    (vlines tl : List (List Char))
    (hlab : g < st.mesh.Labels.length)
    (hlines : st.stream.lines = dirs ++ geom :: (vlines ++ tl))
    (hdirs : ∀ l ∈ dirs, IsDirective l) (hgeom : IsGeomLine geom v t)
    (hv : v < 2147483648) (ht : 3 * t < 2147483648)
    (hvl : vlines.length = v) (htl : tl.length < t) (hnf : ∀ l ∈ dirs, NotFlip l) :
    ∃ st1 : LoopState F, groupStep ops sm g st = some st1 ∧ st1.mesh.Grp = st.mesh.Grp ∧
      st1.stream = IStream.failed := by
  have hfl : (dirs.foldl (directiveStep g) (BlockVars.init sm, st.mesh.Labels)).1.flipidx
      = false := by
    rw [foldl_flipidx]
    have e : dirs.any (fun l => strnicmpEq l "FLIP" 4) = false := by
      rw [List.any_eq_false]
      intro l hl
      have := hnf l hl
      unfold NotFlip at this
      simp [this]
    rw [e]
    rfl
  obtain ⟨c1, hrg⟩ := readGeom_truncated ops
    (dirs.foldl (directiveStep g) (BlockVars.init sm, st.mesh.Labels)).1
    (dirs.foldl (directiveStep g) (BlockVars.init sm, st.mesh.Labels)).2 st.nidx (geom.drop 4)
    st.stream.residue v t vlines tl hgeom.2 hv ht hvl htl hfl
  unfold groupStep
  rw [hlines, readBlock_foldl ops g st.nidx st.stream.residue dirs hdirs _ _ hlab,
    readBlock_geom ops _ _ _ _ _ _ _ hgeom.1, hrg]
  simp [groupBuffers]

/-- Stores into the unwritten part of a buffer whose first cells are written. -/
theorem writeCells_fill {α : Type} (vals : List α) :
    ∀ (done : List α) (k : Nat), vals.length ≤ k →
      writeCells (done.map some ++ List.replicate k none) done.length vals
        = some ((done ++ vals).map some ++ List.replicate (k - vals.length) none) := by
  induction vals with
  | nil => intro done k _; simp [writeCells]
  | cons v vs ih =>
    intro done k h
    simp only [List.length_cons] at h
    obtain ⟨k1, rfl⟩ : ∃ k1, k = k1 + 1 := ⟨k - 1, by omega⟩
    have hlt : done.length < (done.map some ++ List.replicate (k1 + 1) none).length := by
      simp
    rw [writeCells, if_pos hlt]
    have e1 : (done.map some ++ List.replicate (k1 + 1) (none : Option α)).set done.length
        (some v) = (done ++ [v]).map some ++ List.replicate k1 none := by
      have e0 : done.length = (done.map (some : α → Option α)).length := by simp
      rw [List.replicate_succ, e0, set_append_length]
      simp
    have e2 : done.length + 1 = (done ++ [v]).length := by simp
    rw [e1, e2, ih (done ++ [v]) k1 (by omega)]
    simp only [List.append_assoc, List.singleton_append, List.length_cons]
    have e3 : k1 + 1 - (vs.length + 1) = k1 - vs.length := by omega
    rw [e3]

theorem allSet_map_some {α : Type} (l : List α) : allSet (l.map some) = some l := by
  induction l with
  | nil => rfl
  | cons a as ih => simp [allSet, ih]

theorem ringNodes_length {F : Type} (mk : Nat → NTVERTEX F) :
    ∀ (cnt j : Nat), (ringNodes mk cnt j).length = cnt := by
  intro cnt
  induction cnt with
  | zero => intro j; rfl
  | succ n ih => intro j; simp [ringNodes, ih]

/-- The inner node loop writes its vertices behind the cells written so far. -/
theorem patchRing_fill {F : Type} (mk : Nat → NTVERTEX F) :
    ∀ (cnt j : Nat) (done : List (NTVERTEX F)) (k : Nat), cnt ≤ k →
      patchRing mk cnt j done.length (done.map some ++ List.replicate k none)
        = some ((done ++ ringNodes mk cnt j).map some ++ List.replicate (k - cnt) none,
                done.length + cnt) := by
  intro cnt
  induction cnt with
  | zero => intro j done k _; simp [patchRing, ringNodes]
  | succ n ih =>
    intro j done k h
    rw [patchRing, writeCells_fill [mk j] done k (by simp; omega)]
    simp only [Option.some_bind, List.length_singleton]
    have e : done.length + 1 = (done ++ [mk j]).length := by simp
    rw [e, ih (j + 1) (done ++ [mk j]) (k - 1) (by omega)]
    simp only [ringNodes, List.append_assoc, List.singleton_append, List.length_append,
      List.length_singleton]
    have e3 : k - 1 - n = k - (n + 1) := by omega
    rw [e3]
    have e4 : done.length + 1 + n = done.length + (n + 1) := by omega
    rw [e4]

/-- The node generation writes its vertices behind the cells written so far. -/
theorem patchNodes_fill {F : Type} (ops : PatchOps F) (nlng nlat ilat res bseg : Int)
    (reduce outside : Bool) :
    ∀ (cnt i : Nat) (done : List (NTVERTEX F)) (k : Nat),
      (nodeList ops nlng nlat ilat res bseg reduce outside cnt i).length ≤ k →
      patchNodes ops nlng nlat ilat res bseg reduce outside cnt i done.length
          (done.map some ++ List.replicate k none)
        = some ((done ++ nodeList ops nlng nlat ilat res bseg reduce outside cnt i).map some
                  ++ List.replicate
                      (k - (nodeList ops nlng nlat ilat res bseg reduce outside cnt i).length)
                      none,
                done.length + (nodeList ops nlng nlat ilat res bseg reduce outside cnt i).length) := by
  intro cnt
  induction cnt with
  | zero => intro i done k _; simp [patchNodes, nodeList]
  | succ n ih =>
    intro i done k h
    simp only [nodeList, List.length_append, ringNodes_length] at h
    rw [patchNodes]
    rw [patchRing_fill _ _ 0 done k (by omega)]
    simp only [Option.some_bind]
    have e : done.length + ((if reduce = true then toInt32 (bseg - (i : Int)) else bseg) + 1).toNat
        = (done ++ ringNodes (fun j => patchVertex ops nlng nlat ilat res outside i j
            (if reduce = true then toInt32 (bseg - (i : Int)) else bseg))
          ((if reduce = true then toInt32 (bseg - (i : Int)) else bseg) + 1).toNat 0).length := by
      simp [ringNodes_length]
    rw [e, ih (i + 1) _ _ (by omega)]
    simp only [nodeList, List.append_assoc, List.length_append, ringNodes_length]
    have e3 : ∀ a b c : Nat, k - a - b = k - (a + b) := by intro a b c; omega
    rw [e3 _ _ 0]
    have e4 : ∀ a b c : Nat, a + b + c = a + (b + c) := by intro a b c; omega
    rw [e4]
/-- The inner face loop writes its indices behind the cells written so far. -/
theorem patchFaceRow_fill (reduce : Bool) (nseg nofs0 nofs1 : Int) :
    ∀ (cnt j : Nat) (done : List Nat) (k : Nat),
      (faceRowList reduce nseg nofs0 nofs1 cnt j).length ≤ k →
      patchFaceRow reduce nseg nofs0 nofs1 cnt j done.length
          (done.map some ++ List.replicate k none)
        = some ((done ++ faceRowList reduce nseg nofs0 nofs1 cnt j).map some
                  ++ List.replicate (k - (faceRowList reduce nseg nofs0 nofs1 cnt j).length) none,
                done.length + (faceRowList reduce nseg nofs0 nofs1 cnt j).length) := by
  intro cnt
  induction cnt with
  | zero => intro j done k _; simp [patchFaceRow, faceRowList]
  | succ n ih =>
    intro j done k h
    rw [patchFaceRow]
    by_cases hb : (reduce && decide ((j : Int) = nseg - 1)) = true
    · simp only [faceRowList, hb, if_true, List.append_nil, List.length_cons,
        List.length_nil] at h ⊢
      rw [writeCells_fill _ done k (by simpa using h)]
      simp
    · simp only [faceRowList, hb, Bool.false_eq_true, if_false, List.length_append,
        List.length_cons, List.length_nil] at h ⊢
      rw [writeCells_fill _ done k (by simp; omega)]
      simp only [Option.some_bind, List.length_cons, List.length_nil]
      have e1 : done.length + 3
          = (done ++ [toWord (nofs0 + j), toWord (nofs1 + j), toWord (nofs0 + j + 1)]).length := by
        simp
      rw [e1, writeCells_fill _ _ (k - (0 + 1 + 1 + 1)) (by simp; omega)]
      simp only [Option.some_bind, List.length_cons, List.length_nil]
      have e2 : done.length + 6
          = ((done ++ [toWord (nofs0 + j), toWord (nofs1 + j), toWord (nofs0 + j + 1)]) ++
              [toWord (nofs0 + j + 1), toWord (nofs1 + j), toWord (nofs1 + j + 1)]).length := by
        simp
      rw [e2, ih (j + 1) _ _ (by omega)]
      simp only [List.append_assoc, List.length_append, List.length_cons, List.length_nil,
        List.cons_append, List.nil_append]
      refine congrArg some (Prod.ext ?_ ?_)
      · show _ ++ List.replicate _ none = _ ++ List.replicate _ none
        congr 2
        omega
      · show _ + _ = _ + _
        omega

/-- The face generation writes its indices behind the cells written so far. -/
theorem patchFaces_fill (bseg : Int) (reduce : Bool) :
    ∀ (cnt i : Nat) (nofs0 : Int) (done : List Nat) (k : Nat),
      (faceList bseg reduce cnt i nofs0).length ≤ k →
      patchFaces bseg reduce cnt i nofs0 done.length (done.map some ++ List.replicate k none)
        = some ((done ++ faceList bseg reduce cnt i nofs0).map some
                  ++ List.replicate (k - (faceList bseg reduce cnt i nofs0).length) none,
                done.length + (faceList bseg reduce cnt i nofs0).length) := by
  intro cnt
  induction cnt with
  | zero => intro i nofs0 done k _; simp [patchFaces, faceList]
  | succ n ih =>
    intro i nofs0 done k h
    simp only [faceList, List.length_append] at h
    rw [patchFaces]
    rw [patchFaceRow_fill _ _ _ _ _ 0 done k (by omega)]
    simp only [Option.some_bind]
    rw [← List.length_append, ih (i + 1) _ _ _ (by omega)]
    simp only [faceList, List.append_assoc, List.length_append]
    refine congrArg some (Prod.ext ?_ ?_)
    · show _ ++ List.replicate _ none = _ ++ List.replicate _ none
      congr 2
      omega
    · show _ + _ = _ + _
      omega
/-- The winding loop on a buffer all of whose cells are written, when its passes stay
inside the buffer: it runs through and keeps the length. -/
theorem patchWinding_defined :
    ∀ (cnt i : Nat) (l : List Nat), i + 3 * cnt ≤ l.length →
      ∃ l1 : List Nat, patchWinding cnt i (l.map some) = some (l1.map some) ∧
        l1.length = l.length := by
  intro cnt
  induction cnt with
  | zero => intro i l _; exact ⟨l, rfl, rfl⟩
  | succ n ih =>
    intro i l h
    have h1 : i + 1 < l.length := by omega
    have h2 : i + 2 < l.length := by omega
    obtain ⟨l1, e, hl⟩ := ih (i + 3) ((l.set (i + 1) l[i + 2]).set (i + 2) l[i + 1])
      (by simp; omega)
    refine ⟨l1, ?_, by simpa using hl⟩
    rw [patchWinding]
    simp only [List.getElem?_map, List.getElem?_eq_getElem h1, List.getElem?_eq_getElem h2,
      Option.map_some']
    rw [← List.map_set, ← List.map_set]
    exact e

/-- `CreateSpherePatch` when the node loop and the face loop write exactly the numbers
of cells the buffers were sized for: the result is the cleared mesh with one group
that holds the vertices in the order of the node loop. -/
theorem CreateSpherePatch_filled {F : Type} (ops : PatchOps F) (mesh : Mesh F)
    (nlng nlat ilat res bseg : Int) (reduce outside : Bool) (b : Int) (nv ni : Nat)
    (hb : (if bseg < 0 ∨ ilat = toInt32 (nlat - 1) then toInt32 (toInt32 (nlat - ilat) * res)
           else bseg) = b)
    (hnv : (if reduce then
              toInt32 (toInt32 (toInt32 (b + 1) * toInt32 (res + 1))
                - Int.tdiv (toInt32 (toInt32 (res + 1) * res)) 2)
            else toInt32 (toInt32 (b + 1) * toInt32 (res + 1))) = (nv : Int))
    (hni : toInt32 ((if reduce then toInt32 (res * toInt32 (toInt32 (2 * b) - res))
                     else toInt32 (toInt32 (2 * res) * b)) * 3) = (ni : Int))
    (hres : res ≠ 2147483647) (hb31 : b ≠ 2147483647)
    (hvl : (nodeList ops nlng nlat ilat res b reduce outside (res + 1).toNat 0).length = nv)
    (hil : (faceList b reduce res.toNat 0 0).length = ni) :
    patchNodes ops nlng nlat ilat res b reduce outside (res + 1).toNat 0 0
        (List.replicate nv none)
      = some ((nodeList ops nlng nlat ilat res b reduce outside (res + 1).toNat 0).map some, nv) ∧
    patchFaces b reduce res.toNat 0 0 0 (List.replicate ni none)
      = some ((faceList b reduce res.toNat 0 0).map some, ni) ∧
    ∃ idx : List Nat, idx.length = ni ∧ (outside = true → idx = faceList b reduce res.toNat 0 0) ∧
      CreateSpherePatch ops mesh nlng nlat ilat res bseg reduce outside
        = some (mesh.Clear.AddGroup
            (nodeList ops nlng nlat ilat res b reduce outside (res + 1).toNat 0) idx
            SPEC_INHERIT SPEC_INHERIT 0 0 false).1.Setup := by
  have hn := patchNodes_fill ops nlng nlat ilat res b reduce outside (res + 1).toNat 0 [] nv
    (by rw [hvl])
  simp only [List.map_nil, List.nil_append, List.length_nil, Nat.zero_add, hvl, Nat.sub_self,
    List.replicate_zero, List.append_nil] at hn
  have hf := patchFaces_fill b reduce res.toNat 0 0 [] ni (by rw [hil])
  simp only [List.map_nil, List.nil_append, List.length_nil, Nat.zero_add, hil, Nat.sub_self,
    List.replicate_zero, List.append_nil] at hf
  refine ⟨hn, hf, ?_⟩
  obtain ⟨idx, hw, hwl⟩ : ∃ idx : List Nat,
      (if outside then some ((faceList b reduce res.toNat 0 0).map some)
       else patchWinding ((ni / 3 + 2) / 3) 0 ((faceList b reduce res.toNat 0 0).map some))
        = some (idx.map some) ∧ idx.length = ni ∧
        (outside = true → idx = faceList b reduce res.toNat 0 0) := by
    cases outside with
    | true => exact ⟨_, rfl, hil, fun _ => rfl⟩
    | false =>
      obtain ⟨l1, e, hl⟩ := patchWinding_defined ((ni / 3 + 2) / 3) 0
        (faceList b reduce res.toNat 0 0) (by rw [hil]; omega)
      exact ⟨l1, by simpa using e, hl.trans hil, fun h => by cases h⟩
  refine ⟨idx, hwl.1, hwl.2, ?_⟩
  unfold CreateSpherePatch
  simp only [hb, hnv, hni, Int.toNat_ofNat]
  have n1 : ¬ ((nv : Int) < 0 ∨ res = 2147483647 ∨ b = 2147483647) := by omega
  have n2 : ¬ ((ni : Int) < 0) := by omega
  rw [if_neg n1, hn]
  simp only [Option.some_bind, if_neg n2, hf, hw, allSet_map_some, Option.map_some']

/-- The vertex count of the reduced patch with `bseg = res`: the rings from `i` on have
`cnt`, `cnt - 1`, ..., `1` vertices. -/
theorem nodeList_reduced_length {F : Type} (ops : PatchOps F) (nlng nlat ilat res : Int)
    (outside : Bool) (R : Nat) (hR : R < 2147483648) :
    ∀ (cnt i : Nat), i + cnt = R + 1 →
      2 * (nodeList ops nlng nlat ilat res (R : Int) true outside cnt i).length
        = cnt * (cnt + 1) := by
  intro cnt
  induction cnt with
  | zero => intro i _; simp [nodeList]
  | succ n ih =>
    intro i h
    have e : toInt32 ((R : Int) - (i : Int)) = (n : Int) := by
      rw [toInt32_of_range _ (by omega) (by omega)]; omega
    have ih1 := ih (i + 1) (by omega)
    simp only [nodeList, if_true, e, List.length_append, ringNodes_length]
    have e2 : ((n : Int) + 1).toNat = n + 1 := by omega
    rw [e2, Nat.mul_add, ih1]
    ring

/-- The index count of one ring pair of a reduced patch: two triangles per segment, one
for the last segment. -/
theorem faceRowList_reduced_length (nseg nofs0 nofs1 : Int) :
    ∀ (cnt j : Nat), (j : Int) + cnt = nseg →
      (faceRowList true nseg nofs0 nofs1 cnt j).length = 6 * cnt - 3 := by
  intro cnt
  induction cnt with
  | zero => intro j _; rfl
  | succ n ih =>
    intro j h
    by_cases hl : (j : Int) = nseg - 1
    · have hn : n = 0 := by omega
      subst hn
      simp [faceRowList, hl]
    · have ih1 := ih (j + 1) (by push_cast; omega)
      have hn : 1 ≤ n := by omega
      simp only [faceRowList, Bool.true_and, decide_eq_true_eq, hl, if_false,
        List.length_append, List.length_cons, List.length_nil, ih1]
      omega

/-- The index count of the reduced patch with `bseg = res`: the ring pairs from `i` on
have `cnt`, `cnt - 1`, ..., `1` segments. -/
theorem faceList_reduced_length (R : Nat) (hR : R < 2147483648) :
    ∀ (cnt i : Nat) (nofs0 : Int), i + cnt = R →
      (faceList (R : Int) true cnt i nofs0).length = 3 * cnt * cnt := by
  intro cnt
  induction cnt with
  | zero => intro i nofs0 _; rfl
  | succ n ih =>
    intro i nofs0 h
    have e : toInt32 ((R : Int) - (i : Int)) = ((n + 1 : Nat) : Int) := by
      rw [toInt32_of_range _ (by omega) (by omega)]; omega
    simp only [faceList, if_true, e, Int.toNat_ofNat, List.length_append]
    rw [faceRowList_reduced_length _ _ _ (n + 1) 0 (by simp), ih (i + 1) _ (by omega)]
    have : 6 * (n + 1) - 3 = 6 * n + 3 := by omega
    rw [this]
    ring

theorem ite_bind_eq_none {α β : Type} (c : Prop) [Decidable c] (x : Option α)
    (f : α → Option β) (h : ∀ a, f a = none) : (if c then none else x.bind f) = none := by
  split
  · rfl
  · cases x with
    | none => rfl
    | some a => exact h a

/-- `CreateSpherePatch` has no result when the index count computed for `new WORD[nIdx]`
is negative. -/
theorem CreateSpherePatch_negative_count {F : Type} (ops : PatchOps F) (mesh : Mesh F)
    (nlng nlat ilat res bseg : Int) (reduce outside : Bool) (b : Int)
    (hb : (if bseg < 0 ∨ ilat = toInt32 (nlat - 1) then toInt32 (toInt32 (nlat - ilat) * res)
           else bseg) = b)
    (hni : toInt32 ((if reduce then toInt32 (res * toInt32 (toInt32 (2 * b) - res))
                     else toInt32 (toInt32 (2 * res) * b)) * 3) < 0) :
    CreateSpherePatch ops mesh nlng nlat ilat res bseg reduce outside = none := by
  unfold CreateSpherePatch
  simp only [hb]
  apply ite_bind_eq_none
  intro a
  rw [if_pos hni]
theorem ringNodes_eq_map {F : Type} (mk : Nat → NTVERTEX F) :
    ∀ (cnt j : Nat), ringNodes mk cnt j = (List.range cnt).map (fun d => mk (j + d)) := by
  intro cnt
  induction cnt with
  | zero => intro j; rfl
  | succ n ih =>
    intro j
    rw [ringNodes, ih (j + 1), List.range_succ_eq_map, List.map_cons, List.map_map]
    refine congrArg₂ _ rfl (List.map_congr_left ?_)
    intro d _
    show mk (j + 1 + d) = mk (j + (d + 1))
    rw [Nat.add_assoc, Nat.add_comm 1 d]

/-- The vertices of the reduced patch with `bseg = res`, ring by ring: ring `i` holds the
vertices of the positions `0` to `res - i`. -/
theorem nodeList_reduced_rings {F : Type} (ops : PatchOps F) (nlng nlat ilat res : Int)
    (outside : Bool) (R : Nat) (hR : R < 2147483648) :
    ∀ (cnt i : Nat), i + cnt = R + 1 →
      nodeList ops nlng nlat ilat res (R : Int) true outside cnt i
        = (List.range cnt).flatMap (fun r => (List.range (R - (i + r) + 1)).map
            (fun j => patchVertex ops nlng nlat ilat res outside (i + r) j
              ((R - (i + r) : Nat) : Int))) := by
  intro cnt
  induction cnt with
  | zero => intro i _; rfl
  | succ n ih =>
    intro i h
    have e : toInt32 ((R : Int) - (i : Int)) = ((R - i : Nat) : Int) := by
      rw [toInt32_of_range _ (by omega) (by omega)]; omega
    have e2 : (((R - i : Nat) : Int) + 1).toNat = R - i + 1 := by omega
    rw [nodeList, List.range_succ_eq_map, List.flatMap_cons, List.flatMap_map]
    simp only [if_true, e, e2, ringNodes_eq_map, Nat.zero_add, Nat.add_zero]
    rw [ih (i + 1) (by omega)]
    refine congrArg₂ _ rfl (List.flatMap_congr ?_)
    intro r _
    have e3 : i + 1 + r = i + Nat.succ r := by
      rw [Nat.succ_eq_add_one]; omega
    simp only [Function.comp, e3]
theorem toInt32_natCast (n : Nat) (h : n < 2147483648) : toInt32 (n : Int) = (n : Int) := by
  unfold toInt32
  omega

theorem triangular_even (n : Nat) : 2 * (n * (n + 1) / 2) = n * (n + 1) := by
  have h : 2 ∣ n * (n + 1) := (Nat.even_mul_succ_self n).two_dvd
  exact Nat.mul_div_cancel' h

/-- The vertex count `(bseg+1)*(res+1) - ((res+1)*res)/2` of the reduced patch with
`bseg = res`, computed in `int`, is `(res+1)(res+2)/2` when `(res+1)^2` fits. -/
theorem reduced_vertex_count (res : Nat) (h : (res + 1) * (res + 1) < 2147483648) :
    toInt32 (toInt32 (toInt32 ((res : Int) + 1) * toInt32 ((res : Int) + 1))
        - Int.tdiv (toInt32 (toInt32 ((res : Int) + 1) * (res : Int))) 2)
      = (((res + 1) * (res + 2) / 2 : Nat) : Int) := by
  have hres : res + 1 < 2147483648 := by nlinarith
  have hprod : res * (res + 1) < 2147483648 := by nlinarith
  have a1 : toInt32 ((res : Int) + 1) = ((res + 1 : Nat) : Int) := by
    rw [toInt32_of_range _ (by omega) (by omega)]; push_cast; rfl
  have a2 : toInt32 (((res + 1 : Nat) : Int) * ((res + 1 : Nat) : Int))
      = (((res + 1) * (res + 1) : Nat) : Int) := by
    rw [← Nat.cast_mul]
    exact toInt32_natCast _ h
  have a3 : toInt32 (((res + 1 : Nat) : Int) * (res : Int)) = ((res * (res + 1) : Nat) : Int) := by
    rw [← Nat.cast_mul, Nat.mul_comm (res + 1) res]
    exact toInt32_natCast _ hprod
  have a4 : Int.tdiv ((res * (res + 1) : Nat) : Int) 2 = ((res * (res + 1) / 2 : Nat) : Int) :=
    (Int.ofNat_tdiv _ 2).symm
  rw [a1, a2, a3, a4]
  have t1 := triangular_even res
  have t2 := triangular_even (res + 1)
  have e : (res + 1) * (res + 1) = (res + 1) * (res + 1 + 1) / 2 + res * (res + 1) / 2 := by
    have e1 : 2 * ((res + 1) * (res + 1)) = (res + 1) * (res + 1 + 1) + res * (res + 1) := by ring
    omega
  have key : (((res + 1) * (res + 1) : Nat) : Int) - ((res * (res + 1) / 2 : Nat) : Int)
      = (((res + 1) * (res + 2) / 2 : Nat) : Int) := by
    have e5 : (res + 1) * (res + 2) = (res + 1) * (res + 1 + 1) := rfl
    rw [e5]
    omega
  rw [key]
  have hle : (res + 1) * (res + 2) / 2 < 2147483648 := by
    have e5 : (res + 1) * (res + 2) = (res + 1) * (res + 1 + 1) := rfl
    rw [e5]
    omega
  exact toInt32_natCast _ hle

/-- The index count `res * (2*bseg - res) * 3` of the reduced patch with `bseg = res`,
computed in `int`, is `3 * res * res` when that value fits. -/
theorem reduced_index_count (res : Nat) (h : 3 * res * res < 2147483648) :
    toInt32 (toInt32 ((res : Int) * toInt32 (toInt32 (2 * (res : Int)) - (res : Int))) * 3)
      = ((3 * res * res : Nat) : Int) := by
  have hres : 2 * res < 2147483648 := by
    rcases Nat.eq_zero_or_pos res with h0 | h0
    · subst h0; norm_num
    · nlinarith
  have hrr : res * res < 2147483648 := by nlinarith
  have a1 : toInt32 (2 * (res : Int)) = 2 * (res : Int) :=
    toInt32_of_range _ (by omega) (by omega)
  have a2 : 2 * (res : Int) - (res : Int) = (res : Int) := by omega
  have a3 : toInt32 (res : Int) = (res : Int) := toInt32_of_range _ (by omega) (by omega)
  have a4 : toInt32 ((res : Int) * (res : Int)) = ((res * res : Nat) : Int) := by
    rw [← Nat.cast_mul]
    exact toInt32_natCast _ hrr
  have a5 : ((res * res : Nat) : Int) * 3 = ((3 * res * res : Nat) : Int) := by
    push_cast; ring
  rw [a1, a2, a3, a4, a5]
  exact toInt32_natCast _ h

/-- For `ilat = nlat - 1` the segment count `bseg` is replaced by `(nlat-ilat)*res`,
which is `res`. -/
theorem reduced_bseg (nlat bseg : Int) (res : Nat) (hlat : 1 ≤ nlat) (hlat31 : nlat < 2147483648)
    (hres : res < 2147483648) :
    (if bseg < 0 ∨ nlat - 1 = toInt32 (nlat - 1)
      then toInt32 (toInt32 (nlat - (nlat - 1)) * (res : Int)) else bseg) = (res : Int) := by
  have e1 : toInt32 (nlat - 1) = nlat - 1 := toInt32_of_range _ (by omega) (by omega)
  have e2 : nlat - (nlat - 1) = 1 := by omega
  rw [if_pos (Or.inr e1.symm), e2, toInt32_of_range 1 (by omega) (by omega), Int.one_mul,
    toInt32_of_range _ (by omega) (by omega)]

theorem square_bound (res : Nat) (h : 3 * res * res < 2147483648) :
    (res + 1) * (res + 1) < 2147483648 := by
  rcases Nat.lt_or_ge res 2 with h2 | h2
  · interval_cases res <;> simp
  · nlinarith

theorem accumNormal_frame {F : Type} (ops : FloatOps F) (flags : List Bool)
    (orig cur : List (NTVERTEX F)) (i : Nat) (nm : D3DVECTOR F) (a : F)
    (hc : flags[i]? = some true) (h : VertexFrame flags orig cur) :
    VertexFrame flags orig (accumNormal ops cur i nm a) := by
  unfold accumNormal
  cases hw : cur[i]? with
  | none => exact h
  | some w =>
    simp only []
    have hi : i < cur.length := (List.getElem?_eq_some.mp hw).1
    refine ⟨by rw [List.length_set]; exact h.1, ?_⟩
    intro k v v1 hv hv1
    by_cases hk : i = k
    · subst hk
      rw [List.getElem?_set_self hi] at hv1
      simp only [Option.some.injEq] at hv1
      obtain ⟨a1, a2, a3, a4, a5, _⟩ := h.2 i v w hv hw
      rw [← hv1]
      refine ⟨a1, a2, a3, a4, a5, ?_⟩
      intro hf
      rw [hc] at hf
      cases hf
    · rw [List.getElem?_set_ne hk] at hv1
      exact h.2 k v v1 hv hv1

theorem triNormal_frame {F : Type} (ops : FloatOps F) (flags : List Bool)
    (orig cur cur1 : List (NTVERTEX F)) (i0 i1 i2 : Nat)
    (ht : triNormal ops flags cur i0 i1 i2 = some cur1) (h : VertexFrame flags orig cur) :
    VertexFrame flags orig cur1 := by
  unfold triNormal at ht
  cases hc0 : flags[i0]? with
  | none => simp [hc0] at ht
  | some c0 =>
  cases hc1 : flags[i1]? with
  | none => simp [hc0, hc1] at ht
  | some c1 =>
  cases hc2 : flags[i2]? with
  | none => simp [hc0, hc1, hc2] at ht
  | some c2 =>
  cases hp0 : cur[i0]? with
  | none => simp [hc0, hc1, hc2, hp0] at ht
  | some p0 =>
  cases hp1 : cur[i1]? with
  | none => simp [hc0, hc1, hc2, hp0, hp1] at ht
  | some p1 =>
  cases hp2 : cur[i2]? with
  | none => simp [hc0, hc1, hc2, hp0, hp1, hp2] at ht
  | some p2 =>
    simp only [hc0, hc1, hc2, hp0, hp1, hp2, Option.bind_eq_bind, Option.some_bind] at ht
    split at ht
    · simp only [Option.some.injEq] at ht
      rw [← ht]; exact h
    · split at ht
      · simp only [Option.some.injEq] at ht
        rw [← ht]
        have s0 : ∀ (x : List (NTVERTEX F)) (nm : D3DVECTOR F) (a : F),
            VertexFrame flags orig x →
            VertexFrame flags orig (if c0 = true then accumNormal ops x i0 nm a else x) := by
          intro x nm a hx
          cases c0 with
          | false => exact hx
          | true => exact accumNormal_frame ops flags orig x i0 nm a hc0 hx
        have s1 : ∀ (x : List (NTVERTEX F)) (nm : D3DVECTOR F) (a : F),
            VertexFrame flags orig x →
            VertexFrame flags orig (if c1 = true then accumNormal ops x i1 nm a else x) := by
          intro x nm a hx
          cases c1 with
          | false => exact hx
          | true => exact accumNormal_frame ops flags orig x i1 nm a hc1 hx
        have s2 : ∀ (x : List (NTVERTEX F)) (nm : D3DVECTOR F) (a : F),
            VertexFrame flags orig x →
            VertexFrame flags orig (if c2 = true then accumNormal ops x i2 nm a else x) := by
          intro x nm a hx
          cases c2 with
          | false => exact hx
          | true => exact accumNormal_frame ops flags orig x i2 nm a hc2 hx
        exact s2 _ _ _ (s1 _ _ _ (s0 _ _ _ h))
      · simp only [Option.some.injEq] at ht
        rw [← ht]; exact h

theorem triLoop_frame {F : Type} (ops : FloatOps F) (flags : List Bool)
    (orig : List (NTVERTEX F)) :
    ∀ (idx : List Nat) (cur cur1 : List (NTVERTEX F)),
      triLoop ops flags idx cur = some cur1 → VertexFrame flags orig cur →
      VertexFrame flags orig cur1
  | [], cur, cur1, ht, h => by
    simp only [triLoop, Option.some.injEq] at ht
    rw [← ht]; exact h
  | [_], cur, cur1, ht, h => by
    simp only [triLoop, Option.some.injEq] at ht
    rw [← ht]; exact h
  | [_, _], cur, cur1, ht, h => by
    simp only [triLoop, Option.some.injEq] at ht
    rw [← ht]; exact h
  | i0 :: i1 :: i2 :: rest, cur, cur1, ht, h => by
    rw [triLoop] at ht
    cases hn : triNormal ops flags cur i0 i1 i2 with
    | none => simp [hn] at ht
    | some cur2 =>
      simp only [hn, Option.some_bind] at ht
      exact triLoop_frame ops flags orig rest cur2 cur1 ht
        (triNormal_frame ops flags orig cur cur2 i0 i1 i2 hn h)

/-- The first loop of `CalcNormals` keeps the frame. -/
theorem clearNormals_frame {F : Type} (ops : FloatOps F) (mo : Bool) (orig : List (NTVERTEX F)) :
    VertexFrame (orig.map (flagVertex ops mo)) orig
      (orig.map (fun v => if flagVertex ops mo v then clearNormal ops v else v)) := by
  refine ⟨by simp, ?_⟩
  intro k v v1 hv hv1
  rw [List.getElem?_map, hv] at hv1
  simp only [Option.map_some', Option.some.injEq] at hv1
  rw [← hv1]
  cases hf : flagVertex ops mo v with
  | false =>
    rw [if_neg Bool.false_ne_true]
    exact ⟨rfl, rfl, rfl, rfl, rfl, fun _ => rfl⟩
  | true =>
    rw [if_pos rfl]
    refine ⟨rfl, rfl, rfl, rfl, rfl, ?_⟩
    intro hc
    rw [List.getElem?_map, hv] at hc
    simp only [Option.map_some', Option.some.injEq] at hc
    rw [hf] at hc
    cases hc

/-- The last loop of `CalcNormals` keeps the frame. -/
theorem normalise_frame {F : Type} (ops : FloatOps F) (flags : List Bool)
    (orig cur : List (NTVERTEX F)) (hl : flags.length = orig.length)
    (h : VertexFrame flags orig cur) :
    VertexFrame flags orig (List.zipWith (normaliseVertex ops) flags cur) := by
  refine ⟨by simp [h.1, hl], ?_⟩
  intro k v v1 hv hv1
  have hk : k < orig.length := (List.getElem?_eq_some.mp hv).1
  have hkc : k < flags.length := by omega
  have hkv : k < cur.length := by rw [h.1]; exact hk
  have e : (List.zipWith (normaliseVertex ops) flags cur)[k]?
      = some (normaliseVertex ops flags[k] cur[k]) := by
    rw [List.getElem?_eq_getElem (by simp; omega)]
    simp
  rw [e] at hv1
  simp only [Option.some.injEq] at hv1
  obtain ⟨a1, a2, a3, a4, a5, a6⟩ := h.2 k v cur[k] hv (List.getElem?_eq_getElem hkv)
  rw [← hv1]
  unfold normaliseVertex
  cases hc : flags[k] with
  | false =>
    simp only [Bool.false_eq_true, if_false]
    exact ⟨a1, a2, a3, a4, a5, a6⟩
  | true =>
    simp only [if_true]
    refine ⟨a1, a2, a3, a4, a5, ?_⟩
    intro hf
    rw [List.getElem?_eq_getElem hkc, hc] at hf
    cases hf

/-- `CalcNormals` on the buffers of a group keeps the frame: positions, texture
coordinates and the vertices that are not flagged, and every other field of the group. -/
theorem calcNormalsGroup_frame {F : Type} (ops : FloatOps F) (g g1 : GroupSpec F) (mo : Bool)
    (h : calcNormalsGroup ops g mo = some g1) :
    VertexFrame (g.Vtx.map (flagVertex ops mo)) g.Vtx g1.Vtx := by
  unfold calcNormalsGroup at h
  cases ht : triLoop ops (g.Vtx.map (flagVertex ops mo)) g.Idx
      (g.Vtx.map (fun v => if flagVertex ops mo v then clearNormal ops v else v)) with
  | none => simp [ht] at h
  | some vtx1 =>
    simp only [ht, Option.map_some', Option.some.injEq] at h
    rw [← h]
    exact normalise_frame ops _ g.Vtx vtx1 (by simp)
      (triLoop_frame ops _ g.Vtx g.Idx _ vtx1 ht (clearNormals_frame ops mo g.Vtx))

/-- The result of `CalcNormals` does not depend on the normals the flagged vertices
had: a vertex list with the same flags, the same unflagged vertices and, up to their
normals, the same flagged vertices gives the same result. -/
theorem calcNormalsGroup_recomputes {F : Type} (ops : FloatOps F) (g : GroupSpec F) (mo : Bool)
    (vtx : List (NTVERTEX F)) (hl : vtx.length = g.Vtx.length)
    (hv : ∀ (k : Nat) (v v1 : NTVERTEX F), g.Vtx[k]? = some v → vtx[k]? = some v1 →
      flagVertex ops mo v1 = flagVertex ops mo v ∧
      (flagVertex ops mo v = true → clearNormal ops v1 = clearNormal ops v) ∧
      (flagVertex ops mo v = false → v1 = v)) :
    calcNormalsGroup ops { g with Vtx := vtx } mo = calcNormalsGroup ops g mo := by
  have e1 : vtx.map (flagVertex ops mo) = g.Vtx.map (flagVertex ops mo) := by
    apply List.ext_getElem?
    intro k
    rw [List.getElem?_map, List.getElem?_map]
    by_cases hk : k < vtx.length
    · rw [List.getElem?_eq_getElem hk, List.getElem?_eq_getElem (hl ▸ hk)]
      simp only [Option.map_some', Option.some.injEq]
      exact (hv k _ _ (List.getElem?_eq_getElem (hl ▸ hk)) (List.getElem?_eq_getElem hk)).1
    · rw [List.getElem?_eq_none (by omega), List.getElem?_eq_none (by omega)]
  have e2 : vtx.map (fun v => if flagVertex ops mo v then clearNormal ops v else v)
      = g.Vtx.map (fun v => if flagVertex ops mo v then clearNormal ops v else v) := by
    apply List.ext_getElem?
    intro k
    rw [List.getElem?_map, List.getElem?_map]
    by_cases hk : k < vtx.length
    · rw [List.getElem?_eq_getElem hk, List.getElem?_eq_getElem (hl ▸ hk)]
      simp only [Option.map_some', Option.some.injEq]
      obtain ⟨a, b, c⟩ := hv k _ _ (List.getElem?_eq_getElem (hl ▸ hk))
        (List.getElem?_eq_getElem hk)
      rw [a]
      cases hf : flagVertex ops mo (g.Vtx[k]) with
      | false => simp only [Bool.false_eq_true, if_false]; exact c hf
      | true => simp only [if_true]; exact b hf
    · rw [List.getElem?_eq_none (by omega), List.getElem?_eq_none (by omega)]
  unfold calcNormalsGroup
  simp only [e1, e2]

/-! ## Helper lemmas: blocks and whole meshes -/

theorem AddMesh_fold {F : Type} (gs : List (GroupSpec F)) (m : Mesh F) :
    gs.foldl (fun acc g => (acc.AddGroup g.Vtx g.Idx SPEC_INHERIT SPEC_INHERIT 0 0 false).1) m
      = { m with Grp := m.Grp ++ gs.map (fun g =>
            let g0 : GroupSpec F :=
              { Vtx := g.Vtx, Idx := g.Idx, MtrlIdx := SPEC_INHERIT, TexIdx := SPEC_INHERIT,
                zBias := 0, Flags := 0, UsrFlag := 0 }
            if m.GrpSetup then setupRefs m.Mtrl.length m.nTex g0 else g0) } := by
  induction gs generalizing m with
  | nil => simp
  | cons g rest ih =>
    rw [List.foldl_cons, ih]
    simp [Mesh.AddGroup, List.append_assoc]

theorem setupRefs_buffers {F : Type} (a b : Nat) (g : GroupSpec F) :
    (setupRefs a b g).Vtx = g.Vtx ∧ (setupRefs a b g).Idx = g.Idx := by
  simp [setupRefs]

theorem toWord_add_offset (x n : Nat) :
    toWord ((x : Int) + ((toWord (n : Int) : Nat) : Int)) = (x + n) % 65536 := by
  unfold toWord
  omega

theorem AddGroupBlock_eq {F : Type} (m : Mesh F) (grp : Nat) (vtx : List (NTVERTEX F))
    (idx : List Nat) (g : GroupSpec F) (hg : m.Grp[grp]? = some g) :
    m.AddGroupBlock grp vtx idx
      = ({ m with Grp := m.Grp.set grp ⟨g.Vtx ++ vtx,
                      g.Idx ++ idx.map (fun x => (x + g.Vtx.length) % 65536),
                      g.MtrlIdx, g.TexIdx, g.UsrFlag, g.zBias, g.Flags⟩ }, true) := by
  have hlt : grp < m.Grp.length := by
    rcases List.getElem?_eq_some_iff.mp hg with ⟨h, _⟩
    exact h
  unfold Mesh.AddGroupBlock
  rw [if_neg (by omega), hg]
  simp only [toWord_add_offset]

/-! ## Helper lemmas: the normal synthesis on small groups -/

theorem calcNormalsGroup_lone {F : Type} (ops : FloatOps F) (v : NTVERTEX F)
    (mtrl tex usr zb fl : Nat) (mo : Bool) (hflag : flagVertex ops mo v = true) :
    calcNormalsGroup ops ⟨[v], [], mtrl, tex, usr, zb, fl⟩ mo
      = some ⟨[{ v with
                  nx := ops.div ops.zero (D3DMath_Length ops ⟨ops.zero, ops.zero, ops.zero⟩),
                  ny := ops.div ops.zero (D3DMath_Length ops ⟨ops.zero, ops.zero, ops.zero⟩),
                  nz := ops.div ops.zero (D3DMath_Length ops ⟨ops.zero, ops.zero, ops.zero⟩) }],
              [], mtrl, tex, usr, zb, fl⟩ := by
  simp [calcNormalsGroup, triLoop, hflag, normaliseVertex, clearNormal]

theorem flagVertex_zero_normal {F : Type} [LinearOrderedField F] (ops : FloatOps F)
    (hex : ExactOps ops) (mo : Bool) (v : NTVERTEX F)
    (hn : v.nx = 0 ∧ v.ny = 0 ∧ v.nz = 0) : flagVertex ops mo v = true := by
  unfold flagVertex
  cases mo
  · rfl
  · rw [if_pos rfl, hn.1, hn.2.1, hn.2.2, hex.mul, hex.add, hex.add, hex.gt]
    simp [hex.tenth]

theorem calcNormalsGroup_triangle {F : Type} (ops : FloatOps F) (v0 v1 v2 : NTVERTEX F)
    (mtrl tex usr zb fl : Nat) (mo : Bool)
    (h0 : flagVertex ops mo v0 = true) (h1 : flagVertex ops mo v1 = true)
    (h2 : flagVertex ops mo v2 = true) :
    calcNormalsGroup ops ⟨[v0, v1, v2], [0, 1, 2], mtrl, tex, usr, zb, fl⟩ mo
      = (triNormal ops [true, true, true]
            [clearNormal ops v0, clearNormal ops v1, clearNormal ops v2] 0 1 2).map
          (fun vtx1 => ⟨List.zipWith (normaliseVertex ops) [true, true, true] vtx1,
            [0, 1, 2], mtrl, tex, usr, zb, fl⟩) := by
  simp [calcNormalsGroup, triLoop, h0, h1, h2]

theorem cross_exact {F : Type} [LinearOrderedField F] (ops : FloatOps F) (hex : ExactOps ops)
    (v0 v1 v2 : NTVERTEX F) :
    D3DMath_CrossProduct ops ⟨ops.sub v1.x v0.x, ops.sub v1.y v0.y, ops.sub v1.z v0.z⟩
        ⟨ops.sub v2.x v0.x, ops.sub v2.y v0.y, ops.sub v2.z v0.z⟩
      = faceCross v0 v1 v2 := by
  simp [D3DMath_CrossProduct, faceCross, hex.sub, hex.mul]

theorem length_exact {F : Type} [LinearOrderedField F] (ops : FloatOps F) (hex : ExactOps ops)
    (v : D3DVECTOR F) (L : F) (hL : 0 ≤ L) (hLL : L * L = v.x * v.x + v.y * v.y + v.z * v.z) :
    D3DMath_Length ops v = L := by
  unfold D3DMath_Length
  rw [hex.mul, hex.mul, hex.mul, hex.add, hex.add, ← hLL, hex.sqrt L hL]

theorem triNormal_triangle {F : Type} (ops : FloatOps F) (p0 p1 p2 : NTVERTEX F)
    (nm : D3DVECTOR F) (len : F)
    (hnm : D3DMath_CrossProduct ops ⟨ops.sub p1.x p0.x, ops.sub p1.y p0.y, ops.sub p1.z p0.z⟩
        ⟨ops.sub p2.x p0.x, ops.sub p2.y p0.y, ops.sub p2.z p0.z⟩ = nm)
    (hlen : D3DMath_Length ops nm = len) :
    triNormal ops [true, true, true] [p0, p1, p2] 0 1 2
      = if ops.ge len ops.eps then
          some [{ p0 with
                  nx := ops.add p0.nx (ops.mul (ops.div nm.x len) (cornerWeights ops p0 p1 p2).1),
                  ny := ops.add p0.ny (ops.mul (ops.div nm.y len) (cornerWeights ops p0 p1 p2).1),
                  nz := ops.add p0.nz (ops.mul (ops.div nm.z len) (cornerWeights ops p0 p1 p2).1) },
                { p1 with
                  nx := ops.add p1.nx (ops.mul (ops.div nm.x len) (cornerWeights ops p0 p1 p2).2.1),
                  ny := ops.add p1.ny (ops.mul (ops.div nm.y len) (cornerWeights ops p0 p1 p2).2.1),
                  nz := ops.add p1.nz (ops.mul (ops.div nm.z len) (cornerWeights ops p0 p1 p2).2.1) },
                { p2 with
                  nx := ops.add p2.nx (ops.mul (ops.div nm.x len) (cornerWeights ops p0 p1 p2).2.2),
                  ny := ops.add p2.ny (ops.mul (ops.div nm.y len) (cornerWeights ops p0 p1 p2).2.2),
                  nz := ops.add p2.nz (ops.mul (ops.div nm.z len) (cornerWeights ops p0 p1 p2).2.2) }]
        else some [p0, p1, p2] := by
  unfold triNormal
  simp only [List.getElem?_cons_zero, List.getElem?_cons_succ, Option.bind_eq_bind,
    Option.some_bind, Bool.not_true, Bool.and_self, Bool.false_eq_true, if_false, if_true,
    hnm, hlen, accumNormal, List.set_cons_zero, List.set_cons_succ, cornerWeights]

theorem normalise_weighted {F : Type} [LinearOrderedField F] (ops : FloatOps F)
    (hex : ExactOps ops) (v : NTVERTEX F) (n : D3DVECTOR F) (a : F) (ha : 0 < a)
    (hunit : n.x * n.x + n.y * n.y + n.z * n.z = 1) :
    normaliseVertex ops true
        { v with nx := ops.add ops.zero (ops.mul n.x a),
                 ny := ops.add ops.zero (ops.mul n.y a),
                 nz := ops.add ops.zero (ops.mul n.z a) }
      = withNormal v n := by
  have hlen : D3DMath_Length ops ⟨ops.add ops.zero (ops.mul n.x a),
      ops.add ops.zero (ops.mul n.y a), ops.add ops.zero (ops.mul n.z a)⟩ = a := by
    apply length_exact ops hex _ a (le_of_lt ha)
    simp only [hex.zero, hex.add, hex.mul, zero_add]
    have : n.x * a * (n.x * a) + n.y * a * (n.y * a) + n.z * a * (n.z * a)
        = (n.x * n.x + n.y * n.y + n.z * n.z) * (a * a) := by ring
    rw [this, hunit, one_mul]
  unfold normaliseVertex withNormal
  rw [if_pos rfl]
  simp only [hlen]
  simp only [hex.zero, hex.add, hex.mul, hex.div, zero_add]
  have ha0 : a ≠ 0 := ne_of_gt ha
  rw [mul_div_assoc, div_self ha0, mul_one, mul_div_assoc, div_self ha0, mul_one,
    mul_div_assoc, div_self ha0, mul_one]

theorem unit_of_length {F : Type} [LinearOrderedField F] (c : D3DVECTOR F) (L : F) (hL : 0 < L)
    (hLL : L * L = c.x * c.x + c.y * c.y + c.z * c.z) :
    c.x / L * (c.x / L) + c.y / L * (c.y / L) + c.z / L * (c.z / L) = 1 := by
  have hL0 : L ≠ 0 := ne_of_gt hL
  field_simp
  rw [← hLL]

theorem calcNormalsGroup_face_normal {F : Type} [LinearOrderedField F] (ops : FloatOps F)
    (hex : ExactOps ops) (v0 v1 v2 : NTVERTEX F) (mtrl tex usr zb fl : Nat) (mo : Bool)
    (hn0 : v0.nx = 0 ∧ v0.ny = 0 ∧ v0.nz = 0)
    (hn1 : v1.nx = 0 ∧ v1.ny = 0 ∧ v1.nz = 0)
    (hn2 : v2.nx = 0 ∧ v2.ny = 0 ∧ v2.nz = 0)
    (L : F) (hL : 0 < L)
    (hLL : L * L = (faceCross v0 v1 v2).x * (faceCross v0 v1 v2).x
                    + (faceCross v0 v1 v2).y * (faceCross v0 v1 v2).y
                    + (faceCross v0 v1 v2).z * (faceCross v0 v1 v2).z)
    (hguard : ops.eps ≤ L)
    (ha0 : 0 < (cornerWeights ops v0 v1 v2).1)
    (ha1 : 0 < (cornerWeights ops v0 v1 v2).2.1)
    (ha2 : 0 < (cornerWeights ops v0 v1 v2).2.2) :
    calcNormalsGroup ops ⟨[v0, v1, v2], [0, 1, 2], mtrl, tex, usr, zb, fl⟩ mo
        = some ⟨[withNormal v0 ⟨(faceCross v0 v1 v2).x / L, (faceCross v0 v1 v2).y / L,
                    (faceCross v0 v1 v2).z / L⟩,
                 withNormal v1 ⟨(faceCross v0 v1 v2).x / L, (faceCross v0 v1 v2).y / L,
                    (faceCross v0 v1 v2).z / L⟩,
                 withNormal v2 ⟨(faceCross v0 v1 v2).x / L, (faceCross v0 v1 v2).y / L,
                    (faceCross v0 v1 v2).z / L⟩],
                [0, 1, 2], mtrl, tex, usr, zb, fl⟩ := by
  have hunit := unit_of_length (faceCross v0 v1 v2) L hL hLL
  have hlen : D3DMath_Length ops (faceCross v0 v1 v2) = L :=
    length_exact ops hex _ L (le_of_lt hL) hLL
  rw [calcNormalsGroup_triangle ops v0 v1 v2 mtrl tex usr zb fl mo
    (flagVertex_zero_normal ops hex mo v0 hn0) (flagVertex_zero_normal ops hex mo v1 hn1)
    (flagVertex_zero_normal ops hex mo v2 hn2)]
  rw [triNormal_triangle ops (clearNormal ops v0) (clearNormal ops v1) (clearNormal ops v2)
    (faceCross v0 v1 v2) L (cross_exact ops hex v0 v1 v2) hlen]
  have hge : ops.ge L ops.eps = true := by rw [hex.ge]; exact decide_eq_true hguard
  rw [if_pos hge]
  have hw : cornerWeights ops (clearNormal ops v0) (clearNormal ops v1) (clearNormal ops v2)
      = cornerWeights ops v0 v1 v2 := rfl
  rw [hw]
  simp only [Option.map_some', List.zipWith_cons_cons, List.zipWith_nil_right, hex.div]
  have e0 := normalise_weighted ops hex v0 ⟨(faceCross v0 v1 v2).x / L,
    (faceCross v0 v1 v2).y / L, (faceCross v0 v1 v2).z / L⟩ _ ha0 hunit
  have e1 := normalise_weighted ops hex v1 ⟨(faceCross v0 v1 v2).x / L,
    (faceCross v0 v1 v2).y / L, (faceCross v0 v1 v2).z / L⟩ _ ha1 hunit
  have e2 := normalise_weighted ops hex v2 ⟨(faceCross v0 v1 v2).x / L,
    (faceCross v0 v1 v2).y / L, (faceCross v0 v1 v2).z / L⟩ _ ha2 hunit
  simp only [clearNormal]
  rw [e0, e1, e2]

theorem calcNormalsGroup_face_skipped {F : Type} [LinearOrderedField F] (ops : FloatOps F)
    (hex : ExactOps ops) (v0 v1 v2 : NTVERTEX F) (mtrl tex usr zb fl : Nat) (mo : Bool)
    (hn0 : v0.nx = 0 ∧ v0.ny = 0 ∧ v0.nz = 0)
    (hn1 : v1.nx = 0 ∧ v1.ny = 0 ∧ v1.nz = 0)
    (hn2 : v2.nx = 0 ∧ v2.ny = 0 ∧ v2.nz = 0)
    (L : F) (hL : 0 ≤ L)
    (hLL : L * L = (faceCross v0 v1 v2).x * (faceCross v0 v1 v2).x
                    + (faceCross v0 v1 v2).y * (faceCross v0 v1 v2).y
                    + (faceCross v0 v1 v2).z * (faceCross v0 v1 v2).z)
    (hguard : L < ops.eps) :
    calcNormalsGroup ops ⟨[v0, v1, v2], [0, 1, 2], mtrl, tex, usr, zb, fl⟩ mo
        = some ⟨[v0, v1, v2], [0, 1, 2], mtrl, tex, usr, zb, fl⟩ := by
  have hlen : D3DMath_Length ops (faceCross v0 v1 v2) = L :=
    length_exact ops hex _ L hL hLL
  rw [calcNormalsGroup_triangle ops v0 v1 v2 mtrl tex usr zb fl mo
    (flagVertex_zero_normal ops hex mo v0 hn0) (flagVertex_zero_normal ops hex mo v1 hn1)
    (flagVertex_zero_normal ops hex mo v2 hn2)]
  rw [triNormal_triangle ops (clearNormal ops v0) (clearNormal ops v1) (clearNormal ops v2)
    (faceCross v0 v1 v2) L (cross_exact ops hex v0 v1 v2) hlen]
  have hge : ops.ge L ops.eps = false := by
    rw [hex.ge]; exact decide_eq_false (not_le.mpr hguard)
  rw [hge]
  simp only [Bool.false_eq_true, if_false, Option.map_some', List.zipWith_cons_cons,
    List.zipWith_nil_right, normaliseVertex, if_true, clearNormal, hex.zero, hex.div, zero_div]
  rcases v0 with ⟨x0, y0, z0, nx0, ny0, nz0, tu0, tv0⟩
  rcases v1 with ⟨x1, y1, z1, nx1, ny1, nz1, tu1, tv1⟩
  rcases v2 with ⟨x2, y2, z2, nx2, ny2, nz2, tu2, tv2⟩
  simp only at hn0 hn1 hn2
  rw [hn0.1, hn0.2.1, hn0.2.2, hn1.1, hn1.2.1, hn1.2.2, hn2.1, hn2.2.1, hn2.2.2]

theorem ratSqrt_mul_self (a : ℚ) (h : 0 ≤ a) :
    ((Nat.sqrt (a * a).num.toNat : ℚ) / (Nat.sqrt (a * a).den : ℚ)) = a := by
  obtain ⟨k, hk⟩ := Int.eq_ofNat_of_zero_le (Rat.num_nonneg.mpr h)
  rw [Rat.mul_self_num, Rat.mul_self_den, hk, ← Int.natCast_mul, Int.toNat_natCast,
    Nat.sqrt_eq, Nat.sqrt_eq]
  have := Rat.num_div_den a
  rw [hk] at this
  simpa using this

theorem exampleRatOps_exact : ExactOps exampleRatOps :=
  { zero := rfl, add := fun _ _ => rfl, sub := fun _ _ => rfl, mul := fun _ _ => rfl,
    div := fun _ _ => rfl, gt := fun _ _ => rfl, ge := fun _ _ => rfl,
    sqrt := ratSqrt_mul_self,
    tenth := by norm_num [exampleRatOps] }

theorem toWord_natCast_add (a j : Nat) : toWord ((a : Int) + (j : Int)) = (a + j) % 65536 := by
  unfold toWord
  omega

theorem toWord_natCast_add_one (a j : Nat) :
    toWord ((a : Int) + (j : Int) + 1) = (a + j + 1) % 65536 := by
  unfold toWord
  omega

theorem reducedSegment_length (nseg nofs0 nofs1 j : Nat) :
    (reducedSegment nseg nofs0 nofs1 j).length = if j + 1 = nseg then 3 else 6 := by
  unfold reducedSegment
  split <;> simp

theorem le32_length (v : Int) : (le32 v).length = 4 := rfl

theorem toDword_toInt32 (v : Int) : toDword (toInt32 v) = toDword v := by
  unfold toDword toInt32
  omega

theorem le32_toInt32 (v : Int) : le32 (toInt32 v) = le32 v := by
  unfold le32
  rw [toDword_toInt32]

theorem toDword_toDword (v : Int) : toDword ((toDword v : Nat) : Int) = toDword v := by
  unfold toDword
  omega

theorem le32_toDword (v : Int) : le32 ((toDword v : Nat) : Int) = le32 v := by
  unfold le32
  rw [toDword_toDword]

theorem cstrBytes_length (s : List Char) : (cstrBytes s).length = s.length + 1 := by
  simp [cstrBytes]

theorem vtx3Bytes_length {F : Type} (eo : ExportOps F) (p : vtx3 F) :
    (vtx3Bytes eo p).length = 12 := by
  simp [vtx3Bytes, eo.size]

theorem vtx2Bytes_length {F : Type} (eo : ExportOps F) (p : vtx2 F) :
    (vtx2Bytes eo p).length = 8 := by
  simp [vtx2Bytes, eo.size]

theorem flatMap_length_const {α : Type} (f : α → List Nat) (k : Nat)
    (h : ∀ a, (f a).length = k) (l : List α) : (l.flatMap f).length = k * l.length := by
  induction l with
  | nil => simp
  | cons a as ih =>
    rw [List.flatMap_cons, List.length_append, h, ih, List.length_cons]
    ring

theorem writeBytes_all (image : List Nat) (count : Int) (h : count = (image.length : Int)) :
    writeBytes image count = some image := by
  unfold writeBytes
  rw [if_neg (by omega)]
  have : count.toNat = image.length := by omega
  rw [this, List.take_length]

theorem writeVertices_all {F : Type} (eo : ExportOps F) (g : ExMeshGroup F)
    (vs : List (NTVERTEX F))
    (hp : g.Positions = vs.map (fun v => ⟨v.x, v.y, v.z⟩))
    (hn : g.Normals = vs.map (fun v => ⟨v.nx, v.ny, v.nz⟩))
    (ht : g.UVCoords = vs.map (fun v => ⟨v.tu, v.tv⟩)) :
    ∀ (cnt v : Nat), v + cnt = vs.length →
      writeVertices eo g cnt v
        = some ((vs.drop v).flatMap (fun w =>
            eo.floatBytes w.x ++ eo.floatBytes w.y ++ eo.floatBytes w.z ++
            eo.floatBytes w.nx ++ eo.floatBytes w.ny ++ eo.floatBytes w.nz ++
            eo.floatBytes w.tu ++ eo.floatBytes w.tv)) := by
  intro cnt
  induction cnt with
  | zero =>
    intro v h
    rw [List.drop_of_length_le (by omega)]
    rfl
  | succ n ih =>
    intro v h
    have hv : v < vs.length := by omega
    rw [writeVertices, hp, hn, ht]
    simp only [List.getElem?_map, List.getElem?_eq_getElem hv, Option.map_some']
    rw [ih (v + 1) (by omega), List.drop_eq_getElem_cons hv]
    simp only [vtx3Bytes, vtx2Bytes, List.flatMap_cons, List.append_assoc, Option.map_some']

theorem ExMeshGroup_new_eq {F : Type} (g : GroupSpec F) (label : List Char)
    (hL : label.length ≤ 255) (hV : g.Vtx.length < 2147483648)
    (hI : g.Idx.length < 2147483648) :
    ExMeshGroup.new g (if label = [] then none else some label)
      = some ⟨label, toInt32 g.MtrlIdx, toInt32 g.TexIdx, toDword g.Flags, toDword g.UsrFlag,
          toDword g.zBias, g.Vtx.length, g.Idx.length,
          g.Vtx.map (fun v => ⟨v.x, v.y, v.z⟩), g.Vtx.map (fun v => ⟨v.nx, v.ny, v.nz⟩),
          g.Vtx.map (fun v => ⟨v.tu, v.tv⟩),
          g.Idx.map (fun i => ((i % 65536 : Nat) : Int))⟩ := by
  have hv := toInt32_natCast g.Vtx.length hV
  have hi := toInt32_natCast g.Idx.length hI
  unfold ExMeshGroup.new
  by_cases h : label = []
  · subst h
    simp only [if_true, hv, hi]
    rw [if_neg (by simp), if_neg (by omega)]
    simp only [Int.toNat_ofNat, List.take_length]
  · simp only [if_neg h, hv, hi]
    rw [if_neg (by omega), if_neg (by omega)]
    simp only [Int.toNat_ofNat, List.take_length]

theorem writeGroup_eq_groupRecord {F : Type} (eo : ExportOps F) (g : GroupSpec F)
    (label : List Char) (straightConvert : Bool)
    (hL : label.length ≤ 255) (hV : 12 * g.Vtx.length < 2147483648)
    (hI : 4 * g.Idx.length < 2147483648) :
    writeGroup eo straightConvert
        ⟨label, toInt32 g.MtrlIdx, toInt32 g.TexIdx, toDword g.Flags, toDword g.UsrFlag,
          toDword g.zBias, g.Vtx.length, g.Idx.length,
          g.Vtx.map (fun v => ⟨v.x, v.y, v.z⟩), g.Vtx.map (fun v => ⟨v.nx, v.ny, v.nz⟩),
          g.Vtx.map (fun v => ⟨v.tu, v.tv⟩),
          g.Idx.map (fun i => ((i % 65536 : Nat) : Int))⟩
      = some (groupRecord eo straightConvert g label) := by
  have hlen : toInt32 ((label.length : Int) + 1) = (label.length : Int) + 1 :=
    toInt32_of_range _ (by omega) (by omega)
  have hpos : toInt32 (12 * (g.Vtx.length : Int)) = ((12 * g.Vtx.length : Nat) : Int) := by
    rw [← toInt32_natCast _ hV]; push_cast; rfl
  have htex : toInt32 (8 * (g.Vtx.length : Int)) = ((8 * g.Vtx.length : Nat) : Int) := by
    rw [← toInt32_natCast (8 * g.Vtx.length) (by omega)]; push_cast; rfl
  have hib : toInt32 (4 * (g.Idx.length : Int)) = ((4 * g.Idx.length : Nat) : Int) := by
    rw [← toInt32_natCast _ hI]; push_cast; rfl
  have hidx : writeBytes ((g.Idx.map (fun i => ((i % 65536 : Nat) : Int))).flatMap le32)
      ((4 * g.Idx.length : Nat) : Int)
      = some (g.Idx.flatMap (fun i => le32 ((i % 65536 : Nat) : Int))) := by
    rw [writeBytes_all _ _ (by
      rw [flatMap_length_const _ 4 le32_length, List.length_map]), List.flatMap_map]
  unfold writeGroup groupRecord vertexData
  simp only [hlen, hpos, htex, hib, hidx, le32_toInt32, le32_toDword]
  rw [if_pos (show (label.length : Int) + 1 ≠ 0 by omega)]
  cases straightConvert
  · simp only [Bool.false_eq_true, if_false]
    rw [writeBytes_all _ _ (by
        rw [flatMap_length_const _ 12 (vtx3Bytes_length eo), List.length_map]),
      writeBytes_all _ _ (by
        rw [flatMap_length_const _ 12 (vtx3Bytes_length eo), List.length_map]),
      writeBytes_all _ _ (by
        rw [flatMap_length_const _ 8 (vtx2Bytes_length eo), List.length_map])]
    simp only [Option.some_bind, Option.map_some', List.flatMap_map, List.append_assoc]
    rfl
  · simp only [if_true, Int.toNat_ofNat]
    rw [writeVertices_all eo _ g.Vtx rfl rfl rfl g.Vtx.length 0 (by omega)]
    simp only [Option.some_bind, Option.map_some', List.drop_zero, List.append_assoc,
      positionBytes, normalBytes, texcoordBytes]

theorem materialFields_length {F : Type} (eo : ExportOps F) (mat : Material F) :
    (materialFields eo mat).length = 56 := by
  simp [materialFields, eo.size]

theorem ExMaterial_new_eq {F : Type} (mat : Material F) (name : List Char)
    (hN : name.length ≤ 255) :
    ExMaterial.new mat (if name = [] then none else some name)
      = some ⟨name, [mat.diffuse.r, mat.diffuse.g, mat.diffuse.b, mat.diffuse.a],
          [mat.ambient.r, mat.ambient.g, mat.ambient.b],
          [mat.specular.r, mat.specular.g, mat.specular.b],
          [mat.emissive.r, mat.emissive.g, mat.emissive.b], mat.power⟩ := by
  unfold ExMaterial.new
  by_cases h : name = []
  · subst h
    simp only [if_true]
    rw [if_neg (by simp)]
  · simp only [if_neg h]
    rw [if_neg (by omega)]

theorem writeMaterial_eq_materialRecord {F : Type} (eo : ExportOps F) (names : Bool)
    (mat : Material F) (name : List Char) (hN : name.length ≤ 255) :
    writeMaterial eo names
        ⟨name, [mat.diffuse.r, mat.diffuse.g, mat.diffuse.b, mat.diffuse.a],
          [mat.ambient.r, mat.ambient.g, mat.ambient.b],
          [mat.specular.r, mat.specular.g, mat.specular.b],
          [mat.emissive.r, mat.emissive.g, mat.emissive.b], mat.power⟩
      = materialRecord eo names mat name := by
  have hlen : toInt32 ((name.length : Int) + 1) = (name.length : Int) + 1 :=
    toInt32_of_range _ (by omega) (by omega)
  unfold writeMaterial materialRecord materialFields
  simp only [hlen, List.flatMap_cons, List.flatMap_nil, List.append_nil, List.append_assoc]

theorem headerBytes_flags (gc mc tc : Int) (straightConvert noMatNames : Bool) :
    headerBytes gc mc tc straightConvert noMatNames
      = [95, 67, 77, 83, 72, 88, 49, 95] ++ le32 gc ++ le32 mc ++ le32 tc
        ++ [(if straightConvert then 0 else 1) + (if noMatNames then 0 else 2), 0, 0, 0] := by
  cases straightConvert <;> cases noMatNames <;> rfl

theorem load_single_triangle {F : Type} (ops : FloatOps F) (l1 l2 l3 res : List Char) :
    ∃ g : GroupSpec F,
      load ops ⟨["MSHX1".toList, "GROUPS 1".toList, "GEOM 3 1".toList, l1, l2, l3,
                 "0 1 2".toList], res⟩ (Mesh.new F)
        = some ⟨[g], [], 0, [], [[]], [], true, false, 0⟩
      ∧ g.Vtx.length = 3 ∧ g.Idx = [0, 1, 2] := by
  obtain ⟨vs, c1, hvs, hrg⟩ := readGeom_complete ops (BlockVars.init false) [[]] none
    " 3 1".toList res 3 1 [l1, l2, l3] ["0 1 2".toList] [] [(0, 1, 2)] (by decide) (by norm_num)
    (by norm_num) rfl rfl
    (List.Forall₂.cons (by unfold IsTriangleLine; decide) List.Forall₂.nil)
    (by intro p hp; simp at hp; subst hp; norm_num)
  have hrg1 : readGeom ops (BlockVars.init false) [[]] none ("GEOM 3 1".toList.drop 4) res
      [l1, l2, l3, "0 1 2".toList]
      = some { vars := { BlockVars.init false with calcnml := c1 }, nvtx := 3,
               nidx := some 3, bufs := some (vs, [0, 1, 2]),
               term := false, labels := [[]], stream := ⟨[], res⟩ } := hrg
  have hload : load ops ⟨["MSHX1".toList, "GROUPS 1".toList, "GEOM 3 1".toList, l1, l2, l3,
                 "0 1 2".toList], res⟩ (Mesh.new F)
      = resumeLoad ops false 1 0
          { mesh := { (Mesh.new F).Clear with Labels := [[]] }, nidx := none,
            stream := ⟨["GEOM 3 1".toList, l1, l2, l3, "0 1 2".toList], res⟩,
            term := false } := rfl
  rw [hload]
  unfold resumeLoad groupLoop
  simp only [Bool.false_eq_true, if_false]
  unfold groupStep
  simp only []
  rw [readBlock_geom ops _ _ _ _ _ _ _ (by decide), hrg1]
  simp only [groupBuffers, ne_eq, OfNat.ofNat_ne_zero, not_false_eq_true, if_true]
  unfold addParsedGroup Mesh.AddGroup
  simp only [Mesh.new, Mesh.Clear, Bool.false_eq_true, if_false, List.nil_append, List.length_nil, List.getElem?_cons_zero, List.set_cons_zero]
  have hfin : ∀ (m : Mesh F), finishLoad ops m ⟨[], res⟩ = some m.Setup := fun m => rfl
  obtain ⟨g1, hg1, hI, hV⟩ := calcNormalsGroup_defined ops
    (⟨vs, [0, 1, 2], toDword (BlockVars.init false).mtrl_idx,
      toDword (BlockVars.init false).tex_idx, (BlockVars.init false).uflag,
      (BlockVars.init false).zbias, (BlockVars.init false).flag % 65536⟩ : GroupSpec F) true
    (by intro i hi; simp at hi; rw [hvs]; omega)
  cases c1 with
  | false =>
    simp only [Bool.false_eq_true, if_false, Option.map_some', Option.some_bind, groupLoop, hfin]
    exact ⟨_, rfl, hvs, rfl⟩
  | true =>
    simp only [if_true, Mesh.CalcNormals, List.getElem?_cons_zero, hg1, Option.map_some',
      Option.some_bind, groupLoop, hfin, List.set_cons_zero]
    exact ⟨_, rfl, hV.trans hvs, hI⟩

theorem exportMesh_single_group {F : Type} (eo : ExportOps F) (g : GroupSpec F)
    (straightConvert noMatNames : Bool) (b1 b2 : Bool) (fl : Nat)
    (hV : 12 * g.Vtx.length < 2147483648) (hI : 4 * g.Idx.length < 2147483648) :
    exportMesh eo straightConvert noMatNames ⟨[g], [], 0, [], [[]], [], b1, b2, fl⟩
      = some (headerBytes 1 0 0 straightConvert noMatNames
                ++ groupRecord eo straightConvert g []) := by
  have hnew := ExMeshGroup_new_eq g [] (by simp) (by omega) (by omega)
  rw [if_pos rfl] at hnew
  have hw := writeGroup_eq_groupRecord eo g [] straightConvert (by simp) hV hI
  have hex : ExMesh.new (⟨[g], [], 0, [], [[]], [], b1, b2, fl⟩ : Mesh F)
      = some ⟨1, 0, 0, [⟨[], toInt32 g.MtrlIdx, toInt32 g.TexIdx, toDword g.Flags,
          toDword g.UsrFlag, toDword g.zBias, g.Vtx.length, g.Idx.length,
          g.Vtx.map (fun v => ⟨v.x, v.y, v.z⟩), g.Vtx.map (fun v => ⟨v.nx, v.ny, v.nz⟩),
          g.Vtx.map (fun v => ⟨v.tu, v.tv⟩),
          g.Idx.map (fun i => ((i % 65536 : Nat) : Int))⟩], [], []⟩ := by
    have e1 : exGroups (⟨[g], [], 0, [], [[]], [], b1, b2, fl⟩ : Mesh F) 1 0
        = some [⟨[], toInt32 g.MtrlIdx, toInt32 g.TexIdx, toDword g.Flags,
          toDword g.UsrFlag, toDword g.zBias, g.Vtx.length, g.Idx.length,
          g.Vtx.map (fun v => ⟨v.x, v.y, v.z⟩), g.Vtx.map (fun v => ⟨v.nx, v.ny, v.nz⟩),
          g.Vtx.map (fun v => ⟨v.tu, v.tv⟩),
          g.Idx.map (fun i => ((i % 65536 : Nat) : Int))⟩] := by
      simp only [exGroups, List.getElem?_cons_zero, if_true, hnew, Option.some_bind,
        Option.map_some']
    have t1 : toInt32 (((0 + 1 : Nat) : Nat) : Int) = 1 := by decide
    have t0 : toInt32 ((0 : Nat) : Int) = 0 := by decide
    unfold ExMesh.new
    simp only [Mesh.nGroup, Mesh.nMaterial, Mesh.nTexture, List.length_cons, List.length_nil,
      t1, t0]
    rw [if_neg (by decide)]
    have n1 : (1 : Int).toNat = 1 := rfl
    have n0 : (0 : Int).toNat = 0 := rfl
    rw [n1, n0, e1]
    rfl
  unfold exportMesh
  rw [hex, Option.some_bind, if_neg (show ¬ ((1 : Int) = 0) by decide)]
  simp only [writeGroups, hw, Option.some_bind, Option.map_some', List.append_nil,
    List.flatMap_nil]

/-! ## Helper lemmas: the command line -/

theorem findDot_lt : ∀ (l : List Char) (i k : Nat), findDot i l = some k →
    i ≤ k ∧ k < i + l.length := by
  intro l
  induction l with
  | nil => intro i k h; simp [findDot] at h
  | cons c cs ih =>
    intro i k h
    rw [findDot] at h
    by_cases hc : c = '.'
    · rw [if_pos hc] at h
      injection h with h
      subst h
      simp
    · rw [if_neg hc] at h
      have := ih (i + 1) k h
      simp only [List.length_cons]
      omega

theorem storeChars_append : ∀ (cs buf junk : List Char), junk.length = cs.length →
    storeChars (buf ++ junk) buf.length cs = some (buf ++ cs) := by
  intro cs
  induction cs with
  | nil =>
    intro buf junk h
    have : junk = [] := List.length_eq_zero.mp h
    subst this
    rfl
  | cons c cs ih =>
    intro buf junk h
    cases junk with
    | nil => simp at h
    | cons j js =>
      have hlt : buf.length < (buf ++ j :: js).length := by simp
      rw [storeChars, if_pos hlt]
      have hset : (buf ++ j :: js).set buf.length c = (buf ++ [c]) ++ js := by
        rw [List.set_append_right _ _ (Nat.le_refl _), Nat.sub_self]
        simp
      have hlen : buf.length + 1 = (buf ++ [c]).length := by simp
      rw [hset, hlen, ih (buf ++ [c]) js (by simpa using h)]
      simp

theorem cstr_terminated : ∀ (l rest : List Char), (∀ c ∈ l, c.toNat ≠ 0) →
    cstr (l ++ Char.ofNat 0 :: rest) = l := by
  intro l
  induction l with
  | nil => intro rest _; rfl
  | cons c cs ih =>
    intro rest h
    have hc : c.toNat ≠ 0 := h c (List.mem_cons_self _ _)
    have hcs : ∀ d ∈ cs, d.toNat ≠ 0 := fun d hd => h d (List.mem_cons_of_mem _ hd)
    rw [List.cons_append, cstr]
    have : (c.toNat == 0) = false := by simpa using hc
    rw [this]
    simp only [Bool.false_eq_true, if_false]
    rw [ih rest hcs]

theorem synthOutput_eq (inputFile : List Char) (h0 : ∀ c ∈ inputFile, c.toNat ≠ 0) :
    synthOutput inputFile
      = some (match findDot 0 inputFile with
              | none => inputFile ++ ".cmsh".toList
              | some k => inputFile.take (k + 1) ++ "cmsh".toList) := by
  unfold synthOutput
  cases hd : findDot 0 inputFile with
  | none =>
    simp only []
    have e : ((inputFile.length : Int) + 6).toNat - inputFile.length = 6 := by omega
    rw [e, storeChars_append _ inputFile _ (by rfl)]
    simp only [Option.map_some']
    have e2 : inputFile ++ ['.', 'c', 'm', 's', 'h', Char.ofNat 0]
        = (inputFile ++ ".cmsh".toList) ++ Char.ofNat 0 :: [] := by simp
    rw [e2, cstr_terminated _ _ (by
      intro c hc
      rcases List.mem_append.mp hc with h1 | h1
      · exact h0 c h1
      · exact (show ∀ d ∈ ".cmsh".toList, d.toNat ≠ 0 by decide) c h1)]
  | some k =>
    simp only []
    have hk := (findDot_lt inputFile 0 k hd).2
    rw [Nat.zero_add] at hk
    have a1 : (inputFile.length : Int) - ((inputFile.length : Int) - (k : Int) - 1) + 1
        = ((k + 2 : Nat) : Int) := by push_cast; ring
    have a2 : (inputFile.length : Int) - ((inputFile.length : Int) - (k : Int) - 1) + 4 + 1
        = ((k + 6 : Nat) : Int) := by push_cast; ring
    have a3 : (inputFile.length : Int) - ((inputFile.length : Int) - (k : Int) - 1) + 4 - 4
        = ((k + 1 : Nat) : Int) := by push_cast; ring
    rw [a1, a2, a3]
    rw [if_neg (by simp only [List.length_append, List.length_singleton]; omega)]
    simp only [Int.toNat_ofNat]
    have e1 : k + 6 - (k + 2) = 4 := by omega
    have htake : (inputFile ++ [Char.ofNat 0]).take (k + 2)
        = inputFile.take (k + 1) ++ ((inputFile ++ [Char.ofNat 0]).drop (k + 1)).take 1 := by
      have : (inputFile ++ [Char.ofNat 0]).take (k + 1) = inputFile.take (k + 1) :=
        List.take_append_of_le_length (by omega)
      rw [← this, ← List.take_add]
    have hone : (((inputFile ++ [Char.ofNat 0]).drop (k + 1)).take 1).length = 1 := by
      simp only [List.length_take, List.length_drop, List.length_append,
        List.length_singleton]
      omega
    have hpre : (inputFile.take (k + 1)).length = k + 1 := by
      rw [List.length_take]; omega
    rw [e1, htake, List.append_assoc]
    have hst := storeChars_append ['c', 'm', 's', 'h', Char.ofNat 0] (inputFile.take (k + 1))
      (((inputFile ++ [Char.ofNat 0]).drop (k + 1)).take 1 ++ List.replicate 4 (Char.ofNat 0))
      (by rw [List.length_append, hone]; rfl)
    rw [hpre] at hst
    rw [hst]
    simp only [Option.map_some']
    have e2 : inputFile.take (k + 1) ++ ['c', 'm', 's', 'h', Char.ofNat 0]
        = (inputFile.take (k + 1) ++ "cmsh".toList) ++ Char.ofNat 0 :: [] := by simp
    rw [e2, cstr_terminated _ _ (by
      intro c hc
      rcases List.mem_append.mp hc with h1 | h1
      · exact h0 c (List.mem_of_mem_take h1)
      · exact (show ∀ d ∈ "cmsh".toList, d.toNat ≠ 0 by decide) c h1)]

theorem setupRefs_inherit {F : Type} (a b : Nat) (vtx : List (NTVERTEX F)) (idx : List Nat) :
    setupRefs a b (⟨vtx, idx, SPEC_INHERIT, SPEC_INHERIT, 0, 0, 0⟩ : GroupSpec F)
      = ⟨vtx, idx, SPEC_INHERIT, SPEC_INHERIT, 0, 0, 0⟩ := by
  simp [setupRefs, checkIdx]

/-! ## Helper lemmas: the rings of the sphere patch -/

theorem ringOffset_mono (reduce : Bool) (b : Nat) :
    ∀ (d i : Nat), ringOffset reduce b i ≤ ringOffset reduce b (i + d) := by
  intro d
  induction d with
  | zero => intro i; exact Nat.le_refl _
  | succ n ih =>
    intro i
    have h := ih i
    have e : i + (n + 1) = (i + n) + 1 := by omega
    rw [e, ringOffset]
    omega

theorem ringOffset_le (reduce : Bool) (b i k : Nat) (h : i ≤ k) :
    ringOffset reduce b i ≤ ringOffset reduce b k := by
  have := ringOffset_mono reduce b (k - i) i
  have e : i + (k - i) = k := by omega
  rw [e] at this
  exact this

theorem ringSegments_cast (reduce : Bool) (b i : Nat) (hb : b < 2147483648)
    (hi : reduce = true → i ≤ b) :
    (if reduce then toInt32 ((b : Int) - (i : Int)) else (b : Int))
      = ((ringSegments reduce b i : Nat) : Int) := by
  unfold ringSegments
  cases reduce with
  | false => simp
  | true =>
    have := hi rfl
    simp only [if_true]
    rw [toInt32_of_range _ (by omega) (by omega)]
    omega

theorem triIndices_append (a c : List (Nat × Nat × Nat)) :
    triIndices (a ++ c) = triIndices a ++ triIndices c := by
  induction a with
  | nil => rfl
  | cons p ps ih => simp [triIndices, ih]

theorem faceRowList_tris (reduce : Bool) (nseg nofs0 top : Nat)
    (htop : nofs0 + nseg + 1 + (if reduce then nseg else nseg + 1) ≤ top)
    (hw : top ≤ 65536) :
    ∀ (cnt j : Nat), j + cnt = nseg →
      ∃ tris : List (Nat × Nat × Nat),
        faceRowList reduce (nseg : Int) (nofs0 : Int) ((nofs0 + nseg + 1 : Nat) : Int) cnt j
          = triIndices tris
        ∧ tris.length = (if reduce then 2 * cnt - 1 else 2 * cnt)
        ∧ ∀ t ∈ tris,
            (∀ x ∈ [t.1, t.2.1, t.2.2], nofs0 ≤ x ∧ x < top)
            ∧ (∃ x ∈ [t.1, t.2.1, t.2.2], x < nofs0 + nseg + 1)
            ∧ (∃ x ∈ [t.1, t.2.1, t.2.2], nofs0 + nseg + 1 ≤ x) := by
  intro cnt
  induction cnt with
  | zero =>
    intro j _
    refine ⟨[], rfl, ?_, ?_⟩
    · cases reduce <;> rfl
    · intro t ht; cases ht
  | succ n ih =>
    intro j h
    have hred : (if reduce then nseg else nseg + 1) ≥ nseg := by
      cases reduce <;> simp
    have w1 : toWord ((nofs0 : Int) + (j : Int)) = nofs0 + j := by
      rw [toWord_natCast_add, Nat.mod_eq_of_lt (by omega)]
    have w2 : toWord (((nofs0 + nseg + 1 : Nat) : Int) + (j : Int)) = nofs0 + nseg + 1 + j := by
      rw [toWord_natCast_add, Nat.mod_eq_of_lt (by omega)]
    have w3 : toWord ((nofs0 : Int) + (j : Int) + 1) = nofs0 + j + 1 := by
      rw [toWord_natCast_add_one, Nat.mod_eq_of_lt (by omega)]
    have t1ok : (∀ x ∈ [nofs0 + j, nofs0 + nseg + 1 + j, nofs0 + j + 1], nofs0 ≤ x ∧ x < top)
        ∧ (∃ x ∈ [nofs0 + j, nofs0 + nseg + 1 + j, nofs0 + j + 1], x < nofs0 + nseg + 1)
        ∧ (∃ x ∈ [nofs0 + j, nofs0 + nseg + 1 + j, nofs0 + j + 1], nofs0 + nseg + 1 ≤ x) := by
      refine ⟨?_, ⟨nofs0 + j, by simp, by omega⟩, ⟨nofs0 + nseg + 1 + j, by simp, by omega⟩⟩
      intro x hx
      simp only [List.mem_cons, List.mem_singleton, List.not_mem_nil, or_false] at hx
      rcases hx with hx | hx | hx <;> subst hx <;> omega
    rw [faceRowList]
    simp only [w1, w2, w3]
    by_cases hbrk : (reduce && decide ((j : Int) = (nseg : Int) - 1)) = true
    · rw [if_pos hbrk]
      have hr : reduce = true := by
        cases reduce
        · simp at hbrk
        · rfl
      have hn : n = 0 := by
        subst hr
        simp only [Bool.true_and, decide_eq_true_eq] at hbrk
        omega
      subst hr
      subst hn
      refine ⟨[(nofs0 + j, nofs0 + nseg + 1 + j, nofs0 + j + 1)], by simp [triIndices], rfl, ?_⟩
      intro t ht
      simp only [List.mem_singleton] at ht
      subst ht
      exact t1ok
    · rw [if_neg hbrk]
      have hj1 : reduce = true → j + 1 < nseg := by
        intro hr
        subst hr
        simp only [Bool.true_and, decide_eq_true_eq] at hbrk
        omega
      have hn1 : reduce = true → 1 ≤ n := by
        intro hr
        have := hj1 hr
        omega
      have w4 : toWord (((nofs0 + nseg + 1 : Nat) : Int) + (j : Int) + 1)
          = nofs0 + nseg + 1 + j + 1 := by
        rw [toWord_natCast_add_one, Nat.mod_eq_of_lt (by
          cases reduce with
          | false => simp only [Bool.false_eq_true, if_false] at htop; omega
          | true =>
            have := hj1 rfl
            simp only [if_true] at htop
            omega)]
      simp only [w4]
      obtain ⟨tris, he, hl, hp⟩ := ih (j + 1) (by omega)
      have he2 : faceRowList reduce (nseg : Int) (nofs0 : Int) ((nofs0 + nseg + 1 : Nat) : Int) n
          (j + 1) = triIndices tris := he
      refine ⟨(nofs0 + j, nofs0 + nseg + 1 + j, nofs0 + j + 1)
        :: (nofs0 + j + 1, nofs0 + nseg + 1 + j, nofs0 + nseg + 1 + j + 1) :: tris, ?_, ?_, ?_⟩
      · rw [he2]
        simp [triIndices]
      · simp only [List.length_cons, hl]
        cases reduce with
        | false => simp only [Bool.false_eq_true, if_false]; omega
        | true =>
          have := hn1 rfl
          simp only [if_true]
          omega
      · intro t ht
        simp only [List.mem_cons] at ht
        rcases ht with ht | ht | ht
        · subst ht; exact t1ok
        · subst ht
          refine ⟨?_, ⟨nofs0 + j + 1, by simp, by omega⟩,
            ⟨nofs0 + nseg + 1 + j, by simp, by omega⟩⟩
          intro x hx
          simp only [List.mem_cons, List.mem_singleton, List.not_mem_nil, or_false] at hx
          have hb4 : nofs0 + nseg + 1 + j + 1 < top := by
            cases reduce with
            | false => simp only [Bool.false_eq_true, if_false] at htop; omega
            | true =>
              have := hj1 rfl
              simp only [if_true] at htop
              omega
          rcases hx with hx | hx | hx <;> subst hx <;> omega
        · exact hp t ht

theorem faceList_tris (reduce : Bool) (b : Nat) (hb : b < 2147483648) :
    ∀ (cnt i : Nat), (reduce = true → i + cnt ≤ b) →
      ringOffset reduce b (i + cnt + 1) ≤ 65536 →
      ∃ tris : List (Nat × Nat × Nat),
        faceList (b : Int) reduce cnt i ((ringOffset reduce b i : Nat) : Int) = triIndices tris
        ∧ tris.length = patchTriangles reduce b cnt i
        ∧ ∀ t ∈ tris, ∃ r, i ≤ r ∧ r < i + cnt ∧ JoinsRings reduce b r t := by
  intro cnt
  induction cnt with
  | zero =>
    intro i _ _
    refine ⟨[], rfl, rfl, ?_⟩
    intro t ht; cases ht
  | succ n ih =>
    intro i hi hw
    have hseg := ringSegments_cast reduce b i hb (fun hr => by have := hi hr; omega)
    have hmono : ringOffset reduce b (i + 2) ≤ ringOffset reduce b (i + (n + 1) + 1) :=
      ringOffset_le reduce b _ _ (by omega)
    have hofs1 : ringOffset reduce b (i + 1)
        = ringOffset reduce b i + ringSegments reduce b i + 1 := rfl
    have hofs2 : ringOffset reduce b (i + 2)
        = ringOffset reduce b (i + 1) + ringSegments reduce b (i + 1) + 1 := rfl
    have hseg2 : reduce = true → ringSegments reduce b (i + 1) + 1 = ringSegments reduce b i := by
      intro hr
      have := hi hr
      subst hr
      simp only [ringSegments, if_true]
      omega
    have hseg3 : reduce = false → ringSegments reduce b (i + 1) = ringSegments reduce b i := by
      intro hr
      subst hr
      rfl
    have htop : ringOffset reduce b i + ringSegments reduce b i + 1
        + (if reduce then ringSegments reduce b i else ringSegments reduce b i + 1)
        ≤ ringOffset reduce b (i + 2) := by
      cases hr : reduce with
      | false =>
        have := hseg3 hr
        rw [hr] at this hofs1 hofs2
        simp only [Bool.false_eq_true, if_false]
        omega
      | true =>
        have := hseg2 hr
        rw [hr] at this hofs1 hofs2
        simp only [if_true]
        omega
    obtain ⟨row, hrow, hrl, hrp⟩ := faceRowList_tris reduce (ringSegments reduce b i)
      (ringOffset reduce b i) (ringOffset reduce b (i + 2)) htop (by omega)
      (ringSegments reduce b i) 0 (by omega)
    have e1 : toInt32 (((ringOffset reduce b i : Nat) : Int)
        + ((ringSegments reduce b i : Nat) : Int) + 1)
        = ((ringOffset reduce b (i + 1) : Nat) : Int) := by
      have : ((ringOffset reduce b i : Nat) : Int) + ((ringSegments reduce b i : Nat) : Int) + 1
          = ((ringOffset reduce b (i + 1) : Nat) : Int) := by
        rw [hofs1]; push_cast; ring
      rw [this]
      have hle : ringOffset reduce b (i + 1) ≤ ringOffset reduce b (i + 2) :=
        ringOffset_le reduce b _ _ (by omega)
      exact toInt32_natCast _ (by omega)
    obtain ⟨rest, hrest, hrestl, hrestp⟩ := ih (i + 1) (fun hr => by have := hi hr; omega)
      (by
        have e : i + 1 + n + 1 = i + (n + 1) + 1 := by omega
        rw [e]; exact hw)
    refine ⟨row ++ rest, ?_, ?_, ?_⟩
    · rw [faceList]
      simp only [hseg, e1, Int.toNat_ofNat]
      rw [triIndices_append, ← hrest, ← hrow, hofs1]
    · rw [List.length_append, hrl, hrestl, patchTriangles, ringTriangles]
    · intro t ht
      rcases List.mem_append.mp ht with h1 | h1
      · refine ⟨i, Nat.le_refl _, by omega, ?_⟩
        have := hrp t h1
        unfold JoinsRings
        rw [hofs1]
        exact this
      · obtain ⟨r, hr1, hr2, hr3⟩ := hrestp t h1
        exact ⟨r, by omega, by omega, hr3⟩

theorem nodeList_rings {F : Type} (ops : PatchOps F) (nlng nlat ilat res : Int)
    (reduce outside : Bool) (b : Nat) (hb : b < 2147483648) :
    ∀ (cnt i : Nat), (reduce = true → i + cnt ≤ b + 1) →
      nodeList ops nlng nlat ilat res (b : Int) reduce outside cnt i
          = (List.range' i cnt).flatMap (fun r => (List.range (ringSegments reduce b r + 1)).map
              (fun j => patchVertex ops nlng nlat ilat res outside r j
                ((ringSegments reduce b r : Nat) : Int)))
      ∧ (nodeList ops nlng nlat ilat res (b : Int) reduce outside cnt i).length
            + ringOffset reduce b i = ringOffset reduce b (i + cnt) := by
  intro cnt
  induction cnt with
  | zero => intro i _; exact ⟨rfl, by simp [nodeList]⟩
  | succ n ih =>
    intro i hi
    have hseg := ringSegments_cast reduce b i hb (fun hr => by have := hi hr; omega)
    obtain ⟨h1, h2⟩ := ih (i + 1) (fun hr => by have := hi hr; omega)
    have e2 : (((ringSegments reduce b i : Nat) : Int) + 1).toNat
        = ringSegments reduce b i + 1 := by omega
    have e3 : i + 1 + n = i + (n + 1) := by omega
    rw [e3] at h2
    constructor
    · rw [nodeList, List.range'_succ, List.flatMap_cons]
      simp only [hseg, e2, ringNodes_eq_map, Nat.zero_add]
      rw [h1]
    · rw [nodeList, List.length_append, ringNodes_length]
      simp only [hseg, e2]
      have : ringOffset reduce b (i + 1) = ringOffset reduce b i + ringSegments reduce b i + 1 :=
        rfl
      omega

theorem ringOffset_reduced (b : Nat) :
    ∀ n, n ≤ b + 1 → 2 * ringOffset true b n + n * n = n * (2 * b + 3) := by
  intro n
  induction n with
  | zero => intro _; simp [ringOffset]
  | succ k ih =>
    intro h
    have h1 := ih (by omega)
    have hs : ringSegments true b k = b - k := rfl
    rw [ringOffset, hs]
    obtain ⟨d, hd⟩ : ∃ d, b = k + d := ⟨b - k, by omega⟩
    subst hd
    have e : k + d - k = d := by omega
    rw [e]
    nlinarith [h1]

theorem ringOffset_plain (b : Nat) : ∀ n, ringOffset false b n = n * (b + 1) := by
  intro n
  induction n with
  | zero => simp [ringOffset]
  | succ k ih =>
    have hs : ringSegments false b k = b := rfl
    rw [ringOffset, hs, ih]
    ring

theorem ringOffset_count (reduce : Bool) (b res : Nat) (h : reduce = true → res ≤ b) :
    ringOffset reduce b (res + 1) = patchVertexCount reduce b res := by
  unfold patchVertexCount
  cases reduce with
  | false =>
    rw [ringOffset_plain]
    simp only [Bool.false_eq_true, if_false]
    ring
  | true =>
    have h1 := ringOffset_reduced b (res + 1) (by have := h rfl; omega)
    have h2 := triangular_even res
    simp only [if_true]
    have e : (res + 1) * res = res * (res + 1) := Nat.mul_comm _ _
    rw [e]
    have h3 : 2 * ((b + 1) * (res + 1)) = 2 * ringOffset true b (res + 1) + res * (res + 1) := by
      nlinarith [h1]
    omega

theorem patchTriangles_reduced (b : Nat) :
    ∀ (cnt i : Nat), i + cnt ≤ b →
      patchTriangles true b cnt i + cnt * cnt = 2 * cnt * (b - i) := by
  intro cnt
  induction cnt with
  | zero => intro i _; simp [patchTriangles]
  | succ n ih =>
    intro i h
    have h1 := ih (i + 1) (by omega)
    obtain ⟨d, hd⟩ : ∃ d, b = i + 1 + d := ⟨b - (i + 1), by omega⟩
    subst hd
    have e1 : i + 1 + d - (i + 1) = d := by omega
    have e2 : i + 1 + d - i = d + 1 := by omega
    rw [e1] at h1
    rw [patchTriangles, ringTriangles, e2]
    simp only [if_true, ringSegments, e2]
    have hd1 : n ≤ d := by omega
    have e3 : 2 * (d + 1) - 1 = 2 * d + 1 := by omega
    rw [e3]
    nlinarith [h1]

theorem patchTriangles_plain (b : Nat) :
    ∀ (cnt i : Nat), patchTriangles false b cnt i = 2 * cnt * b := by
  intro cnt
  induction cnt with
  | zero => intro i; simp [patchTriangles]
  | succ n ih =>
    intro i
    rw [patchTriangles, ih, ringTriangles]
    simp only [Bool.false_eq_true, if_false, ringSegments]
    ring

theorem patch_product_bound (reduce : Bool) (b res : Nat) (h : reduce = true → res ≤ b)
    (hc : patchVertexCount reduce b res ≤ 65536) : (b + 1) * (res + 1) ≤ 131072 := by
  unfold patchVertexCount at hc
  cases reduce with
  | false =>
    simp only [Bool.false_eq_true, if_false] at hc
    omega
  | true =>
    have hr := h rfl
    simp only [if_true] at hc
    have h2 := triangular_even res
    have e : (res + 1) * res = res * (res + 1) := Nat.mul_comm _ _
    rw [e] at hc
    have h3 : res * (res + 1) ≤ (b + 1) * (res + 1) := Nat.mul_le_mul_right _ (by omega)
    omega

theorem patch_vertex_count_int (reduce : Bool) (b res : Nat) (h : reduce = true → res ≤ b)
    (hc : patchVertexCount reduce b res ≤ 65536) :
    (if reduce then
        toInt32 (toInt32 (toInt32 ((b : Int) + 1) * toInt32 ((res : Int) + 1))
          - Int.tdiv (toInt32 (toInt32 ((res : Int) + 1) * (res : Int))) 2)
      else toInt32 (toInt32 ((b : Int) + 1) * toInt32 ((res : Int) + 1)))
      = ((patchVertexCount reduce b res : Nat) : Int) := by
  have hp := patch_product_bound reduce b res h hc
  have hb1 : b + 1 ≤ 131072 := by nlinarith
  have hr1 : res + 1 ≤ 131072 := by nlinarith
  have a1 : toInt32 ((b : Int) + 1) = ((b + 1 : Nat) : Int) := by
    rw [toInt32_of_range _ (by omega) (by omega)]; push_cast; rfl
  have a2 : toInt32 ((res : Int) + 1) = ((res + 1 : Nat) : Int) := by
    rw [toInt32_of_range _ (by omega) (by omega)]; push_cast; rfl
  have a3 : toInt32 (((b + 1 : Nat) : Int) * ((res + 1 : Nat) : Int))
      = (((b + 1) * (res + 1) : Nat) : Int) := by
    rw [← Nat.cast_mul]
    exact toInt32_natCast _ (by omega)
  rw [a1, a2, a3]
  unfold patchVertexCount
  cases reduce with
  | false =>
    simp only [Bool.false_eq_true, if_false]
  | true =>
    have hr := h rfl
    have h3 : (res + 1) * res ≤ (b + 1) * (res + 1) := by
      rw [Nat.mul_comm (res + 1) res]
      exact Nat.mul_le_mul_right _ (by omega)
    have a4 : toInt32 (((res + 1 : Nat) : Int) * (res : Int))
        = (((res + 1) * res : Nat) : Int) := by
      rw [← Nat.cast_mul]
      exact toInt32_natCast _ (by omega)
    have a5 : Int.tdiv (((res + 1) * res : Nat) : Int) 2 = (((res + 1) * res / 2 : Nat) : Int) :=
      (Int.ofNat_tdiv _ 2).symm
    simp only [if_true]
    rw [a4, a5]
    have hdiv : (res + 1) * res / 2 ≤ (b + 1) * (res + 1) :=
      Nat.le_trans (Nat.div_le_self _ _) h3
    rw [← Nat.cast_sub hdiv]
    exact toInt32_natCast _ (by omega)

theorem patch_index_count_int (reduce : Bool) (b res : Nat) (h : reduce = true → res ≤ b)
    (hp : (b + 1) * (res + 1) ≤ 131072) :
    toInt32 ((if reduce then toInt32 ((res : Int) * toInt32 (toInt32 (2 * (b : Int)) - (res : Int)))
              else toInt32 (toInt32 (2 * (res : Int)) * (b : Int))) * 3)
      = ((3 * patchTriangles reduce b res 0 : Nat) : Int) := by
  have hb1 : b + 1 ≤ 131072 := by nlinarith
  have hr1 : res + 1 ≤ 131072 := by nlinarith
  have hrb : res * b ≤ 131072 := by nlinarith
  cases reduce with
  | false =>
    have a1 : toInt32 (2 * (res : Int)) = ((2 * res : Nat) : Int) := by
      rw [toInt32_of_range _ (by omega) (by omega)]; push_cast; rfl
    have a2 : toInt32 (((2 * res : Nat) : Int) * (b : Int)) = ((2 * res * b : Nat) : Int) := by
      rw [← Nat.cast_mul]
      exact toInt32_natCast _ (by nlinarith)
    have a3 : ((2 * res * b : Nat) : Int) * 3 = ((3 * (2 * res * b) : Nat) : Int) := by
      push_cast; ring
    simp only [Bool.false_eq_true, if_false]
    rw [a1, a2, a3, patchTriangles_plain]
    exact toInt32_natCast _ (by nlinarith)
  | true =>
    have hr := h rfl
    have hpt := patchTriangles_reduced b res 0 (by omega)
    rw [Nat.sub_zero] at hpt
    have hrr : res * res ≤ res * b := Nat.mul_le_mul_left _ hr
    have e0 : 2 * res * b = 2 * (res * b) := by ring
    have hptle : patchTriangles true b res 0 ≤ 262144 := by omega
    have a1 : toInt32 (2 * (b : Int)) = 2 * (b : Int) :=
      toInt32_of_range _ (by omega) (by omega)
    have a2 : toInt32 (2 * (b : Int) - (res : Int)) = ((2 * b - res : Nat) : Int) := by
      rw [toInt32_of_range _ (by omega) (by omega)]; omega
    have hmul : res * (2 * b - res) = patchTriangles true b res 0 := by
      have e : res * (2 * b - res) + res * res = 2 * res * b := by
        obtain ⟨d, hd⟩ : ∃ d, b = res + d := ⟨b - res, by omega⟩
        subst hd
        have e1 : 2 * (res + d) - res = res + 2 * d := by omega
        rw [e1]
        ring
      omega
    clear hpt hrr e0 hrb hp
    have a3 : toInt32 ((res : Int) * ((2 * b - res : Nat) : Int))
        = ((patchTriangles true b res 0 : Nat) : Int) := by
      rw [← Nat.cast_mul, hmul]
      exact toInt32_natCast _ (by omega)
    have a4 : ((patchTriangles true b res 0 : Nat) : Int) * 3
        = ((3 * patchTriangles true b res 0 : Nat) : Int) := by
      push_cast; ring
    simp only [if_true]
    rw [a1, a2, a3, a4]
    exact toInt32_natCast _ (by omega)

theorem patchWinding_tris :
    ∀ (cnt : Nat) (done rest : List (Nat × Nat × Nat)), cnt ≤ rest.length →
      patchWinding cnt (3 * done.length) ((triIndices (done ++ rest)).map some)
        = some ((triIndices (done ++ (rest.take cnt).map flipTri ++ rest.drop cnt)).map some) := by
  intro cnt
  induction cnt with
  | zero =>
    intro done rest _
    simp [patchWinding]
  | succ n ih =>
    intro done rest h
    cases rest with
    | nil => simp at h
    | cons t rest1 =>
      have hl : (triIndices done).length = 3 * done.length := triIndices_length done
      have hbuf : (triIndices (done ++ t :: rest1)).map some
          = (triIndices done).map some
            ++ some t.1 :: some t.2.1 :: some t.2.2 :: (triIndices rest1).map some := by
        rw [triIndices_append]
        simp [triIndices]
      have hl2 : ((triIndices done).map some).length = 3 * done.length := by
        rw [List.length_map, hl]
      have g1 : ((triIndices done).map some
            ++ some t.1 :: some t.2.1 :: some t.2.2 :: (triIndices rest1).map some)[
              3 * done.length + 1]? = some (some t.2.1) := by
        rw [List.getElem?_append_right (by omega), hl2]
        have : 3 * done.length + 1 - 3 * done.length = 1 := by omega
        rw [this]
        simp
      have g2 : ((triIndices done).map some
            ++ some t.1 :: some t.2.1 :: some t.2.2 :: (triIndices rest1).map some)[
              3 * done.length + 2]? = some (some t.2.2) := by
        rw [List.getElem?_append_right (by omega), hl2]
        have : 3 * done.length + 2 - 3 * done.length = 2 := by omega
        rw [this]
        simp
      have hset : (((triIndices done).map some
            ++ some t.1 :: some t.2.1 :: some t.2.2 :: (triIndices rest1).map some).set
              (3 * done.length + 1) (some t.2.2)).set (3 * done.length + 2) (some t.2.1)
          = (triIndices ((done ++ [flipTri t]) ++ rest1)).map some := by
        rw [List.set_append_right _ _ (by omega), List.set_append_right _ _ (by omega), hl2]
        have e1 : 3 * done.length + 1 - 3 * done.length = 1 := by omega
        have e2 : 3 * done.length + 2 - 3 * done.length = 2 := by omega
        rw [e1, e2, triIndices_append, triIndices_append]
        simp [triIndices, flipTri]
      have hlen : 3 * done.length + 3 = 3 * (done ++ [flipTri t]).length := by
        simp only [List.length_append, List.length_singleton]
        omega
      rw [patchWinding, hbuf, g1, g2]
      simp only []
      rw [hset, hlen, ih (done ++ [flipTri t]) rest1 (by simpa using h)]
      simp

theorem JoinsRings_flip (reduce : Bool) (b i : Nat) (t : Nat × Nat × Nat)
    (h : JoinsRings reduce b i t) : JoinsRings reduce b i (flipTri t) := by
  obtain ⟨h1, ⟨x, hx, hx2⟩, ⟨y, hy, hy2⟩⟩ := h
  have hm : ∀ z, z ∈ [(flipTri t).1, (flipTri t).2.1, (flipTri t).2.2]
      ↔ z ∈ [t.1, t.2.1, t.2.2] := by
    intro z
    simp only [flipTri, List.mem_cons, List.mem_singleton, List.not_mem_nil, or_false]
    constructor
    · rintro (h | h | h)
      · exact Or.inl h
      · exact Or.inr (Or.inr h)
      · exact Or.inr (Or.inl h)
    · rintro (h | h | h)
      · exact Or.inl h
      · exact Or.inr (Or.inr h)
      · exact Or.inr (Or.inl h)
  exact ⟨fun z hz => h1 z ((hm z).mp hz), ⟨x, (hm x).mpr hx, hx2⟩, ⟨y, (hm y).mpr hy, hy2⟩⟩

/-- `CreateSpherePatch` when the two loops fill their buffers and the winding loop leaves
the index list `idx`. -/
theorem CreateSpherePatch_group {F : Type} (ops : PatchOps F) (mesh : Mesh F)
    (nlng nlat ilat res bseg : Int) (reduce outside : Bool) (b : Int) (nv ni : Nat)
    (idx : List Nat)
    (hb : (if bseg < 0 ∨ ilat = toInt32 (nlat - 1) then toInt32 (toInt32 (nlat - ilat) * res)
           else bseg) = b)
    (hnv : (if reduce then
              toInt32 (toInt32 (toInt32 (b + 1) * toInt32 (res + 1))
                - Int.tdiv (toInt32 (toInt32 (res + 1) * res)) 2)
            else toInt32 (toInt32 (b + 1) * toInt32 (res + 1))) = (nv : Int))
    (hni : toInt32 ((if reduce then toInt32 (res * toInt32 (toInt32 (2 * b) - res))
                     else toInt32 (toInt32 (2 * res) * b)) * 3) = (ni : Int))
    (hres : res ≠ 2147483647) (hb31 : b ≠ 2147483647)
    (hvl : (nodeList ops nlng nlat ilat res b reduce outside (res + 1).toNat 0).length = nv)
    (hil : (faceList b reduce res.toNat 0 0).length = ni)
    (hw : (if outside then some ((faceList b reduce res.toNat 0 0).map some)
           else patchWinding ((ni / 3 + 2) / 3) 0 ((faceList b reduce res.toNat 0 0).map some))
          = some (idx.map some)) :
    CreateSpherePatch ops mesh nlng nlat ilat res bseg reduce outside
      = some (mesh.Clear.AddGroup
          (nodeList ops nlng nlat ilat res b reduce outside (res + 1).toNat 0) idx
          SPEC_INHERIT SPEC_INHERIT 0 0 false).1.Setup := by
  obtain ⟨hn, hf, _⟩ := CreateSpherePatch_filled ops mesh nlng nlat ilat res bseg reduce outside
    b nv ni hb hnv hni hres hb31 hvl hil
  unfold CreateSpherePatch
  simp only [hb, hnv, hni, Int.toNat_ofNat]
  have n1 : ¬ ((nv : Int) < 0 ∨ res = 2147483647 ∨ b = 2147483647) := by omega
  have n2 : ¬ ((ni : Int) < 0) := by omega
  rw [if_neg n1, hn]
  simp only [Option.some_bind, if_neg n2, hf, hw, allSet_map_some, Option.map_some']

/-! ## Helper lemmas: the synthesised normal, the thresholds and the material list -/

theorem NormalState_congr {F : Type} (flags : List Bool) (orig cur : List (NTVERTEX F))
    (accs accs1 : Nat → D3DVECTOR F)
    (h : ∀ k, flags[k]? = some true → accs1 k = accs k)
    (hs : NormalState flags orig cur accs) : NormalState flags orig cur accs1 := by
  refine ⟨hs.1, ?_⟩
  intro k v hv
  rw [hs.2 k v hv]
  by_cases hf : flags[k]? = some true
  · rw [if_pos hf, if_pos hf, h k hf]
  · rw [if_neg hf, if_neg hf]

theorem accumNormal_state {F : Type} (ops : FloatOps F) (flags : List Bool)
    (orig cur : List (NTVERTEX F)) (accs : Nat → D3DVECTOR F) (i : Nat) (c : Bool)
    (nm : D3DVECTOR F) (a : F) (hfl : flags.length = orig.length)
    (hc : flags[i]? = some c) (hs : NormalState flags orig cur accs) :
    NormalState flags orig (if c = true then accumNormal ops cur i nm a else cur)
      (fun k => if i = k then addWeighted ops (accs k) nm a else accs k) := by
  cases c with
  | false =>
    rw [if_neg Bool.false_ne_true]
    refine NormalState_congr flags orig cur accs _ ?_ hs
    intro k hk
    have hne : i ≠ k := by
      intro e
      rw [e, hk] at hc
      cases hc
    simp only [if_neg hne]
  | true =>
    rw [if_pos rfl]
    have hi : i < orig.length := by
      rw [← hfl]
      exact (List.getElem?_eq_some.mp hc).1
    have hic : i < cur.length := by rw [hs.1]; exact hi
    have hw := hs.2 i orig[i] (List.getElem?_eq_getElem hi)
    rw [if_pos hc] at hw
    unfold accumNormal
    rw [hw]
    simp only []
    refine ⟨by rw [List.length_set]; exact hs.1, ?_⟩
    intro k v hv
    by_cases hk : i = k
    · subst hk
      rw [List.getElem?_set_self hic, if_pos hc]
      rw [List.getElem?_eq_getElem hi] at hv
      simp only [Option.some.injEq] at hv
      rw [hv]
      simp only [if_true]
      rfl
    · rw [List.getElem?_set_ne hk]
      simp only [if_neg hk]
      exact hs.2 k v hv

theorem withNormal_self {F : Type} (v : NTVERTEX F) : withNormal v ⟨v.nx, v.ny, v.nz⟩ = v := rfl

theorem triNormal_state {F : Type} (ops : FloatOps F) (flags : List Bool)
    (orig cur cur1 : List (NTVERTEX F)) (accs : Nat → D3DVECTOR F) (i0 i1 i2 : Nat)
    (hfl : flags.length = orig.length)
    (ht : triNormal ops flags cur i0 i1 i2 = some cur1)
    (hs : NormalState flags orig cur accs) :
    NormalState flags orig cur1 (fun k => triContribution ops orig k (accs k) i0 i1 i2) := by
  unfold triNormal at ht
  cases hc0 : flags[i0]? with
  | none => simp [hc0] at ht
  | some c0 =>
  cases hc1 : flags[i1]? with
  | none => simp [hc0, hc1] at ht
  | some c1 =>
  cases hc2 : flags[i2]? with
  | none => simp [hc0, hc1, hc2] at ht
  | some c2 =>
  have h0 : i0 < orig.length := by rw [← hfl]; exact (List.getElem?_eq_some.mp hc0).1
  have h1 : i1 < orig.length := by rw [← hfl]; exact (List.getElem?_eq_some.mp hc1).1
  have h2 : i2 < orig.length := by rw [← hfl]; exact (List.getElem?_eq_some.mp hc2).1
  have ho0 : orig[i0]? = some orig[i0] := List.getElem?_eq_getElem h0
  have ho1 : orig[i1]? = some orig[i1] := List.getElem?_eq_getElem h1
  have ho2 : orig[i2]? = some orig[i2] := List.getElem?_eq_getElem h2
  have hn : ∀ (i : Nat) (hi : i < orig.length),
      ∃ n : D3DVECTOR F, cur[i]? = some (withNormal orig[i] n) := by
    intro i hi
    have := hs.2 i orig[i] (List.getElem?_eq_getElem hi)
    by_cases hf : flags[i]? = some true
    · rw [if_pos hf] at this
      exact ⟨_, this⟩
    · rw [if_neg hf] at this
      exact ⟨⟨orig[i].nx, orig[i].ny, orig[i].nz⟩, this⟩
  obtain ⟨n0, hp0⟩ := hn i0 h0
  obtain ⟨n1, hp1⟩ := hn i1 h1
  obtain ⟨n2, hp2⟩ := hn i2 h2
  simp only [hc0, hc1, hc2, hp0, hp1, hp2, Option.bind_eq_bind, Option.some_bind] at ht
  have hcontr : ∀ k, triContribution ops orig k (accs k) i0 i1 i2
      = cornerContribution ops k (accs k) i0 i1 i2 orig[i0] orig[i1] orig[i2] := by
    intro k
    unfold triContribution
    rw [ho0, ho1, ho2]
  have hskip : ∀ k, flags[k]? = some true → c0 = false → c1 = false → c2 = false →
      triContribution ops orig k (accs k) i0 i1 i2 = accs k := by
    intro k hk e0 e1 e2
    have n0 : i0 ≠ k := by
      intro e; rw [e, hk, e0] at hc0; cases hc0
    have n1 : i1 ≠ k := by
      intro e; rw [e, hk, e1] at hc1; cases hc1
    have n2 : i2 ≠ k := by
      intro e; rw [e, hk, e2] at hc2; cases hc2
    rw [hcontr]
    unfold cornerContribution
    simp only [if_neg n0, if_neg n1, if_neg n2, ite_self]
  split at ht
  · rename_i hall
    simp only [Option.some.injEq] at ht
    rw [← ht]
    have e0 : c0 = false := by cases c0 <;> simp_all
    have e1 : c1 = false := by cases c1 <;> simp_all
    have e2 : c2 = false := by cases c2 <;> simp_all
    exact NormalState_congr flags orig cur accs _ (fun k hk => hskip k hk e0 e1 e2) hs
  · split at ht
    · rename_i hge
      simp only [Option.some.injEq] at ht
      rw [← ht]
      have s0 := accumNormal_state ops flags orig cur accs i0 c0
        ⟨ops.div (faceNormal ops orig[i0] orig[i1] orig[i2]).x
            (D3DMath_Length ops (faceNormal ops orig[i0] orig[i1] orig[i2])),
          ops.div (faceNormal ops orig[i0] orig[i1] orig[i2]).y
            (D3DMath_Length ops (faceNormal ops orig[i0] orig[i1] orig[i2])),
          ops.div (faceNormal ops orig[i0] orig[i1] orig[i2]).z
            (D3DMath_Length ops (faceNormal ops orig[i0] orig[i1] orig[i2]))⟩
        (cornerWeights ops orig[i0] orig[i1] orig[i2]).1 hfl hc0 hs
      have s1 := accumNormal_state ops flags orig _ _ i1 c1
        ⟨ops.div (faceNormal ops orig[i0] orig[i1] orig[i2]).x
            (D3DMath_Length ops (faceNormal ops orig[i0] orig[i1] orig[i2])),
          ops.div (faceNormal ops orig[i0] orig[i1] orig[i2]).y
            (D3DMath_Length ops (faceNormal ops orig[i0] orig[i1] orig[i2])),
          ops.div (faceNormal ops orig[i0] orig[i1] orig[i2]).z
            (D3DMath_Length ops (faceNormal ops orig[i0] orig[i1] orig[i2]))⟩
        (cornerWeights ops orig[i0] orig[i1] orig[i2]).2.1 hfl hc1 s0
      have s2 := accumNormal_state ops flags orig _ _ i2 c2
        ⟨ops.div (faceNormal ops orig[i0] orig[i1] orig[i2]).x
            (D3DMath_Length ops (faceNormal ops orig[i0] orig[i1] orig[i2])),
          ops.div (faceNormal ops orig[i0] orig[i1] orig[i2]).y
            (D3DMath_Length ops (faceNormal ops orig[i0] orig[i1] orig[i2])),
          ops.div (faceNormal ops orig[i0] orig[i1] orig[i2]).z
            (D3DMath_Length ops (faceNormal ops orig[i0] orig[i1] orig[i2]))⟩
        (cornerWeights ops orig[i0] orig[i1] orig[i2]).2.2 hfl hc2 s1
      refine NormalState_congr flags orig _ _ _ ?_ s2
      intro k _
      rw [hcontr]
      unfold cornerContribution
      have hge1 : ops.ge (D3DMath_Length ops (faceNormal ops orig[i0] orig[i1] orig[i2]))
          ops.eps = true := hge
      simp only [hge1, if_true]
    · rename_i hge
      simp only [Option.some.injEq] at ht
      rw [← ht]
      refine NormalState_congr flags orig cur accs _ ?_ hs
      intro k _
      rw [hcontr]
      unfold cornerContribution
      have hge1 : ¬ ops.ge (D3DMath_Length ops (faceNormal ops orig[i0] orig[i1] orig[i2]))
          ops.eps = true := hge
      simp only [if_neg hge1]

theorem triLoop_state {F : Type} (ops : FloatOps F) (flags : List Bool)
    (orig : List (NTVERTEX F)) (hfl : flags.length = orig.length) :
    ∀ (idx : List Nat) (cur cur1 : List (NTVERTEX F)) (accs : Nat → D3DVECTOR F),
      triLoop ops flags idx cur = some cur1 → NormalState flags orig cur accs →
      NormalState flags orig cur1 (fun k => accumulatedNormal ops orig k idx (accs k))
  | [], cur, cur1, accs, ht, h => by
    simp only [triLoop, Option.some.injEq] at ht
    rw [← ht]; exact h
  | [_], cur, cur1, accs, ht, h => by
    simp only [triLoop, Option.some.injEq] at ht
    rw [← ht]; exact h
  | [_, _], cur, cur1, accs, ht, h => by
    simp only [triLoop, Option.some.injEq] at ht
    rw [← ht]; exact h
  | i0 :: i1 :: i2 :: rest, cur, cur1, accs, ht, h => by
    rw [triLoop] at ht
    cases hn : triNormal ops flags cur i0 i1 i2 with
    | none => simp [hn] at ht
    | some cur2 =>
      simp only [hn, Option.some_bind] at ht
      exact triLoop_state ops flags orig hfl rest cur2 cur1 _ ht
        (triNormal_state ops flags orig cur cur2 accs i0 i1 i2 hfl hn h)

/-- `CalcNormals` gives every flagged vertex the synthesised normal. -/
theorem calcNormalsGroup_synthesised {F : Type} (ops : FloatOps F) (g g1 : GroupSpec F)
    (mo : Bool) (h : calcNormalsGroup ops g mo = some g1) (k : Nat) (v : NTVERTEX F)
    (hv : g.Vtx[k]? = some v) (hf : flagVertex ops mo v = true) :
    g1.Vtx[k]? = some (withNormal v (synthesisedNormal ops g.Vtx g.Idx k)) := by
  unfold calcNormalsGroup at h
  cases ht : triLoop ops (g.Vtx.map (flagVertex ops mo)) g.Idx
      (g.Vtx.map (fun v => if flagVertex ops mo v then clearNormal ops v else v)) with
  | none => simp [ht] at h
  | some vtx1 =>
    simp only [ht, Option.map_some', Option.some.injEq] at h
    have h0 : NormalState (g.Vtx.map (flagVertex ops mo)) g.Vtx
        (g.Vtx.map (fun v => if flagVertex ops mo v then clearNormal ops v else v))
        (fun _ => ⟨ops.zero, ops.zero, ops.zero⟩) := by
      refine ⟨by simp, ?_⟩
      intro j w hw
      rw [List.getElem?_map, List.getElem?_map, hw]
      simp only [Option.map_some', Option.some.injEq]
      cases hfw : flagVertex ops mo w with
      | false => simp
      | true => simp; rfl
    have hs := triLoop_state ops _ g.Vtx (by simp) g.Idx _ vtx1 _ ht h0
    have hk : k < g.Vtx.length := (List.getElem?_eq_some.mp hv).1
    have hfk : (g.Vtx.map (flagVertex ops mo))[k]? = some true := by
      rw [List.getElem?_map, hv]
      simp [hf]
    have hcur := hs.2 k v hv
    rw [if_pos hfk] at hcur
    rw [← h]
    show (List.zipWith (normaliseVertex ops) (g.Vtx.map (flagVertex ops mo)) vtx1)[k]? = _
    rw [List.getElem?_zipWith, hfk, hcur]
    rfl

/-- A single triangle whose three vertices are flagged and whose face normal fails the
test `len >= eps` is skipped by the triangle loop: the final loop divides the cleared
normal of each vertex by its length, whatever the division gives for it. -/
theorem calcNormalsGroup_triangle_skipped {F : Type} (ops : FloatOps F) (v0 v1 v2 : NTVERTEX F)
    (mtrl tex usr zb fl : Nat) (mo : Bool)
    (h0 : flagVertex ops mo v0 = true) (h1 : flagVertex ops mo v1 = true)
    (h2 : flagVertex ops mo v2 = true)
    (hge : ops.ge (D3DMath_Length ops (faceNormal ops v0 v1 v2)) ops.eps = false) :
    calcNormalsGroup ops ⟨[v0, v1, v2], [0, 1, 2], mtrl, tex, usr, zb, fl⟩ mo
      = some ⟨[withNormal v0 (synthesisedNormal ops [v0, v1, v2] [] 0),
               withNormal v1 (synthesisedNormal ops [v0, v1, v2] [] 1),
               withNormal v2 (synthesisedNormal ops [v0, v1, v2] [] 2)],
              [0, 1, 2], mtrl, tex, usr, zb, fl⟩ := by
  rw [calcNormalsGroup_triangle ops v0 v1 v2 mtrl tex usr zb fl mo h0 h1 h2]
  rw [triNormal_triangle ops (clearNormal ops v0) (clearNormal ops v1) (clearNormal ops v2)
    (faceNormal ops v0 v1 v2) _ rfl rfl]
  rw [hge]
  rfl

theorem calcNormalsGroup_tiny_any_division (dv : ℚ → ℚ → ℚ) (mo : Bool) :
    calcNormalsGroup (exampleDivOps dv) exampleTinyTriangle mo
      = some ⟨[⟨0, 0, 0, dv 0 0, dv 0 0, dv 0 0, 0, 0⟩,
               ⟨1 / 100000, 0, 0, dv 0 0, dv 0 0, dv 0 0, 1, 0⟩,
               ⟨0, 1 / 100000, 0, dv 0 0, dv 0 0, dv 0 0, 0, 1⟩], [0, 1, 2], 0, 0, 0, 0, 0⟩ := by
  have hf : ∀ v : NTVERTEX ℚ, v.nx = 0 → v.ny = 0 → v.nz = 0 →
      flagVertex (exampleDivOps dv) mo v = true := by
    intro v a b c
    unfold flagVertex
    cases mo
    · rfl
    · rw [if_pos rfl, a, b, c]
      simp [exampleDivOps, exampleRatOps]
  have hlen : D3DMath_Length (exampleDivOps dv)
      (faceNormal (exampleDivOps dv) (⟨0, 0, 0, 0, 0, 0, 0, 0⟩ : NTVERTEX ℚ)
        ⟨1 / 100000, 0, 0, 0, 0, 0, 1, 0⟩ ⟨0, 1 / 100000, 0, 0, 0, 0, 0, 1⟩)
      = 1 / 10000000000 := by
    have e := ratSqrt_mul_self (1 / 10000000000) (by norm_num)
    simp only [D3DMath_Length, faceNormal, D3DMath_CrossProduct, exampleDivOps, exampleRatOps]
    rw [← e]
    norm_num
  unfold exampleTinyTriangle
  rw [calcNormalsGroup_triangle_skipped _ _ _ _ 0 0 0 0 0 mo (hf _ rfl rfl rfl) (hf _ rfl rfl rfl)
    (hf _ rfl rfl rfl) (by rw [hlen]; simp [exampleDivOps, exampleRatOps]; norm_num)]
  simp [synthesisedNormal, accumulatedNormal, withNormal, D3DMath_Length, exampleDivOps,
    exampleRatOps]

/-- The two comparisons of `exampleNormalOps` are the comparisons with `0.1` and with
`1e-8` on the integers. -/
theorem exampleNormalOps_tests (a : Int) :
    exampleNormalOps.gt a exampleNormalOps.tenth = decide ((1 : ℚ) / 10 < (a : ℚ))
    ∧ exampleNormalOps.ge a exampleNormalOps.eps = decide ((1 : ℚ) / 100000000 ≤ (a : ℚ)) := by
  have e1 : exampleNormalOps.gt a exampleNormalOps.tenth = decide (a > 0) := rfl
  have e2 : exampleNormalOps.ge a exampleNormalOps.eps = decide (a ≥ 1) := rfl
  rw [e1, e2]
  by_cases h : 0 < a
  · have h1 : (1 : ℚ) ≤ (a : ℚ) := by exact_mod_cast h
    have ha : a ≥ 1 := h
    rw [decide_eq_true h, decide_eq_true ha,
      decide_eq_true (show (1 : ℚ) / 10 < (a : ℚ) by linarith),
      decide_eq_true (show (1 : ℚ) / 100000000 ≤ (a : ℚ) by linarith)]
    exact ⟨rfl, rfl⟩
  · have h1 : (a : ℚ) ≤ 0 := by exact_mod_cast (not_lt.mp h)
    have ha : ¬ a ≥ 1 := by omega
    rw [decide_eq_false h, decide_eq_false ha,
      decide_eq_false (show ¬ (1 : ℚ) / 10 < (a : ℚ) by linarith),
      decide_eq_false (show ¬ (1 : ℚ) / 100000000 ≤ (a : ℚ) by linarith)]
    exact ⟨rfl, rfl⟩

theorem zipWith_take_right {α β γ : Type} (f : α → β → γ) :
    ∀ (l : List α) (l1 : List β), List.zipWith f l (l1.take l.length) = List.zipWith f l l1
  | [], _ => by simp
  | _ :: _, [] => by simp
  | a :: l, c :: l1 => by
    simp only [List.length_cons, List.take_succ_cons, List.zipWith_cons_cons,
      zipWith_take_right f l l1]

theorem exMaterials_records {F : Type} (eo : ExportOps F) (withNames : Bool) (mesh : Mesh F)
    (hN : ∀ (j : Nat) (n : List Char), j < mesh.Mtrl.length → mesh.MatNames[j]? = some n →
      n.length ≤ 255) :
    ∀ (cnt i : Nat), i + cnt ≤ mesh.Mtrl.length → i + cnt ≤ mesh.MatNames.length →
      ∃ ml : List (ExMaterial F), exMaterials mesh cnt i = some ml ∧ ml.length = cnt ∧
        ml.flatMap (writeMaterial eo withNames)
          = (List.zipWith (materialRecord eo withNames) ((mesh.Mtrl.drop i).take cnt)
              ((mesh.MatNames.drop i).take cnt)).flatten := by
  intro cnt
  induction cnt with
  | zero =>
    intro i _ _
    exact ⟨[], rfl, rfl, by simp⟩
  | succ cnt ih =>
    intro i h1 h2
    have hi1 : i < mesh.Mtrl.length := by omega
    have hi2 : i < mesh.MatNames.length := by omega
    obtain ⟨ml, hml, hlen, hrec⟩ := ih (i + 1) (by omega) (by omega)
    have hname := hN i mesh.MatNames[i] hi1 (List.getElem?_eq_getElem hi2)
    refine ⟨(⟨mesh.MatNames[i], [mesh.Mtrl[i].diffuse.r, mesh.Mtrl[i].diffuse.g,
          mesh.Mtrl[i].diffuse.b, mesh.Mtrl[i].diffuse.a],
        [mesh.Mtrl[i].ambient.r, mesh.Mtrl[i].ambient.g, mesh.Mtrl[i].ambient.b],
        [mesh.Mtrl[i].specular.r, mesh.Mtrl[i].specular.g, mesh.Mtrl[i].specular.b],
        [mesh.Mtrl[i].emissive.r, mesh.Mtrl[i].emissive.g, mesh.Mtrl[i].emissive.b],
        mesh.Mtrl[i].power⟩ : ExMaterial F) :: ml, ?_, by simp [hlen], ?_⟩
    · unfold exMaterials
      rw [List.getElem?_eq_getElem hi1, List.getElem?_eq_getElem hi2]
      simp only []
      rw [ExMaterial_new_eq mesh.Mtrl[i] mesh.MatNames[i] hname, Option.some_bind, hml]
      rfl
    · rw [List.drop_eq_getElem_cons hi1, List.drop_eq_getElem_cons hi2, List.take_succ_cons,
        List.take_succ_cons, List.zipWith_cons_cons, List.flatten_cons, List.flatMap_cons, hrec,
        writeMaterial_eq_materialRecord eo withNames mesh.Mtrl[i] mesh.MatNames[i] hname]

theorem exMaterials_section {F : Type} (eo : ExportOps F) (withNames : Bool) (mesh : Mesh F)
    (hlen : mesh.Mtrl.length ≤ mesh.MatNames.length)
    (hN : ∀ (j : Nat) (n : List Char), j < mesh.Mtrl.length → mesh.MatNames[j]? = some n →
      n.length ≤ 255) :
    ∃ ml : List (ExMaterial F), exMaterials mesh mesh.Mtrl.length 0 = some ml ∧
      ml.length = mesh.Mtrl.length ∧
      ml.flatMap (writeMaterial eo withNames)
        = (List.zipWith (materialRecord eo withNames) mesh.Mtrl mesh.MatNames).flatten := by
  obtain ⟨ml, h1, h2, h3⟩ := exMaterials_records eo withNames mesh hN mesh.Mtrl.length 0
    (by omega) (by omega)
  refine ⟨ml, h1, h2, ?_⟩
  rw [h3, List.drop_zero, List.drop_zero, List.take_length]
  rw [zipWith_take_right]

theorem exportMesh_sections {F : Type} (eo : ExportOps F) (straightConvert noMatNames : Bool)
    (mesh : Mesh F) (gl : List (ExMeshGroup F)) (ml : List (ExMaterial F))
    (tl : List ExTexture) (gb : List Nat)
    (hg0 : mesh.nGroup ≠ 0) (hg : mesh.nGroup < 2147483648)
    (hm : mesh.Mtrl.length < 2147483648) (ht : mesh.nTexture < 2147483648)
    (hgl : exGroups mesh mesh.nGroup 0 = some gl)
    (hml : exMaterials mesh mesh.Mtrl.length 0 = some ml)
    (htl : exTextures mesh mesh.nTexture 0 = some tl)
    (hgb : writeGroups eo straightConvert gl = some gb) :
    exportMesh eo straightConvert noMatNames mesh
      = some (headerBytes mesh.nGroup mesh.Mtrl.length mesh.nTexture straightConvert noMatNames
                ++ gb ++ ml.flatMap (writeMaterial eo (!noMatNames))
                ++ tl.flatMap writeTexture) := by
  have hex : ExMesh.new mesh
      = some ⟨mesh.nGroup, mesh.Mtrl.length, mesh.nTexture, gl, ml, tl⟩ := by
    unfold ExMesh.new
    simp only [Mesh.nMaterial, toInt32_natCast _ hg, toInt32_natCast _ hm, toInt32_natCast _ ht]
    rw [if_neg (by omega)]
    simp only [Int.toNat_ofNat, hgl, hml, htl, Option.some_bind, Option.map_some']
  unfold exportMesh
  rw [hex, Option.some_bind]
  simp only []
  rw [if_neg (by omega), hgb]
  rfl

/-! ## The container operations -/

/-- What a successful `DeleteMaterial` does to the material list and to each group. -/
theorem deleteMaterial_effect {F : Type} (m : Mesh F) (k : Nat) (hk : k < m.nMaterial) :
    (m.DeleteMaterial k).2 = true ∧
    (m.DeleteMaterial k).1.Mtrl = m.Mtrl.eraseIdx k ∧
    (m.DeleteMaterial k).1.nMaterial + 1 = m.nMaterial ∧
    (m.DeleteMaterial k).1.nGroup = m.nGroup ∧
    ∀ (i : Nat) (g : GroupSpec F), m.Grp[i]? = some g →
      ∃ g1, (m.DeleteMaterial k).1.Grp[i]? = some g1 ∧
        (g.MtrlIdx = k → g1.MtrlIdx = 0) ∧
        (k < g.MtrlIdx → g1.MtrlIdx = g.MtrlIdx - 1) ∧
        (g.MtrlIdx < k → g1.MtrlIdx = g.MtrlIdx) ∧
        g1.Vtx = g.Vtx ∧ g1.Idx = g.Idx ∧ g1.TexIdx = g.TexIdx ∧ g1.UsrFlag = g.UsrFlag ∧
        g1.zBias = g.zBias ∧ g1.Flags = g.Flags := by
  unfold Mesh.nMaterial at hk
  have hk1 : ¬ k ≥ m.Mtrl.length := by omega
  have hM : (m.DeleteMaterial k).1.Mtrl = m.Mtrl.eraseIdx k := by
    simp only [Mesh.DeleteMaterial, hk1, if_false]
    by_cases h1 : m.Mtrl.length > 1
    · simp [h1, copySkip_eq_eraseIdx k m.Mtrl 0 (Nat.zero_le k)]
    · have hlen : m.Mtrl.length = 1 := by omega
      have hk0 : k = 0 := by omega
      subst hk0
      match hm : m.Mtrl, hlen with
      | [a], _ => simp
  refine ⟨by simp [Mesh.DeleteMaterial, hk1], hM, ?_, ?_, ?_⟩
  · simp only [Mesh.nMaterial, hM, List.length_eraseIdx_of_lt hk]; omega
  · simp [Mesh.DeleteMaterial, hk1, Mesh.nGroup]
  · intro i g hg
    refine ⟨adjustMtrl k g, ?_, ?_⟩
    · simp [Mesh.DeleteMaterial, hk1, hg]
    · unfold adjustMtrl
      by_cases h1 : g.MtrlIdx ≥ k
      · by_cases h2 : g.MtrlIdx = k
        · simp [h2]
        · have h3 : ¬ g.MtrlIdx < k := by omega
          have h4 : k < g.MtrlIdx := by omega
          simp [h1, h2, h3]
      · have h3 : g.MtrlIdx < k := by omega
        have h4 : g.MtrlIdx ≠ k := by omega
        have h5 : ¬ k < g.MtrlIdx := by omega
        have h6 : ¬ k ≤ g.MtrlIdx := by omega
        simp [h4, h5, h6]

/-- C1: for every mesh and every `k` below the material count, `DeleteMaterial (k)`
returns true, the material list is the old one without entry `k` (one entry fewer),
and the group list keeps its length; a group whose material index was `k` has index 0,
a group whose index `j` was larger than `k` has index `j - 1`, a group whose index was
below `k` keeps it, and no other field of a group changes. -/
theorem DeleteMaterial_reindexes {F : Type} (m : Mesh F) (k : Nat) (hk : k < m.nMaterial) :
    (m.DeleteMaterial k).2 = true ∧
    (m.DeleteMaterial k).1.Mtrl = m.Mtrl.eraseIdx k ∧
    (m.DeleteMaterial k).1.nMaterial + 1 = m.nMaterial ∧
    (m.DeleteMaterial k).1.nGroup = m.nGroup ∧
    ∀ (i : Nat) (g : GroupSpec F), m.Grp[i]? = some g →
      ∃ g1, (m.DeleteMaterial k).1.Grp[i]? = some g1 ∧
        (g.MtrlIdx = k → g1.MtrlIdx = 0) ∧
        (k < g.MtrlIdx → g1.MtrlIdx = g.MtrlIdx - 1) ∧
        (g.MtrlIdx < k → g1.MtrlIdx = g.MtrlIdx) ∧
        g1.Vtx = g.Vtx ∧ g1.Idx = g.Idx ∧ g1.TexIdx = g.TexIdx ∧ g1.UsrFlag = g.UsrFlag ∧
        g1.zBias = g.zBias ∧ g1.Flags = g.Flags :=
  deleteMaterial_effect m k hk

/-- Witness of C1: material 1 of three is deleted. -/
theorem DeleteMaterial_reindexes_witness :
    1 < exampleMesh3.nMaterial ∧
    (exampleMesh3.DeleteMaterial 1).2 = true ∧
    (exampleMesh3.DeleteMaterial 1).1.Mtrl = exampleMesh3.Mtrl.eraseIdx 1 ∧
    (exampleMesh3.DeleteMaterial 1).1.nMaterial + 1 = exampleMesh3.nMaterial ∧
    (exampleMesh3.DeleteMaterial 1).1.nGroup = exampleMesh3.nGroup ∧
    ∀ (i : Nat) (g : GroupSpec Int), exampleMesh3.Grp[i]? = some g →
      ∃ g1, (exampleMesh3.DeleteMaterial 1).1.Grp[i]? = some g1 ∧
        (g.MtrlIdx = 1 → g1.MtrlIdx = 0) ∧
        (1 < g.MtrlIdx → g1.MtrlIdx = g.MtrlIdx - 1) ∧
        (g.MtrlIdx < 1 → g1.MtrlIdx = g.MtrlIdx) ∧
        g1.Vtx = g.Vtx ∧ g1.Idx = g.Idx ∧ g1.TexIdx = g.TexIdx ∧ g1.UsrFlag = g.UsrFlag ∧
        g1.zBias = g.zBias ∧ g1.Flags = g.Flags :=
  ⟨by decide, DeleteMaterial_reindexes exampleMesh3 1 (by decide)⟩

/-- C2 (the code at the failing input): in a mesh with one material and one group whose
material reference is `SPEC_DEFAULT`, `DeleteMaterial (0)` succeeds and leaves the group
with the reference `SPEC_INHERIT`; a group whose reference is `SPEC_INHERIT` is left
with the value `0xFFFFFFFD`, which is neither flag. -/
theorem DeleteMaterial_decrements_flags :
    ((exampleMesh1 SPEC_DEFAULT).DeleteMaterial 0).2 = true ∧
    ((exampleMesh1 SPEC_DEFAULT).DeleteMaterial 0).1.Grp.map (fun g => g.MtrlIdx)
      = [SPEC_INHERIT] ∧
    ((exampleMesh1 SPEC_INHERIT).DeleteMaterial 0).1.Grp.map (fun g => g.MtrlIdx)
      = [4294967293] := by
  decide

/-- C3 (counterexample): the only material of a mesh is deleted while a group uses it;
before, every reference is an index below the count; afterwards the group refers to
index 0 of an empty material list. -/
theorem DeleteMaterial_breaks_invariant :
    ¬ (∀ (m : Mesh Int) (k : Nat),
        (∀ g ∈ m.Grp, validRef g.MtrlIdx m.nMaterial) → (m.DeleteMaterial k).2 = true →
        ∀ g ∈ (m.DeleteMaterial k).1.Grp, validRef g.MtrlIdx (m.DeleteMaterial k).1.nMaterial) := by
  intro h
  have h1 := h (exampleMesh1 0) 0 (by
    intro g hg
    have : g.MtrlIdx = 0 := by
      simp [exampleMesh1, Mesh.new] at hg
      subst hg; rfl
    right; right; rw [this]; decide) (by decide)
  have h2 := h1 ⟨[], [], 0, SPEC_INHERIT, 0, 0, 0⟩ (by decide)
  revert h2
  unfold validRef
  decide

/-- C3 (amended): when a mesh has at least two materials, after a successful
`DeleteMaterial (k)` every group whose material reference was an index below the
material count has again an index below the new material count. -/
theorem DeleteMaterial_keeps_indices_in_range {F : Type} (m : Mesh F) (k : Nat)
    (h2 : 2 ≤ m.nMaterial) (hs : (m.DeleteMaterial k).2 = true) :
    ∀ (i : Nat) (g : GroupSpec F), m.Grp[i]? = some g → g.MtrlIdx < m.nMaterial →
      ∃ g1, (m.DeleteMaterial k).1.Grp[i]? = some g1 ∧
        g1.MtrlIdx < (m.DeleteMaterial k).1.nMaterial := by
  have hk : k < m.nMaterial := by
    by_contra hc
    have : k ≥ m.Mtrl.length := by unfold Mesh.nMaterial at hc; omega
    simp [Mesh.DeleteMaterial, this] at hs
  obtain ⟨_, _, hn, _, hg⟩ := deleteMaterial_effect m k hk
  intro i g hi hlt
  obtain ⟨g1, e1, a, b, c, _⟩ := hg i g hi
  refine ⟨g1, e1, ?_⟩
  rcases Nat.lt_trichotomy g.MtrlIdx k with h | h | h
  · rw [c h]; omega
  · rw [a h]; omega
  · rw [b h]; omega

/-- Witness of C3 (amended): material 1 of three is deleted; group 2 used material 2. -/
theorem DeleteMaterial_keeps_indices_in_range_witness :
    2 ≤ exampleMesh3.nMaterial ∧ (exampleMesh3.DeleteMaterial 1).2 = true ∧
    ∀ (i : Nat) (g : GroupSpec Int), exampleMesh3.Grp[i]? = some g →
      g.MtrlIdx < exampleMesh3.nMaterial →
      ∃ g1, (exampleMesh3.DeleteMaterial 1).1.Grp[i]? = some g1 ∧
        g1.MtrlIdx < (exampleMesh3.DeleteMaterial 1).1.nMaterial :=
  ⟨by decide, by decide,
    DeleteMaterial_keeps_indices_in_range exampleMesh3 1 (by decide) (by decide)⟩

/-- C4: `DeleteGroup (g)` returns false exactly when `g` is not below the group count,
and then leaves the mesh as it was; otherwise it returns true and the group list is the
old one with element `g` erased: one group fewer, the groups in front of `g` keep index
and content, and each group behind `g` is found one index lower. -/
theorem DeleteGroup_erases {F : Type} (m : Mesh F) (g : Nat) :
    ((m.DeleteGroup g).2 = false ↔ g ≥ m.nGroup) ∧
    (g ≥ m.nGroup → (m.DeleteGroup g).1 = m) ∧
    (g < m.nGroup →
      (m.DeleteGroup g).2 = true ∧
      (m.DeleteGroup g).1.Grp = m.Grp.eraseIdx g ∧
      (m.DeleteGroup g).1.nGroup + 1 = m.nGroup ∧
      (∀ i, i < g → (m.DeleteGroup g).1.Grp[i]? = m.Grp[i]?) ∧
      (∀ i, g ≤ i → (m.DeleteGroup g).1.Grp[i]? = m.Grp[i + 1]?)) := by
  unfold Mesh.nGroup
  by_cases h : g < m.Grp.length
  · have hE : (m.DeleteGroup g).1.Grp = m.Grp.eraseIdx g := by
      simp only [Mesh.DeleteGroup, h, if_true]
      by_cases h1 : m.Grp.length = 1
      · have hg0 : g = 0 := by omega
        subst hg0
        match hm : m.Grp, h1 with
        | [a], _ => simp
      · simp [h1, copySkip_eq_eraseIdx g m.Grp 0 (Nat.zero_le g)]
    have hT : (m.DeleteGroup g).2 = true := by
      simp only [Mesh.DeleteGroup, h, if_true]
      split <;> rfl
    refine ⟨?_, ?_, ?_⟩
    · rw [hT]; constructor
      · intro hc; cases hc
      · intro hc; omega
    · intro hc; omega
    · intro _
      refine ⟨hT, hE, ?_, ?_, ?_⟩
      · rw [hE, List.length_eraseIdx_of_lt h]; omega
      · intro i hi; rw [hE, List.getElem?_eraseIdx_of_lt _ _ _ hi]
      · intro i hi; rw [hE, List.getElem?_eraseIdx_of_ge _ _ _ hi]
  · have hF : m.DeleteGroup g = (m, false) := by simp [Mesh.DeleteGroup, h]
    refine ⟨?_, ?_, ?_⟩
    · rw [hF]; simp; omega
    · intro _; rw [hF]
    · intro hc; omega

/-- C5: `AddGroup` on a mesh with `n` groups returns `n`; afterwards the mesh has `n + 1`
groups, the groups `0 .. n-1` are the old ones, group `n` holds the given vertex list,
index list and z-bias, and the material and texture counts are the old ones. -/
theorem AddGroup_appends {F : Type} (m : Mesh F) (vtx : List (NTVERTEX F)) (idx : List Nat)
    (mtrl_idx tex_idx zbias flag : Nat) (deepcopy : Bool) :
    (m.AddGroup vtx idx mtrl_idx tex_idx zbias flag deepcopy).2 = m.nGroup ∧
    (m.AddGroup vtx idx mtrl_idx tex_idx zbias flag deepcopy).1.nGroup = m.nGroup + 1 ∧
    (∀ i, i < m.nGroup →
      (m.AddGroup vtx idx mtrl_idx tex_idx zbias flag deepcopy).1.Grp[i]? = m.Grp[i]?) ∧
    (∃ g, (m.AddGroup vtx idx mtrl_idx tex_idx zbias flag deepcopy).1.Grp[m.nGroup]? = some g ∧
      g.Vtx = vtx ∧ g.Idx = idx ∧ g.zBias = zbias) ∧
    (m.AddGroup vtx idx mtrl_idx tex_idx zbias flag deepcopy).1.nMaterial = m.nMaterial ∧
    (m.AddGroup vtx idx mtrl_idx tex_idx zbias flag deepcopy).1.nTexture = m.nTexture := by
  unfold Mesh.nGroup Mesh.nMaterial Mesh.nTexture
  refine ⟨rfl, by simp [Mesh.AddGroup], ?_, ?_, rfl, rfl⟩
  · intro i hi
    simp only [Mesh.AddGroup]
    exact List.getElem?_append_left hi
  · simp only [Mesh.AddGroup]
    rw [List.getElem?_append_right (Nat.le_refl _)]
    simp only [Nat.sub_self, List.getElem?_cons_zero, Option.some.injEq, exists_eq_left',
      ite_self]
    cases m.GrpSetup <;> simp [setupRefs]

/-- C6: `Setup` keeps the number of groups and the material and texture counts; in each
group the vertex list and the index list are unchanged, a material reference that is
`SPEC_INHERIT` stays, one below the material count is unchanged, and every other value
becomes `SPEC_DEFAULT` (so `SPEC_DEFAULT` stays); the same holds for the texture
reference against the texture count. -/
theorem Setup_reconciles {F : Type} (m : Mesh F) :
    m.Setup.nGroup = m.nGroup ∧ m.Setup.nMaterial = m.nMaterial ∧
    m.Setup.nTexture = m.nTexture ∧
    ∀ (i : Nat) (g : GroupSpec F), m.Grp[i]? = some g →
      ∃ g1, m.Setup.Grp[i]? = some g1 ∧ g1.Vtx = g.Vtx ∧ g1.Idx = g.Idx ∧
        (g.MtrlIdx = SPEC_INHERIT → g1.MtrlIdx = SPEC_INHERIT) ∧
        (g.MtrlIdx < m.nMaterial → g1.MtrlIdx = g.MtrlIdx) ∧
        (g.MtrlIdx ≠ SPEC_INHERIT → ¬ g.MtrlIdx < m.nMaterial → g1.MtrlIdx = SPEC_DEFAULT) ∧
        (g.TexIdx = SPEC_INHERIT → g1.TexIdx = SPEC_INHERIT) ∧
        (g.TexIdx < m.nTexture → g1.TexIdx = g.TexIdx) ∧
        (g.TexIdx ≠ SPEC_INHERIT → ¬ g.TexIdx < m.nTexture → g1.TexIdx = SPEC_DEFAULT) := by
  unfold Mesh.nGroup Mesh.nMaterial Mesh.nTexture
  refine ⟨by simp [Mesh.Setup], rfl, rfl, ?_⟩
  intro i g hg
  refine ⟨setupRefs m.Mtrl.length m.nTex g, by simp [Mesh.Setup, hg], rfl, rfl, ?_⟩
  have hm := checkIdx_cases g.MtrlIdx m.Mtrl.length
  have ht := checkIdx_cases g.TexIdx m.nTex
  exact ⟨hm.1, hm.2.1, hm.2.2, ht.1, ht.2.1, ht.2.2⟩

/-! ## The loader -/

/-- C7 (the code at the failing input): a mesh is loaded from a file with one texture;
a second load into the same mesh from a file whose first line is `BAD` leaves it with
no group and no material, but with the texture count 1 of the first load. -/
theorem load_bad_magic_keeps_texture_count :
    ((load exampleOps (IStream.ofString exampleOneTexture) (Mesh.new Int)).bind
        (load exampleOps (IStream.ofString "BAD\n"))).map
      (fun m => (m.nGroup, m.nMaterial, m.nTexture)) = some (0, 0, 1) := by
  decide

set_option maxRecDepth 100000 in
/-- C8 (counterexample): the block `GEOM 1 1` is followed by its vertex line and by its
triangle line, whose three integers `0 0 0` are followed by 300 blanks; `getline`
fails on the line of more than 255 characters, the group is dropped, and the load ends
with a mesh without a group. -/
theorem load_drops_long_triangle_line :
    IsGeomLine "GEOM 1 1".toList 1 1 ∧
    IsTriangleLine ("0 0 0".toList ++ List.replicate 300 ' ') (0, 0, 0) ∧
    (load exampleOps (IStream.ofChars exampleLongLine) (Mesh.new Int)).map (fun m => m.nGroup)
      = some 0 := by
  unfold IsGeomLine IsTriangleLine
  decide

/-- C8 (amended): the first `k` passes of the group loop of a load (`load` runs
`resumeLoad` from pass 0) lead to a state with `k` groups in the mesh, and the label
array has an entry `k` (it has `ngrp` entries in a load); the stream then
delivers directive lines, a `GEOM` line with the counts `0 < v ≤ 65536` and `0 < t`,
`3 t < 2^31`, then `v` vertex lines and `t` triangle lines, each triangle line with
three integers below `v`. Then pass `k` adds a group with exactly `v` vertices and
exactly `3 t` indices, and without a `FLIP` line among the directive lines the indices
`3i`, `3i+1`, `3i+2` are the three integers of the `i`-th triangle line; in every mesh
that the load produces, with any number of further passes, group `k` has these
vertex and index counts and these indices. -/
theorem load_complete_block {F : Type} (ops : FloatOps F) (sm : Bool) (st0 st : LoopState F)
    (k : Nat) (dirs : List (List Char)) (geom : List Char) (v t : Nat)
    (vlines tlines rest : List (List Char)) (tris : List (Nat × Nat × Nat))
    (hpass : groupLoop ops sm k 0 st0 = some st) (hcount : st.mesh.Grp.length = k)
    (hterm : st.term = false) (hlab : k < st.mesh.Labels.length)
    (hlines : st.stream.lines = dirs ++ geom :: (vlines ++ tlines ++ rest))
    (hdirs : ∀ l ∈ dirs, IsDirective l) (hgeom : IsGeomLine geom v t)
    (hv : 0 < v) (hv16 : v ≤ 65536) (ht : 0 < t) (ht31 : 3 * t < 2147483648)
    (hvl : vlines.length = v) (htl : tlines.length = t)
    (htris : List.Forall₂ IsTriangleLine tlines tris)
    (hrange : ∀ p ∈ tris, p.1 < v ∧ p.2.1 < v ∧ p.2.2 < v) :
    (∃ (st1 : LoopState F) (grp : GroupSpec F),
      groupStep ops sm k st = some st1 ∧ st1.mesh.Grp.length = k + 1 ∧
      st1.mesh.Grp[k]? = some grp ∧ grp.Vtx.length = v ∧ grp.Idx.length = 3 * t ∧
      ((∀ l ∈ dirs, NotFlip l) → grp.Idx = triIndices tris)) ∧
    (∀ (n : Nat) (m : Mesh F), resumeLoad ops sm (k + (n + 1)) 0 st0 = some m →
      ∃ grp, m.Grp[k]? = some grp ∧ grp.Vtx.length = v ∧ grp.Idx.length = 3 * t ∧
        ((∀ l ∈ dirs, NotFlip l) →
          grp.Idx = triIndices tris ∧
          ∀ (i : Nat) (p : Nat × Nat × Nat), tris[i]? = some p →
            grp.Idx[3 * i]? = some p.1 ∧ grp.Idx[3 * i + 1]? = some p.2.1 ∧
            grp.Idx[3 * i + 2]? = some p.2.2)) := by
  subst hcount
  obtain ⟨st1, grp, flip, hstep, hlen, hget, hV, hI, hflip, _, _⟩ :=
    groupStep_complete ops sm st dirs geom v t vlines tlines rest tris hlab hlines hdirs hgeom
      hv hv16 ht ht31 hvl htl htris hrange
  have hlenI : grp.Idx.length = 3 * t := by
    rw [hI]
    cases flip with
    | false =>
      simp only [Bool.false_eq_true, if_false]
      rw [triIndices_length, ← htris.length_eq, htl]
    | true =>
      simp only [if_true]
      rw [triIndices_length, List.length_map, ← htris.length_eq, htl]
  have hplain : (∀ l ∈ dirs, NotFlip l) → grp.Idx = triIndices tris := by
    intro hn
    rw [hI, hflip hn]
    simp
  refine ⟨⟨st1, grp, hstep, hlen, hget, hV, hlenI, hplain⟩, ?_⟩
  intro n m hm
  rw [resumeLoad_split ops sm st.mesh.Grp.length (n + 1) st0 st hpass] at hm
  obtain ⟨y, hy, hyV, hyI⟩ :=
    resumeLoad_keeps_group ops sm st.mesh.Grp.length st st1 grp hterm hstep hget n m hm
  refine ⟨y, hy, by rw [hyV]; exact hV, by rw [hyI]; exact hlenI, ?_⟩
  intro hn
  refine ⟨hyI.trans (hplain hn), ?_⟩
  intro i p hp
  rw [hyI, hplain hn]
  exact triIndices_get tris i p hp

/-- Witness of C8 (amended): pass 0 of the load of `exampleTriangle`, whose block has a
`LABEL` line, `GEOM 3 1`, three vertex lines and the triangle line `0 1 2`. -/
theorem load_complete_block_witness :
    load exampleOps (IStream.ofString exampleTriangle) (Mesh.new Int)
      = resumeLoad exampleOps false (0 + (0 + 1)) 0 exampleTriangleState ∧
    (∀ l ∈ ["LABEL tri".toList], NotFlip l) ∧
    (∃ (st1 : LoopState Int) (grp : GroupSpec Int),
      groupStep exampleOps false 0 exampleTriangleState = some st1 ∧
      st1.mesh.Grp.length = 0 + 1 ∧ st1.mesh.Grp[0]? = some grp ∧
      grp.Vtx.length = 3 ∧ grp.Idx.length = 3 * 1 ∧
      ((∀ l ∈ ["LABEL tri".toList], NotFlip l) → grp.Idx = triIndices [(0, 1, 2)])) ∧
    (∀ (n : Nat) (m : Mesh Int),
      resumeLoad exampleOps false (0 + (n + 1)) 0 exampleTriangleState = some m →
      ∃ grp, m.Grp[0]? = some grp ∧ grp.Vtx.length = 3 ∧ grp.Idx.length = 3 * 1 ∧
        ((∀ l ∈ ["LABEL tri".toList], NotFlip l) →
          grp.Idx = triIndices [(0, 1, 2)] ∧
          ∀ (i : Nat) (p : Nat × Nat × Nat), [(0, 1, 2)][i]? = some p →
            grp.Idx[3 * i]? = some p.1 ∧ grp.Idx[3 * i + 1]? = some p.2.1 ∧
            grp.Idx[3 * i + 2]? = some p.2.2)) :=
  ⟨by decide, by unfold NotFlip; decide,
   load_complete_block exampleOps false exampleTriangleState exampleTriangleState 0
     ["LABEL tri".toList] "GEOM 3 1".toList 3 1
     ["0 0 0 0 0 1 0 0".toList, "1 0 0 0 0 1 1 0".toList, "0 1 0 0 0 1 0 1".toList]
     ["0 1 2".toList] [] [(0, 1, 2)] rfl rfl rfl (by decide) (by decide)
     (by unfold IsDirective; decide)
     (by unfold IsGeomLine; decide) (by decide) (by decide) (by decide) (by decide) rfl rfl
     (List.Forall₂.cons (by unfold IsTriangleLine; decide) List.Forall₂.nil) (by decide)⟩

/-- C9 (counterexample): the only group of `exampleBadIndex` has one vertex and the
triangle line `0 1 2`; the load keeps the group with the indices 1 and 2, which are not
below its vertex count 1. -/
theorem load_keeps_out_of_range_index :
    (load exampleOps (IStream.ofString exampleBadIndex) (Mesh.new Int)).map
      (fun m => m.Grp.map (fun g => (g.Vtx.length, g.Idx))) = some [(1, [0, 1, 2])] := by
  decide

/-- C9 (amended): the integers of the triangle lines are stored as they are read. The
first `k` passes of the group loop of a load lead to a state with `k` groups in the
mesh, and the label array has an entry `k` (it has `ngrp` entries in a load); the
stream then delivers directive lines (with or without `FLIP`), a `GEOM` line
with the counts `0 < v ≤ 65536` and `0 < t`, `3 t < 2^31`, then `v` vertex lines and `t`
triangle lines, each triangle line with three integers below `v`. Then every index of
the group that pass `k` adds is below the vertex count of the group, and so it is in
every mesh that the load produces, with any number of further passes. -/
theorem load_indices_in_range {F : Type} (ops : FloatOps F) (sm : Bool) (st0 st : LoopState F)
    (k : Nat) (dirs : List (List Char)) (geom : List Char) (v t : Nat)
    (vlines tlines rest : List (List Char)) (tris : List (Nat × Nat × Nat))
    (hpass : groupLoop ops sm k 0 st0 = some st) (hcount : st.mesh.Grp.length = k)
    (hterm : st.term = false) (hlab : k < st.mesh.Labels.length)
    (hlines : st.stream.lines = dirs ++ geom :: (vlines ++ tlines ++ rest))
    (hdirs : ∀ l ∈ dirs, IsDirective l) (hgeom : IsGeomLine geom v t)
    (hv : 0 < v) (hv16 : v ≤ 65536) (ht : 0 < t) (ht31 : 3 * t < 2147483648)
    (hvl : vlines.length = v) (htl : tlines.length = t)
    (htris : List.Forall₂ IsTriangleLine tlines tris)
    (hrange : ∀ p ∈ tris, p.1 < v ∧ p.2.1 < v ∧ p.2.2 < v) :
    (∃ (st1 : LoopState F) (grp : GroupSpec F),
      groupStep ops sm k st = some st1 ∧ st1.mesh.Grp[k]? = some grp ∧
      ∀ i ∈ grp.Idx, i < grp.Vtx.length) ∧
    (∀ (n : Nat) (m : Mesh F), resumeLoad ops sm (k + (n + 1)) 0 st0 = some m →
      ∃ grp, m.Grp[k]? = some grp ∧ ∀ i ∈ grp.Idx, i < grp.Vtx.length) := by
  subst hcount
  obtain ⟨st1, grp, flip, hstep, _, hget, hV, hI, _, _, _⟩ :=
    groupStep_complete ops sm st dirs geom v t vlines tlines rest tris hlab hlines hdirs hgeom
      hv hv16 ht ht31 hvl htl htris hrange
  have hb : ∀ i ∈ grp.Idx, i < grp.Vtx.length := by
    rw [hI, hV]
    cases flip with
    | false => exact triIndices_bound tris v hrange
    | true => exact triIndices_bound _ v (flipTri_bound tris v hrange)
  refine ⟨⟨st1, grp, hstep, hget, hb⟩, ?_⟩
  intro n m hm
  rw [resumeLoad_split ops sm st.mesh.Grp.length (n + 1) st0 st hpass] at hm
  obtain ⟨y, hy, hyV, hyI⟩ :=
    resumeLoad_keeps_group ops sm st.mesh.Grp.length st st1 grp hterm hstep hget n m hm
  exact ⟨y, hy, by rw [hyV, hyI]; exact hb⟩

/-- Witness of C9 (amended): pass 0 of the load of `exampleFlipped`. -/
theorem load_indices_in_range_witness :
    load exampleOps (IStream.ofString exampleFlipped) (Mesh.new Int)
      = resumeLoad exampleOps false (0 + (0 + 1)) 0 exampleFlippedState ∧
    (∃ (st1 : LoopState Int) (grp : GroupSpec Int),
      groupStep exampleOps false 0 exampleFlippedState = some st1 ∧
      st1.mesh.Grp[0]? = some grp ∧ ∀ i ∈ grp.Idx, i < grp.Vtx.length) ∧
    (∀ (n : Nat) (m : Mesh Int),
      resumeLoad exampleOps false (0 + (n + 1)) 0 exampleFlippedState = some m →
      ∃ grp, m.Grp[0]? = some grp ∧ ∀ i ∈ grp.Idx, i < grp.Vtx.length) :=
  ⟨by decide,
   load_indices_in_range exampleOps false exampleFlippedState exampleFlippedState 0
     ["FLIP".toList] "GEOM 3 1".toList 3 1
     ["0 0 0 0 0 1 0 0".toList, "1 0 0 0 0 1 1 0".toList, "0 1 0 0 0 1 0 1".toList]
     ["0 1 2".toList] [] [(0, 1, 2)] rfl rfl rfl (by decide) (by decide)
     (by unfold IsDirective; decide)
     (by unfold IsGeomLine; decide) (by decide) (by decide) (by decide) (by decide) rfl rfl
     (List.Forall₂.cons (by unfold IsTriangleLine; decide) List.Forall₂.nil) (by decide)⟩

/-- C12 (the code at the failing input): the texture list of `exampleTexturesOnly`
follows the group directly. The test for the material list reads the line `TEXTURES 2`
and drops it; the test for the texture list then reads `a.dds`, and the load ends with
one group, no material and no texture. With the line `MATERIALS 0` in front of the
texture list the same file loads its two textures. -/
theorem load_textures_without_materials :
    (load exampleOps (IStream.ofString exampleTexturesOnly) (Mesh.new Int)).map
        (fun m => (m.nGroup, m.nMaterial, m.nTexture, m.TexFiles))
      = some (1, 0, 0, ([] : List (List Char))) ∧
    (load exampleOps (IStream.ofString exampleEmptyMaterials) (Mesh.new Int)).map
        (fun m => (m.nGroup, m.nMaterial, m.nTexture, m.TexFiles))
      = some (1, 0, 2, ["a.dds".toList, "b.dds".toList]) :=
  ⟨by decide, by decide⟩

/-- C13 (the code at the failing input): the texture list of `exampleTextureZero` holds
the entries `0` and `b.dds`; the load stores the name `0` for the first entry, not an
empty name. -/
theorem load_texture_named_zero :
    (load exampleOps (IStream.ofString exampleTextureZero) (Mesh.new Int)).map
        (fun m => (m.nTexture, m.TexFiles))
      = some (2, ["0".toList, "b.dds".toList]) := by
  decide

/-- C15 (the code at the failing input): `exampleSkippedBlock` declares two groups; the
block `GEOM 0 0` adds no group, so the pass for the second block runs with the pass
counter 1 on a mesh without a group. `AddGroup` appends the group at index 0 with
`Flags` 0 and `UsrFlag` 0, and the two assignments through `Grp[1]` lie outside the
group array: the load has no result. Without the first block the group is loaded with
`Flags` 4 and `UsrFlag` 5. -/
theorem load_flags_after_skipped_block :
    (groupLoop exampleOps false 1 0 exampleSkippedState).map
        (fun s => (s.mesh.Grp.length, s.term)) = some (0, false) ∧
    ((Mesh.new Int).AddGroup [] [] SPEC_INHERIT SPEC_INHERIT 0 0 false).1.Grp.map
        (fun g => (g.Flags, g.UsrFlag)) = [(0, 0)] ∧
    load exampleOps (IStream.ofString exampleSkippedBlock) (Mesh.new Int) = none ∧
    (load exampleOps (IStream.ofString exampleFlaggedBlock) (Mesh.new Int)).map
        (fun m => m.Grp.map (fun g => (g.Flags, g.UsrFlag))) = some [(4, 5)] := by
  decide

/-- C16: a load whose lines in front of the `GROUPS` line hold a `STATICMESH` line runs
the group loop with `staticmesh` set, and without such a line with `staticmesh` clear;
every pass of the loop starts its directive variables with `BlockVars.init staticmesh`,
whose shadow bit is set exactly when `staticmesh` is. A `STATIC` line of a block is
consumed with `flag |= 0x04`, which leaves the shadow bit set; a `DYNAMIC` line is
consumed with `flag ^= 0x04`, which inverts the shadow bit (set becomes clear, clear
becomes set), and two `DYNAMIC` lines give the flag word back. -/
theorem shadow_bit_static_dynamic {F : Type} (ops : FloatOps F) :
    (∀ (pre : List (List Char)) (grp : List Char) (rest : List (List Char)) (res : List Char)
      (n : Int) (mesh : Mesh F),
      (∀ l ∈ pre, strnicmpEq l "GROUPS" 6 = false) → strnicmpEq grp "GROUPS" 6 = true →
      scanDecs 1 (grp.drop 6) = [n] → 0 ≤ toInt32 n → 256 * toInt32 n ≤ 2147483647 →
      load ops ⟨"MSHX1".toList :: (pre ++ grp :: rest), res⟩ mesh
        = resumeLoad ops (pre.any (fun l => strnicmpEq l "STATICMESH" 10)) (toInt32 n).toNat 0
            { mesh := { mesh.Clear with Labels := List.replicate (toInt32 n).toNat [] },
              nidx := none, stream := ⟨rest, res⟩, term := false }) ∧
    (∀ sm : Bool, shadowBit (BlockVars.init sm).flag = sm) ∧
    (∀ (g : Nat) (nidx0 : Option Int) (res : List Char) (v : BlockVars)
      (lab : List (List Char)) (l : List Char) (ls : List (List Char)),
      strnicmpEq l "STATIC" 6 = true →
      readBlock ops g nidx0 res v lab (l :: ls)
        = readBlock ops g nidx0 res { v with flag := v.flag ||| 4 } lab ls ∧
      shadowBit (v.flag ||| 4) = true) ∧
    (∀ (g : Nat) (nidx0 : Option Int) (res : List Char) (v : BlockVars)
      (lab : List (List Char)) (l : List Char) (ls : List (List Char)),
      strnicmpEq l "DYNAMIC" 7 = true →
      readBlock ops g nidx0 res v lab (l :: ls)
        = readBlock ops g nidx0 res { v with flag := v.flag ^^^ 4 } lab ls ∧
      shadowBit (v.flag ^^^ 4) = (!shadowBit v.flag) ∧ (v.flag ^^^ 4) ^^^ 4 = v.flag) := by
  refine ⟨?_, ?_, ?_, ?_⟩
  · intro pre grp rest res n mesh hpre hg hn h0 h1
    unfold load
    have hmagic : ("MSHX1".toList != "MSHX1".toList) = false := by decide
    simp only [hmagic, Bool.false_eq_true, if_false,
      findGroups_scan pre grp rest n hpre hg hn false, Bool.false_or]
    have hno : ¬ (toInt32 n < 0 ∨ 2147483647 < 256 * toInt32 n) := by omega
    rw [if_neg hno]
  · intro sm
    cases sm <;> decide
  · intro g nidx0 res v lab l ls h
    exact ⟨readBlock_static_line ops g nidx0 res v lab l ls h, shadowBit_or v.flag⟩
  · intro g nidx0 res v lab l ls h
    exact ⟨readBlock_dynamic_line ops g nidx0 res v lab l ls h, shadowBit_xor v.flag,
      xor_four_twice v.flag⟩

/-- Witness of C16: the loads of `exampleStaticMesh` (one `DYNAMIC` line, two, none
behind `STATICMESH`) and of `exampleDynamicMesh` (`DYNAMIC`, `STATIC`, none without
`STATICMESH`), and a `DYNAMIC` line consumed on the flag word 4. -/
theorem shadow_bit_static_dynamic_witness :
    (load exampleOps (IStream.ofString exampleStaticMesh) (Mesh.new Int)).map
        (fun m => m.Grp.map (fun g => g.Flags)) = some [0, 4, 4] ∧
    (load exampleOps (IStream.ofString exampleDynamicMesh) (Mesh.new Int)).map
        (fun m => m.Grp.map (fun g => g.Flags)) = some [4, 4, 0] ∧
    strnicmpEq "DYNAMIC".toList "DYNAMIC" 7 = true ∧
    (readBlock exampleOps 0 none [] (BlockVars.init true) [[]] ["DYNAMIC".toList]
        = readBlock exampleOps 0 none []
            { BlockVars.init true with flag := (BlockVars.init true).flag ^^^ 4 } [[]] [] ∧
      shadowBit ((BlockVars.init true).flag ^^^ 4) = (!shadowBit (BlockVars.init true).flag) ∧
      ((BlockVars.init true).flag ^^^ 4) ^^^ 4 = (BlockVars.init true).flag) :=
  ⟨by decide, by decide, by decide,
   (shadow_bit_static_dynamic exampleOps).2.2.2 0 none [] (BlockVars.init true) [[]]
     "DYNAMIC".toList [] (by decide)⟩

/-- C17: the first `k` passes of the group loop of a load lead to a state with `k`
groups in the mesh, and the stream then delivers a complete block: directive lines, a
`GEOM` line with the counts `0 < v ≤ 65536` and `0 < t`, `3 t < 2^31`, then `v` vertex
lines and `t` triangle lines, each triangle line with three integers below `v`. When
one of the directive lines is a `FLIP` line, the group that pass `k` adds, and group `k`
of every mesh the load produces, stores each triangle line `a b c` as `(a, c, b)`:
index `3i` is the first, index `3i+1` the third and index `3i+2` the second integer of
the `i`-th triangle line. Without a `FLIP` line the three indices are `a`, `b`, `c`. -/
theorem load_flip_swaps {F : Type} (ops : FloatOps F) (sm : Bool) (st0 st : LoopState F)
    (k : Nat) (dirs : List (List Char)) (geom : List Char) (v t : Nat)
    (vlines tlines rest : List (List Char)) (tris : List (Nat × Nat × Nat))
    (hpass : groupLoop ops sm k 0 st0 = some st) (hcount : st.mesh.Grp.length = k)
    (hterm : st.term = false) (hlab : k < st.mesh.Labels.length)
    (hlines : st.stream.lines = dirs ++ geom :: (vlines ++ tlines ++ rest))
    (hdirs : ∀ l ∈ dirs, IsDirective l) (hgeom : IsGeomLine geom v t)
    (hv : 0 < v) (hv16 : v ≤ 65536) (ht : 0 < t) (ht31 : 3 * t < 2147483648)
    (hvl : vlines.length = v) (htl : tlines.length = t)
    (htris : List.Forall₂ IsTriangleLine tlines tris)
    (hrange : ∀ p ∈ tris, p.1 < v ∧ p.2.1 < v ∧ p.2.2 < v) :
    (∃ (st1 : LoopState F) (grp : GroupSpec F),
      groupStep ops sm k st = some st1 ∧ st1.mesh.Grp[k]? = some grp ∧
      ((∃ l ∈ dirs, strnicmpEq l "FLIP" 4 = true) → grp.Idx = triIndices (tris.map flipTri)) ∧
      ((∀ l ∈ dirs, NotFlip l) → grp.Idx = triIndices tris)) ∧
    (∀ (n : Nat) (m : Mesh F), resumeLoad ops sm (k + (n + 1)) 0 st0 = some m →
      ∃ grp, m.Grp[k]? = some grp ∧
        ((∃ l ∈ dirs, strnicmpEq l "FLIP" 4 = true) →
          grp.Idx = triIndices (tris.map flipTri) ∧
          ∀ (i : Nat) (p : Nat × Nat × Nat), tris[i]? = some p →
            grp.Idx[3 * i]? = some p.1 ∧ grp.Idx[3 * i + 1]? = some p.2.2 ∧
            grp.Idx[3 * i + 2]? = some p.2.1) ∧
        ((∀ l ∈ dirs, NotFlip l) →
          grp.Idx = triIndices tris ∧
          ∀ (i : Nat) (p : Nat × Nat × Nat), tris[i]? = some p →
            grp.Idx[3 * i]? = some p.1 ∧ grp.Idx[3 * i + 1]? = some p.2.1 ∧
            grp.Idx[3 * i + 2]? = some p.2.2)) := by
  subst hcount
  obtain ⟨st1, grp, hstep, hget, hI⟩ :=
    groupStep_complete_flip ops sm st dirs geom v t vlines tlines rest tris hlab hlines hdirs
      hgeom hv hv16 ht ht31 hvl htl htris hrange
  have hflip : (∃ l ∈ dirs, strnicmpEq l "FLIP" 4 = true) →
      grp.Idx = triIndices (tris.map flipTri) := by
    intro hex
    have e : dirs.any (fun l => strnicmpEq l "FLIP" 4) = true := List.any_eq_true.mpr hex
    rw [hI, e]
    simp
  have hplain : (∀ l ∈ dirs, NotFlip l) → grp.Idx = triIndices tris := by
    intro hn
    have e : dirs.any (fun l => strnicmpEq l "FLIP" 4) = false := by
      rw [List.any_eq_false]
      intro l hl
      have := hn l hl
      unfold NotFlip at this
      simp [this]
    rw [hI, e]
    simp
  refine ⟨⟨st1, grp, hstep, hget, hflip, hplain⟩, ?_⟩
  intro n m hm
  rw [resumeLoad_split ops sm st.mesh.Grp.length (n + 1) st0 st hpass] at hm
  obtain ⟨y, hy, _, hyI⟩ :=
    resumeLoad_keeps_group ops sm st.mesh.Grp.length st st1 grp hterm hstep hget n m hm
  refine ⟨y, hy, ?_, ?_⟩
  · intro hex
    refine ⟨hyI.trans (hflip hex), ?_⟩
    intro i p hp
    rw [hyI, hflip hex]
    have hp2 : (tris.map flipTri)[i]? = some (flipTri p) := by
      rw [List.getElem?_map, hp]; rfl
    exact triIndices_get (tris.map flipTri) i (flipTri p) hp2
  · intro hn
    refine ⟨hyI.trans (hplain hn), ?_⟩
    intro i p hp
    rw [hyI, hplain hn]
    exact triIndices_get tris i p hp

/-- Witness of C17: pass 0 of the load of `exampleFlipTwo`, whose block holds `FLIP` and
the triangle lines `0 1 2` and `2 1 3`; the loaded indices are `0 2 1 2 3 1`. -/
theorem load_flip_swaps_witness :
    load exampleOps (IStream.ofString exampleFlipTwo) (Mesh.new Int)
      = resumeLoad exampleOps false (0 + (0 + 1)) 0 exampleFlipTwoState ∧
    (load exampleOps (IStream.ofString exampleFlipTwo) (Mesh.new Int)).map
      (fun m => m.Grp.map (fun g => g.Idx)) = some [[0, 2, 1, 2, 3, 1]] ∧
    (∃ l ∈ ["FLIP".toList], strnicmpEq l "FLIP" 4 = true) ∧
    ((∃ (st1 : LoopState Int) (grp : GroupSpec Int),
      groupStep exampleOps false 0 exampleFlipTwoState = some st1 ∧
      st1.mesh.Grp[0]? = some grp ∧
      ((∃ l ∈ ["FLIP".toList], strnicmpEq l "FLIP" 4 = true) →
        grp.Idx = triIndices ([(0, 1, 2), (2, 1, 3)].map flipTri)) ∧
      ((∀ l ∈ ["FLIP".toList], NotFlip l) → grp.Idx = triIndices [(0, 1, 2), (2, 1, 3)])) ∧
    (∀ (n : Nat) (m : Mesh Int),
      resumeLoad exampleOps false (0 + (n + 1)) 0 exampleFlipTwoState = some m →
      ∃ grp, m.Grp[0]? = some grp ∧
        ((∃ l ∈ ["FLIP".toList], strnicmpEq l "FLIP" 4 = true) →
          grp.Idx = triIndices ([(0, 1, 2), (2, 1, 3)].map flipTri) ∧
          ∀ (i : Nat) (p : Nat × Nat × Nat), [(0, 1, 2), (2, 1, 3)][i]? = some p →
            grp.Idx[3 * i]? = some p.1 ∧ grp.Idx[3 * i + 1]? = some p.2.2 ∧
            grp.Idx[3 * i + 2]? = some p.2.1) ∧
        ((∀ l ∈ ["FLIP".toList], NotFlip l) →
          grp.Idx = triIndices [(0, 1, 2), (2, 1, 3)] ∧
          ∀ (i : Nat) (p : Nat × Nat × Nat), [(0, 1, 2), (2, 1, 3)][i]? = some p →
            grp.Idx[3 * i]? = some p.1 ∧ grp.Idx[3 * i + 1]? = some p.2.1 ∧
            grp.Idx[3 * i + 2]? = some p.2.2))) :=
  ⟨by decide, by decide, ⟨"FLIP".toList, by simp, by decide⟩,
   load_flip_swaps exampleOps false exampleFlipTwoState exampleFlipTwoState 0
     ["FLIP".toList] "GEOM 4 2".toList 4 2
     ["0 0 0 0 0 1 0 0".toList, "1 0 0 0 0 1 1 0".toList, "0 1 0 0 0 1 0 1".toList,
      "1 1 0 0 0 1 1 1".toList]
     ["0 1 2".toList, "2 1 3".toList] [] [(0, 1, 2), (2, 1, 3)] rfl rfl rfl (by decide)
     (by decide) (by unfold IsDirective; decide)
     (by unfold IsGeomLine; decide) (by decide) (by decide) (by decide) (by decide) rfl rfl
     (List.Forall₂.cons (by unfold IsTriangleLine; decide)
       (List.Forall₂.cons (by unfold IsTriangleLine; decide) List.Forall₂.nil))
     (by decide)⟩

set_option maxRecDepth 100000 in
/-- C14 (counterexample): the block `GEOM 1 1` of `exampleLongComment` declares one
vertex and one triangle and both lines are present; the triangle line is longer than
255 characters, `getline` fails on it, and the block contributes no group. -/
theorem load_drops_block_with_long_line :
    IsGeomLine "GEOM 1 1".toList 1 1 ∧
    IsTriangleLine ("0 0 0 ;".toList ++ List.replicate 300 'x') (0, 0, 0) ∧
    (load exampleOps (IStream.ofChars exampleLongComment) (Mesh.new Int)).map
      (fun m => m.nGroup) = some 0 := by
  unfold IsGeomLine IsTriangleLine
  decide

/-- C14 (amended): the first `k` passes of the group loop of a load lead to a state with
`k` groups in the mesh (the label array has an entry `k`), and the stream then delivers
the directive lines `dirs` of the next block.
(1) A complete block (a `GEOM` line with the counts `0 < v ≤ 65536`, `0 < t`,
`3 t < 2^31`, then `v` vertex lines and `t` triangle lines that `getline` delivers, each
triangle line with three integers below `v`) adds exactly one group, behind the `k`
groups loaded before, which stay as they are; it is group `k` of every mesh the load
produces.
(2) A block whose `GEOM` line declares a zero vertex count or a zero triangle count,
with the declared lines present, adds no group.
(3) A block on whose `GEOM` line no count converts adds no group.
(4) When the input ends in front of the `GEOM` line, no group is added and the loop
is left.
(5) When the input ends within the triangle lines of a block without `FLIP`, no
group is added. -/
theorem load_block_contribution {F : Type} (ops : FloatOps F) (sm : Bool)
    (st0 st : LoopState F) (k : Nat) (dirs : List (List Char))
    (hpass : groupLoop ops sm k 0 st0 = some st) (hcount : st.mesh.Grp.length = k)
    (hterm : st.term = false) (hlab : k < st.mesh.Labels.length)
    (hdirs : ∀ l ∈ dirs, IsDirective l) :
    (∀ (geom : List Char) (v t : Nat) (vlines tlines rest : List (List Char))
      (tris : List (Nat × Nat × Nat)),
      st.stream.lines = dirs ++ geom :: (vlines ++ tlines ++ rest) → IsGeomLine geom v t →
      0 < v → v ≤ 65536 → 0 < t → 3 * t < 2147483648 →
      vlines.length = v → tlines.length = t → List.Forall₂ IsTriangleLine tlines tris →
      (∀ p ∈ tris, p.1 < v ∧ p.2.1 < v ∧ p.2.2 < v) →
      (∃ (st1 : LoopState F) (grp : GroupSpec F), groupStep ops sm k st = some st1 ∧
        st1.mesh.Grp.length = k + 1 ∧
        (∀ i, i < k → st1.mesh.Grp[i]? = st.mesh.Grp[i]?) ∧
        st1.mesh.Grp[k]? = some grp ∧ grp.Vtx.length = v ∧ grp.Idx.length = 3 * t ∧
        st1.term = false ∧ st1.stream = ⟨rest, st.stream.residue⟩) ∧
      (∀ (n : Nat) (m : Mesh F), resumeLoad ops sm (k + (n + 1)) 0 st0 = some m →
        ∃ grp, m.Grp[k]? = some grp ∧ grp.Vtx.length = v ∧ grp.Idx.length = 3 * t)) ∧
    (∀ (geom : List Char) (v t : Nat) (vlines tlines rest : List (List Char)),
      st.stream.lines = dirs ++ geom :: (vlines ++ tlines ++ rest) → IsGeomLine geom v t →
      v = 0 ∨ t = 0 → v < 2147483648 → 3 * t < 2147483648 →
      vlines.length = v → tlines.length = t →
      ∃ st1 : LoopState F, groupStep ops sm k st = some st1 ∧ st1.mesh.Grp = st.mesh.Grp ∧
        st1.term = false ∧ st1.stream = ⟨rest, st.stream.residue⟩) ∧
    (∀ (geom : List Char) (rest : List (List Char)),
      st.stream.lines = dirs ++ geom :: rest → strnicmpEq geom "GEOM" 4 = true →
      scanDecs 2 (geom.drop 4) = [] →
      ∃ st1 : LoopState F, groupStep ops sm k st = some st1 ∧ st1.mesh.Grp = st.mesh.Grp ∧
        st1.term = false ∧ st1.stream = ⟨rest, st.stream.residue⟩) ∧
    (st.stream.lines = dirs →
      ∃ st1 : LoopState F, groupStep ops sm k st = some st1 ∧ st1.mesh.Grp = st.mesh.Grp ∧
        st1.term = true) ∧
    (∀ (geom : List Char) (v t : Nat) (vlines tl : List (List Char)),
      st.stream.lines = dirs ++ geom :: (vlines ++ tl) → IsGeomLine geom v t →
      v < 2147483648 → 3 * t < 2147483648 → vlines.length = v → tl.length < t →
      (∀ l ∈ dirs, NotFlip l) →
      ∃ st1 : LoopState F, groupStep ops sm k st = some st1 ∧ st1.mesh.Grp = st.mesh.Grp ∧
        st1.stream = IStream.failed) := by
  refine ⟨?_, ?_, ?_, ?_, ?_⟩
  · intro geom v t vlines tlines rest tris hlines hgeom hv hv16 ht ht31 hvl htl htris hrange
    subst hcount
    obtain ⟨st1, grp, flip, hstep, hlen, hget, hV, hI, _, hT, hS⟩ :=
      groupStep_complete ops sm st dirs geom v t vlines tlines rest tris hlab hlines hdirs
        hgeom hv hv16 ht ht31 hvl htl htris hrange
    have hlenI : grp.Idx.length = 3 * t := by
      rw [hI]
      cases flip with
      | false =>
        simp only [Bool.false_eq_true, if_false]
        rw [triIndices_length, ← htris.length_eq, htl]
      | true =>
        simp only [if_true]
        rw [triIndices_length, List.length_map, ← htris.length_eq, htl]
    refine ⟨⟨st1, grp, hstep, hlen, ?_, hget, hV, hlenI, hT, hS⟩, ?_⟩
    · intro i hi
      have hx : st.mesh.Grp[i]? = some st.mesh.Grp[i] := List.getElem?_eq_getElem hi
      rw [hx]
      exact groupStep_frame ops sm _ st st1 hstep i _ (by omega) hx
    · intro n m hm
      rw [resumeLoad_split ops sm st.mesh.Grp.length (n + 1) st0 st hpass] at hm
      obtain ⟨y, hy, hyV, hyI⟩ :=
        resumeLoad_keeps_group ops sm st.mesh.Grp.length st st1 grp hterm hstep hget n m hm
      exact ⟨y, hy, by rw [hyV]; exact hV, by rw [hyI]; exact hlenI⟩
  · intro geom v t vlines tlines rest hlines hgeom hzero hv ht hvl htl
    exact groupStep_zero_count ops sm k st dirs geom v t vlines tlines rest hlab hlines hdirs
      hgeom hzero hv ht hvl htl
  · intro geom rest hlines hgeom hnone
    exact groupStep_no_count ops sm k st dirs geom rest hlab hlines hdirs hgeom hnone
  · intro hlines
    exact groupStep_no_geom ops sm k st dirs hlab hlines hdirs
  · intro geom v t vlines tl hlines hgeom hv ht hvl htl hnf
    exact groupStep_truncated ops sm k st dirs geom v t vlines tl hlab hlines hdirs hgeom hv ht
      hvl htl hnf

/-- Witness of C14 (amended): `exampleZeroCount` declares three groups; its complete
block is loaded, its block with the counts `3 0` adds no group, and the third pass
finds the end of the input. `exampleTruncated` ends within its triangle lines and
loads no group. The statement is applied to pass 0 of the load of `exampleTriangle`. -/
theorem load_block_contribution_witness :
    (load exampleOps (IStream.ofString exampleZeroCount) (Mesh.new Int)).map
      (fun m => m.Grp.map (fun g => (g.Vtx.length, g.Idx))) = some [(3, [0, 1, 2])] ∧
    (load exampleOps (IStream.ofString exampleTruncated) (Mesh.new Int)).map
      (fun m => m.nGroup) = some 0 ∧
    load exampleOps (IStream.ofString exampleTriangle) (Mesh.new Int)
      = resumeLoad exampleOps false (0 + (0 + 1)) 0 exampleTriangleState ∧
    (∃ (st1 : LoopState Int) (grp : GroupSpec Int),
      groupStep exampleOps false 0 exampleTriangleState = some st1 ∧
      st1.mesh.Grp.length = 0 + 1 ∧
      (∀ i, i < 0 → st1.mesh.Grp[i]? = exampleTriangleState.mesh.Grp[i]?) ∧
      st1.mesh.Grp[0]? = some grp ∧ grp.Vtx.length = 3 ∧ grp.Idx.length = 3 * 1 ∧
      st1.term = false ∧ st1.stream = ⟨[], exampleTriangleState.stream.residue⟩) ∧
    (∀ (n : Nat) (m : Mesh Int),
      resumeLoad exampleOps false (0 + (n + 1)) 0 exampleTriangleState = some m →
      ∃ grp, m.Grp[0]? = some grp ∧ grp.Vtx.length = 3 ∧ grp.Idx.length = 3 * 1) :=
  ⟨by decide, by decide, by decide,
   (load_block_contribution exampleOps false exampleTriangleState exampleTriangleState 0
     ["LABEL tri".toList] rfl rfl rfl (by decide) (by unfold IsDirective; decide)).1
     "GEOM 3 1".toList 3 1
     ["0 0 0 0 0 1 0 0".toList, "1 0 0 0 0 1 1 0".toList, "0 1 0 0 0 1 0 1".toList]
     ["0 1 2".toList] [] [(0, 1, 2)] rfl
     (by unfold IsGeomLine; decide) (by decide) (by decide) (by decide) (by decide) rfl rfl
     (List.Forall₂.cons (by unfold IsTriangleLine; decide) List.Forall₂.nil) (by decide)⟩

/-- C18 (counterexample): for `res = 26755` (with `nlng = nlat = 1`, `ilat = 0`) the
index count `3 * res * res` does not fit the `int` variable `nIdx`: the value computed
for `new WORD[nIdx]` is negative and `CreateSpherePatch` yields no group. -/
theorem CreateSpherePatch_index_count_overflow :
    (1 : Int) ≤ 26755 ∧ toInt32 (26755 * 26755 * 3) = -2147477221 ∧
    CreateSpherePatch examplePatchOps (Mesh.new Int) 1 1 (1 - 1) 26755 (-1) true true = none :=
  ⟨by decide, by decide,
   CreateSpherePatch_negative_count examplePatchOps (Mesh.new Int) 1 1 (1 - 1) 26755 (-1) true
     true 26755 (by decide) (by decide)⟩

/-- C18 (amended): for every `nlat ≥ 1` and every `res` with `3 * res * res < 2^31`, with
`ilat = nlat - 1` and `reduce = true`, whatever `nlng`, `bseg` and `outside` are:
the node loop writes exactly the `(res+1)(res+2)/2` cells the vertex buffer is sized
for, ring by ring, ring `i` holding the `res - i + 1` vertices of the positions `0` to
`res - i`; the face loop writes exactly the `3 * res * res` cells the index buffer is
sized for; and `CreateSpherePatch` yields a mesh with one group that has these
vertices and `3 * res * res` indices (`res * res` triangles). -/
theorem CreateSpherePatch_reduced_counts {F : Type} (ops : PatchOps F) (mesh : Mesh F)
    (nlng nlat bseg : Int) (res : Nat) (outside : Bool)
    (hlat : 1 ≤ nlat) (hlat31 : nlat < 2147483648) (hres31 : 3 * res * res < 2147483648) :
    patchNodes ops nlng nlat (nlat - 1) res res true outside (res + 1) 0 0
        (List.replicate ((res + 1) * (res + 2) / 2) none)
      = some ((nodeList ops nlng nlat (nlat - 1) res res true outside (res + 1) 0).map some,
              (res + 1) * (res + 2) / 2) ∧
    nodeList ops nlng nlat (nlat - 1) res res true outside (res + 1) 0
      = (List.range (res + 1)).flatMap (fun i => (List.range (res - i + 1)).map
          (fun j => patchVertex ops nlng nlat (nlat - 1) res outside i j ((res - i : Nat) : Int))) ∧
    patchFaces res true res 0 0 0 (List.replicate (3 * res * res) none)
      = some ((faceList res true res 0 0).map some, 3 * res * res) ∧
    ∃ (m : Mesh F) (grp : GroupSpec F),
      CreateSpherePatch ops mesh nlng nlat (nlat - 1) res bseg true outside = some m ∧
      m.Grp = [grp] ∧
      grp.Vtx = nodeList ops nlng nlat (nlat - 1) res res true outside (res + 1) 0 ∧
      grp.Vtx.length = (res + 1) * (res + 2) / 2 ∧ grp.Idx.length = 3 * res * res := by
  have hR : res < 2147483648 := by nlinarith
  have hne : (res : Int) ≠ 2147483647 := by
    intro e
    have e1 : res = 2147483647 := by omega
    subst e1
    omega
  have hvl2 := nodeList_reduced_length ops nlng nlat (nlat - 1) res outside res hR (res + 1) 0
    (by omega)
  have hvl : (nodeList ops nlng nlat (nlat - 1) res res true outside (res + 1) 0).length
      = (res + 1) * (res + 2) / 2 := by
    have e5 : (res + 1) * (res + 2) = (res + 1) * (res + 1 + 1) := rfl
    rw [e5, ← hvl2]
    simp
  have hil := faceList_reduced_length res hR res 0 0 (by omega)
  have hb := reduced_bseg nlat bseg res hlat hlat31 hR
  have hnv : (if true then
        toInt32 (toInt32 (toInt32 ((res : Int) + 1) * toInt32 ((res : Int) + 1))
          - Int.tdiv (toInt32 (toInt32 ((res : Int) + 1) * (res : Int))) 2)
      else toInt32 (toInt32 ((res : Int) + 1) * toInt32 ((res : Int) + 1)))
      = (((res + 1) * (res + 2) / 2 : Nat) : Int) := by
    rw [if_pos rfl]
    exact reduced_vertex_count res (square_bound res hres31)
  have hni : toInt32 ((if true then toInt32 ((res : Int) * toInt32 (toInt32 (2 * (res : Int)) - (res : Int)))
        else toInt32 (toInt32 (2 * (res : Int)) * (res : Int))) * 3)
      = ((3 * res * res : Nat) : Int) := by
    rw [if_pos rfl]
    exact reduced_index_count res hres31
  have hto1 : ((res : Int) + 1).toNat = res + 1 := by omega
  obtain ⟨hn, hf, idx, hidx, _, hc⟩ := CreateSpherePatch_filled ops mesh nlng nlat (nlat - 1)
    (res : Int) bseg true outside (res : Int) ((res + 1) * (res + 2) / 2) (3 * res * res)
    hb hnv hni hne hne (by rw [hto1]; exact hvl)
    (by rw [Int.toNat_ofNat]; exact hil)
  rw [hto1] at hn hc
  rw [Int.toNat_ofNat] at hf
  refine ⟨hn, ?_, hf, _,
    ⟨nodeList ops nlng nlat (nlat - 1) res res true outside (res + 1) 0, idx, SPEC_INHERIT,
      SPEC_INHERIT, 0, 0, 0⟩, hc, ?_, rfl, hvl, hidx⟩
  · have h := nodeList_reduced_rings ops nlng nlat (nlat - 1) res outside res hR (res + 1) 0
      (by omega)
    simp only [Nat.zero_add] at h
    exact h
  · simp [Mesh.Setup, Mesh.AddGroup, Mesh.Clear, setupRefs, checkIdx]

/-- Witness of C18 (amended): `nlat = 1`, `ilat = 0`, `res = 2`, on the integer
operations of the examples: 6 vertices in rings of 3, 2 and 1, and 12 indices. -/
theorem CreateSpherePatch_reduced_counts_witness :
    (CreateSpherePatch examplePatchOps (Mesh.new Int) 1 1 (1 - 1) (2 : Nat) (-1) true true).map
        (fun m => m.Grp.map (fun g => (g.Vtx.map (fun v => (v.x, v.y)), g.Idx)))
      = some [([(0, 0), (0, 1), (0, 2), (1, 0), (1, 1), (2, 0)],
               [0, 3, 1, 1, 3, 4, 1, 4, 2, 3, 5, 4])] ∧
    ∃ (m : Mesh Int) (grp : GroupSpec Int),
      CreateSpherePatch examplePatchOps (Mesh.new Int) 1 1 (1 - 1) (2 : Nat) (-1) true true
        = some m ∧
      m.Grp = [grp] ∧
      grp.Vtx = nodeList examplePatchOps 1 1 (1 - 1) (2 : Nat) (2 : Nat) true true (2 + 1) 0 ∧
      grp.Vtx.length = (2 + 1) * (2 + 2) / 2 ∧ grp.Idx.length = 3 * 2 * 2 :=
  ⟨by decide,
   (CreateSpherePatch_reduced_counts examplePatchOps (Mesh.new Int) 1 1 (-1) 2 true
     (by norm_num) (by norm_num) (by norm_num)).2.2.2⟩

/-- C19 (the code at the failing input): the patch with `nlat = 1`, `ilat = 0`,
`res = 2` has the triangles `(0,3,1)`, `(1,3,4)`, `(1,4,2)`, `(3,5,4)` for
`outside = true`. For `outside = false` the loop `for (i = 0; i < nIdx/3; i += 3)` runs
for `i = 0` and `i = 3` only (`nIdx/3 = 4`): the first two triangles become `(0,1,3)` and
`(1,4,3)`, the last two keep their winding. Without reduction (`nlat = 2`) 6 of the 16
triangles are reversed. -/
theorem CreateSpherePatch_winding_partial :
    (CreateSpherePatch examplePatchOps (Mesh.new Int) 1 1 0 2 (-1) true true).map
        (fun m => m.Grp.map (fun g => g.Idx))
      = some [[0, 3, 1, 1, 3, 4, 1, 4, 2, 3, 5, 4]] ∧
    (CreateSpherePatch examplePatchOps (Mesh.new Int) 1 1 0 2 (-1) true false).map
        (fun m => m.Grp.map (fun g => g.Idx))
      = some [[0, 1, 3, 1, 4, 3, 1, 4, 2, 3, 5, 4]] ∧
    (CreateSpherePatch examplePatchOps (Mesh.new Int) 4 2 0 2 (-1) false true).map
        (fun m => m.Grp.map (fun g => g.Idx))
      = some [[0, 5, 1, 1, 5, 6, 1, 6, 2, 2, 6, 7, 2, 7, 3, 3, 7, 8, 3, 8, 4, 4, 8, 9,
               5, 10, 6, 6, 10, 11, 6, 11, 7, 7, 11, 12, 7, 12, 8, 8, 12, 13, 8, 13, 9,
               9, 13, 14]] ∧
    (CreateSpherePatch examplePatchOps (Mesh.new Int) 4 2 0 2 (-1) false false).map
        (fun m => m.Grp.map (fun g => g.Idx))
      = some [[0, 1, 5, 1, 6, 5, 1, 2, 6, 2, 7, 6, 2, 3, 7, 3, 8, 7, 3, 8, 4, 4, 8, 9,
               5, 10, 6, 6, 10, 11, 6, 11, 7, 7, 11, 12, 7, 12, 8, 8, 12, 13, 8, 13, 9,
               9, 13, 14]] := by
  decide

/-- C20: `CalcNormals (grp, true)` on a group `g` of the mesh runs through when every
index of the group lies inside its vertex buffer. Whenever it runs through, the group
keeps its index list and its vertex count, every vertex keeps its position and its
texture coordinates, a vertex whose normal passes the test `nx*nx + ny*ny + nz*nz > 0.1f`
is unchanged as a whole, and no other group changes. The normal of every other vertex is
computed anew: it becomes the angle-weighted sum of the unit face normals of the triangles
at that vertex, divided by its length (`synthesisedNormal`), and the result is the same
for every vertex list that differs from the given one only in the normals of such
vertices. -/
theorem CalcNormals_missing_only {F : Type} (ops : FloatOps F) (m : Mesh F) (grp : Nat)
    (g : GroupSpec F) (hg : m.Grp[grp]? = some g) :
    ((∀ i ∈ g.Idx, i < g.Vtx.length) → ∃ m1, m.CalcNormals ops grp true = some m1) ∧
    (∀ m1 : Mesh F, m.CalcNormals ops grp true = some m1 →
      (∀ i, i ≠ grp → m1.Grp[i]? = m.Grp[i]?) ∧
      ∃ g1, m1.Grp[grp]? = some g1 ∧ g1.Idx = g.Idx ∧ g1.Vtx.length = g.Vtx.length ∧
        ∀ (k : Nat) (v : NTVERTEX F), g.Vtx[k]? = some v →
          ∃ v1, g1.Vtx[k]? = some v1 ∧
            v1.x = v.x ∧ v1.y = v.y ∧ v1.z = v.z ∧ v1.tu = v.tu ∧ v1.tv = v.tv ∧
            (hasNormal ops v = true → v1 = v) ∧
            (hasNormal ops v = false →
              v1 = withNormal v (synthesisedNormal ops g.Vtx g.Idx k))) ∧
    (∀ vtx : List (NTVERTEX F), vtx.length = g.Vtx.length →
      (∀ (k : Nat) (v v1 : NTVERTEX F), g.Vtx[k]? = some v → vtx[k]? = some v1 →
        hasNormal ops v1 = hasNormal ops v ∧ (hasNormal ops v = true → v1 = v) ∧
        v1.x = v.x ∧ v1.y = v.y ∧ v1.z = v.z ∧ v1.tu = v.tu ∧ v1.tv = v.tv) →
      Mesh.CalcNormals ops { m with Grp := m.Grp.set grp { g with Vtx := vtx } } grp true
        = m.CalcNormals ops grp true) := by
  have hflag : ∀ v : NTVERTEX F, flagVertex ops true v = !hasNormal ops v := fun _ => rfl
  have hlt : grp < m.Grp.length := (List.getElem?_eq_some.mp hg).1
  refine ⟨?_, ?_, ?_⟩
  · intro hi
    obtain ⟨g1, e, _, _⟩ := calcNormalsGroup_defined ops g true hi
    refine ⟨{ m with Grp := m.Grp.set grp g1 }, ?_⟩
    simp only [Mesh.CalcNormals, hg, e, Option.map_some']
  · intro m1 h
    refine ⟨fun i hi => calcNormals_frame ops m m1 grp true h i hi, ?_⟩
    unfold Mesh.CalcNormals at h
    simp only [hg] at h
    cases hc : calcNormalsGroup ops g true with
    | none => simp [hc] at h
    | some g1 =>
      simp only [hc, Option.map_some', Option.some.injEq] at h
      obtain ⟨hl, hf⟩ := calcNormalsGroup_frame ops g g1 true hc
      refine ⟨g1, ?_, (calcNormalsGroup_fields ops g g1 true hc).1, hl, ?_⟩
      · rw [← h]
        exact List.getElem?_set_self hlt
      · intro k v hv
        have hk : k < g1.Vtx.length := by rw [hl]; exact (List.getElem?_eq_some.mp hv).1
        obtain ⟨a1, a2, a3, a4, a5, a6⟩ := hf k v g1.Vtx[k] hv (List.getElem?_eq_getElem hk)
        refine ⟨g1.Vtx[k], List.getElem?_eq_getElem hk, a1, a2, a3, a4, a5, ?_, ?_⟩
        · intro hn
          apply a6
          rw [List.getElem?_map, hv]
          simp only [Option.map_some', Option.some.injEq]
          rw [hflag, hn]
          rfl
        · intro hn
          have hs := calcNormalsGroup_synthesised ops g g1 true hc k v hv (by rw [hflag, hn]; rfl)
          rw [List.getElem?_eq_getElem hk] at hs
          exact Option.some.inj hs
  · intro vtx hl hv
    have hrec := calcNormalsGroup_recomputes ops g true vtx hl (by
      intro k v v1 h1 h2
      obtain ⟨a, b, c1, c2, c3, c4, c5⟩ := hv k v v1 h1 h2
      refine ⟨by rw [hflag, hflag, a], ?_, ?_⟩
      · intro _
        cases v
        cases v1
        simp only [clearNormal] at *
        simp only [c1, c2, c3, c4, c5]
      · intro hf
        apply b
        rw [hflag] at hf
        cases hh : hasNormal ops v with
        | true => rfl
        | false => rw [hh] at hf; cases hf)
    unfold Mesh.CalcNormals
    simp only [List.getElem?_set_self hlt, hg, hrec, List.set_set]

/-- Witness of C20: the triangle of `exampleNormalsMesh` on exact rational arithmetic. The
second vertex, with the normal `(1, 1, 1)` of squared length 3, passes the test and is
unchanged; the first vertex, with the normal `(1/10, 1/10, 1/10)` of squared length
`3/100`, and the third one, with the normal `(0, 0, 0)`, get the normal `(0, 0, 1)` of the
face. -/
theorem CalcNormals_missing_only_witness :
    exampleNormalsMesh.Grp[0]?
      = some ⟨[⟨0, 0, 0, 1 / 10, 1 / 10, 1 / 10, 0, 0⟩, ⟨1, 0, 0, 1, 1, 1, 1, 0⟩,
               ⟨0, 1, 0, 0, 0, 0, 0, 1⟩], [0, 1, 2], SPEC_INHERIT, SPEC_INHERIT, 0, 0, 0⟩
    ∧ hasNormal exampleRatOps ⟨0, 0, 0, 1 / 10, 1 / 10, 1 / 10, 0, 0⟩ = false
    ∧ hasNormal exampleRatOps ⟨1, 0, 0, 1, 1, 1, 1, 0⟩ = true
    ∧ hasNormal exampleRatOps ⟨0, 1, 0, 0, 0, 0, 0, 1⟩ = false
    ∧ exampleNormalsMesh.CalcNormals exampleRatOps 0 true
      = some { exampleNormalsMesh with
          Grp := [⟨[⟨0, 0, 0, 0, 0, 1, 0, 0⟩, ⟨1, 0, 0, 1, 1, 1, 1, 0⟩,
                    ⟨0, 1, 0, 0, 0, 1, 0, 1⟩], [0, 1, 2], SPEC_INHERIT, SPEC_INHERIT, 0, 0, 0⟩] }
    ∧ synthesisedNormal exampleRatOps
          [⟨0, 0, 0, 1 / 10, 1 / 10, 1 / 10, 0, 0⟩, ⟨1, 0, 0, 1, 1, 1, 1, 0⟩,
           ⟨0, 1, 0, 0, 0, 0, 0, 1⟩] [0, 1, 2] 0 = ⟨0, 0, 1⟩ := by
  have hres : exampleNormalsMesh.CalcNormals exampleRatOps 0 true
      = some { exampleNormalsMesh with
          Grp := [⟨[⟨0, 0, 0, 0, 0, 1, 0, 0⟩, ⟨1, 0, 0, 1, 1, 1, 1, 0⟩,
                    ⟨0, 1, 0, 0, 0, 1, 0, 1⟩], [0, 1, 2], SPEC_INHERIT, SPEC_INHERIT, 0, 0, 0⟩] } := by
    simp [Mesh.CalcNormals, exampleNormalsMesh, calcNormalsGroup, triLoop, triNormal, flagVertex,
      clearNormal, accumNormal, normaliseVertex, D3DMath_Length, D3DMath_CrossProduct,
      cornerAngle, exampleRatOps]
    norm_num
    simp [normaliseVertex, D3DMath_Length]
  have h0 : hasNormal exampleRatOps ⟨0, 0, 0, 1 / 10, 1 / 10, 1 / 10, 0, 0⟩ = false := by
    simp [hasNormal, exampleRatOps]
    norm_num
  refine ⟨rfl, h0, by simp [hasNormal, exampleRatOps]; norm_num,
    by simp [hasNormal, exampleRatOps], hres, ?_⟩
  obtain ⟨_, g1, hg1, _, _, hv⟩ := (CalcNormals_missing_only exampleRatOps exampleNormalsMesh 0
    ⟨[⟨0, 0, 0, 1 / 10, 1 / 10, 1 / 10, 0, 0⟩, ⟨1, 0, 0, 1, 1, 1, 1, 0⟩,
      ⟨0, 1, 0, 0, 0, 0, 0, 1⟩], [0, 1, 2], SPEC_INHERIT, SPEC_INHERIT, 0, 0, 0⟩ rfl).2.1 _ hres
  obtain ⟨v1, hv1, _, _, _, _, _, _, hsyn⟩ := hv 0 _ rfl
  have e := hsyn h0
  simp only [List.getElem?_cons_zero, Option.some.injEq] at hg1
  rw [← hg1] at hv1
  simp only [List.getElem?_cons_zero, Option.some.injEq] at hv1
  rw [← hv1] at e
  have key : ∀ s : D3DVECTOR ℚ, s.x = 0 → s.y = 0 → s.z = 1 → s = ⟨0, 0, 1⟩ := by
    intro s a b c
    cases s
    simp only at a b c
    rw [a, b, c]
  exact key _ (congrArg NTVERTEX.nx e).symm (congrArg NTVERTEX.ny e).symm
    (congrArg NTVERTEX.nz e).symm

/-- C26: for every mesh A and every other mesh B, after `A.AddMesh (B)` the group count of
A is its old count plus the group count of B, the old groups of A are unchanged, the
i-th appended group has the vertex list and the index list of group i of B, the material
and texture counts of A are unchanged, and B is unchanged. -/
theorem AddMesh_appends_groups {F : Type} (A B : Mesh F) :
    (A.AddMesh B).1.nGroup = A.nGroup + B.nGroup
    ∧ (A.AddMesh B).1.Grp.take A.nGroup = A.Grp
    ∧ (∀ i, i < A.nGroup → (A.AddMesh B).1.Grp[i]? = A.Grp[i]?)
    ∧ (∀ (i : Nat) (gb : GroupSpec F), B.Grp[i]? = some gb →
        ∃ ga, (A.AddMesh B).1.Grp[A.nGroup + i]? = some ga
          ∧ ga.Vtx = gb.Vtx ∧ ga.Idx = gb.Idx)
    ∧ (A.AddMesh B).1.nMaterial = A.nMaterial
    ∧ (A.AddMesh B).1.Mtrl = A.Mtrl
    ∧ (A.AddMesh B).1.nTexture = A.nTexture
    ∧ (A.AddMesh B).2 = B := by
  unfold Mesh.AddMesh
  rw [AddMesh_fold]
  refine ⟨?_, ?_, ?_, ?_, rfl, rfl, rfl, rfl⟩
  · simp [Mesh.nGroup]
  · simp [Mesh.nGroup]
  · intro i hi
    simp only [Mesh.nGroup] at hi
    simp [List.getElem?_append_left hi]
  · intro i gb hgb
    simp only [Mesh.nGroup]
    rw [List.getElem?_append_right (Nat.le_add_right _ _), Nat.add_sub_cancel_left,
      List.getElem?_map, hgb]
    refine ⟨_, rfl, ?_, ?_⟩
    · simp only []
      split
      · exact (setupRefs_buffers _ _ _).1
      · rfl
    · simp only []
      split
      · exact (setupRefs_buffers _ _ _).2
      · rfl

/-- C27: `AddGroupBlock (grp, vtx, nvtx, idx, nidx)` returns false and changes nothing when
`grp` is not below the group count; otherwise it returns true, only group `grp` changes,
its vertex list becomes the old vertices followed by `vtx` and its index list the old
indices followed by `idx[j]` plus the old vertex count modulo 2^16 for each j; when the
old vertex count plus `nvtx` is at most 65536 and every `idx[j]` is below `nvtx`, the
appended index j is the position of the appended copy of vertex `idx[j]`. -/
theorem AddGroupBlock_appends {F : Type} (m : Mesh F) (grp : Nat) (vtx : List (NTVERTEX F))
    (idx : List Nat) :
    (m.nGroup ≤ grp → m.AddGroupBlock grp vtx idx = (m, false))
    ∧ (∀ g : GroupSpec F, m.Grp[grp]? = some g →
        ∃ g1 : GroupSpec F,
          m.AddGroupBlock grp vtx idx = ({ m with Grp := m.Grp.set grp g1 }, true)
          ∧ g1.Vtx = g.Vtx ++ vtx
          ∧ g1.Idx = g.Idx ++ idx.map (fun x => (x + g.Vtx.length) % 65536)
          ∧ g1.MtrlIdx = g.MtrlIdx ∧ g1.TexIdx = g.TexIdx ∧ g1.UsrFlag = g.UsrFlag
          ∧ g1.zBias = g.zBias ∧ g1.Flags = g.Flags
          ∧ (g.Vtx.length + vtx.length ≤ 65536 → (∀ x ∈ idx, x < vtx.length) →
              ∀ (j x : Nat), idx[j]? = some x →
                g1.Idx[g.Idx.length + j]? = some (g.Vtx.length + x)
                ∧ g1.Vtx[g.Vtx.length + x]? = vtx[x]?
                ∧ x < vtx.length)) := by
  constructor
  · intro h
    unfold Mesh.AddGroupBlock
    rw [if_pos (show grp ≥ m.Grp.length from h)]
  · intro g hg
    refine ⟨⟨g.Vtx ++ vtx, g.Idx ++ idx.map (fun x => (x + g.Vtx.length) % 65536),
        g.MtrlIdx, g.TexIdx, g.UsrFlag, g.zBias, g.Flags⟩,
      AddGroupBlock_eq m grp vtx idx g hg, rfl, rfl, rfl, rfl, rfl, rfl, rfl, ?_⟩
    intro hsz hidx j x hj
    have hx : x < vtx.length := hidx x (List.getElem?_mem hj)
    refine ⟨?_, ?_, hx⟩
    · show (g.Idx ++ idx.map (fun x => (x + g.Vtx.length) % 65536))[g.Idx.length + j]? = _
      rw [List.getElem?_append_right (Nat.le_add_right _ _), Nat.add_sub_cancel_left,
        List.getElem?_map, hj]
      show some ((x + g.Vtx.length) % 65536) = _
      rw [Nat.mod_eq_of_lt (by omega), Nat.add_comm]
    · show (g.Vtx ++ vtx)[g.Vtx.length + x]? = _
      rw [List.getElem?_append_right (Nat.le_add_right _ _), Nat.add_sub_cancel_left]

/-- C27, instance: a block of three vertices and the triangle (0, 1, 2) appended to a group
of two vertices; the appended indices are 2, 3, 4. -/
theorem AddGroupBlock_appends_witness :
    exampleBlockMesh.Grp[0]? = some ⟨[⟨0, 0, 0, 0, 0, 1, 0, 0⟩, ⟨1, 0, 0, 0, 0, 1, 0, 0⟩], [], 0, 0, 0, 0, 0⟩
    ∧ (∃ g1 : GroupSpec Int,
        exampleBlockMesh.AddGroupBlock 0 exampleBlockVtx [0, 1, 2]
          = ({ exampleBlockMesh with Grp := exampleBlockMesh.Grp.set 0 g1 }, true)
        ∧ g1.Idx = [2, 3, 4]
        ∧ g1.Vtx.length = 5) := by
  refine ⟨rfl, ?_⟩
  rcases (AddGroupBlock_appends exampleBlockMesh 0 exampleBlockVtx [0, 1, 2]).2 _ rfl with
    ⟨g1, h1, hv, hi, _⟩
  exact ⟨g1, h1, by rw [hi]; rfl, by rw [hv]; rfl⟩

/-- C21 (the code at the failing input): the final loop of `CalcNormals` divides the normal
of every flagged vertex by its length without a test. For every choice of the float
operations, a flagged vertex that no triangle refers to ends with the components `0 /
|(0, 0, 0)|`; in exact rational arithmetic with guarded division that length is 0 and
the normal stays `(0, 0, 0)`, of squared length 0 and not 1, both for a vertex without a
triangle and for a vertex whose only triangle is degenerate. -/
theorem CalcNormals_divides_by_zero_length :
    (∀ (F : Type) (ops : FloatOps F) (v : NTVERTEX F) (mtrl tex usr zb fl : Nat),
        calcNormalsGroup ops ⟨[v], [], mtrl, tex, usr, zb, fl⟩ false
          = some ⟨[{ v with
              nx := ops.div ops.zero (D3DMath_Length ops ⟨ops.zero, ops.zero, ops.zero⟩),
              ny := ops.div ops.zero (D3DMath_Length ops ⟨ops.zero, ops.zero, ops.zero⟩),
              nz := ops.div ops.zero (D3DMath_Length ops ⟨ops.zero, ops.zero, ops.zero⟩) }],
            [], mtrl, tex, usr, zb, fl⟩)
    ∧ D3DMath_Length exampleRatOps ⟨0, 0, 0⟩ = 0
    ∧ calcNormalsGroup exampleRatOps exampleLoneVertex false = some exampleLoneVertex
    ∧ calcNormalsGroup exampleRatOps exampleLoneVertex true = some exampleLoneVertex
    ∧ calcNormalsGroup exampleRatOps exampleDegenerate false = some exampleDegenerate
    ∧ (∀ v ∈ exampleLoneVertex.Vtx, v.nx * v.nx + v.ny * v.ny + v.nz * v.nz = 0)
    ∧ (∀ v ∈ exampleDegenerate.Vtx, v.nx * v.nx + v.ny * v.ny + v.nz * v.nz = 0) := by
  refine ⟨fun F ops v mtrl tex usr zb fl =>
    calcNormalsGroup_lone ops v mtrl tex usr zb fl false rfl, ?_, ?_, ?_, ?_, ?_, ?_⟩
  · simp [D3DMath_Length, exampleRatOps]
  · simp [calcNormalsGroup, triLoop, normaliseVertex, clearNormal, flagVertex, exampleRatOps,
      exampleLoneVertex, D3DMath_Length]
  · simp [calcNormalsGroup, triLoop, normaliseVertex, clearNormal, flagVertex, exampleRatOps,
      exampleLoneVertex, D3DMath_Length]
  · simp [calcNormalsGroup, triLoop, triNormal, normaliseVertex, clearNormal, flagVertex,
      exampleRatOps, exampleDegenerate, D3DMath_Length, D3DMath_CrossProduct]
    norm_num
    simp [normaliseVertex, D3DMath_Length]
  · simp [exampleLoneVertex]
  · simp [exampleDegenerate]

/-- C22, counterexample: in exact real arithmetic (the operations of the field, the real
square root, the threshold `1e-8`) the equilateral triangle with the vertices
`(1/100000, 0, 0)`, `(0, 1/100000, 0)` and `(0, 0, 1/100000)` is not degenerate, but the
length `sqrt 3 / 10000000000` of its cross product is below the threshold and the triangle
is skipped: no face normal is added to a vertex, and with the guarded division of the
field (`0 / 0 = 0`) `CalcNormals` returns the three normals `(0, 0, 0)`. The same holds in
exact rational arithmetic for the right triangle `(0, 0, 0)`, `(1/100000, 0, 0)`,
`(0, 1/100000, 0)`, whose cross product is `(0, 0, 1/10000000000)` and whose face normal
is `(0, 0, 1)`. The outcome does not rest on the value of `0 / 0`: with any function `dv`
as the division the three components of each resulting normal are the same value
`dv 0 0`, which is not the face normal `(0, 0, 1)`. -/
theorem CalcNormals_tiny_triangle_skipped :
    (∃ ops : FloatOps ℝ, ExactOps ops ∧ ops.eps = 1 / 100000000
      ∧ (∀ a, ops.sqrt a = Real.sqrt a)
      ∧ faceCross (⟨1 / 100000, 0, 0, 0, 0, 0, 0, 0⟩ : NTVERTEX ℝ)
            ⟨0, 1 / 100000, 0, 0, 0, 0, 1, 0⟩ ⟨0, 0, 1 / 100000, 0, 0, 0, 0, 1⟩
          = ⟨1 / 10000000000, 1 / 10000000000, 1 / 10000000000⟩
      ∧ ∀ mo : Bool,
          calcNormalsGroup ops
              ⟨[⟨1 / 100000, 0, 0, 0, 0, 0, 0, 0⟩, ⟨0, 1 / 100000, 0, 0, 0, 0, 1, 0⟩,
                ⟨0, 0, 1 / 100000, 0, 0, 0, 0, 1⟩], [0, 1, 2], 0, 0, 0, 0, 0⟩ mo
            = some ⟨[⟨1 / 100000, 0, 0, 0, 0, 0, 0, 0⟩, ⟨0, 1 / 100000, 0, 0, 0, 0, 1, 0⟩,
                ⟨0, 0, 1 / 100000, 0, 0, 0, 0, 1⟩], [0, 1, 2], 0, 0, 0, 0, 0⟩)
    ∧ faceCross (⟨0, 0, 0, 0, 0, 0, 0, 0⟩ : NTVERTEX ℚ) ⟨1 / 100000, 0, 0, 0, 0, 0, 1, 0⟩
        ⟨0, 1 / 100000, 0, 0, 0, 0, 0, 1⟩ = ⟨0, 0, 1 / 10000000000⟩
    ∧ calcNormalsGroup exampleRatOps exampleTinyTriangle false = some exampleTinyTriangle
    ∧ calcNormalsGroup exampleRatOps exampleTinyTriangle true = some exampleTinyTriangle
    ∧ (∀ (dv : ℚ → ℚ → ℚ) (mo : Bool),
        calcNormalsGroup (exampleDivOps dv) exampleTinyTriangle mo
          = some ⟨[⟨0, 0, 0, dv 0 0, dv 0 0, dv 0 0, 0, 0⟩,
                   ⟨1 / 100000, 0, 0, dv 0 0, dv 0 0, dv 0 0, 1, 0⟩,
                   ⟨0, 1 / 100000, 0, dv 0 0, dv 0 0, dv 0 0, 0, 1⟩],
                  [0, 1, 2], 0, 0, 0, 0, 0⟩)
    ∧ (∀ d : ℚ, (⟨d, d, d⟩ : D3DVECTOR ℚ) ≠ ⟨0, 0, 1⟩) := by
  have hc : faceCross (⟨0, 0, 0, 0, 0, 0, 0, 0⟩ : NTVERTEX ℚ) ⟨1 / 100000, 0, 0, 0, 0, 0, 1, 0⟩
        ⟨0, 1 / 100000, 0, 0, 0, 0, 0, 1⟩ = ⟨0, 0, 1 / 10000000000⟩ := by
    simp only [faceCross]
    norm_num
  have key : ∀ mo : Bool,
      calcNormalsGroup exampleRatOps exampleTinyTriangle mo = some exampleTinyTriangle := by
    intro mo
    refine calcNormalsGroup_face_skipped exampleRatOps exampleRatOps_exact _ _ _ 0 0 0 0 0 mo
      ⟨rfl, rfl, rfl⟩ ⟨rfl, rfl, rfl⟩ ⟨rfl, rfl, rfl⟩ (1 / 10000000000) (by norm_num) ?_ ?_
    · rw [hc]; norm_num
    · norm_num [exampleRatOps]
  have hne : ∀ d : ℚ, (⟨d, d, d⟩ : D3DVECTOR ℚ) ≠ ⟨0, 0, 1⟩ := by
    intro d h
    have hx := congrArg D3DVECTOR.x h
    have hz := congrArg D3DVECTOR.z h
    simp only at hx hz
    rw [hx] at hz
    norm_num at hz
  refine ⟨?_, hc, key false, key true, calcNormalsGroup_tiny_any_division, hne⟩
  have hex : ExactOps
      ({ zero := 0, add := fun a b => a + b, sub := fun a b => a - b,
         mul := fun a b => a * b, div := fun a b => a / b, sqrt := Real.sqrt,
         acos := Real.arccos, gt := fun a b => decide (b < a),
         ge := fun a b => decide (b ≤ a), two := 2, tenth := 1 / 10,
         eps := 1 / 100000000, scan := fun _ => none } : FloatOps ℝ) :=
    { zero := rfl, add := fun _ _ => rfl, sub := fun _ _ => rfl, mul := fun _ _ => rfl,
      div := fun _ _ => rfl, gt := fun _ _ => rfl, ge := fun _ _ => rfl,
      sqrt := fun a ha => Real.sqrt_mul_self ha,
      tenth := by norm_num }
  have hcr : faceCross (⟨1 / 100000, 0, 0, 0, 0, 0, 0, 0⟩ : NTVERTEX ℝ)
        ⟨0, 1 / 100000, 0, 0, 0, 0, 1, 0⟩ ⟨0, 0, 1 / 100000, 0, 0, 0, 0, 1⟩
      = ⟨1 / 10000000000, 1 / 10000000000, 1 / 10000000000⟩ := by
    simp only [faceCross]
    norm_num
  refine ⟨_, hex, rfl, fun a => rfl, hcr, fun mo => ?_⟩
  have h3 : Real.sqrt 3 * Real.sqrt 3 = 3 := Real.mul_self_sqrt (by norm_num)
  have h3lt : Real.sqrt 3 < 2 := by
    rw [Real.sqrt_lt' (by norm_num)]
    norm_num
  refine calcNormalsGroup_face_skipped _ hex _ _ _ 0 0 0 0 0 mo
    ⟨rfl, rfl, rfl⟩ ⟨rfl, rfl, rfl⟩ ⟨rfl, rfl, rfl⟩ (Real.sqrt 3 / 10000000000)
    (by positivity) ?_ ?_
  · rw [hcr]
    have : Real.sqrt 3 / 10000000000 * (Real.sqrt 3 / 10000000000)
        = (Real.sqrt 3 * Real.sqrt 3) / 100000000000000000000 := by ring
    rw [this, h3]
    norm_num
  · show Real.sqrt 3 / 10000000000 < 1 / 100000000
    linarith

/-- C22 (amended): in exact arithmetic, for a group that consists of a single triangle
with all-zero initial normals whose cross product `cross (V1 - V0, V2 - V0)` has a length
`L > 0` that is not below the threshold `1e-8` of the triangle loop, and whose three
interior-angle weights are strictly positive, `CalcNormals` (in both modes) yields at each
of the three vertices the face normal `cross (V1 - V0, V2 - V0) / L`, which has unit
length; positions and texture coordinates are kept. -/
theorem CalcNormals_single_triangle {F : Type} [LinearOrderedField F] (ops : FloatOps F)
    (hex : ExactOps ops) (v0 v1 v2 : NTVERTEX F) (mtrl tex usr zb fl : Nat) (mo : Bool)
    (hn0 : v0.nx = 0 ∧ v0.ny = 0 ∧ v0.nz = 0)
    (hn1 : v1.nx = 0 ∧ v1.ny = 0 ∧ v1.nz = 0)
    (hn2 : v2.nx = 0 ∧ v2.ny = 0 ∧ v2.nz = 0)
    (L : F) (hL : 0 < L)
    (hLL : L * L = (faceCross v0 v1 v2).x * (faceCross v0 v1 v2).x
                    + (faceCross v0 v1 v2).y * (faceCross v0 v1 v2).y
                    + (faceCross v0 v1 v2).z * (faceCross v0 v1 v2).z)
    (hguard : ops.eps ≤ L)
    (ha0 : 0 < (cornerWeights ops v0 v1 v2).1)
    (ha1 : 0 < (cornerWeights ops v0 v1 v2).2.1)
    (ha2 : 0 < (cornerWeights ops v0 v1 v2).2.2) :
    calcNormalsGroup ops ⟨[v0, v1, v2], [0, 1, 2], mtrl, tex, usr, zb, fl⟩ mo
        = some ⟨[withNormal v0 ⟨(faceCross v0 v1 v2).x / L, (faceCross v0 v1 v2).y / L,
                    (faceCross v0 v1 v2).z / L⟩,
                 withNormal v1 ⟨(faceCross v0 v1 v2).x / L, (faceCross v0 v1 v2).y / L,
                    (faceCross v0 v1 v2).z / L⟩,
                 withNormal v2 ⟨(faceCross v0 v1 v2).x / L, (faceCross v0 v1 v2).y / L,
                    (faceCross v0 v1 v2).z / L⟩],
                [0, 1, 2], mtrl, tex, usr, zb, fl⟩
    ∧ (faceCross v0 v1 v2).x / L * ((faceCross v0 v1 v2).x / L)
        + (faceCross v0 v1 v2).y / L * ((faceCross v0 v1 v2).y / L)
        + (faceCross v0 v1 v2).z / L * ((faceCross v0 v1 v2).z / L) = 1 :=
  ⟨calcNormalsGroup_face_normal ops hex v0 v1 v2 mtrl tex usr zb fl mo hn0 hn1 hn2 L hL hLL
      hguard ha0 ha1 ha2,
    unit_of_length (faceCross v0 v1 v2) L hL hLL⟩

/-- C22, instance: in exact rational arithmetic the right triangle with the legs 4 and 3
in the plane `z = 0` has the cross product `(0, 0, 12)` of length 12, and `CalcNormals`
gives each of its vertices the normal `(0, 0, 1)`. -/
theorem CalcNormals_single_triangle_witness :
    ExactOps exampleRatOps
    ∧ calcNormalsGroup exampleRatOps exampleRightTriangle true
        = some ⟨[⟨0, 0, 0, 0, 0, 1, 0, 0⟩, ⟨4, 0, 0, 0, 0, 1, 1, 0⟩, ⟨0, 3, 0, 0, 0, 1, 0, 1⟩],
            [0, 1, 2], 0, 0, 0, 0, 0⟩ := by
  refine ⟨exampleRatOps_exact, ?_⟩
  have h := (CalcNormals_single_triangle exampleRatOps exampleRatOps_exact
    ⟨0, 0, 0, 0, 0, 0, 0, 0⟩ ⟨4, 0, 0, 0, 0, 0, 1, 0⟩ ⟨0, 3, 0, 0, 0, 0, 0, 1⟩ 0 0 0 0 0 true
    ⟨rfl, rfl, rfl⟩ ⟨rfl, rfl, rfl⟩ ⟨rfl, rfl, rfl⟩ 12 (by norm_num)
    (by simp only [faceCross]; norm_num) (by norm_num [exampleRatOps])
    (by simp [cornerWeights, cornerAngle, exampleRatOps])
    (by simp [cornerWeights, cornerAngle, exampleRatOps])
    (by simp [cornerWeights, cornerAngle, exampleRatOps])).1
  unfold exampleRightTriangle
  rw [h]
  simp only [withNormal, faceCross]
  norm_num

/-- C28 (the code at the failing input): the directive keywords are compared with
`_strnicmp`, whose result depends only on the lower-case forms of the characters, and
the file with `groups`, `material` and `geom` in lower case loads to the same model. The
block headers `MATERIALS` and `TEXTURES` are compared with `strncmp`: with `materials 1`
the load ends with no material and no texture and the group refers to the default
material, with `textures 2` it ends with no texture, where the file with the upper-case
headers has one material and two textures. -/
theorem load_block_headers_case_sensitive :
    (∀ (l1 l2 : List Char) (kw : String) (n : Nat),
        l1.map lowerAscii = l2.map lowerAscii → strnicmpEq l1 kw n = strnicmpEq l2 kw n)
    ∧ load exampleOps (IStream.ofString exampleLowerDirectives) (Mesh.new Int)
        = some exampleReferencesMesh
    ∧ load exampleOps (IStream.ofString exampleReferences) (Mesh.new Int)
        = some exampleReferencesMesh
    ∧ (load exampleOps (IStream.ofString exampleReferences) (Mesh.new Int)).map
          (fun m => (m.nGroup, m.nMaterial, m.nTexture, m.Grp.map (fun g => g.MtrlIdx)))
        = some (1, 1, 2, [0])
    ∧ strncmpEq "materials 1".toList "MATERIALS" 9 = false
    ∧ strncmpEq "textures 2".toList "TEXTURES" 8 = false
    ∧ (load exampleOps (IStream.ofString exampleLowerMaterials) (Mesh.new Int)).map
          (fun m => (m.nGroup, m.nMaterial, m.nTexture, m.Grp.map (fun g => g.MtrlIdx)))
        = some (1, 0, 0, [SPEC_DEFAULT])
    ∧ (load exampleOps (IStream.ofString exampleLowerTextures) (Mesh.new Int)).map
          (fun m => (m.nGroup, m.nMaterial, m.nTexture, m.Grp.map (fun g => g.MtrlIdx)))
        = some (1, 1, 0, [0]) := by
  refine ⟨?_, by decide, by decide, by decide, by decide, by decide, by decide, by decide⟩
  intro l1 l2 kw n h
  unfold strnicmpEq
  have e : ∀ l : List Char, (l.take n).map lowerAscii = (l.map lowerAscii).take n :=
    fun l => by rw [List.map_take]
  rw [e l1, e l2, h]

/-- C30 (the code at the failing input): in `exampleShortNormal` the first two vertex lines
hold five fields. The eight-field conversion stores the fourth and fifth field of the
first line, the texture coordinates `(3, 4)`, as `nx` and `ny`; the synthesis runs with
`missingonly`, finds the squared length 25 above the threshold `0.1f` and keeps
`(3, 4, 0)` as the normal of that vertex, with texture coordinates `(0, 0)`. The second vertex, whose line left the normal at zero,
gets the synthesised normal `(0, 0, 1)`. -/
theorem load_short_line_keeps_read_values :
    (readVertices exampleNormalOps true [] 3 false
        ["0 0 0 3 4".toList, "1 0 0 0 0".toList, "0 1 0 0 0 5 0 1".toList]).1
      = some [⟨0, 0, 0, 3, 4, 0, 0, 0⟩, ⟨1, 0, 0, 0, 0, 0, 0, 0⟩, ⟨0, 1, 0, 0, 0, 5, 0, 1⟩]
    ∧ (readVertices exampleNormalOps true [] 3 false
        ["0 0 0 3 4".toList, "1 0 0 0 0".toList, "0 1 0 0 0 5 0 1".toList]).2.1 = true
    ∧ flagVertex exampleNormalOps true ⟨0, 0, 0, 3, 4, 0, 0, 0⟩ = false
    ∧ (load exampleNormalOps (IStream.ofString exampleShortNormal) (Mesh.new Int)).map
          (fun m => m.Grp.map (fun g => (g.Vtx, g.Idx)))
        = some [([⟨0, 0, 0, 3, 4, 0, 0, 0⟩, ⟨1, 0, 0, 0, 0, 1, 0, 0⟩, ⟨0, 1, 0, 0, 0, 5, 0, 1⟩],
                 [0, 1, 2])] := by
  refine ⟨by decide, by decide, by decide, by decide⟩

/-- C25: for every material with a name of at most 255 characters (the capacity of the
name arrays) the exporter writes the 56 bytes of the fixed fields in the order diffuse
RGBA, ambient RGB, specular RGB, emissive RGB, power; when material names are included
these are preceded by the 32-bit length of the name plus one and the terminated name, and
when names are omitted no name bytes are written and the bit of the material names in
the flag word of the header is 0. The material section of the output is the sequence of
these records, one for every material of the mesh in the order of the material list
with the name of the same position: the constructor of `ExMesh` converts every material,
and the output of a mesh with at least one group is the header with the counts of the
mesh, the group records, the material records and the texture records. -/
theorem writeMaterial_record {F : Type} (eo : ExportOps F) (mat : Material F)
    (name : List Char) (straightConvert noMatNames : Bool) (hN : name.length ≤ 255) :
    (∃ ex : ExMaterial F,
        ExMaterial.new mat (if name = [] then none else some name) = some ex
        ∧ writeMaterial eo (!noMatNames) ex
            = (if noMatNames then []
               else le32 ((name.length : Int) + 1) ++ cstrBytes name)
              ++ materialFields eo mat)
    ∧ (materialFields eo mat).length = 56
    ∧ (eo.floatBytes mat.diffuse.r ++ eo.floatBytes mat.diffuse.g
        ++ eo.floatBytes mat.diffuse.b ++ eo.floatBytes mat.diffuse.a).length = 16
    ∧ (cstrBytes name).length = name.length + 1
    ∧ (∀ gc mc tc : Int, headerBytes gc mc tc straightConvert noMatNames
        = [95, 67, 77, 83, 72, 88, 49, 95] ++ le32 gc ++ le32 mc ++ le32 tc
          ++ [(if straightConvert then 0 else 1) + (if noMatNames then 0 else 2), 0, 0, 0])
    ∧ (∀ (mesh : Mesh F) (ex : ExMesh F) (gb : List Nat), ExMesh.new mesh = some ex →
        ex.GroupCount ≠ 0 → writeGroups eo straightConvert ex.GroupList = some gb →
        exportMesh eo straightConvert noMatNames mesh
          = some (headerBytes ex.GroupCount ex.MaterialCount ex.TextureCount straightConvert
                    noMatNames
                  ++ gb ++ ex.MaterialList.flatMap (writeMaterial eo (!noMatNames))
                  ++ ex.TextureList.flatMap writeTexture))
    ∧ (∀ mesh : Mesh F, mesh.Mtrl.length ≤ mesh.MatNames.length →
        (∀ (j : Nat) (n : List Char), j < mesh.Mtrl.length → mesh.MatNames[j]? = some n →
          n.length ≤ 255) →
        (∃ ml : List (ExMaterial F), exMaterials mesh mesh.Mtrl.length 0 = some ml
          ∧ ml.length = mesh.Mtrl.length
          ∧ ml.flatMap (writeMaterial eo (!noMatNames))
              = (List.zipWith (materialRecord eo (!noMatNames)) mesh.Mtrl
                  mesh.MatNames).flatten)
        ∧ ∀ (gl : List (ExMeshGroup F)) (tl : List ExTexture) (gb : List Nat),
            mesh.nGroup ≠ 0 → mesh.nGroup < 2147483648 → mesh.Mtrl.length < 2147483648 →
            mesh.nTexture < 2147483648 →
            exGroups mesh mesh.nGroup 0 = some gl → exTextures mesh mesh.nTexture 0 = some tl →
            writeGroups eo straightConvert gl = some gb →
            exportMesh eo straightConvert noMatNames mesh
              = some (headerBytes mesh.nGroup mesh.Mtrl.length mesh.nTexture straightConvert
                        noMatNames
                      ++ gb
                      ++ (List.zipWith (materialRecord eo (!noMatNames)) mesh.Mtrl
                            mesh.MatNames).flatten
                      ++ tl.flatMap writeTexture)) := by
  refine ⟨⟨_, ExMaterial_new_eq mat name hN, ?_⟩, materialFields_length eo mat,
    by simp [eo.size], cstrBytes_length name,
    fun gc mc tc => headerBytes_flags gc mc tc straightConvert noMatNames, ?_, ?_⟩
  · rw [writeMaterial_eq_materialRecord eo _ mat name hN]
    unfold materialRecord
    cases noMatNames <;> rfl
  · intro mesh ex gb hex hgc hgb
    unfold exportMesh
    rw [hex, Option.some_bind, if_neg hgc, hgb]
    rfl
  · intro mesh hlen hnames
    obtain ⟨ml, h1, h2, h3⟩ := exMaterials_section eo (!noMatNames) mesh hlen hnames
    refine ⟨⟨ml, h1, h2, h3⟩, ?_⟩
    intro gl tl gb hg0 hg hm ht hgl htl hgb
    rw [exportMesh_sections eo straightConvert noMatNames mesh gl ml tl gb hg0 hg hm ht hgl h1
      htl hgb, h3]

set_option maxRecDepth 100000 in
/-- C25, instance: a material with the name `m1` on the integer operations of the
examples, with names; and the output for the mesh `exampleReferencesMesh`, which has one
group, the material `m1` and two textures: behind the 24 bytes of the header and the 141
bytes of the group record stand the 63 bytes of the material record, with names, or its
56 bytes of fixed fields, without names. -/
theorem writeMaterial_record_witness :
    (∃ ex : ExMaterial Int,
      ExMaterial.new (⟨⟨1, 2, 3, 4⟩, ⟨5, 6, 7, 0⟩, ⟨8, 9, 10, 0⟩, ⟨11, 12, 13, 0⟩, 14⟩ : Material Int)
          (some "m1".toList) = some ex
      ∧ writeMaterial exampleExportOps true ex
        = [3, 0, 0, 0, 109, 49, 0,
           1, 0, 0, 0, 2, 0, 0, 0, 3, 0, 0, 0, 4, 0, 0, 0,
           5, 0, 0, 0, 6, 0, 0, 0, 7, 0, 0, 0,
           8, 0, 0, 0, 9, 0, 0, 0, 10, 0, 0, 0,
           11, 0, 0, 0, 12, 0, 0, 0, 13, 0, 0, 0,
           14, 0, 0, 0])
    ∧ (exportMesh exampleExportOps false false exampleReferencesMesh).map
          (fun b => (b.length, b.take 24, (b.drop 165).take 63))
        = some (248, [95, 67, 77, 83, 72, 88, 49, 95, 1, 0, 0, 0, 1, 0, 0, 0, 2, 0, 0, 0,
                      3, 0, 0, 0],
                [3, 0, 0, 0, 109, 49, 0,
                 1, 0, 0, 0, 1, 0, 0, 0, 1, 0, 0, 0, 1, 0, 0, 0,
                 1, 0, 0, 0, 1, 0, 0, 0, 1, 0, 0, 0,
                 1, 0, 0, 0, 1, 0, 0, 0, 1, 0, 0, 0,
                 0, 0, 0, 0, 0, 0, 0, 0, 0, 0, 0, 0,
                 5, 0, 0, 0])
    ∧ (exportMesh exampleExportOps false true exampleReferencesMesh).map
          (fun b => (b.length, b.take 24, (b.drop 165).take 56))
        = some (241, [95, 67, 77, 83, 72, 88, 49, 95, 1, 0, 0, 0, 1, 0, 0, 0, 2, 0, 0, 0,
                      1, 0, 0, 0],
                [1, 0, 0, 0, 1, 0, 0, 0, 1, 0, 0, 0, 1, 0, 0, 0,
                 1, 0, 0, 0, 1, 0, 0, 0, 1, 0, 0, 0,
                 1, 0, 0, 0, 1, 0, 0, 0, 1, 0, 0, 0,
                 0, 0, 0, 0, 0, 0, 0, 0, 0, 0, 0, 0,
                 5, 0, 0, 0]) := by
  refine ⟨?_, by decide, by decide⟩
  obtain ⟨ex, h1, h2⟩ := (writeMaterial_record exampleExportOps
    (⟨⟨1, 2, 3, 4⟩, ⟨5, 6, 7, 0⟩, ⟨8, 9, 10, 0⟩, ⟨11, 12, 13, 0⟩, 14⟩ : Material Int)
    "m1".toList false false (by decide)).1
  exact ⟨ex, h1, h2.trans (by decide)⟩

/-- C23: a source whose lines are `MSHX1`, `GROUPS 1`, `GEOM 3 1`, three vertex lines and
the triangle line `0 1 2` loads to a mesh with 1 group, 0 materials and 0 textures; in
each of the four option settings its export is the header followed by the record of the
group: the 8-byte tag `_CMSHX1_`, the 32-bit counts 1, 0, 0 and the flag word, then the
label length 1, the empty label, five 32-bit fields, and the vertex count 3 and the index
count 3. For the file `exampleTriangleFile` on the integer operations of the examples
the bytes up to the index count are listed. -/
theorem convert_single_triangle {F : Type} (ops : FloatOps F) (eo : ExportOps F)
    (l1 l2 l3 res : List Char) (straightConvert noMatNames : Bool) :
    (∃ (m : Mesh F) (g : GroupSpec F),
      load ops ⟨["MSHX1".toList, "GROUPS 1".toList, "GEOM 3 1".toList, l1, l2, l3,
                 "0 1 2".toList], res⟩ (Mesh.new F) = some m
      ∧ m.nGroup = 1 ∧ m.nMaterial = 0 ∧ m.nTexture = 0 ∧ m.Grp = [g]
      ∧ g.Vtx.length = 3 ∧ g.Idx = [0, 1, 2]
      ∧ exportMesh eo straightConvert noMatNames m
          = some (headerBytes 1 0 0 straightConvert noMatNames
                    ++ groupRecord eo straightConvert g [])
      ∧ headerBytes 1 0 0 straightConvert noMatNames
          = "_CMSHX1_".toList.map (fun c => c.toNat) ++ [1, 0, 0, 0] ++ [0, 0, 0, 0]
              ++ [0, 0, 0, 0]
              ++ [(if straightConvert then 0 else 1) + (if noMatNames then 0 else 2), 0, 0, 0]
      ∧ groupRecord eo straightConvert g []
          = [1, 0, 0, 0] ++ [0] ++ le32 g.MtrlIdx ++ le32 g.TexIdx ++ le32 g.Flags
              ++ le32 g.UsrFlag ++ le32 g.zBias ++ [3, 0, 0, 0] ++ [3, 0, 0, 0]
              ++ vertexData eo straightConvert g.Vtx
              ++ g.Idx.flatMap (fun i => le32 ((i % 65536 : Nat) : Int)))
    ∧ (convertFile exampleOps exampleExportOps false false exampleTriangleFile).map
          (fun b => b.take 57)
        = some [95, 67, 77, 83, 72, 88, 49, 95, 1, 0, 0, 0, 0, 0, 0, 0, 0, 0, 0, 0, 3, 0, 0, 0,
                1, 0, 0, 0, 0,
                254, 255, 255, 255, 254, 255, 255, 255, 0, 0, 0, 0, 0, 0, 0, 0, 0, 0, 0, 0,
                3, 0, 0, 0, 3, 0, 0, 0] := by
  refine ⟨?_, by decide⟩
  obtain ⟨g, hload, hV, hI⟩ := load_single_triangle ops l1 l2 l3 res
  refine ⟨_, g, hload, rfl, rfl, rfl, rfl, hV, hI,
    exportMesh_single_group eo g straightConvert noMatNames true false 0
      (by rw [hV]; norm_num) (by rw [hI]; norm_num), ?_, ?_⟩
  · cases straightConvert <;> cases noMatNames <;> rfl
  · unfold groupRecord
    rw [hV, hI]
    rfl

/-- C31 (the code at the failing input): the search for the extension stops at the first
`.` of the input path: for every input path the synthesised output path is the path up
to its first `.` followed by `cmsh`, or the path followed by `.cmsh` when it holds no
`.`. For `a.b.msh` it is `a.cmsh`, for `dir.v2/model.msh` and for `dir.v2/model` it is
`dir.cmsh`, where the claim gives `a.b.cmsh` and `dir.v2/model.cmsh`. The two agree on
the paths whose first `.` is the last one: `model.msh` and `model` give `model.cmsh`. -/
theorem synthOutput_first_dot :
    (∀ inputFile : List Char, (∀ c ∈ inputFile, c.toNat ≠ 0) →
        synthOutput inputFile
          = some (match findDot 0 inputFile with
                  | none => inputFile ++ ".cmsh".toList
                  | some k => inputFile.take (k + 1) ++ "cmsh".toList))
    ∧ (∀ inputFile : List Char, (∀ c ∈ inputFile, c.toNat ≠ 0) →
        findDot 0 inputFile = lastDot 0 inputFile →
        synthOutput inputFile = some (claimedOutput inputFile))
    ∧ outputName ["a.b.msh".toList] = some "a.cmsh".toList
    ∧ claimedOutput "a.b.msh".toList = "a.b.cmsh".toList
    ∧ findDot 0 "a.b.msh".toList = some 1
    ∧ lastDot 0 "a.b.msh".toList = some 3
    ∧ outputName ["-s".toList, "-i".toList, "dir.v2/model.msh".toList]
        = some "dir.cmsh".toList
    ∧ claimedOutput "dir.v2/model.msh".toList = "dir.v2/model.cmsh".toList
    ∧ outputName ["dir.v2/model".toList] = some "dir.cmsh".toList
    ∧ outputName ["model.msh".toList] = some "model.cmsh".toList
    ∧ outputName ["model".toList] = some "model.cmsh".toList
    ∧ outputName ["model.msh".toList, "-o".toList, "out.bin".toList]
        = some "out.bin".toList := by
  refine ⟨synthOutput_eq, ?_, by decide, by decide, by decide, by decide, by decide,
    by decide, by decide, by decide, by decide, by decide⟩
  intro inputFile h0 h
  rw [synthOutput_eq inputFile h0]
  unfold claimedOutput
  rw [h]

/-- C34: every group appended by `AddMesh` has the material reference `SPEC_INHERIT`, the
texture reference `SPEC_INHERIT`, the z-bias 0, the flags 0 and the user flag 0, whatever
the values of the source group are, in a mesh that has been set up or not; its vertex
list and its index list are those of the source group. In the two instances (a target
that has not been set up, and a target with the content of the source that has) the
source group names material 3 and texture 2 and has the z-bias 5, the flags 4 and the
user flag 9. -/
theorem AddMesh_defaults {F : Type} (A B : Mesh F) :
    (∀ (i : Nat) (gb : GroupSpec F), B.Grp[i]? = some gb →
        (A.AddMesh B).1.Grp[A.nGroup + i]?
          = some ⟨gb.Vtx, gb.Idx, SPEC_INHERIT, SPEC_INHERIT, 0, 0, 0⟩)
    ∧ (∀ (k : Nat) (ga : GroupSpec F), A.nGroup ≤ k → (A.AddMesh B).1.Grp[k]? = some ga →
        ga.MtrlIdx = SPEC_INHERIT ∧ ga.TexIdx = SPEC_INHERIT ∧ ga.zBias = 0 ∧ ga.Flags = 0
          ∧ ga.UsrFlag = 0)
    ∧ ((exampleBlockMesh.AddMesh exampleStyledMesh).1.Grp.drop 1
        = [⟨[⟨0, 0, 0, 0, 0, 1, 0, 0⟩, ⟨1, 0, 0, 0, 0, 1, 1, 0⟩, ⟨0, 1, 0, 0, 0, 1, 0, 1⟩],
            [0, 1, 2], SPEC_INHERIT, SPEC_INHERIT, 0, 0, 0⟩])
    ∧ ((exampleStyledMesh.AddMesh exampleStyledMesh).1.Grp.drop 1
        = [⟨[⟨0, 0, 0, 0, 0, 1, 0, 0⟩, ⟨1, 0, 0, 0, 0, 1, 1, 0⟩, ⟨0, 1, 0, 0, 0, 1, 0, 1⟩],
            [0, 1, 2], SPEC_INHERIT, SPEC_INHERIT, 0, 0, 0⟩]) := by
  have key : ∀ (i : Nat) (gb : GroupSpec F), B.Grp[i]? = some gb →
      (A.AddMesh B).1.Grp[A.nGroup + i]?
        = some ⟨gb.Vtx, gb.Idx, SPEC_INHERIT, SPEC_INHERIT, 0, 0, 0⟩ := by
    intro i gb hgb
    unfold Mesh.AddMesh
    rw [AddMesh_fold]
    simp only [Mesh.nGroup]
    rw [List.getElem?_append_right (Nat.le_add_right _ _), Nat.add_sub_cancel_left,
      List.getElem?_map, hgb]
    simp only [Option.map_some', setupRefs_inherit, ite_self]
  refine ⟨key, ?_, by decide, by decide⟩
  intro k ga hk hga
  have hlen : (A.AddMesh B).1.Grp.length = A.nGroup + B.nGroup := by
    unfold Mesh.AddMesh
    rw [AddMesh_fold]
    simp [Mesh.nGroup]
  have hk2 : k < A.nGroup + B.nGroup := by
    rw [← hlen]
    exact (List.getElem?_eq_some_iff.mp hga).1
  have hi : k - A.nGroup < B.Grp.length := by
    simp only [Mesh.nGroup] at hk hk2 ⊢
    omega
  have h := key (k - A.nGroup) B.Grp[k - A.nGroup] (List.getElem?_eq_getElem hi)
  rw [Nat.add_sub_cancel' hk, hga] at h
  injection h with h
  subst h
  exact ⟨rfl, rfl, rfl, rfl, rfl⟩

/-- C33 (the code at the failing input): `exampleSkippedLabel` declares two groups; the
first block (`LABEL first`, `GEOM 0 0`) adds no group, the second one (`LABEL second`)
holds a triangle. The directive loop stores a label at `Labels[g]` with the pass counter
`g`: after pass 0 the labels are `first` and the empty string and the mesh has no group,
and pass 1 stores `second` at `Labels[1]`. `AddGroup` then appends the triangle as group
0, the stores through `Grp[1]` lie outside the group array and the load has no result.
The exporter reads `Labels[i]` with the group index: for the group 0 and these labels it
writes `first`, the label of the block that added no group. When both blocks add a
group, the exported labels are `first` and `second`. -/
theorem export_label_of_skipped_block :
    (groupLoop exampleOps false 1 0 exampleSkippedLabelState).map
        (fun s => (s.mesh.Grp.length, s.mesh.Labels, s.stream.lines.take 1))
      = some (0, ["first".toList, []], ["LABEL second".toList])
    ∧ (directiveVars false 1 ["first".toList, []] ["LABEL second".toList]).2
        = ["first".toList, "second".toList]
    ∧ ((Mesh.new Int).Clear.AddGroup [] [] SPEC_INHERIT SPEC_INHERIT 0 0 false).2 = 0
    ∧ load exampleOps (IStream.ofString exampleSkippedLabel) (Mesh.new Int) = none
    ∧ convertFile exampleOps exampleExportOps false false exampleSkippedLabel = none
    ∧ (exGroups exampleShiftedLabels 1 0).map (fun l => l.map (fun e => e.Label))
        = some ["first".toList]
    ∧ ((load exampleOps (IStream.ofString exampleTwoLabels) (Mesh.new Int)).bind
          (fun m => exGroups m 2 0)).map (fun l => l.map (fun e => e.Label))
        = some ["first".toList, "second".toList] := by
  refine ⟨by decide, by decide, by decide, by decide, by decide, by decide, by decide⟩

/-- C32: let `b` be the base segment count in force (`bseg`, or `(nlat-ilat)*res` when
`bseg` is negative or `ilat = nlat-1`), with `b >= res` in reduced mode, and let the
vertex count `(b+1)*(res+1)`, in reduced mode less `((res+1)*res)/2`, be at most 65536.
Then `CreateSpherePatch` yields one group; its vertices are the rings `0, ..., res` in
order, ring `i` with `b + 1` (reduced: `b - i + 1`) vertices; its index list is a list of
triangles; every index is smaller than the number of vertices; and every triangle joins a
ring `i < res` with ring `i + 1` only. This holds for `outside` true and false. -/
theorem CreateSpherePatch_indices_in_range {F : Type} (ops : PatchOps F) (mesh : Mesh F)
    (nlng nlat ilat bseg : Int) (res b : Nat) (reduce outside : Bool)
    (hb : (if bseg < 0 ∨ ilat = toInt32 (nlat - 1)
            then toInt32 (toInt32 (nlat - ilat) * (res : Int)) else bseg) = (b : Int))
    (hseg : reduce = true → res ≤ b)
    (hcount : patchVertexCount reduce b res ≤ 65536) :
    ∃ (m : Mesh F) (grp : GroupSpec F) (tris : List (Nat × Nat × Nat)),
      CreateSpherePatch ops mesh nlng nlat ilat res bseg reduce outside = some m
      ∧ m.Grp = [grp]
      ∧ grp.Vtx = (List.range (res + 1)).flatMap (fun r =>
          (List.range (ringSegments reduce b r + 1)).map
            (fun j => patchVertex ops nlng nlat ilat res outside r j
              ((ringSegments reduce b r : Nat) : Int)))
      ∧ grp.Vtx.length = patchVertexCount reduce b res
      ∧ ringOffset reduce b (res + 1) = patchVertexCount reduce b res
      ∧ grp.Idx = triIndices tris
      ∧ tris.length = patchTriangles reduce b res 0
      ∧ (∀ x ∈ grp.Idx, x < grp.Vtx.length)
      ∧ ∀ t ∈ tris, ∃ i, i < res ∧ JoinsRings reduce b i t := by
  have hp := patch_product_bound reduce b res hseg hcount
  have hb31 : b < 2147483648 := by nlinarith
  have hr31 : res < 2147483648 := by nlinarith
  have hro := ringOffset_count reduce b res hseg
  have hnv := patch_vertex_count_int reduce b res hseg hcount
  have hni := patch_index_count_int reduce b res hseg hp
  have hto1 : ((res : Int) + 1).toNat = res + 1 := by omega
  obtain ⟨hrings, hvlen⟩ := nodeList_rings ops nlng nlat ilat res reduce outside b hb31
    (res + 1) 0 (fun hr => by have := hseg hr; omega)
  rw [← List.range_eq_range'] at hrings
  have hvl : (nodeList ops nlng nlat ilat res (b : Int) reduce outside (res + 1) 0).length
      = patchVertexCount reduce b res := by
    have e0 : ringOffset reduce b 0 = 0 := rfl
    rw [e0, Nat.zero_add, hro] at hvlen
    omega
  obtain ⟨tris0, hface, hfl, hfp⟩ := faceList_tris reduce b hb31 res 0
    (fun hr => by have := hseg hr; omega) (by rw [Nat.zero_add, hro]; exact hcount)
  have hface0 : faceList (b : Int) reduce res 0 0 = triIndices tris0 := hface
  have hil : (faceList (b : Int) reduce res 0 0).length = 3 * patchTriangles reduce b res 0 := by
    rw [hface0, triIndices_length, hfl]
  obtain ⟨tris, hw, htl, htp⟩ : ∃ tris : List (Nat × Nat × Nat),
      (if outside then some ((faceList (b : Int) reduce res 0 0).map some)
       else patchWinding ((3 * patchTriangles reduce b res 0 / 3 + 2) / 3) 0
          ((faceList (b : Int) reduce res 0 0).map some))
        = some ((triIndices tris).map some)
      ∧ tris.length = patchTriangles reduce b res 0
      ∧ ∀ t ∈ tris, ∃ i, i < res ∧ JoinsRings reduce b i t := by
    cases outside with
    | true =>
      refine ⟨tris0, by rw [hface0]; rfl, hfl, ?_⟩
      intro t ht
      obtain ⟨r, _, hr2, hr3⟩ := hfp t ht
      exact ⟨r, by omega, hr3⟩
    | false =>
      have hcnt : (3 * patchTriangles reduce b res 0 / 3 + 2) / 3 ≤ tris0.length := by
        rw [hfl]; omega
      have hwind := patchWinding_tris ((3 * patchTriangles reduce b res 0 / 3 + 2) / 3) []
        tris0 hcnt
      simp only [List.length_nil, Nat.mul_zero, List.nil_append] at hwind
      refine ⟨(tris0.take ((3 * patchTriangles reduce b res 0 / 3 + 2) / 3)).map flipTri
          ++ tris0.drop ((3 * patchTriangles reduce b res 0 / 3 + 2) / 3), ?_, ?_, ?_⟩
      · rw [hface0]
        simpa using hwind
      · rw [List.length_append, List.length_map, List.length_take, List.length_drop, hfl]
        omega
      · intro t ht
        rcases List.mem_append.mp ht with h1 | h1
        · obtain ⟨t0, ht0, he⟩ := List.mem_map.mp h1
          obtain ⟨r, _, hr2, hr3⟩ := hfp t0 (List.mem_of_mem_take ht0)
          subst he
          exact ⟨r, by omega, JoinsRings_flip reduce b r t0 hr3⟩
        · obtain ⟨r, _, hr2, hr3⟩ := hfp t (List.mem_of_mem_drop h1)
          exact ⟨r, by omega, hr3⟩
  have hne : (res : Int) ≠ 2147483647 := by
    exact_mod_cast (Nat.ne_of_lt (show res < 2147483647 by nlinarith))
  have hbne : (b : Int) ≠ 2147483647 := by
    exact_mod_cast (Nat.ne_of_lt (show b < 2147483647 by nlinarith))
  have hc := CreateSpherePatch_group ops mesh nlng nlat ilat (res : Int) bseg reduce outside
    (b : Int) (patchVertexCount reduce b res) (3 * patchTriangles reduce b res 0)
    (triIndices tris) hb hnv hni hne hbne (by rw [hto1]; exact hvl)
    (by rw [Int.toNat_ofNat]; exact hil) (by rw [Int.toNat_ofNat]; exact hw)
  rw [hto1] at hc
  refine ⟨_, ⟨nodeList ops nlng nlat ilat res (b : Int) reduce outside (res + 1) 0,
    triIndices tris, SPEC_INHERIT, SPEC_INHERIT, 0, 0, 0⟩, tris, hc, ?_, hrings, hvl, hro, rfl,
    htl, ?_, htp⟩
  · simp [Mesh.Setup, Mesh.AddGroup, Mesh.Clear, setupRefs, checkIdx]
  · show ∀ x ∈ triIndices tris,
      x < (nodeList ops nlng nlat ilat res (b : Int) reduce outside (res + 1) 0).length
    rw [hvl, ← hro]
    apply triIndices_bound
    intro p hp
    obtain ⟨i, hi, hj, _, _⟩ := htp p hp
    have hle := ringOffset_le reduce b (i + 2) (res + 1) (by omega)
    have h1 := (hj p.1 (by simp)).2
    have h2 := (hj p.2.1 (by simp)).2
    have h3 := (hj p.2.2 (by simp)).2
    omega

/-- C32, instance: the reduced patch with `nlat = 1`, `ilat = 0`, `res = 2` on the integer
operations of the examples, with `outside` false: 6 vertices, and 4 triangles whose
indices are below 6. -/
theorem CreateSpherePatch_indices_in_range_witness :
    patchVertexCount true 2 2 = 6
    ∧ ∃ (m : Mesh Int) (grp : GroupSpec Int) (tris : List (Nat × Nat × Nat)),
        CreateSpherePatch examplePatchOps (Mesh.new Int) 1 1 0 (2 : Nat) (-1) true false
          = some m
        ∧ m.Grp = [grp] ∧ grp.Vtx.length = 6 ∧ grp.Idx = triIndices tris ∧ tris.length = 4
        ∧ (∀ x ∈ grp.Idx, x < grp.Vtx.length) := by
  refine ⟨by decide, ?_⟩
  obtain ⟨m, grp, tris, h1, h2, _, h4, _, h6, h7, h8, _⟩ :=
    CreateSpherePatch_indices_in_range examplePatchOps (Mesh.new Int) 1 1 0 (-1) 2 2 true false
      (by decide) (fun _ => by decide) (by decide)
  exact ⟨m, grp, tris, h1, h2, h4.trans (by decide), h6, h7.trans (by decide), h8⟩

end MshCompiler
